import Mathlib

/-!
# Object instance runtime (`hphp/runtime/base/object-data.cpp`)

A shallow embedding of the property protocol of `ObjectData`: declared slots,
the dynamic-property side table, the magic-accessor recursion guard and the
read / write entry points; of the array projection and the iteration view;
of comparison, clone, release and bulk assignment; followed by theorems about
them, the last of which are invariants kept by the whole write family.

Conventions of the embedding

* A `TypedValue*` is an `Lval`: the null pointer, a declared slot, an element
  of the dynamic-property array, the caller's temporary `tvRef`, or the
  shared `immutable_null_base`.
* Every operation is a state transformer `Exec α`, a function from `State`
  to an outcome (a value or a propagating `Fault`) and the state reached.
* `assertx` is compiled out (release build); the invariants it checks are
  hypotheses of the theorems that need them.
* `KindOfRef` boxes are outside the model of the instance: every slot and
  every element of a store in `State` holds a cell, so `tvToCell` and
  `tvUnboxIfNeeded` are the identity there. The clone of a dynamic-property
  store is also taken on `RefHeap`, where arrays are shared until written and
  elements may be boxes.
* User-level methods and native handlers belong to the method invocation
  engine, which is not part of this file of the repository: they are the
  parameter `Engine`, whose methods are `HookProg` programs.
* Arrays are ordered lists of string-keyed entries; `set`, `setRef` and
  `setWithRef` all store the value under the key.
* The chain of `parent()` pointers of a class is the list `Class.parents`.
* `const` member functions that cannot raise are plain functions of the
  state; the `noexcept` release functions are functions from state to state.
* An invariant of the instance and the side table is shown to be kept by an
  operation with `Preserves`, from `Engine.Respects`: the effects of
  user-level code keep it. For user-level code that calls the write family
  re-entrantly (`UserProg`, run by `reentrantEngine`) this is proved, not
  assumed.
-/

namespace HPHP

/-! ## Values, faults, diagnostics -/

/-- A cell: the payload of a `TypedValue` together with its type tag. -/
inductive TypedValue where
  | uninit
  | null
  | bool (b : Bool)
  | int (i : Int)
  | str (s : String)
  | obj (p : Nat)
  deriving DecidableEq, Repr, Inhabited

/-- Identity of a class (`const Class*`). -/
abbrev ClassPtr := Nat

/-- Index of a declared property. -/
abbrev Slot := Nat

/-- Marker for "no such declared property" (`Slot(-1)` on 32 bits). -/
def kInvalidSlot : Slot := 2 ^ 32 - 1

/-- Faults that propagate out of an operation. -/
inductive Fault where
  | invalidPropertyName (name : String)
  | cannotModifyImmutableProp (cls : String) (prop : String)
  | cannotBindImmutableProp (cls : String) (prop : String)
  | objectForbidsDynamicProps (cls : String)
  | raiseError (msg : String)
  | collectionCompare
  | user (code : Nat)
  deriving DecidableEq, Repr, Inhabited

/-- `Class::RuntimeAttribute`, the kinds of magic accessor. -/
inductive RuntimeAttribute where
  | UseGet
  | UseSet
  | UseIsset
  | UseUnset
  deriving DecidableEq, Repr, Inhabited

/-- Key of one active magic-accessor invocation. -/
structure PropAccessInfo where
  obj : Nat
  key : String
  rt_attr : RuntimeAttribute
  deriving DecidableEq, Repr, Inhabited

/-- `StringData::same`: byte equality of two strings. -/
def StringData.same (a b : String) : Bool := a == b

/-- `PropAccessInfo::operator==`. -/
def PropAccessInfo.eq (a o : PropAccessInfo) : Bool :=
  a.obj == o.obj && a.rt_attr == o.rt_attr && StringData.same a.key o.key

/-- Events observable from outside an operation: diagnostics and calls into
the method invocation engine or the native property handler, and on release
the swallowing of a destructor's fault, the release of a slot's value, the
call of the instance destructor, the invalidation of weak references and the
return of the memory. -/
inductive Event where
  | notice (msg : String)
  | invokeMethod (obj : Nat) (meth : String) (args : List TypedValue)
  | nativeGetProp (obj : Nat) (key : String)
  | nativeSetProp (obj : Nat) (key : String) (val : TypedValue)
  | nativeIssetProp (obj : Nat) (key : String)
  | nativeUnsetProp (obj : Nat) (key : String)
  | destructorException (obj : Nat) (f : Fault)
  | tvDecRefGen (v : TypedValue)
  | instanceDtor (obj : Nat)
  | invalidateWeakRef (obj : Nat)
  | objFree (obj : Nat) (nProps : Nat)
  deriving DecidableEq, Repr, Inhabited

/-! ## Class metadata -/

/-- Attribute bits of a declared property that this file consults. -/
structure Attr where
  AttrPublic : Bool := false
  AttrPrivate : Bool := false
  AttrProtected : Bool := false
  AttrStatic : Bool := false
  AttrIsImmutable : Bool := false
  AttrNoSerialize : Bool := false
  deriving DecidableEq, Repr, Inhabited

/-- `Class::Prop`: one entry of `declProperties()`. -/
structure ClassProp where
  name : String
  mangledName : String := ""
  attrs : Attr := {}
  deriving DecidableEq, Repr, Inhabited

/-- `PreClass::Prop`: a property as written in a class or trait body. -/
structure PreClass.Prop where
  name : String
  attrs : Attr := {}
  deriving DecidableEq, Repr, Inhabited

/-- `PreClass`: the properties written in one class or trait body, in
declaration order (`properties()`, `numProperties()`). -/
structure PreClass where
  properties : List PreClass.Prop := []
  deriving DecidableEq, Repr, Inhabited

/-- A trait as `getTraitProps` sees it: its body and the traits it uses. -/
inductive TraitClass where
  | mk (preClass : PreClass) (usedTraitClasses : List TraitClass)

/-- `trait->preClass()`. -/
def TraitClass.preClass : TraitClass → PreClass
  | .mk pc _ => pc

/-- `trait->usedTraitClasses()`. -/
def TraitClass.usedTraitClasses : TraitClass → List TraitClass
  | .mk _ used => used

/-- One entry of the per-request property data (`Class::PropInitVec`): the
initial value and whether it must be copied deeply. -/
structure TypedValueAux where
  val : TypedValue
  deepInit : Bool := false
  deriving DecidableEq, Repr, Inhabited

/-- What the walks over the inheritance chain read of one class of the
chain: its body, the traits it uses, its slot lookup by name and its slot
table. -/
structure ChainClass where
  preClass : PreClass := {}
  usedTraitClasses : List TraitClass := []
  lookupDeclProp : String → Slot := fun _ => kInvalidSlot
  declProperties : List ClassProp := []

/-- `Class::PropLookup<Slot>`: the slot found (or `kInvalidSlot`) and whether
it is accessible from the calling context. -/
structure Class.PropLookup where
  prop : Slot
  accessible : Bool
  deriving DecidableEq, Repr

/-- `ObjectData::PropLookup<T>`: the property found (if any), whether it is
accessible from the calling context, and whether it is immutable. -/
structure PropLookup (α : Type) where
  prop : α
  accessible : Bool
  immutable : Bool
  deriving DecidableEq, Repr

/-- The part of `Class` that `ObjectData` queries.  `getDeclPropIndex` and
`lookupDeclProp` are member functions of the class metadata system and are
taken as given, as are the other tables of the class: the body
(`preClass`), the traits used, the initial values of the slots
(`declPropInit`, and `getPropData` when the class has property initializers
`pinitVec`), the destructor method and the subclass test `classof`.  The
chain of `parent()` pointers is finite and is given as the list `parents`,
nearest ancestor first. -/
structure Class where
  ptr : ClassPtr := 0
  name : String := ""
  UseGet : Bool := false
  UseSet : Bool := false
  UseIsset : Bool := false
  UseUnset : Bool := false
  HasNativePropHandler : Bool := false
  CallToImpl : Bool := false
  forbidsDynamicProps : Bool := false
  declProperties : List ClassProp := []
  getDeclPropIndex : Option ClassPtr → String → Class.PropLookup :=
    fun _ _ => { prop := kInvalidSlot, accessible := false }
  lookupDeclProp : String → Slot := fun _ => kInvalidSlot
  HasClone : Bool := false
  AttrNoExpandTrait : Bool := false
  declPropNumAccessible : Nat := 0
  preClass : PreClass := {}
  usedTraitClasses : List TraitClass := []
  parents : List ChainClass := []
  classof : ClassPtr → Bool := fun c => c == ptr
  pinitVec : List String := []
  getPropData : List TypedValueAux := []
  declPropInit : List TypedValue := []
  getDtor : Option String := none

/-- `Class::rtAttribute`. -/
def Class.rtAttribute (c : Class) : RuntimeAttribute → Bool
  | .UseGet => c.UseGet
  | .UseSet => c.UseSet
  | .UseIsset => c.UseIsset
  | .UseUnset => c.UseUnset

/-- `Class::numDeclProperties`. -/
def Class.numDeclProperties (c : Class) : Nat := c.declProperties.length

/-- `declProperties()[i]`. -/
def Class.declProp (c : Class) (i : Slot) : ClassProp := c.declProperties.getD i default

/-! ## Instances, the side table, the thread-local guard -/

/-- Modelled from the spec: the dynamic-property container (an array of the
runtime, whose code is not in this file), "a mutable ordered key/value
container" with insert, lookup and remove; new keys go last. -/
abbrev ArrayData := List (String × TypedValue)

/-- Modelled from the spec: lookup in the container (`rval`). -/
def ArrayData.rval (a : ArrayData) (key : String) : Option TypedValue :=
  (a.find? (fun e => e.1 == key)).map (fun e => e.2)

/-- Modelled from the spec: store under a key, in place when the key exists,
appended otherwise (`set`). -/
def ArrayData.set : ArrayData → String → TypedValue → ArrayData
  | [], key, v => [(key, v)]
  | e :: rest, key, v =>
    if e.1 == key then (key, v) :: rest else e :: ArrayData.set rest key v

/-- Modelled from the spec: element for writing (`lvalAt`); a missing key is
inserted holding null. -/
def ArrayData.lvalAt (a : ArrayData) (key : String) : ArrayData :=
  match a.rval key with
  | some _ => a
  | none => a ++ [(key, TypedValue.null)]

/-- Modelled from the spec: removal of a key (`remove`). -/
def ArrayData.remove (a : ArrayData) (key : String) : ArrayData :=
  a.filter (fun e => !(e.1 == key))

/-- One instance: its identity (address), header fields, attribute bits and
the inline declared slots. -/
structure ObjectData where
  addr : Nat := 0
  m_cls : Class := {}
  o_id : Nat := 0
  m_count : Nat := 1
  HasDynPropArr : Bool := false
  IsBeingConstructed : Bool := false
  NoDestructor : Bool := false
  isCollection : Bool := false
  isCppBuiltin : Bool := false
  hasNativeData : Bool := false
  HasInstanceDtor : Bool := false
  propVec : List TypedValue := []

/-- The side table `g_context->dynPropTable`, keyed by instance identity. -/
abbrev DynPropTable := List (Nat × ArrayData)

/-- Entry of an instance in the side table (`find`). -/
def DynPropTable.find (t : DynPropTable) (inst : Nat) : Option ArrayData :=
  (List.find? (fun e => e.1 == inst) t).map (fun e => e.2)

/-- Number of entries for an instance (`count`). -/
def DynPropTable.count (t : DynPropTable) (inst : Nat) : Nat :=
  if (DynPropTable.find t inst).isSome then 1 else 0

/-- `table[inst] = arr`: overwrite the entry, or create it. -/
def DynPropTable.assign : DynPropTable → Nat → ArrayData → DynPropTable
  | [], inst, arr => [(inst, arr)]
  | e :: rest, inst, arr =>
    if e.1 == inst then (inst, arr) :: rest else e :: DynPropTable.assign rest inst arr

/-- `table.erase(inst)`. -/
def DynPropTable.erase (t : DynPropTable) (inst : Nat) : DynPropTable :=
  List.filter (fun e => !(e.1 == inst)) t

/-- `PropRecurInfo::RecurSet`, a hash set under `PropAccessInfo::operator==`. -/
abbrev RecurSet := List PropAccessInfo

/-- Membership test of the hash set. -/
def RecurSet.contains (s : RecurSet) (info : PropAccessInfo) : Bool :=
  List.any s (fun k => PropAccessInfo.eq k info)

/-- `insert`: the set afterwards and whether the element was new. -/
def RecurSet.insert (s : RecurSet) (info : PropAccessInfo) : RecurSet × Bool :=
  if RecurSet.contains s info then (s, false) else (s ++ [info], true)

/-- `erase`: drop the element equal to `info`. -/
def RecurSet.erase (s : RecurSet) (info : PropAccessInfo) : RecurSet :=
  List.filter (fun k => !(PropAccessInfo.eq k info)) s

/-- Thread-local bookkeeping of the active magic accessors. -/
structure PropRecurInfo where
  activePropInfo : Option PropAccessInfo := none
  activeSet : Option RecurSet := none
  deriving DecidableEq, Repr, Inhabited

/-- The state an operation on `this` runs in: the instance, the side table
of dynamic properties, the recursion guard, the record of calls that leave
this file, and the thread-level data consulted on release (`os_max_id`,
`g_context->m_unwindingCppException`, `g_context->m_liveBCObjs`). -/
structure State where
  this : ObjectData := {}
  dynPropTable : DynPropTable := []
  propRecurInfo : PropRecurInfo := {}
  trace : List Event := []
  os_max_id : Nat := 0
  m_unwindingCppException : Bool := false
  m_liveBCObjs : List Nat := []

/-! ## The execution monad -/

deriving instance DecidableEq for Except

/-- An operation: from a state to an outcome and the state reached. -/
def Exec (α : Type) : Type := State → Except Fault α × State

/-- Return a value. -/
def Exec.pure {α : Type} (a : α) : Exec α := fun s => (Except.ok a, s)

/-- Sequencing; a fault skips the rest and keeps the state reached. -/
def Exec.bind {α β : Type} (m : Exec α) (f : α → Exec β) : Exec β := fun s =>
  match m s with
  | (Except.ok a, s1) => f a s1
  | (Except.error e, s1) => (Except.error e, s1)

instance : Monad Exec where
  pure := Exec.pure
  bind := Exec.bind

/-- Raise a fault. -/
def Exec.throw {α : Type} (e : Fault) : Exec α := fun s => (Except.error e, s)

/-- Read the state. -/
def Exec.get : Exec State := fun s => (Except.ok s, s)

/-- Update the state. -/
def Exec.modify (f : State → State) : Exec Unit := fun s => (Except.ok (), f s)

/-- `SCOPE_EXIT`: run `m`, then `cleanup` on every exit path. -/
def Exec.scopeExit {α : Type} (m : Exec α) (cleanup : State → State) : Exec α := fun s =>
  match m s with
  | (r, s1) => (r, cleanup s1)

/-- `raise_notice`: a diagnostic that does not stop the operation. -/
def raise_notice (msg : String) : Exec Unit :=
  Exec.modify (fun s => { s with trace := s.trace ++ [Event.notice msg] })

/-- Record a call that leaves this file. -/
def traceEvent (e : Event) : Exec Unit :=
  Exec.modify (fun s => { s with trace := s.trace ++ [e] })

/-! ## The recursion guard -/

/-- `InvokeResult`: a value and whether the accessor ran. -/
structure InvokeResult where
  val : TypedValue
  ok : Bool
  deriving DecidableEq, Repr, Inhabited

/-- `magic_prop_impl`: run `invoker` unless an accessor with an equal key is
already active on this thread. -/
def magic_prop_impl (info : PropAccessInfo) (invoker : Exec TypedValue) : Exec InvokeResult :=
  fun s =>
    let recur_info := s.propRecurInfo
    match recur_info.activePropInfo with
    | some active =>
      let activeSet : RecurSet :=
        match recur_info.activeSet with
        | some set => set
        | none => (RecurSet.insert [] active).1
      let ins := RecurSet.insert activeSet info
      if !ins.2 then
        (Except.ok { val := TypedValue.uninit, ok := false },
         { s with propRecurInfo := { recur_info with activeSet := some ins.1 } })
      else
        Exec.scopeExit
          (do let v ← invoker
              pure { val := v, ok := true })
          (fun s1 =>
            { s1 with propRecurInfo :=
                { s1.propRecurInfo with
                  activeSet := (s1.propRecurInfo.activeSet.map (fun set => RecurSet.erase set info)) } })
          { s with propRecurInfo := { recur_info with activeSet := some ins.1 } }
    | none =>
      Exec.scopeExit
        (do let v ← invoker
            pure { val := v, ok := true })
        (fun s1 =>
          { s1 with propRecurInfo := { activePropInfo := none, activeSet := none } })
        { s with propRecurInfo := { recur_info with activePropInfo := some info } }

/-- The keys the guard treats as active: none when no accessor is active,
the promoted set when there is one, the single active key otherwise. -/
def PropRecurInfo.activeKeys (r : PropRecurInfo) : List PropAccessInfo :=
  match r.activePropInfo with
  | none => []
  | some active =>
    match r.activeSet with
    | some set => set
    | none => [active]

/-- Whether an accessor with a key equal to `info` is active. -/
def PropRecurInfo.isActive (r : PropRecurInfo) (info : PropAccessInfo) : Bool :=
  RecurSet.contains r.activeKeys info

/-! ## User-level code -/

/-- What user-level code can change of the instance it runs on: the contents
of the slots, the reference count, and the dynamic-property store with its
flag.  The class, the identity and the construction flag are out of its reach. -/
structure Mutable where
  propVec : List TypedValue
  HasDynPropArr : Bool
  m_count : Nat
  dynPropTable : DynPropTable

/-- The part of the state that user-level code can change. -/
def State.mutable (s : State) : Mutable :=
  { propVec := s.this.propVec, HasDynPropArr := s.this.HasDynPropArr,
    m_count := s.this.m_count, dynPropTable := s.dynPropTable }

/-- Put back the part of the state that user-level code can change. -/
def State.withMutable (s : State) (m : Mutable) : State :=
  { s with
    this := { s.this with
      propVec := m.propVec, HasDynPropArr := m.HasDynPropArr, m_count := m.m_count },
    dynPropTable := m.dynPropTable }

/-- The behaviour of a user-level method (or native handler) as seen from
this file: it returns a value or raises a fault, may read and change the
instance and the side table, may catch faults, and may re-enter the guard
through nested property accesses (`magic`: the nested accessor and its body). -/
inductive HookProg where
  | ret (v : TypedValue)
  | raise (f : Fault)
  | effect (f : Mutable → Mutable) (k : HookProg)
  | inspect (k : Mutable → HookProg)
  | magic (info : PropAccessInfo) (body : HookProg) (k : InvokeResult → HookProg)
  | tryCatch (body : HookProg) (handler : Fault → HookProg)

/-- Run a user-level program. -/
def HookProg.run : HookProg → Exec TypedValue
  | .ret v => Exec.pure v
  | .raise f => Exec.throw f
  | .effect f k => fun s => HookProg.run k (s.withMutable (f s.mutable))
  | .inspect k => fun s => HookProg.run (k s.mutable) s
  | .magic info body k => fun s =>
    match magic_prop_impl info (HookProg.run body) s with
    | (Except.ok r, s1) => HookProg.run (k r) s1
    | (Except.error e, s1) => (Except.error e, s1)
  | .tryCatch body handler => fun s =>
    match HookProg.run body s with
    | (Except.ok v, s1) => (Except.ok v, s1)
    | (Except.error e, s1) => HookProg.run (handler e) s1

/-! ## The collaborators outside this file -/

/-- Compound-assignment operators (`SetOpOp`). -/
inductive SetOpOp where
  | PlusEqual
  | MinusEqual
  | MulEqual
  | ConcatEqual
  | DivEqual
  | ModEqual
  deriving DecidableEq, Repr, Inhabited

/-- Increment and decrement operators (`IncDecOp`). -/
inductive IncDecOp where
  | PreInc
  | PostInc
  | PreDec
  | PostDec
  deriving DecidableEq, Repr, Inhabited

/-- `String::find(ch, pos)` as the default engine has it: the position of the
first `ch` at or after `pos`, and -1 when there is none. -/
def stringFind (s : String) (ch : Char) (pos : Nat) : Int :=
  if (s.data.drop pos).indexOf ch < (s.data.drop pos).length then
    ((pos + (s.data.drop pos).indexOf ch : Nat) : Int)
  else -1

/-- `String::substr(start, length)` as the default engine has it: `length`
characters from `start` on, as many as there are; without a length, or with
one that reaches past the end, the rest of the string; a negative length
leaves that many characters off the end. -/
def stringSubstr (s : String) (start : Int) (length : Option Int) : String :=
  let st : Nat := if start < 0 then (s.data.length + start).toNat else min start.toNat s.data.length
  let avail : Nat := s.data.length - st
  let len : Nat :=
    match length with
    | none => avail
    | some l => if l < 0 then (avail + l).toNat else min l.toNat avail
  String.mk ((s.data.drop st).take len)

/-- What this file calls but does not define: the method invocation engine
(`lookupMethod` followed by `g_context->invokeMethod`), the native property
handlers, class lookup by name, the arithmetic of member operations and the
conversion of a cell to a boolean (`cellToBool`, `tvCastToBooleanInPlace`),
the runtime options, the system classes, the collection, closure, date/time
and native-data libraries, the comparison of arrays (which may raise, as
it compares the elements), and the search and slicing of strings.  The default values give a small runnable engine
for the examples. -/
structure Engine where
  method : ClassPtr → String → List TypedValue → HookProg :=
    fun _ _ _ => HookProg.ret TypedValue.null
  nativeGetProp : ClassPtr → String → HookProg := fun _ _ => HookProg.ret TypedValue.uninit
  nativeSetProp : ClassPtr → String → TypedValue → HookProg :=
    fun _ _ _ => HookProg.ret TypedValue.uninit
  nativeIssetProp : ClassPtr → String → HookProg := fun _ _ => HookProg.ret TypedValue.uninit
  nativeUnsetProp : ClassPtr → String → HookProg := fun _ _ => HookProg.ret TypedValue.uninit
  isPropHandled : TypedValue → Bool := fun v => v != TypedValue.uninit
  lookupClass : String → Option ClassPtr := fun _ => none
  setopBody : SetOpOp → TypedValue → TypedValue → Except Fault TypedValue :=
    fun _ lhs _ => Except.ok lhs
  IncDecBody : IncDecOp → TypedValue → Except Fault (TypedValue × TypedValue) :=
    fun _ v => Except.ok (v, v)
  SimpleXMLElement_propEmpty : String → HookProg := fun _ => HookProg.ret (TypedValue.bool true)
  cellToBool : TypedValue → Bool := fun v =>
    match v with
    | TypedValue.uninit => false
    | TypedValue.null => false
    | TypedValue.bool b => b
    | TypedValue.int i => i != 0
    | TypedValue.str str => !(str == "" || str == "0")
    | TypedValue.obj _ => true
  EnableObjDestructCall : Bool := false
  one_bit_refcount : Bool := false
  s_DateTimeInterfaceClass : ClassPtr := 1001
  s_ArrayObjectClass : ClassPtr := 1002
  s_ArrayIteratorClass : ClassPtr := 1003
  c_Closure_classof : ClassPtr := 1004
  DateTimeData_getClass : ClassPtr := 1005
  collections_toArray : ObjectData → ArrayData := fun _ => []
  collections_equals : ObjectData → ObjectData → Except Fault Bool :=
    fun a b => Except.ok (a.propVec == b.propVec)
  collections_clone : ObjectData → ObjectData := fun o => o
  c_Closure_clone : ObjectData → ObjectData := fun o => o
  instanceCtor : ClassPtr → Fault := fun _ => Fault.raiseError "Cannot instantiate"
  nativeDataInstanceCopyCtor : ObjectData → ObjectData := fun o => o
  deepCopy : TypedValue → TypedValue := fun v => v
  SimpleXMLElement_objectCast : ObjectData → ArrayData := fun _ => []
  tvCastToArrayLike : TypedValue → ArrayData := fun _ => []
  getDebugInfo : ObjectData → ArrayData := fun _ => []
  DateTimeData_compare : ObjectData → ObjectData → Except Fault Int :=
    fun _ _ => Except.ok 0
  DateTimeData_getTimestamp : ObjectData → Except Fault Int := fun _ => Except.ok 0
  Array_equal : ArrayData → ArrayData → Except Fault Bool := fun a b => Except.ok (a == b)
  Array_less : ArrayData → ArrayData → Except Fault Bool :=
    fun a b => Except.ok (decide (a.length < b.length))
  Array_more : ArrayData → ArrayData → Except Fault Bool :=
    fun a b => Except.ok (decide (a.length > b.length))
  Array_compare : ArrayData → ArrayData → Except Fault Int :=
    fun a b => Except.ok (if a.length < b.length then -1 else if a.length > b.length then 1 else 0)
  s_stdclassClass : Class := { ptr := 1000, name := "stdClass" }
  String_find : String → Char → Nat → Int := stringFind
  String_substr : String → Int → Option Int → String := stringSubstr

/-! ## Pointers into an instance -/

/-- What a `TypedValue*` handed out by this file can point to. -/
inductive Lval where
  | nullptr
  | declProp (slot : Slot)
  | dynProp (key : String)
  | tvRef
  | immutable_null_base
  deriving DecidableEq, Repr, Inhabited

/-- Result of the read variants: the pointer returned and the contents of
the caller's temporary `tvRef` after the call. -/
structure PropRet where
  handle : Lval
  tvRef : TypedValue
  deriving DecidableEq, Repr, Inhabited

/-- `!*key->data()`: the name is empty or its first byte is NUL. -/
def firstByteIsNul (key : String) : Bool :=
  match key.data with
  | [] => true
  | c :: _ => c.toNat == 0

/-- `ObjectData::dynPropArray`: the array of `this` in the side table. -/
def State.dynPropArray (s : State) : ArrayData :=
  (DynPropTable.find s.dynPropTable s.this.addr).getD []

/-- Replace the array of `this` in the side table. -/
def State.setDynPropArr (s : State) (arr : ArrayData) : State :=
  { s with dynPropTable := DynPropTable.assign s.dynPropTable s.this.addr arr }

/-- Read through a pointer (`*prop`). -/
def State.tvAt (s : State) : Lval → TypedValue
  | .nullptr => TypedValue.uninit
  | .declProp i => s.this.propVec.getD i TypedValue.uninit
  | .dynProp key => (ArrayData.rval s.dynPropArray key).getD TypedValue.uninit
  | .tvRef => TypedValue.uninit
  | .immutable_null_base => TypedValue.null

/-- Write through a pointer (`*prop = v`). -/
def State.tvWrite (s : State) (p : Lval) (v : TypedValue) : State :=
  match p with
  | .declProp i => { s with this := { s.this with propVec := s.this.propVec.set i v } }
  | .dynProp key => s.setDynPropArr (ArrayData.set s.dynPropArray key v)
  | _ => s

/-- `ObjectData::isBeingConstructed`. -/
def ObjectData.isBeingConstructed (o : ObjectData) : Bool := o.IsBeingConstructed

/-- `ObjectData::declPropInd`: the slot a pointer designates, by address range. -/
def ObjectData.declPropInd (o : ObjectData) : Lval → Slot
  | .declProp i => if i < o.m_cls.numDeclProperties then i else kInvalidSlot
  | _ => kInvalidSlot

/-- `ObjectData::throwMutateImmutable`. -/
def ObjectData.throwMutateImmutable {α : Type} (prop : Lval) : Exec α := fun s =>
  let propIdx := s.this.declPropInd prop
  Exec.throw
    (Fault.cannotModifyImmutableProp s.this.m_cls.name (s.this.m_cls.declProp propIdx).name) s

/-- `ObjectData::throwBindImmutable`. -/
def ObjectData.throwBindImmutable {α : Type} (prop : Lval) : Exec α := fun s =>
  let propIdx := s.this.declPropInd prop
  Exec.throw
    (Fault.cannotBindImmutableProp s.this.m_cls.name (s.this.m_cls.declProp propIdx).name) s

/-- What the format `%s` prints of `s->data()`: the bytes up to the first NUL. -/
def cstr (s : String) : String :=
  String.mk (s.data.takeWhile (fun c => c != Char.ofNat 0))

/-- `ObjectData::raiseUndefProp`:
`raise_notice("Undefined property: %s::$%s", m_cls->name()->data(), key->data())`. -/
def ObjectData.raiseUndefProp (key : String) : Exec Unit := fun s =>
  raise_notice ("Undefined property: " ++ cstr s.this.m_cls.name ++ "::$" ++ cstr key) s

/-! ## The dynamic-property store -/

/-- `ObjectData::setDynPropArray`. -/
def ObjectData.setDynPropArray (newArr : ArrayData) : Exec Unit := fun s =>
  if s.this.m_cls.forbidsDynamicProps then
    Exec.throw (Fault.objectForbidsDynamicProps s.this.m_cls.name) s
  else
    (Except.ok (),
     { (s.setDynPropArr newArr) with this := { s.this with HasDynPropArr := true } })

/-- `ObjectData::reserveProperties`: afterwards `this` has a store. -/
def ObjectData.reserveProperties : Exec Unit := fun s =>
  if s.this.HasDynPropArr then (Except.ok (), s)
  else ObjectData.setDynPropArray [] s

/-- `ObjectData::makeDynProp`. -/
def ObjectData.makeDynProp (key : String) : Exec Lval := do
  ObjectData.reserveProperties
  Exec.modify (fun s => s.setDynPropArr (ArrayData.lvalAt s.dynPropArray key))
  pure (Lval.dynProp key)

/-! ## Lookup -/

/-- `ObjectData::getPropImpl<forWrite>`. -/
def ObjectData.getPropImpl (forWrite : Bool) (ctx : Option ClassPtr) (key : String)
    (s : State) : PropLookup Lval :=
  let lookup := s.this.m_cls.getDeclPropIndex ctx key
  let propIdx := lookup.prop
  if propIdx != kInvalidSlot then
    { prop := Lval.declProp propIdx,
      accessible := lookup.accessible,
      immutable :=
        if forWrite then (s.this.m_cls.declProp propIdx).attrs.AttrIsImmutable else true }
  else if s.this.HasDynPropArr && (ArrayData.rval s.dynPropArray key).isSome then
    if forWrite then
      { prop := Lval.dynProp key, accessible := true, immutable := false }
    else
      { prop := Lval.dynProp key, accessible := true, immutable := true }
  else
    { prop := Lval.nullptr, accessible := false, immutable := if forWrite then false else true }

/-- `ObjectData::getProp`: the accessible property, for reading, or null. -/
def ObjectData.getProp (ctx : Option ClassPtr) (key : String) (s : State) : Lval :=
  let lookup := ObjectData.getPropImpl false ctx key s
  if lookup.prop != Lval.nullptr && lookup.accessible then lookup.prop else Lval.nullptr

/-- `ObjectData::getPropLval`. -/
def ObjectData.getPropLval (ctx : Option ClassPtr) (key : String) : Exec Lval := do
  let s ← Exec.get
  let lookup := ObjectData.getPropImpl true ctx key s
  if lookup.immutable && !s.this.isBeingConstructed then
    ObjectData.throwMutateImmutable lookup.prop
  else
    pure (if lookup.prop != Lval.nullptr && lookup.accessible then lookup.prop else Lval.nullptr)

/-! ## Magic dispatch -/

/-- `g_context->invokeMethod(obj, meth, args)` for a method of the class of
`this`, looked up by name. -/
def invokeMethod (env : Engine) (meth : String) (args : List TypedValue) : Exec TypedValue :=
  fun s =>
    (do traceEvent (Event.invokeMethod s.this.addr meth args)
        HookProg.run (env.method s.this.m_cls.ptr meth args)) s

/-- `MagicInvoker`: call the one-argument magic method with the property name. -/
def MagicInvoker (env : Engine) (magicFuncName : String) (info : PropAccessInfo) :
    Exec TypedValue :=
  invokeMethod env magicFuncName [TypedValue.str info.key]

/-- `ObjectData::invokeSet`. -/
def ObjectData.invokeSet (env : Engine) (key : String) (val : TypedValue) : Exec Bool := fun s =>
  let info : PropAccessInfo := { obj := s.this.addr, key := key, rt_attr := RuntimeAttribute.UseSet }
  (do let r ← magic_prop_impl info (invokeMethod env "__set" [TypedValue.str key, val])
      pure r.ok) s

/-- `ObjectData::invokeGet`. -/
def ObjectData.invokeGet (env : Engine) (key : String) : Exec InvokeResult := fun s =>
  let info : PropAccessInfo := { obj := s.this.addr, key := key, rt_attr := RuntimeAttribute.UseGet }
  magic_prop_impl info (MagicInvoker env "__get" info) s

/-- `ObjectData::invokeIsset`. -/
def ObjectData.invokeIsset (env : Engine) (key : String) : Exec InvokeResult := fun s =>
  let info : PropAccessInfo :=
    { obj := s.this.addr, key := key, rt_attr := RuntimeAttribute.UseIsset }
  magic_prop_impl info (MagicInvoker env "__isset" info) s

/-- `ObjectData::invokeUnset`. -/
def ObjectData.invokeUnset (env : Engine) (key : String) : Exec Bool := fun s =>
  let info : PropAccessInfo :=
    { obj := s.this.addr, key := key, rt_attr := RuntimeAttribute.UseUnset }
  (do let r ← magic_prop_impl info (MagicInvoker env "__unset" info)
      pure r.ok) s

/-- `guardedNativePropResult`. -/
def guardedNativePropResult (env : Engine) (result : TypedValue) : InvokeResult :=
  if !env.isPropHandled result then { val := TypedValue.uninit, ok := false }
  else { val := result, ok := true }

/-- `ObjectData::invokeNativeGetProp`. -/
def ObjectData.invokeNativeGetProp (env : Engine) (key : String) : Exec InvokeResult := fun s =>
  (do traceEvent (Event.nativeGetProp s.this.addr key)
      let result ← HookProg.run (env.nativeGetProp s.this.m_cls.ptr key)
      pure (guardedNativePropResult env result)) s

/-- `ObjectData::invokeNativeSetProp`. -/
def ObjectData.invokeNativeSetProp (env : Engine) (key : String) (val : TypedValue) :
    Exec Bool := fun s =>
  (do traceEvent (Event.nativeSetProp s.this.addr key val)
      let result ← HookProg.run (env.nativeSetProp s.this.m_cls.ptr key val)
      pure (guardedNativePropResult env result).ok) s

/-- `ObjectData::invokeNativeIssetProp`. -/
def ObjectData.invokeNativeIssetProp (env : Engine) (key : String) : Exec InvokeResult :=
  fun s =>
    (do traceEvent (Event.nativeIssetProp s.this.addr key)
        let result ← HookProg.run (env.nativeIssetProp s.this.m_cls.ptr key)
        pure (guardedNativePropResult env result)) s

/-- `ObjectData::invokeNativeUnsetProp`. -/
def ObjectData.invokeNativeUnsetProp (env : Engine) (key : String) : Exec Bool := fun s =>
  (do traceEvent (Event.nativeUnsetProp s.this.addr key)
      let result ← HookProg.run (env.nativeUnsetProp s.this.m_cls.ptr key)
      pure (guardedNativePropResult env result).ok) s

/-! ## The read variants -/

/-- `ObjectData::PropMode`. -/
inductive PropMode where
  | ReadNoWarn
  | ReadWarn
  | DimForWrite
  | Bind
  deriving DecidableEq, Repr, Inhabited

/-- The `write` constant of `propImpl`. -/
def PropMode.write : PropMode → Bool
  | .DimForWrite => true
  | .Bind => true
  | _ => false

/-- The `checkImmutable` lambda of `propImpl`. -/
def ObjectData.checkImmutable (mode : PropMode) (lookup : PropLookup Lval) (tvRef : TypedValue) :
    Exec PropRet := do
  if mode = PropMode.Bind && lookup.immutable then
    ObjectData.throwBindImmutable lookup.prop
  else
    let s ← Exec.get
    if mode = PropMode.DimForWrite && (lookup.immutable && !s.this.isBeingConstructed) then
      ObjectData.throwMutateImmutable lookup.prop
    else
      pure { handle := lookup.prop, tvRef := tvRef }

/-- `ObjectData::propImpl<mode>`. -/
def ObjectData.propImpl (env : Engine) (mode : PropMode) (tvRef : TypedValue)
    (ctx : Option ClassPtr) (key : String) : Exec PropRet := do
  let s ← Exec.get
  let lookup := ObjectData.getPropImpl mode.write ctx key s
  let prop := lookup.prop
  let tryGet : Exec (Option PropRet) := do
    if s.this.m_cls.rtAttribute RuntimeAttribute.UseGet then
      let r ← ObjectData.invokeGet env key
      if r.ok then pure (some { handle := Lval.tvRef, tvRef := r.val }) else pure none
    else pure none
  if prop != Lval.nullptr then
    if lookup.accessible then
      -- Property exists, is accessible, and is not unset.
      if s.tvAt prop != TypedValue.uninit then
        ObjectData.checkImmutable mode lookup tvRef
      else
        -- Property is unset, try __get.
        match (← tryGet) with
        | some ret => pure ret
        | none =>
          if mode = PropMode.ReadWarn then ObjectData.raiseUndefProp key
          if mode.write then ObjectData.checkImmutable mode lookup tvRef
          else pure { handle := Lval.immutable_null_base, tvRef := tvRef }
    else
      -- Property is not accessible, try __get.
      match (← tryGet) with
      | some ret => pure ret
      | none =>
        let propInd := s.this.m_cls.lookupDeclProp key
        let attrs := (s.this.m_cls.declProp propInd).attrs
        let priv := if attrs.AttrPrivate then "private" else "protected"
        Exec.throw (Fault.raiseError
          ("Cannot access " ++ priv ++ " property " ++ s.this.m_cls.name ++ "::$" ++ key))
  else
    -- First see if native getter is implemented.
    let native : Option PropRet ←
      if s.this.m_cls.HasNativePropHandler then do
        let r ← ObjectData.invokeNativeGetProp env key
        if r.ok then pure (some { handle := Lval.tvRef, tvRef := r.val }) else pure none
      else pure none
    match native with
    | some ret => pure ret
    | none =>
      -- Next try calling user-level __get if it is used.
      match (← tryGet) with
      | some ret => pure ret
      | none =>
        if firstByteIsNul key then
          Exec.throw (Fault.invalidPropertyName key)
        else
          if mode = PropMode.ReadWarn then ObjectData.raiseUndefProp key
          if mode.write then
            let p ← ObjectData.makeDynProp key
            pure { handle := p, tvRef := tvRef }
          else pure { handle := Lval.immutable_null_base, tvRef := tvRef }

/-- `ObjectData::prop`. -/
def ObjectData.prop (env : Engine) (tvRef : TypedValue) (ctx : Option ClassPtr) (key : String) :
    Exec PropRet :=
  ObjectData.propImpl env PropMode.ReadNoWarn tvRef ctx key

/-- `ObjectData::propW`. -/
def ObjectData.propW (env : Engine) (tvRef : TypedValue) (ctx : Option ClassPtr) (key : String) :
    Exec PropRet :=
  ObjectData.propImpl env PropMode.ReadWarn tvRef ctx key

/-- `ObjectData::propD`. -/
def ObjectData.propD (env : Engine) (tvRef : TypedValue) (ctx : Option ClassPtr) (key : String) :
    Exec PropRet :=
  ObjectData.propImpl env PropMode.DimForWrite tvRef ctx key

/-- `ObjectData::propB`. -/
def ObjectData.propB (env : Engine) (tvRef : TypedValue) (ctx : Option ClassPtr) (key : String) :
    Exec PropRet :=
  ObjectData.propImpl env PropMode.Bind tvRef ctx key

/-- `ObjectData::o_get`. -/
def ObjectData.o_get (env : Engine) (propName : String) (error : Bool) (context : String) :
    Exec TypedValue := do
  if firstByteIsNul propName then
    Exec.throw (Fault.invalidPropertyName propName)
  else
    let ctx : Option ClassPtr := if context != "" then env.lookupClass context else none
    let s ← Exec.get
    let prop := ObjectData.getProp ctx propName s
    if prop != Lval.nullptr && s.tvAt prop != TypedValue.uninit then
      pure (s.tvAt prop)
    else
      let handled : Option TypedValue ←
        if s.this.m_cls.rtAttribute RuntimeAttribute.UseGet then do
          let r ← ObjectData.invokeGet env propName
          if r.ok then pure (some r.val) else pure none
        else pure none
      match handled with
      | some v => pure v
      | none =>
        if error then
          raise_notice
            ("Undefined property: " ++ cstr s.this.m_cls.name ++ "::$" ++ cstr propName)
        pure TypedValue.uninit

/-- `ObjectData::propIsset`. -/
def ObjectData.propIsset (env : Engine) (ctx : Option ClassPtr) (key : String) : Exec Bool := do
  let s ← Exec.get
  let prop := ObjectData.getProp ctx key s
  if prop != Lval.nullptr && s.tvAt prop != TypedValue.uninit then
    pure (s.tvAt prop != TypedValue.null)
  else
    let native : Option Bool ←
      if s.this.m_cls.HasNativePropHandler then do
        let r ← ObjectData.invokeNativeIssetProp env key
        if r.ok then pure (some (env.cellToBool r.val)) else pure none
      else pure none
    match native with
    | some b => pure b
    | none =>
      if !s.this.m_cls.rtAttribute RuntimeAttribute.UseIsset then pure false
      else
        let r ← ObjectData.invokeIsset env key
        if !r.ok then pure false
        else pure (env.cellToBool r.val)

/-- `ObjectData::propEmptyImpl`. -/
def ObjectData.propEmptyImpl (env : Engine) (ctx : Option ClassPtr) (key : String) :
    Exec Bool := do
  let s ← Exec.get
  let prop := ObjectData.getProp ctx key s
  if prop != Lval.nullptr && s.tvAt prop != TypedValue.uninit then
    pure (!env.cellToBool (s.tvAt prop))
  else
    let native : Option Bool ←
      if s.this.m_cls.HasNativePropHandler then do
        let r ← ObjectData.invokeNativeIssetProp env key
        if r.ok then
          if !env.cellToBool r.val then pure (some true)
          else
            let r2 ← ObjectData.invokeNativeGetProp env key
            if r2.ok then pure (some (!env.cellToBool r2.val)) else pure (some false)
        else pure none
      else pure none
    match native with
    | some b => pure b
    | none =>
      if !s.this.m_cls.rtAttribute RuntimeAttribute.UseIsset then pure true
      else
        let r ← ObjectData.invokeIsset env key
        if !r.ok then pure true
        else if !env.cellToBool r.val then pure true
        else
          let viaGet : Option Bool ←
            if s.this.m_cls.rtAttribute RuntimeAttribute.UseGet then do
              let r ← ObjectData.invokeGet env key
              if r.ok then pure (some (!env.cellToBool r.val)) else pure none
            else pure none
          match viaGet with
          | some b => pure b
          | none => pure false

/-- `ObjectData::propEmpty`. -/
def ObjectData.propEmpty (env : Engine) (ctx : Option ClassPtr) (key : String) : Exec Bool := do
  let s ← Exec.get
  if s.this.m_cls.CallToImpl && !s.this.isCollection then
    -- We only get here for SimpleXMLElement or collections
    let r ← HookProg.run (env.SimpleXMLElement_propEmpty key)
    pure (env.cellToBool r)
  else
    ObjectData.propEmptyImpl env ctx key

/-! ## The write family -/

/-- The guard `if (UNLIKELY(lookup.immutable) && !isBeingConstructed())
throwMutateImmutable(prop)` shared by the write paths. -/
def ObjectData.guardImmutable (lookup : PropLookup Lval) : Exec Unit := do
  let s ← Exec.get
  if lookup.immutable && !s.this.isBeingConstructed then
    ObjectData.throwMutateImmutable lookup.prop
  else pure ()

/-- `reserveProperties().set(key, val, true)`. -/
def ObjectData.setDynProp (key : String) (val : TypedValue) : Exec Unit := do
  ObjectData.reserveProperties
  Exec.modify (fun s => s.setDynPropArr (ArrayData.set s.dynPropArray key val))

/-- `ObjectData::setProp`. -/
def ObjectData.setProp (env : Engine) (ctx : Option ClassPtr) (key : String) (val : TypedValue) :
    Exec Unit := do
  let s ← Exec.get
  let lookup := ObjectData.getPropImpl true ctx key s
  let prop := lookup.prop
  if prop != Lval.nullptr && lookup.accessible then
    let direct : Bool ←
      if s.tvAt prop != TypedValue.uninit || !s.this.m_cls.rtAttribute RuntimeAttribute.UseSet then
        pure true
      else do
        let handled ← ObjectData.invokeSet env key val
        pure (!handled)
    if direct then
      ObjectData.guardImmutable lookup
      Exec.modify (fun s1 => s1.tvWrite prop val)
    else pure ()
  else
    -- First see if native setter is implemented.
    let native : Bool ←
      if s.this.m_cls.HasNativePropHandler then ObjectData.invokeNativeSetProp env key val
      else pure false
    if native then pure ()
    else
      -- Then go to user-level __set.
      let fallback : Bool ←
        if !s.this.m_cls.rtAttribute RuntimeAttribute.UseSet then pure true
        else do
          let handled ← ObjectData.invokeSet env key val
          pure (!handled)
      if fallback then
        if prop != Lval.nullptr then
          Exec.throw (Fault.raiseError "Cannot access protected property")
        else if firstByteIsNul key then
          Exec.throw (Fault.invalidPropertyName key)
        else
          ObjectData.setDynProp key val
      else pure ()

/-- `tvToInitCell`: an uninitialized value is written as null. -/
def tvToInitCell (v : TypedValue) : TypedValue :=
  if v = TypedValue.uninit then TypedValue.null else v

/-- `ObjectData::o_set`. -/
def ObjectData.o_set (env : Engine) (propName : String) (v : TypedValue) (context : String) :
    Exec Unit := do
  if firstByteIsNul propName then
    Exec.throw (Fault.invalidPropertyName propName)
  else
    let ctx : Option ClassPtr := if context != "" then env.lookupClass context else none
    let s ← Exec.get
    let useSet := s.this.m_cls.rtAttribute RuntimeAttribute.UseSet
    let lookup := ObjectData.getPropImpl true ctx propName s
    let prop := lookup.prop
    if (prop != Lval.nullptr && lookup.accessible) &&
        (!useSet || s.tvAt prop != TypedValue.uninit) then
      ObjectData.guardImmutable lookup
      Exec.modify (fun s1 => s1.tvWrite prop (tvToInitCell v))
    else if useSet then
      let _ ← ObjectData.invokeSet env propName v
      pure ()
    else if prop == Lval.nullptr then
      ObjectData.setDynProp propName (tvToInitCell v)
    else pure ()

/-- Lift the arithmetic of a member operation into `Exec`. -/
def liftExcept {α : Type} (r : Except Fault α) : Exec α := fun s => (r, s)

/-- `ObjectData::setOpProp`. -/
def ObjectData.setOpProp (env : Engine) (tvRef : TypedValue) (ctx : Option ClassPtr)
    (op : SetOpOp) (key : String) (val : TypedValue) : Exec PropRet := do
  let s ← Exec.get
  let lookup := ObjectData.getPropImpl true ctx key s
  let prop := lookup.prop
  let useSet := s.this.m_cls.rtAttribute RuntimeAttribute.UseSet
  let useGet := s.this.m_cls.rtAttribute RuntimeAttribute.UseGet
  if prop != Lval.nullptr && lookup.accessible then
    let viaGet : Option PropRet ←
      if s.tvAt prop == TypedValue.uninit && useGet then do
        let r ← ObjectData.invokeGet env key
        if r.ok then
          let rval ← liftExcept (env.setopBody op r.val val)
          let handled : Bool ← if useSet then ObjectData.invokeSet env key rval else pure false
          if handled then pure (some { handle := Lval.tvRef, tvRef := rval })
          else
            ObjectData.guardImmutable lookup
            Exec.modify (fun s1 => s1.tvWrite prop rval)
            pure (some { handle := prop, tvRef := if useSet then TypedValue.uninit else tvRef })
        else pure none
      else pure none
    match viaGet with
    | some ret => pure ret
    | none =>
      ObjectData.guardImmutable lookup
      let s1 ← Exec.get
      let nv ← liftExcept (env.setopBody op (s1.tvAt prop) val)
      Exec.modify (fun s2 => s2.tvWrite prop nv)
      pure { handle := prop, tvRef := tvRef }
  else if firstByteIsNul key then
    Exec.throw (Fault.invalidPropertyName key)
  else
    -- Native accessors.
    let native : Option PropRet × TypedValue ←
      if s.this.m_cls.HasNativePropHandler then do
        let r ← ObjectData.invokeNativeGetProp env key
        if r.ok then
          let nv ← liftExcept (env.setopBody op r.val val)
          let handled ← ObjectData.invokeNativeSetProp env key nv
          if handled then pure (some { handle := Lval.tvRef, tvRef := nv }, nv)
          else pure (none, nv)
        else pure (none, tvRef)
      else pure (none, tvRef)
    match native with
    | (some ret, _) => pure ret
    | (none, tvRef1) =>
      if useGet && !useSet then
        let r ← ObjectData.invokeGet env key
        let rv := if r.ok then r.val else TypedValue.null
        let nv ← liftExcept (env.setopBody op rv val)
        if prop != Lval.nullptr then
          Exec.throw (Fault.raiseError "Cannot access protected property")
        else
          let p ← ObjectData.makeDynProp key
          Exec.modify (fun s1 => s1.tvWrite p nv)
          pure { handle := p, tvRef := tvRef1 }
      else
        let viaHooks : Option PropRet ←
          if useGet && useSet then do
            let r ← ObjectData.invokeGet env key
            if r.ok then
              let nv ← liftExcept (env.setopBody op r.val val)
              let _ ← ObjectData.invokeSet env key nv
              pure (some { handle := Lval.tvRef, tvRef := nv })
            else pure none
          else pure none
        match viaHooks with
        | some ret => pure ret
        | none =>
          if prop != Lval.nullptr then
            Exec.throw (Fault.raiseError "Cannot access protected property")
          else
            -- No visible/accessible property, and no applicable magic method:
            -- create a new dynamic property.
            let p ← ObjectData.makeDynProp key
            let s1 ← Exec.get
            let nv ← liftExcept (env.setopBody op (s1.tvAt p) val)
            Exec.modify (fun s2 => s2.tvWrite p nv)
            pure { handle := p, tvRef := tvRef1 }

/-- `ObjectData::incDecProp`.  `IncDecBody op v` gives the new contents of
the cell and the value of the expression. -/
def ObjectData.incDecProp (env : Engine) (ctx : Option ClassPtr) (op : IncDecOp) (key : String) :
    Exec TypedValue := do
  let s ← Exec.get
  let lookup := ObjectData.getPropImpl true ctx key s
  let prop := lookup.prop
  let useSet := s.this.m_cls.rtAttribute RuntimeAttribute.UseSet
  let useGet := s.this.m_cls.rtAttribute RuntimeAttribute.UseGet
  if prop != Lval.nullptr && lookup.accessible then
    let viaGet : Option TypedValue ←
      if s.tvAt prop == TypedValue.uninit && useGet then do
        let r ← ObjectData.invokeGet env key
        if r.ok then
          let res ← liftExcept (env.IncDecBody op r.val)
          if useSet then
            let _ ← ObjectData.invokeSet env key res.1
            pure (some res.2)
          else
            ObjectData.guardImmutable lookup
            Exec.modify (fun s1 => s1.tvWrite prop res.1)
            pure (some res.2)
        else pure none
      else pure none
    match viaGet with
    | some dest => pure dest
    | none =>
      ObjectData.guardImmutable lookup
      Exec.modify (fun s1 =>
        if s1.tvAt prop == TypedValue.uninit then s1.tvWrite prop TypedValue.null else s1)
      let s2 ← Exec.get
      let res ← liftExcept (env.IncDecBody op (s2.tvAt prop))
      Exec.modify (fun s3 => s3.tvWrite prop res.1)
      pure res.2
  else if firstByteIsNul key then
    Exec.throw (Fault.invalidPropertyName key)
  else
    -- Native accessors.
    let native : Option TypedValue ←
      if s.this.m_cls.HasNativePropHandler then do
        let r ← ObjectData.invokeNativeGetProp env key
        if r.ok then
          let res ← liftExcept (env.IncDecBody op r.val)
          let handled ← ObjectData.invokeNativeSetProp env key res.1
          if handled then pure (some res.2) else pure none
        else pure none
      else pure none
    match native with
    | some dest => pure dest
    | none =>
      if useGet && !useSet then
        let r ← ObjectData.invokeGet env key
        let rv := if r.ok then r.val else TypedValue.null
        let res ← liftExcept (env.IncDecBody op rv)
        if prop != Lval.nullptr then
          Exec.throw (Fault.raiseError "Cannot access protected property")
        else
          let p ← ObjectData.makeDynProp key
          Exec.modify (fun s1 => s1.tvWrite p res.1)
          pure res.2
      else
        let viaHooks : Option TypedValue ←
          if useGet && useSet then do
            let r ← ObjectData.invokeGet env key
            if r.ok then
              let res ← liftExcept (env.IncDecBody op r.val)
              let _ ← ObjectData.invokeSet env key res.1
              pure (some res.2)
            else pure none
          else pure none
        match viaHooks with
        | some dest => pure dest
        | none =>
          if prop != Lval.nullptr then
            Exec.throw (Fault.raiseError "Cannot access protected property")
          else
            let p ← ObjectData.makeDynProp key
            let s1 ← Exec.get
            let res ← liftExcept (env.IncDecBody op (s1.tvAt p))
            Exec.modify (fun s2 => s2.tvWrite p res.1)
            pure res.2

/-- `ObjectData::unsetProp`. -/
def ObjectData.unsetProp (env : Engine) (ctx : Option ClassPtr) (key : String) : Exec Unit := do
  let s ← Exec.get
  let lookup := ObjectData.getPropImpl true ctx key s
  let prop := lookup.prop
  if (prop != Lval.nullptr && lookup.accessible) && s.tvAt prop != TypedValue.uninit then
    if s.this.declPropInd prop != kInvalidSlot then
      -- Declared property.
      ObjectData.guardImmutable lookup
      Exec.modify (fun s1 => s1.tvWrite prop TypedValue.uninit)
    else
      -- Dynamic property.
      Exec.modify (fun s1 => s1.setDynPropArr (ArrayData.remove s1.dynPropArray key))
  else
    -- Native unset first.
    let native : Bool ←
      if s.this.m_cls.HasNativePropHandler then ObjectData.invokeNativeUnsetProp env key
      else pure false
    if native then pure ()
    else
      let tryUnset := s.this.m_cls.rtAttribute RuntimeAttribute.UseUnset
      if (prop != Lval.nullptr && !lookup.accessible) && !tryUnset then
        -- Defined property that is not accessible.
        Exec.throw (Fault.raiseError "Cannot unset inaccessible property")
      else
        let fallback : Bool ←
          if !tryUnset then pure true
          else do
            let handled ← ObjectData.invokeUnset env key
            pure (!handled)
        if fallback then
          if firstByteIsNul key then Exec.throw (Fault.invalidPropertyName key)
          else pure ()
        else pure ()

/-! ## The array projection -/

/-- `ObjectData::getProp(klass, pubOnly, prop, props, inserted)`, the
overload that enters one declared property into the array `props`; the pair
is the array and the `inserted` bit vector. -/
def ObjectData.getPropArr (o : ObjectData) (klass : ChainClass) (pubOnly : Bool)
    (prop : PreClass.Prop) (acc : ArrayData × List Bool) : ArrayData × List Bool :=
  if prop.attrs.AttrStatic || prop.attrs.AttrNoSerialize then acc
  else
    let propInd := klass.lookupDeclProp prop.name
    let propVal := o.propVec.getD propInd TypedValue.uninit
    if (!pubOnly || prop.attrs.AttrPublic) && propVal != TypedValue.uninit
        && !(acc.2.getD propInd false) then
      (ArrayData.set acc.1 (klass.declProperties.getD propInd default).mangledName propVal,
       acc.2.set propInd true)
    else acc

/-- `ObjectData::getProps`: the properties of one class or trait body, in
declaration order. -/
def ObjectData.getProps (o : ObjectData) (klass : ChainClass) (pubOnly : Bool) (pc : PreClass)
    (acc : ArrayData × List Bool) : ArrayData × List Bool :=
  pc.properties.foldl (fun a prop => o.getPropArr klass pubOnly prop a) acc

mutual
/-- `ObjectData::getTraitProps`. -/
def ObjectData.getTraitProps (o : ObjectData) (klass : ChainClass) (pubOnly : Bool) :
    TraitClass → ArrayData × List Bool → ArrayData × List Bool
  | .mk pc used, acc =>
    ObjectData.getTraitPropsLoop o klass pubOnly used (o.getProps klass pubOnly pc acc)
/-- The loop of `getTraitProps` over the traits a trait uses. -/
def ObjectData.getTraitPropsLoop (o : ObjectData) (klass : ChainClass) (pubOnly : Bool) :
    List TraitClass → ArrayData × List Bool → ArrayData × List Bool
  | [], acc => acc
  | traitCls :: rest, acc =>
    ObjectData.getTraitPropsLoop o klass pubOnly rest
      (ObjectData.getTraitProps o klass pubOnly traitCls
        (o.getProps klass pubOnly traitCls.preClass acc))
end

/-- The class itself as first element of its inheritance chain. -/
def Class.self (c : Class) : ChainClass :=
  { preClass := c.preClass, usedTraitClasses := c.usedTraitClasses,
    lookupDeclProp := c.lookupDeclProp, declProperties := c.declProperties }

/-- The classes visited by `cls = m_cls; do ... cls = cls->parent(); while (cls)`. -/
def Class.chain (c : Class) : List ChainClass := c.self :: c.parents

/-- `ObjectData::o_getArray`. -/
def ObjectData.o_getArray (props : ArrayData) (pubOnly : Bool) (s : State) : ArrayData :=
  if s.this.m_cls.numDeclProperties == 0 && s.this.HasDynPropArr then s.dynPropArray
  else
    let inserted := List.replicate s.this.m_cls.numDeclProperties false
    let acc := s.this.m_cls.chain.foldl
      (fun a cls =>
        cls.usedTraitClasses.foldl (fun a traitCls => s.this.getTraitProps cls pubOnly traitCls a)
          (s.this.getProps cls pubOnly cls.preClass a))
      (props, inserted)
    if s.this.HasDynPropArr then
      s.dynPropArray.foldl (fun a e => ArrayData.set a e.1 e.2) acc.1
    else acc.1

/-- `ObjectData::instanceof(const Class*)`. -/
def ObjectData.instanceof (o : ObjectData) (c : ClassPtr) : Bool := o.m_cls.classof c

/-- `convert_to_array`: the array held in the property `storage`. -/
def convert_to_array (env : Engine) (cls : ClassPtr) (s : State) : ArrayData :=
  env.tvCastToArrayLike (s.tvAt (ObjectData.getProp (some cls) "storage" s))

/-- `ARRAYOBJ_STD_PROP_LIST`. -/
def ARRAYOBJ_STD_PROP_LIST : Int := 1

/-- `ObjectData::toArray`.  The projection of a closure is the array holding
the closure itself under key 0. -/
def ObjectData.toArray (env : Engine) (pubOnly : Bool) (s : State) : ArrayData :=
  if s.this.isCollection then env.collections_toArray s.this
  else if s.this.m_cls.CallToImpl then env.SimpleXMLElement_objectCast s.this
  else if s.this.instanceof env.s_ArrayObjectClass then
    let flags := s.tvAt (ObjectData.getProp (some env.s_ArrayObjectClass) "flags" s)
    if flags == TypedValue.int ARRAYOBJ_STD_PROP_LIST then ObjectData.o_getArray [] true s
    else convert_to_array env env.s_ArrayObjectClass s
  else if s.this.instanceof env.s_ArrayIteratorClass then
    convert_to_array env env.s_ArrayIteratorClass s
  else if s.this.instanceof env.c_Closure_classof then [("0", TypedValue.obj s.this.addr)]
  else if s.this.instanceof env.DateTimeData_getClass then env.getDebugInfo s.this
  else ObjectData.o_getArray [] pubOnly s

/-! ## The iteration view -/

/-- `ObjectData::IterMode`. -/
inductive IterMode where
  | EraseRefs
  | CreateRefs
  | PreserveRefs
  deriving DecidableEq, Repr, Inhabited

/-- `ObjectData::vGetProp`. -/
def ObjectData.vGetProp (ctx : Option ClassPtr) (key : String) : Exec Lval := do
  let s ← Exec.get
  let lookup := ObjectData.getPropImpl true ctx key s
  let prop := lookup.prop
  if lookup.immutable then ObjectData.throwBindImmutable prop
  if lookup.accessible && prop != Lval.nullptr && s.tvAt prop != TypedValue.uninit then
    pure prop
  else
    pure Lval.nullptr

/-- The decrement `--propLeft` of a `size_t`. -/
def decSize (propLeft : Nat) : Nat := (propLeft + (2 ^ 64 - 1)) % 2 ^ 64

/-- `getPropertyIfAccessible`: enters the property under `key` when it is
accessible from `ctx`, and returns the array and the count `propLeft`. -/
def getPropertyIfAccessible (ctx : Option ClassPtr) (key : String) (mode : IterMode)
    (properties : ArrayData) (propLeft : Nat) : Exec (ArrayData × Nat) := do
  if mode == IterMode.CreateRefs then
    let prop ← ObjectData.vGetProp ctx key
    let s ← Exec.get
    if prop != Lval.nullptr then
      pure (ArrayData.set properties key (s.tvAt prop), decSize propLeft)
    else
      pure (properties, propLeft)
  else
    let s ← Exec.get
    let prop := ObjectData.getProp ctx key s
    if prop != Lval.nullptr && s.tvAt prop != TypedValue.uninit then
      pure (ArrayData.set properties key (s.tvAt prop), decSize propLeft)
    else
      pure (properties, propLeft)

/-- The inner loop of `o_toIterArray` over the properties of one class body. -/
def ObjectData.iterClassProps (ctx : Option ClassPtr) (mode : IterMode) :
    List PreClass.Prop → ArrayData × Nat → Exec (ArrayData × Nat)
  | [], acc => pure acc
  | prop :: rest, acc => do
    let r ← getPropertyIfAccessible ctx prop.name mode acc.1 acc.2
    ObjectData.iterClassProps ctx mode rest r

/-- The loop `while (klass)` of `o_toIterArray` over the inheritance chain. -/
def ObjectData.iterChain (ctx : Option ClassPtr) (mode : IterMode) :
    List ChainClass → ArrayData × Nat → Exec (ArrayData × Nat)
  | [], acc => pure acc
  | klass :: rest, acc => do
    let r ← ObjectData.iterClassProps ctx mode klass.preClass.properties acc
    ObjectData.iterChain ctx mode rest r

/-- The loop of `o_toIterArray` over `m_cls->declProperties()` that looks
for properties from traits; it stops when the count reaches zero. -/
def ObjectData.iterTraitProps (ctx : Option ClassPtr) (mode : IterMode) :
    List ClassProp → ArrayData × Nat → Exec (ArrayData × Nat)
  | [], acc => pure acc
  | prop :: rest, acc =>
    if !(ArrayData.rval acc.1 prop.name).isSome then do
      let r ← getPropertyIfAccessible ctx prop.name mode acc.1 acc.2
      if r.2 == 0 then pure r else ObjectData.iterTraitProps ctx mode rest r
    else ObjectData.iterTraitProps ctx mode rest acc

/-- `ObjectData::o_toIterArray`. -/
def ObjectData.o_toIterArray (env : Engine) (context : String) (mode : IterMode) :
    Exec ArrayData := do
  let s ← Exec.get
  if mode == IterMode.PreserveRefs && s.this.m_cls.numDeclProperties == 0 then
    if s.this.HasDynPropArr then pure s.dynPropArray else pure []
  else
    let accessibleProps := s.this.m_cls.declPropNumAccessible % 2 ^ 64
    let dynProps : Option ArrayData := if s.this.HasDynPropArr then some s.dynPropArray else none
    let ctx : Option ClassPtr := if context != "" then env.lookupClass context else none
    let r ← ObjectData.iterChain ctx mode s.this.m_cls.chain ([], accessibleProps)
    let r ←
      if !s.this.m_cls.AttrNoExpandTrait && decide (r.2 > 0) then
        ObjectData.iterTraitProps ctx mode s.this.m_cls.declProperties r
      else pure r
    match dynProps with
    | some arr => pure (arr.foldl (fun a e => ArrayData.set a e.1 e.2) r.1)
    | none => pure r.1

/-! ## Comparison -/

/-- `throw_collection_compare_exception`. -/
def throw_collection_compare_exception {α : Type} : Except Fault α :=
  Except.error Fault.collectionCompare

/-- The state in which `other` is the instance operated on. -/
def State.on (s : State) (other : ObjectData) : State := { s with this := other }

/-- `ObjectData::equal`; `this == &other` compares identities. -/
def ObjectData.equal (env : Engine) (other : ObjectData) (s : State) : Except Fault Bool :=
  if s.this.addr == other.addr then Except.ok true
  else if s.this.isCollection then env.collections_equals s.this other
  else if s.this.instanceof env.s_DateTimeInterfaceClass
      && other.instanceof env.s_DateTimeInterfaceClass then
    (env.DateTimeData_compare s.this other).map (fun c => c == 0)
  else if s.this.m_cls.ptr != other.m_cls.ptr then Except.ok false
  else if s.this.instanceof env.s_ArrayObjectClass then
    env.Array_equal (ObjectData.o_getArray [] false s) (ObjectData.o_getArray [] false (s.on other))
  else if s.this.instanceof env.c_Closure_classof then Except.ok false
  else env.Array_equal (ObjectData.toArray env false s) (ObjectData.toArray env false (s.on other))

/-- `ObjectData::less`. -/
def ObjectData.less (env : Engine) (other : ObjectData) (s : State) : Except Fault Bool :=
  if s.this.isCollection || other.isCollection then throw_collection_compare_exception
  else if s.this.addr == other.addr then Except.ok false
  else if s.this.instanceof env.s_DateTimeInterfaceClass
      && other.instanceof env.s_DateTimeInterfaceClass then
    (env.DateTimeData_compare s.this other).map (fun c => c == -1)
  else if s.this.instanceof env.c_Closure_classof then Except.ok false
  else if s.this.m_cls.ptr != other.m_cls.ptr then Except.ok false
  else env.Array_less (ObjectData.toArray env false s) (ObjectData.toArray env false (s.on other))

/-- `ObjectData::more`. -/
def ObjectData.more (env : Engine) (other : ObjectData) (s : State) : Except Fault Bool :=
  if s.this.isCollection || other.isCollection then throw_collection_compare_exception
  else if s.this.addr == other.addr then Except.ok false
  else if s.this.instanceof env.s_DateTimeInterfaceClass
      && other.instanceof env.s_DateTimeInterfaceClass then
    (env.DateTimeData_compare s.this other).map (fun c => c == 1)
  else if s.this.instanceof env.c_Closure_classof then Except.ok false
  else if s.this.m_cls.ptr != other.m_cls.ptr then Except.ok false
  else env.Array_more (ObjectData.toArray env false s) (ObjectData.toArray env false (s.on other))

/-- `ObjectData::compare`. -/
def ObjectData.compare (env : Engine) (other : ObjectData) (s : State) : Except Fault Int :=
  if s.this.isCollection || other.isCollection then throw_collection_compare_exception
  else if s.this.addr == other.addr then Except.ok 0
  else if s.this.instanceof env.s_DateTimeInterfaceClass
      && other.instanceof env.s_DateTimeInterfaceClass then
    match env.DateTimeData_getTimestamp s.this with
    | Except.error e => Except.error e
    | Except.ok t1 =>
      match env.DateTimeData_getTimestamp other with
      | Except.error e => Except.error e
      | Except.ok t2 => Except.ok (if t1 < t2 then -1 else if t1 > t2 then 1 else 0)
  else if s.this.instanceof env.c_Closure_classof then Except.ok 1
  else if s.this.m_cls.ptr != other.m_cls.ptr then Except.ok 1
  else
    env.Array_compare (ObjectData.toArray env false s) (ObjectData.toArray env false (s.on other))

/-! ## Clone -/

/-- `table.emplace(inst, arr)`: a new entry, unless the instance has one. -/
def DynPropTable.emplace (t : DynPropTable) (inst : Nat) (arr : ArrayData) : DynPropTable :=
  if (DynPropTable.find t inst).isSome then t else t ++ [(inst, arr)]

/-- `new (tl_heap->objMalloc(size)) ObjectData(cls, InitRaw{}, cls->getODAttrs())`:
the instance the constructor leaves at the address `mem` the allocator hands
out, with the id `id` it assigns: of class `cls`, with one reference and
slots not yet written. -/
def ObjectData.InitRaw (cls : Class) (mem id : Nat) : ObjectData :=
  { addr := mem, m_cls := cls, o_id := id, m_count := 1,
    propVec := List.replicate cls.numDeclProperties TypedValue.uninit }

/-- The value `clone` writes into slot `i` of the new instance. -/
def ObjectData.clonePropVal (env : Engine) (o : ObjectData) (i : Slot) : TypedValue :=
  if (o.m_cls.declProp i).attrs.AttrNoSerialize then
    -- need to write default value, not value from instance we're cloning
    if o.m_cls.pinitVec.length > 0 then
      let init := o.m_cls.getPropData.getD i default
      if init.deepInit then env.deepCopy init.val else init.val
    else o.m_cls.declPropInit.getD i TypedValue.uninit
  else o.propVec.getD i TypedValue.uninit

/-- The part of `clone` before the clone hook: the new instance with its
slots written, and the copy of the store in the side table. -/
def ObjectData.cloneCopy (env : Engine) (mem id : Nat) (s : State) : ObjectData × State :=
  let nProps := s.this.m_cls.numDeclProperties
  let clone : ObjectData :=
    if s.this.hasNativeData then env.nativeDataInstanceCopyCtor s.this
    else ObjectData.InitRaw s.this.m_cls mem id
  let clonePropVec := (List.range nProps).foldl
    (fun v i => v.set i (ObjectData.clonePropVal env s.this i)) clone.propVec
  let clone := { clone with propVec := clonePropVec }
  if s.this.HasDynPropArr then
    ({ clone with HasDynPropArr := true },
     { s with dynPropTable := DynPropTable.emplace s.dynPropTable clone.addr s.dynPropArray })
  else (clone, s)

/-! ## Destruction and release -/

/-- `invoke_destructor`: a fault that escapes the destructor is swallowed
(`handle_destructor_exception`). -/
def invoke_destructor (env : Engine) (dtor : String) (s : State) : State :=
  match invokeMethod env dtor [] s with
  | (Except.ok _, s1) => s1
  | (Except.error e, s1) =>
    { s1 with trace := s1.trace ++ [Event.destructorException s1.this.addr e] }

/-- `ObjectData::hasExactlyOneRef`. -/
def ObjectData.hasExactlyOneRef (o : ObjectData) : Bool := o.m_count == 1

/-- `ObjectData::destructImpl`: whether the teardown may go on, and the state
reached.  `CountableHelper` raises the count before the call and lowers it
when the function is left, after the count has been inspected. -/
def ObjectData.destructImpl (env : Engine) (s : State) : Bool × State :=
  let s := { s with this := { s.this with NoDestructor := true } }
  match s.this.m_cls.getDtor with
  | none => (true, s)
  | some dtor =>
    if s.m_unwindingCppException then (true, s)
    else
      let s := { s with this := { s.this with m_count := 0 } }
      let s := { s with this := { s.this with m_count := s.this.m_count + 1 } }
      let s1 := invoke_destructor env dtor s
      (s1.this.hasExactlyOneRef,
       { s1 with this := { s1.this with m_count := s1.this.m_count - 1 } })

/-- `freeDynPropArray`. -/
def freeDynPropArray (s : State) : State :=
  { s with dynPropTable := DynPropTable.erase s.dynPropTable s.this.addr }

/-- The decrement `--pmax` of the `uint32_t` maximum id. -/
def decMaxId (pmax : Nat) : Nat := (pmax + (2 ^ 32 - 1)) % 2 ^ 32

/-- The teardown of `releaseNoObjDestructCheck`, after the destructor: the
slots are released, the store is freed, the maximum id is lowered when the
instance holds it, weak references are invalidated and the memory is freed. -/
def ObjectData.teardown (s : State) : State :=
  if s.this.HasInstanceDtor then
    { s with trace := s.trace ++ [Event.instanceDtor s.this.addr] }
  else
    let nProps := s.this.m_cls.numDeclProperties
    let s := { s with trace := s.trace ++ (s.this.propVec.take nProps).map Event.tvDecRefGen }
    let s := if s.this.HasDynPropArr then freeDynPropArray s else s
    let s :=
      if s.this.o_id != 0 && s.this.o_id == s.os_max_id then
        { s with os_max_id := decMaxId s.os_max_id }
      else s
    { s with trace :=
        s.trace ++ [Event.invalidateWeakRef s.this.addr, Event.objFree s.this.addr nProps] }

/-- `ObjectData::releaseNoObjDestructCheck`. -/
def ObjectData.releaseNoObjDestructCheck (env : Engine) (s : State) : State :=
  if !env.one_bit_refcount && !s.this.NoDestructor then
    let r := ObjectData.destructImpl env s
    if !r.1 then r.2 else ObjectData.teardown r.2
  else ObjectData.teardown s

/-- `tail_call_remove_live_bc_obj`. -/
def tail_call_remove_live_bc_obj (env : Engine) (s : State) : State :=
  ObjectData.releaseNoObjDestructCheck env
    { s with m_liveBCObjs := s.m_liveBCObjs.erase s.this.addr }

/-- `ObjectData::release`. -/
def ObjectData.release (env : Engine) (s : State) : State :=
  if env.EnableObjDestructCall && s.this.m_cls.getDtor.isSome then
    tail_call_remove_live_bc_obj env s
  else ObjectData.releaseNoObjDestructCheck env s

/-- `decRefObj`, as the holder `Object` runs it when it goes out of scope:
the last reference releases the instance, any other is dropped. -/
def decRefObj (env : Engine) (s : State) : State :=
  if s.this.hasExactlyOneRef then ObjectData.release env s
  else { s with this := { s.this with m_count := s.this.m_count - 1 } }

/-- `ObjectData::clone`.  The clone hook runs on the new instance; the
instance returned is the one the hook leaves.  When the hook raises, the
holder `Object clone` goes out of scope and drops the new instance. -/
def ObjectData.clone (env : Engine) (mem id : Nat) : Exec ObjectData := fun s =>
  if s.this.isCppBuiltin then
    if s.this.isCollection then (Except.ok (env.collections_clone s.this), s)
    else if s.this.instanceof env.c_Closure_classof then
      (Except.ok (env.c_Closure_clone s.this), s)
    else (Except.error (env.instanceCtor s.this.m_cls.ptr), s)
  else
    let copy := ObjectData.cloneCopy env mem id s
    if s.this.m_cls.HasClone then
      match invokeMethod env "__clone" [] (copy.2.on copy.1) with
      | (Except.ok _, s2) => (Except.ok s2.this, s2.on s.this)
      | (Except.error e, s2) => (Except.error e, (decRefObj env s2).on s.this)
    else (Except.ok copy.1, copy.2)

/-- `ObjectData::destructForExit`.  It is called for the instances on the
list of live objects, whose classes have a destructor; for a class without
one there is no method to invoke. -/
def ObjectData.destructForExit (env : Engine) (s : State) : State :=
  let dtor := s.this.m_cls.getDtor
  let s :=
    if dtor.isSome then { s with m_liveBCObjs := s.m_liveBCObjs.erase s.this.addr } else s
  if s.this.NoDestructor then s
  else
    let s := { s with this := { s.this with NoDestructor := true } }
    let s := { s with this := { s.this with m_count := s.this.m_count + 1 } }
    let s1 :=
      match dtor with
      | some d => invoke_destructor env d s
      | none => s
    { s1 with this := { s1.this with m_count := s1.this.m_count - 1 } }

/-- `ObjectData::~ObjectData`. -/
def ObjectData.dtor (s : State) : State :=
  let s :=
    if s.this.o_id != 0 && s.this.o_id == s.os_max_id then
      { s with os_max_id := decMaxId s.os_max_id }
    else s
  if s.this.HasDynPropArr then freeDynPropArray s else s

/-- `ObjectData::o_setArray`: every entry is written with `setProp`; a key
that begins with NUL names a private or protected property, and the class
is read from between the two NUL bytes. -/
def ObjectData.o_setArray (env : Engine) : ArrayData → Exec Unit
  | [] => pure ()
  | (k, v) :: rest => do
    let s ← Exec.get
    if k != "" && k.data.head? == some (Char.ofNat 0) then
      let subLen := env.String_find k (Char.ofNat 0) 1 + 1
      let cls := env.String_substr k 1 (some (subLen - 2))
      if cls.length == 1 && cls.data.head? == some (Char.ofNat 42) then
        -- Protected.
        ObjectData.setProp env (some s.this.m_cls.ptr) (env.String_substr k subLen none) v
        ObjectData.o_setArray env rest
      else
        -- Private.
        match env.lookupClass cls with
        | none => ObjectData.o_setArray env rest
        | some ctx =>
          ObjectData.setProp env (some ctx) (env.String_substr k subLen none) v
          ObjectData.o_setArray env rest
    else
      ObjectData.setProp env none k v
      ObjectData.o_setArray env rest

/-! ## Vocabulary of the statements -/

/-- Promotion of the single active key to a set, as done on the nested path. -/
def PropRecurInfo.promote (r : PropRecurInfo) : PropRecurInfo :=
  match r.activePropInfo with
  | none => r
  | some active =>
    { r with activeSet := some (match r.activeSet with
                                | some set => set
                                | none => [active]) }

/-- The guard record while the body of an admitted accessor runs. -/
def PropRecurInfo.enter (r : PropRecurInfo) (info : PropAccessInfo) : PropRecurInfo :=
  match r.activePropInfo with
  | none => { r with activePropInfo := some info }
  | some _ => { r with activeSet := some (r.activeKeys ++ [info]) }

/-- The guard record after the body of an admitted accessor has exited:
`outer` is the record before the call, `inner` the one the body left. -/
def PropRecurInfo.leave (outer : PropRecurInfo) (info : PropAccessInfo)
    (inner : PropRecurInfo) : PropRecurInfo :=
  match outer.activePropInfo with
  | none => { activePropInfo := none, activeSet := none }
  | some _ =>
    { inner with activeSet := inner.activeSet.map (fun set => RecurSet.erase set info) }

/-- Outcome of an admitted accessor: the value of the body, reported as handled. -/
def handled : Except Fault TypedValue → Except Fault InvokeResult
  | Except.ok v => Except.ok { val := v, ok := true }
  | Except.error e => Except.error e

/-- The guard record `r1` is what a balanced computation leaves of `r`: the
same active accessor, the same active keys, and the very same record once
the set has been promoted. -/
def GuardBalanced (r r1 : PropRecurInfo) : Prop :=
  r1.activePropInfo = r.activePropInfo ∧ r1.activeKeys = r.activeKeys ∧
    (r.activePropInfo ≠ none → r.activeSet ≠ none → r1 = r)

/-- The key under which an accessor of the given kind runs for `this`. -/
abbrev State.accessKey (s : State) (key : String) (kind : RuntimeAttribute) : PropAccessInfo :=
  { obj := s.this.addr, key := key, rt_attr := kind }

/-- The state with the single active key promoted to a set. -/
def State.promote (s : State) : State :=
  { s with propRecurInfo := s.propRecurInfo.promote }

/-- The state after the guard was consulted (if it was) and declined. -/
def State.afterDeclined (s : State) (consulted : Bool) : State :=
  if consulted then s.promote else s

/-- The state after `makeDynProp key` has materialized a new dynamic property. -/
def State.withNewDynProp (s : State) (key : String) : State :=
  { s with
    this := { s.this with HasDynPropArr := true },
    dynPropTable :=
      DynPropTable.assign s.dynPropTable s.this.addr (s.dynPropArray ++ [(key, TypedValue.null)]) }

/-- The same state for an object whose class does not use the get hook. -/
def State.withoutGetHook (s : State) : State :=
  { s with this := { s.this with m_cls := { s.this.m_cls with UseGet := false } } }

/-- What user-level code cannot change: the header of the instance (class,
identity, flags other than the store flag) and the trace. -/
def State.fixed (s : State) : ObjectData × List Event :=
  ({ s.this with propVec := [], HasDynPropArr := false, m_count := 0 }, s.trace)

/-- What the read variants do once neither a declared property, nor the
native handler, nor the get hook has answered. -/
def ObjectData.propImplTail (mode : PropMode) (tvRef : TypedValue) (key : String) :
    Exec PropRet := do
  if firstByteIsNul key then
    Exec.throw (Fault.invalidPropertyName key)
  else
    if mode = PropMode.ReadWarn then ObjectData.raiseUndefProp key
    if mode.write then
      let p ← ObjectData.makeDynProp key
      pure { handle := p, tvRef := tvRef }
    else pure { handle := Lval.immutable_null_base, tvRef := tvRef }

/-! ## Example data -/

/-- Example class "C" (identity 1): an immutable public "a", a private "b"
and a protected "c", the last two accessible only from "C" itself. -/
def wCls : Class :=
  { ptr := 1, name := "C",
    declProperties :=
      [{ name := "a", attrs := { AttrIsImmutable := true } },
       { name := "b", attrs := { AttrPrivate := true } },
       { name := "c", attrs := { AttrProtected := true } }],
    getDeclPropIndex := fun ctx key =>
      if key == "a" then { prop := 0, accessible := true }
      else if key == "b" then { prop := 1, accessible := ctx == some 1 }
      else if key == "c" then { prop := 2, accessible := ctx == some 1 }
      else { prop := kInvalidSlot, accessible := false },
    lookupDeclProp := fun key =>
      if key == "a" then 0 else if key == "b" then 1 else if key == "c" then 2
      else kInvalidSlot }

/-- Example instance of "C" at address 7 with "a" and "b" initialized and no
dynamic-property store. -/
def wState : State :=
  { this := { addr := 7, m_cls := wCls,
              propVec := [TypedValue.int 1, TypedValue.int 2, TypedValue.uninit] } }

/-- Example class using the set and get hooks, with the immutable "a". -/
def wClsHooks : Class := { wCls with UseGet := true, UseSet := true, UseIsset := true }

/-- Example instance of the hook-using class whose slot "a" is uninitialized. -/
def wStateHooks : State :=
  { this := { addr := 7, m_cls := wClsHooks,
              propVec := [TypedValue.uninit, TypedValue.int 2, TypedValue.uninit] } }

/-- Example instance still under construction, with the immutable "a"
initialized. -/
def wStateCtor : State :=
  { this := { addr := 7, m_cls := wCls, IsBeingConstructed := true,
              propVec := [TypedValue.int 1, TypedValue.int 2, TypedValue.uninit] } }

/-- Example class that forbids dynamic properties and declares none. -/
def wClsForbid : Class := { ptr := 2, name := "F", forbidsDynamicProps := true }

/-- Example instance of the forbidding class, without a dynamic-property store. -/
def wStateForbid : State := { this := { addr := 9, m_cls := wClsForbid } }

/-- Example: the hook-using instance while its get accessor for the private
"b" is active. -/
def wStateDeclined : State :=
  { this := { addr := 7, m_cls := wClsHooks,
              propVec := [TypedValue.uninit, TypedValue.int 2, TypedValue.uninit] },
    propRecurInfo :=
      { activePropInfo := some { obj := 7, key := "b", rt_attr := RuntimeAttribute.UseGet } } }

/-- Example engine whose every method materializes the dynamic property "d"
on the instance at address 7 and returns 5. -/
def wEngineDyn : Engine :=
  { method := fun _ _ _ =>
      HookProg.effect
        (fun m => { m with HasDynPropArr := true,
                           dynPropTable := [(7, [("d", TypedValue.int 1)])] })
        (HookProg.ret (TypedValue.int 5)) }

/-- The state after `makeDynProp key`: the store exists and holds `key`
(with null when the key is new). -/
def State.materialize (s : State) (key : String) : State :=
  { s with
    this := { s.this with HasDynPropArr := true },
    dynPropTable :=
      DynPropTable.assign s.dynPropTable s.this.addr
        (ArrayData.lvalAt (if s.this.HasDynPropArr then s.dynPropArray else []) key) }

/-- Example engine with integer arithmetic for the member operations, whose
every method returns 100. -/
def wEngineArith : Engine :=
  { method := fun _ _ _ => HookProg.ret (TypedValue.int 100),
    setopBody := fun _ lhs rhs =>
      match lhs, rhs with
      | TypedValue.int a, TypedValue.int b => Except.ok (TypedValue.int (a + b))
      | TypedValue.null, TypedValue.int b => Except.ok (TypedValue.int b)
      | _, _ => Except.ok lhs,
    IncDecBody := fun _ v =>
      match v with
      | TypedValue.int a => Except.ok (TypedValue.int (a + 1), TypedValue.int (a + 1))
      | TypedValue.null => Except.ok (TypedValue.int 1, TypedValue.int 1)
      | _ => Except.ok (v, v) }

/-- Example class "C" using the get hook but not the set hook. -/
def wClsGetOnly : Class := { wCls with UseGet := true }

/-- Example instance of the get-only class holding the dynamic property
"x" = 5. -/
def wStateDynX : State :=
  { this := { addr := 7, m_cls := wClsGetOnly, HasDynPropArr := true,
              propVec := [TypedValue.int 1, TypedValue.int 2, TypedValue.uninit] },
    dynPropTable := [(7, [("x", TypedValue.int 5)])] }

/-- Example instance of the get-only class without a store. -/
def wStateGetOnly : State :=
  { this := { addr := 7, m_cls := wClsGetOnly,
              propVec := [TypedValue.int 1, TypedValue.int 2, TypedValue.uninit] } }

mutual
/-- The properties of a trait: its own, then those of the traits it uses. -/
def TraitClass.allProps : TraitClass → List PreClass.Prop
  | .mk pc used => pc.properties ++ TraitClass.allPropsList used
/-- The properties of a list of traits, trait by trait. -/
def TraitClass.allPropsList : List TraitClass → List PreClass.Prop
  | [] => []
  | traitCls :: rest => TraitClass.allProps traitCls ++ TraitClass.allPropsList rest
end

/-- The declarations met at one class of the chain: its own declared
properties in declaration order, then those of the traits it uses. -/
def ChainClass.visits (c : ChainClass) : List (ChainClass × PreClass.Prop) :=
  (c.preClass.properties ++ TraitClass.allPropsList c.usedTraitClasses).map (fun p => (c, p))

/-- The slot a declaration names. -/
def ChainClass.slotOf (v : ChainClass × PreClass.Prop) : Slot := v.1.lookupDeclProp v.2.name

/-- A declaration is entered when it is not static, not exempt, public if
only public ones are asked for, and its slot is initialized. -/
def ObjectData.entered (o : ObjectData) (pubOnly : Bool) (v : ChainClass × PreClass.Prop) : Bool :=
  !(v.2.attrs.AttrStatic || v.2.attrs.AttrNoSerialize)
    && (!pubOnly || v.2.attrs.AttrPublic)
    && o.propVec.getD (ChainClass.slotOf v) TypedValue.uninit != TypedValue.uninit

/-- The first occurrence of every slot: a declaration whose slot was seen
before is dropped. -/
def firstOccurrence : List Slot → List (ChainClass × PreClass.Prop) →
    List (ChainClass × PreClass.Prop)
  | _, [] => []
  | seen, v :: rest =>
    if ChainClass.slotOf v ∈ seen then firstOccurrence seen rest
    else v :: firstOccurrence (ChainClass.slotOf v :: seen) rest

/-- The entry of a declaration: the mangled name of its slot and the slot's value. -/
def ObjectData.entryOf (o : ObjectData) (v : ChainClass × PreClass.Prop) : String × TypedValue :=
  ((v.1.declProperties.getD (ChainClass.slotOf v) default).mangledName,
   o.propVec.getD (ChainClass.slotOf v) TypedValue.uninit)

/-- The declared part of the reference sequence: walking the chain from the
class of the object to the root, the entered declarations, each slot at its
first occurrence. -/
def ObjectData.declaredEntries (o : ObjectData) (pubOnly : Bool) : ArrayData :=
  (firstOccurrence []
    (((o.m_cls.chain.map ChainClass.visits).flatten).filter (o.entered pubOnly))).map o.entryOf

/-- The reference sequence of the projection: the declared entries, then the
dynamic properties in the order of the store. -/
def State.projection (s : State) (pubOnly : Bool) : ArrayData :=
  s.this.declaredEntries pubOnly ++ (if s.this.HasDynPropArr then s.dynPropArray else [])

/-- One step of the walk: `getProp` on a declaration. -/
def ObjectData.visit (o : ObjectData) (pubOnly : Bool) (acc : ArrayData × List Bool)
    (v : ChainClass × PreClass.Prop) : ArrayData × List Bool :=
  o.getPropArr v.1 pubOnly v.2 acc

/-- Example base class body: it declares "a" as protected. -/
def wBase : ChainClass :=
  { preClass := { properties := [{ name := "a", attrs := { AttrProtected := true } }] },
    lookupDeclProp := fun n => if n == "a" then 0 else kInvalidSlot,
    declProperties := [{ name := "a", mangledName := "\x00*\x00a",
                         attrs := { AttrProtected := true } }] }

/-- Example derived class "D": it redeclares "a" as public and declares "b". -/
def wDerived : Class :=
  { ptr := 3, name := "D",
    declProperties :=
      [{ name := "a", mangledName := "a", attrs := { AttrPublic := true } },
       { name := "b", mangledName := "b", attrs := { AttrPublic := true } }],
    lookupDeclProp := fun n => if n == "a" then 0 else if n == "b" then 1 else kInvalidSlot,
    getDeclPropIndex := fun _ n =>
      if n == "a" then { prop := 0, accessible := true }
      else if n == "b" then { prop := 1, accessible := true }
      else { prop := kInvalidSlot, accessible := false },
    declPropNumAccessible := 2,
    preClass := { properties := [{ name := "a", attrs := { AttrPublic := true } },
                                 { name := "b", attrs := { AttrPublic := true } }] },
    parents := [wBase] }

/-- Example instance of "D" with a = 1, b = 2 and the dynamic property d = 3. -/
def wStateDerived : State :=
  { this := { addr := 11, m_cls := wDerived, HasDynPropArr := true,
              propVec := [TypedValue.int 1, TypedValue.int 2] },
    dynPropTable := [(11, [("d", TypedValue.int 3)])] }

/-- Example base class body: it declares "a" as public. -/
def wBasePub : ChainClass :=
  { preClass := { properties := [{ name := "a", attrs := { AttrPublic := true } }] },
    lookupDeclProp := fun n => if n == "a" then 0 else kInvalidSlot,
    declProperties := [{ name := "a", mangledName := "a", attrs := { AttrPublic := true } }] }

/-- Example trait "T" declaring the public property "t". -/
def wTrait : TraitClass :=
  TraitClass.mk { properties := [{ name := "t", attrs := { AttrPublic := true } }] } []

/-- Example class "E" extending the base class: it redeclares "a" and uses
the trait "T" (not flattened into its body), so its slots are a and t, both
accessible. -/
def wClsTrait : Class :=
  { ptr := 4, name := "E",
    declProperties :=
      [{ name := "a", mangledName := "a", attrs := { AttrPublic := true } },
       { name := "t", mangledName := "t", attrs := { AttrPublic := true } }],
    lookupDeclProp := fun n => if n == "a" then 0 else if n == "t" then 1 else kInvalidSlot,
    getDeclPropIndex := fun _ n =>
      if n == "a" then { prop := 0, accessible := true }
      else if n == "t" then { prop := 1, accessible := true }
      else { prop := kInvalidSlot, accessible := false },
    declPropNumAccessible := 2,
    preClass := { properties := [{ name := "a", attrs := { AttrPublic := true } }] },
    usedTraitClasses := [wTrait],
    parents := [wBasePub] }

/-- Example instance of "E" with a = 1 and t = 2. -/
def wStateTrait : State :=
  { this := { addr := 12, m_cls := wClsTrait,
              propVec := [TypedValue.int 1, TypedValue.int 2] } }

/-- Neither a collection, nor an array-object wrapper, nor a closure. -/
def ObjectData.isGeneric (env : Engine) (o : ObjectData) : Bool :=
  !o.isCollection && !o.instanceof env.s_ArrayObjectClass && !o.instanceof env.c_Closure_classof

/-- Both operands are date/time values. -/
def ObjectData.isDateTimePair (env : Engine) (a b : ObjectData) : Bool :=
  a.instanceof env.s_DateTimeInterfaceClass && b.instanceof env.s_DateTimeInterfaceClass

/-- Example instance of "D" with a = 1, b = 2 and no dynamic property. -/
def wTwinA : ObjectData :=
  { addr := 13, m_cls := wDerived, propVec := [TypedValue.int 1, TypedValue.int 2] }

/-- A second example instance of "D" with the same contents. -/
def wTwinB : ObjectData :=
  { addr := 14, m_cls := wDerived, propVec := [TypedValue.int 1, TypedValue.int 2] }

/-- A third example instance of "D", with b = 5. -/
def wTwinC : ObjectData :=
  { addr := 15, m_cls := wDerived, propVec := [TypedValue.int 1, TypedValue.int 5] }

/-- Example collection instance. -/
def wCollection : ObjectData := { addr := 16, m_cls := { ptr := 5, name := "Vector" },
                                  isCollection := true, isCppBuiltin := true }

/-- Example engine whose comparison of arrays raises the collection-comparison
fault when it meets an object among the elements of both arrays (the
elements being collections), and compares lengths otherwise. -/
def wEngineElems : Engine :=
  { Array_less := fun a b =>
      if a.any (fun e => match e.2 with | TypedValue.obj _ => true | _ => false)
          && b.any (fun e => match e.2 with | TypedValue.obj _ => true | _ => false) then
        Except.error Fault.collectionCompare
      else Except.ok (decide (a.length < b.length)) }

/-- Example instance of "D" whose property a holds an object. -/
def wHolderA : ObjectData :=
  { addr := 17, m_cls := wDerived, propVec := [TypedValue.obj 16, TypedValue.int 2] }

/-- A second example instance of "D" whose property a holds an object. -/
def wHolderB : ObjectData :=
  { addr := 18, m_cls := wDerived, propVec := [TypedValue.obj 16, TypedValue.int 2] }

/-- The declared default of slot `i`: the entry of the per-request property
data when the class has property initializers (copied deeply when marked
so), the entry of the class's initial values otherwise. -/
def Class.declaredDefault (env : Engine) (c : Class) (i : Slot) : TypedValue :=
  if c.pinitVec.length > 0 then
    if (c.getPropData.getD i default).deepInit then env.deepCopy (c.getPropData.getD i default).val
    else (c.getPropData.getD i default).val
  else c.declPropInit.getD i TypedValue.uninit

/-- Example class "M" with a plain slot x and a slot cache that is exempt
from duplication and defaults to null. -/
def wClsMemo : Class :=
  { ptr := 6, name := "M",
    declProperties := [{ name := "x", mangledName := "x", attrs := { AttrPublic := true } },
                       { name := "cache", mangledName := "cache",
                         attrs := { AttrPublic := true, AttrNoSerialize := true } }],
    declPropInit := [TypedValue.int 0, TypedValue.null] }

/-- Example instance of "M" with x = 5, cache = 99 and the dynamic property
p = "a". -/
def wStateMemo : State :=
  { this := { addr := 20, m_cls := wClsMemo, HasDynPropArr := true,
              propVec := [TypedValue.int 5, TypedValue.int 99] },
    dynPropTable := [(20, [("p", TypedValue.str "a")])] }

/-- The thread-level data that user-level code cannot change in this model:
the maximum id, the unwinding flag and the list of live objects. -/
def State.thread (s : State) : Nat × Bool × List Nat :=
  (s.os_max_id, s.m_unwindingCppException, s.m_liveBCObjs)

/-- Example class "R" with a destructor. -/
def wClsDtor : Class :=
  { ptr := 8, name := "R", getDtor := some "__destruct",
    declProperties := [{ name := "x", mangledName := "x", attrs := { AttrPublic := true } }] }

/-- Example instance of "R" being released: it holds the maximum id and has
a dynamic property. -/
def wStateDtor : State :=
  { this := { addr := 30, m_cls := wClsDtor, o_id := 4, m_count := 0, HasDynPropArr := true,
              propVec := [TypedValue.int 1] },
    dynPropTable := [(30, [("p", TypedValue.int 2)])],
    os_max_id := 4 }

/-- Example engine whose destructor stores a new reference to the instance. -/
def wEngineResurrect : Engine :=
  { method := fun _ _ _ =>
      HookProg.effect (fun m => { m with m_count := m.m_count + 1 }) (HookProg.ret TypedValue.null) }

/-- The state in which the destructor is called by `release`: the instance is
off the list of live objects (when destructors at exit are enabled), its
no-destruct flag is set and its count is the one artificial reference. -/
def State.atDestructor (env : Engine) (s : State) : State :=
  { s with
    this := { s.this with NoDestructor := true, m_count := 1 },
    m_liveBCObjs :=
      if env.EnableObjDestructCall then s.m_liveBCObjs.erase s.this.addr else s.m_liveBCObjs }

/-- The store of the instance at address `b`, whichever instance is operated on. -/
def State.storeOf (s : State) (b : Nat) : Option ArrayData := DynPropTable.find s.dynPropTable b

/-- The lookup of `key` from `ctx` finds an accessible, initialized property:
setProp and unsetProp then write it themselves, without consulting a hook. -/
def State.findsInitialized (s : State) (ctx : Option ClassPtr) (key : String) : Bool :=
  ((ObjectData.getPropImpl true ctx key s).prop != Lval.nullptr
    && (ObjectData.getPropImpl true ctx key s).accessible)
  && s.tvAt (ObjectData.getPropImpl true ctx key s).prop != TypedValue.uninit

/-- A call that may run the destructor of an instance. -/
inductive LifecycleCall where
  | release
  | destructForExit
  deriving DecidableEq, Repr, Inhabited

/-- Perform one such call. -/
def LifecycleCall.run (env : Engine) : LifecycleCall → State → State
  | .release => ObjectData.release env
  | .destructForExit => ObjectData.destructForExit env

/-- Perform a sequence of such calls on the instance. -/
def runCalls (env : Engine) (calls : List LifecycleCall) (s : State) : State :=
  calls.foldl (fun t c => c.run env t) s

/-- How often the method `dtor` of the instance has been invoked by the
operations of this file. -/
def State.dtorCalls (s : State) (dtor : String) : Nat :=
  s.trace.count (Event.invokeMethod s.this.addr dtor [])

/-- How many invocations of the destructor the flag still allows. -/
def State.dtorBudget (s : State) : Nat := if s.this.NoDestructor then 0 else 1

/-- One step in the life of an instance, as far as its destructor `dtor` is
concerned: identity and class stay, the no-destruct flag is not cleared, and
each invocation of `dtor` recorded by the step uses up the budget. -/
def DtorStep (dtor : String) (s s1 : State) : Prop :=
  s1.this.addr = s.this.addr ∧ s1.this.m_cls = s.this.m_cls ∧
  (s.this.NoDestructor = true → s1.this.NoDestructor = true) ∧
  ∃ tail : List Event,
    s1.trace = s.trace ++ tail ∧
    tail.count (Event.invokeMethod s.this.addr dtor []) + s1.dtorBudget ≤ s.dtorBudget

/-- The state in which `destructForExit` calls the destructor: the instance is
off the list of live objects, its no-destruct flag is set and its count is
raised by the artificial reference. -/
def State.atExitDestructor (s : State) : State :=
  { s with
    this := { s.this with NoDestructor := true, m_count := s.this.m_count + 1 },
    m_liveBCObjs := s.m_liveBCObjs.erase s.this.addr }

/-- What `release` does once the destructor has been run and has left the
state `t`: the resurrection check, then the teardown or the return. -/
def ObjectData.afterDestructor (t : State) : State :=
  if t.this.m_count = 1 then
    ObjectData.teardown { t with this := { t.this with m_count := 0 } }
  else { t with this := { t.this with m_count := t.this.m_count - 1 } }

/-- Example engine whose destructor raises a fault. -/
def wEngineThrowingDtor : Engine :=
  { method := fun _ _ _ => HookProg.raise (Fault.user 7) }

/-- Example class "C" with the unset hook. -/
def wClsUnset : Class := { wCls with UseUnset := true }

/-- Example instance of the class with the unset hook while its unset
accessor for the private "b" is active. -/
def wStateUnsetDeclined : State :=
  { this := { addr := 7, m_cls := wClsUnset,
              propVec := [TypedValue.int 1, TypedValue.int 2, TypedValue.uninit] },
    propRecurInfo :=
      { activePropInfo := some { obj := 7, key := "b", rt_attr := RuntimeAttribute.UseUnset } } }

/-- The calling context `o_get` and `o_set` derive from a class name. -/
def Engine.contextOf (env : Engine) (context : String) : Option ClassPtr :=
  if context != "" then env.lookupClass context else none

/-- Example: the hook-using instance while its set accessor for the private
"b" is active. -/
def wStateSetDeclined : State :=
  { this := { addr := 7, m_cls := wClsHooks,
              propVec := [TypedValue.uninit, TypedValue.int 2, TypedValue.uninit] },
    propRecurInfo :=
      { activePropInfo := some { obj := 7, key := "b", rt_attr := RuntimeAttribute.UseSet } } }

/-- What `o_setArray` relies on of the string library: `find` returns the
position of the first occurrence at or after the start position, and
`substr` cuts the given number of characters, or the rest, from the given
position. -/
def Engine.StringOps (env : Engine) : Prop :=
  (∀ (pre a b : List Char) (ch : Char), ch ∉ a →
    env.String_find (String.mk (pre ++ a ++ ch :: b)) ch pre.length
      = ((pre.length + a.length : Nat) : Int)) ∧
  (∀ a b c : List Char,
    env.String_substr (String.mk (a ++ b ++ c)) (a.length : Nat) (some ((b.length : Nat) : Int))
      = String.mk b) ∧
  (∀ a b : List Char,
    env.String_substr (String.mk (a ++ b)) (a.length : Nat) none = String.mk b)

/-- The mangled key NUL, C, NUL, p. -/
def mangledKey (C p : List Char) : String :=
  String.mk (Char.ofNat 0 :: C ++ Char.ofNat 0 :: p)

/-- The operation `m` keeps the invariant `I` of the instance and the side
table, whatever its outcome, and every value it returns satisfies `Q`. -/
structure Preserves {α : Type} (I : ObjectData → DynPropTable → Prop) (m : Exec α)
    (Q : α → Prop) : Prop where
  out : ∀ s : State, I s.this s.dynPropTable →
    I (m s).2.this (m s).2.dynPropTable ∧ ∀ a, (m s).1 = Except.ok a → Q a

/-- The user-level program keeps the invariant `I`: each of its effects does. -/
def HookProg.Respects (I : ObjectData → DynPropTable → Prop) : HookProg → Prop
  | .ret _ => True
  | .raise _ => True
  | .effect f k =>
    (∀ s : State, I s.this s.dynPropTable →
      I (s.withMutable (f s.mutable)).this (s.withMutable (f s.mutable)).dynPropTable)
    ∧ HookProg.Respects I k
  | .inspect k => ∀ m, HookProg.Respects I (k m)
  | .magic _ body k => HookProg.Respects I body ∧ ∀ r, HookProg.Respects I (k r)
  | .tryCatch body handler => HookProg.Respects I body ∧ ∀ e, HookProg.Respects I (handler e)

/-- Every method and native handler of the engine keeps the invariant `I`. -/
def Engine.Respects (env : Engine) (I : ObjectData → DynPropTable → Prop) : Prop :=
  (∀ cls meth args, HookProg.Respects I (env.method cls meth args)) ∧
  (∀ cls key, HookProg.Respects I (env.nativeGetProp cls key)) ∧
  (∀ cls key val, HookProg.Respects I (env.nativeSetProp cls key val)) ∧
  (∀ cls key, HookProg.Respects I (env.nativeIssetProp cls key)) ∧
  (∀ cls key, HookProg.Respects I (env.nativeUnsetProp cls key))

/-- The instance is of class `c`, is not under construction, and holds `v`
in its slot `i`. -/
def SlotHolds (c : Class) (i : Slot) (v : TypedValue) : ObjectData → DynPropTable → Prop :=
  fun o _ => o.m_cls = c ∧ o.IsBeingConstructed = false ∧ o.propVec.getD i TypedValue.uninit = v

/-- The handle of the result, if there is one, is not the slot `i`. -/
def handleSafe (i : Slot) : Option PropRet → Prop
  | some ret => ret.handle ≠ Lval.declProp i
  | none => True

/-- A call of one of the write-family operations. -/
inductive WriteOp where
  | setProp (ctx : Option ClassPtr) (key : String) (val : TypedValue)
  | o_set (propName : String) (v : TypedValue) (context : String)
  | setOpProp (tvRef : TypedValue) (ctx : Option ClassPtr) (op : SetOpOp) (key : String)
      (val : TypedValue)
  | incDecProp (ctx : Option ClassPtr) (op : IncDecOp) (key : String)
  | unsetProp (ctx : Option ClassPtr) (key : String)
  | getPropLval (ctx : Option ClassPtr) (key : String)
  | propD (tvRef : TypedValue) (ctx : Option ClassPtr) (key : String)

/-- Run one call of the write family; the value is the pointer the call
hands out to its caller, if it hands out one. -/
def WriteOp.run (env : Engine) : WriteOp → Exec (Option Lval)
  | .setProp ctx key val => do
    ObjectData.setProp env ctx key val
    pure none
  | .o_set propName v context => do
    ObjectData.o_set env propName v context
    pure none
  | .setOpProp tvRef ctx op key val => do
    let r ← ObjectData.setOpProp env tvRef ctx op key val
    pure (some r.handle)
  | .incDecProp ctx op key => do
    let _ ← ObjectData.incDecProp env ctx op key
    pure none
  | .unsetProp ctx key => do
    ObjectData.unsetProp env ctx key
    pure none
  | .getPropLval ctx key => do
    let p ← ObjectData.getPropLval ctx key
    pure (some p)
  | .propD tvRef ctx key => do
    let r ← ObjectData.propD env tvRef ctx key
    pure (some r.handle)

/-- Run a sequence of calls, each from the state the previous one left,
whether it returned or raised. -/
def runWriteOps (env : Engine) (ops : List WriteOp) (s : State) : State :=
  ops.foldl (fun s1 op => (op.run env s1).2) s

/-- The slots the class reports for its declared properties lie within its
declared properties. -/
def Class.slotsValid (c : Class) : Prop :=
  ∀ ctx key, (c.getDeclPropIndex ctx key).prop ≠ kInvalidSlot →
    (c.getDeclPropIndex ctx key).prop < c.numDeclProperties

/-- The side table agrees with the store flags of the instances: the
instance, which lives at `a0`, has an entry exactly when its flag is set, and
any other address `a` has one exactly when `flags a`.  When `b` is set, so is
the flag of the instance. -/
def StoreAgrees (flags : Nat → Bool) (a0 : Nat) (b : Bool) :
    ObjectData → DynPropTable → Prop :=
  fun o t => o.m_cls.slotsValid ∧ o.addr = a0 ∧
    (∀ a, (DynPropTable.find t a).isSome = if a = a0 then o.HasDynPropArr else flags a) ∧
    (b = true → o.HasDynPropArr = true)

/-- A call of one of the operations that touch the store or its flag. -/
inductive StoreOp where
  | reserveProperties
  | setDynPropArray (newArr : ArrayData)
  | makeDynProp (key : String)
  | setProp (ctx : Option ClassPtr) (key : String) (val : TypedValue)
  | setOpProp (tvRef : TypedValue) (ctx : Option ClassPtr) (op : SetOpOp) (key : String)
      (val : TypedValue)
  | incDecProp (ctx : Option ClassPtr) (op : IncDecOp) (key : String)
  | unsetProp (ctx : Option ClassPtr) (key : String)

/-- Run one call that touches the store; what it returns is dropped. -/
def StoreOp.run (env : Engine) : StoreOp → Exec Unit
  | .reserveProperties => ObjectData.reserveProperties
  | .setDynPropArray newArr => ObjectData.setDynPropArray newArr
  | .makeDynProp key => do
    let _ ← ObjectData.makeDynProp key
    pure ()
  | .setProp ctx key val => ObjectData.setProp env ctx key val
  | .setOpProp tvRef ctx op key val => do
    let _ ← ObjectData.setOpProp env tvRef ctx op key val
    pure ()
  | .incDecProp ctx op key => do
    let _ ← ObjectData.incDecProp env ctx op key
    pure ()
  | .unsetProp ctx key => ObjectData.unsetProp env ctx key

/-- User-level code of a hook or native handler, as far as it acts on the
instance it runs on: it returns or raises, looks at the slots and the store
of `this`, catches a fault, or calls an operation of the write family on
`this` and goes on with the pointer the call handed out; a fault of the call
propagates as a fault of the program. -/
inductive UserProg where
  | ret (v : TypedValue)
  | raise (f : Fault)
  | inspect (k : Mutable → UserProg)
  | call (op : WriteOp) (k : Option Lval → UserProg)
  | tryCatch (body : UserProg) (handler : Fault → UserProg)

/-- The user-level methods and native handlers of the classes, as programs
that act through the write family. -/
structure UserHooks where
  method : ClassPtr → String → List TypedValue → UserProg :=
    fun _ _ _ => UserProg.ret TypedValue.null
  nativeGetProp : ClassPtr → String → UserProg := fun _ _ => UserProg.ret TypedValue.uninit
  nativeSetProp : ClassPtr → String → TypedValue → UserProg :=
    fun _ _ _ => UserProg.ret TypedValue.uninit
  nativeIssetProp : ClassPtr → String → UserProg := fun _ _ => UserProg.ret TypedValue.uninit
  nativeUnsetProp : ClassPtr → String → UserProg := fun _ _ => UserProg.ret TypedValue.uninit

/-- The state a hook body has before it: the instance with header `hdr`, its
slots, store and count as user-level code sees them, and the guard record
`G` in force in the body. -/
def State.ofMutable (hdr : ObjectData) (G : PropRecurInfo) (m : Mutable) : State :=
  ({ this := hdr, propRecurInfo := G } : State).withMutable m

/-- Go on with the value of a call, or raise its fault. -/
def HookProg.ofOutcome {α : Type} (r : Except Fault α) (k : α → HookProg) : HookProg :=
  match r with
  | Except.ok a => k a
  | Except.error e => HookProg.raise e

/-- The program of the method invocation engine for user-level code that
runs on the instance with header `hdr` under the guard record `G`.  A call
node runs the operation of this file itself, on `this` as the program finds
it; the hooks the operation invokes in turn are those of `lower`.  What the
operation leaves of the slots, the store and the count is what the program
goes on with. -/
def UserProg.toHook (hdr : ObjectData) (G : PropRecurInfo) (lower : Engine) :
    UserProg → HookProg
  | .ret v => HookProg.ret v
  | .raise f => HookProg.raise f
  | .inspect k => HookProg.inspect (fun m => UserProg.toHook hdr G lower (k m))
  | .call op k =>
    HookProg.inspect (fun m =>
      HookProg.effect (fun m1 => (op.run lower (State.ofMutable hdr G m1)).2.mutable)
        (HookProg.ofOutcome (op.run lower (State.ofMutable hdr G m)).1
          (fun h => UserProg.toHook hdr G lower (k h))))
  | .tryCatch body handler =>
    HookProg.tryCatch (UserProg.toHook hdr G lower body)
      (fun e => UserProg.toHook hdr G lower (handler e))

/-- The guard record in force in the body of the method `meth` called with
`args` on the instance with header `hdr`, when `G` is in force at the call:
a magic accessor runs with its own key entered (`magic_prop_impl`), any
other method with `G`. -/
def hookContext (hdr : ObjectData) (G : PropRecurInfo) (meth : String)
    (args : List TypedValue) : PropRecurInfo :=
  match args with
  | TypedValue.str key :: _ =>
    if meth == "__get" then
      G.enter { obj := hdr.addr, key := key, rt_attr := RuntimeAttribute.UseGet }
    else if meth == "__set" then
      G.enter { obj := hdr.addr, key := key, rt_attr := RuntimeAttribute.UseSet }
    else if meth == "__isset" then
      G.enter { obj := hdr.addr, key := key, rt_attr := RuntimeAttribute.UseIsset }
    else if meth == "__unset" then
      G.enter { obj := hdr.addr, key := key, rt_attr := RuntimeAttribute.UseUnset }
    else G
  | _ => G

/-- The fault of a call nested deeper than the engine goes. -/
def nestingFault : Fault := Fault.raiseError "Maximum function nesting level reached"

/-- The method invocation engine for the user-level code `hooks` running on
the instance with header `hdr`, to the nesting depth `n`, for calls made
under the guard record `G`: the calls of the write family that a hook makes
run with the engine of depth `n - 1` under the guard record of its body.
Deeper than that every hook raises.  The collaborators that are not
user-level code are those of `base`. -/
def reentrantEngine (base : Engine) (hooks : UserHooks) (hdr : ObjectData) :
    Nat → PropRecurInfo → Engine
  | 0, _ =>
    { base with
      method := fun _ _ _ => HookProg.raise nestingFault,
      nativeGetProp := fun _ _ => HookProg.raise nestingFault,
      nativeSetProp := fun _ _ _ => HookProg.raise nestingFault,
      nativeIssetProp := fun _ _ => HookProg.raise nestingFault,
      nativeUnsetProp := fun _ _ => HookProg.raise nestingFault }
  | n + 1, G =>
    { base with
      method := fun cls meth args =>
        (hooks.method cls meth args).toHook hdr (hookContext hdr G meth args)
          (reentrantEngine base hooks hdr n (hookContext hdr G meth args)),
      nativeGetProp := fun cls key =>
        (hooks.nativeGetProp cls key).toHook hdr G (reentrantEngine base hooks hdr n G),
      nativeSetProp := fun cls key val =>
        (hooks.nativeSetProp cls key val).toHook hdr G (reentrantEngine base hooks hdr n G),
      nativeIssetProp := fun cls key =>
        (hooks.nativeIssetProp cls key).toHook hdr G (reentrantEngine base hooks hdr n G),
      nativeUnsetProp := fun cls key =>
        (hooks.nativeUnsetProp cls key).toHook hdr G (reentrantEngine base hooks hdr n G) }

/-- The method invocation engine for the user-level code `hooks` running on
`this`, to the nesting depth `n`, for the calls made in the state `s`. -/
def State.userEngine (s : State) (base : Engine) (hooks : UserHooks) (n : Nat) : Engine :=
  reentrantEngine base hooks s.this n s.propRecurInfo

/-- Example user-level code: the set hook writes 7 into the private "b" from
inside the class and then writes 5 into the immutable "a"; every other
method returns null. -/
def wHooksReenter : UserHooks :=
  { method := fun _ meth _ =>
      if meth == "__set" then
        UserProg.call (WriteOp.setProp (some 1) "b" (TypedValue.int 7)) (fun _ =>
          UserProg.call (WriteOp.setProp none "a" (TypedValue.int 5))
            (fun _ => UserProg.ret TypedValue.null))
      else UserProg.ret TypedValue.null }

/-- An element of an array: a cell, or `KindOfRef` with the `RefData` box it
points to. -/
inductive RefTV where
  | cell (v : TypedValue)
  | ref (pref : Nat)
  deriving DecidableEq, Repr, Inhabited

/-- A `RefData`: the boxed cell and the reference count of the box. -/
structure RefData where
  tv : TypedValue := TypedValue.uninit
  m_count : Nat := 0
  deriving DecidableEq, Repr, Inhabited

/-- `RefData::isReferenced`: something besides one holder points to the box. -/
def RefData.isReferenced (r : RefData) : Bool := decide (2 ≤ r.m_count)

/-- The elements of an array that may hold boxes, in order. -/
abbrev RefArray := List (String × RefTV)

/-- Lookup of an element (`rval`). -/
def RefArray.rval (a : RefArray) (key : String) : Option RefTV :=
  (a.find? (fun e => e.1 == key)).map (fun e => e.2)

/-- Store under a key, in place when the key exists, appended otherwise. -/
def RefArray.set : RefArray → String → RefTV → RefArray
  | [], key, v => [(key, v)]
  | e :: rest, key, v =>
    if e.1 == key then (key, v) :: rest else e :: RefArray.set rest key v

/-- Removal of a key (`remove`). -/
def RefArray.remove (a : RefArray) (key : String) : RefArray :=
  a.filter (fun e => !(e.1 == key))

/-- An `ArrayData` on the heap: its elements and its reference count. -/
structure SharedArray where
  elems : RefArray := []
  m_count : Nat := 0
  deriving DecidableEq, Repr, Inhabited

/-- `ArrayData::cowCheck`: the array has more than one holder, so a writer
must copy it first. -/
def SharedArray.cowCheck (a : SharedArray) : Bool := decide (1 < a.m_count)

/-- The request heap as far as the dynamic-property stores go: the boxes and
the arrays by address, and the side table that maps an instance to the
address of its array. -/
structure RefHeap where
  refs : List RefData := []
  arrays : List SharedArray := []
  dynPropTable : List (Nat × Nat) := []
  deriving DecidableEq, Repr, Inhabited

/-- The box at an address. -/
def RefHeap.refAt (h : RefHeap) (p : Nat) : RefData := (h.refs[p]?).getD {}

/-- The array at an address. -/
def RefHeap.arrayAt (h : RefHeap) (a : Nat) : SharedArray := (h.arrays[a]?).getD {}

/-- Entry of an instance in the side table (`find`). -/
def RefHeap.find (h : RefHeap) (inst : Nat) : Option Nat :=
  (List.find? (fun e => e.1 == inst) h.dynPropTable).map (fun e => e.2)

/-- `table[inst].arr() = arr`: overwrite the entry, or create it. -/
def RefHeap.assignEntry : List (Nat × Nat) → Nat → Nat → List (Nat × Nat)
  | [], inst, a => [(inst, a)]
  | e :: rest, inst, a =>
    if e.1 == inst then (inst, a) :: rest else e :: RefHeap.assignEntry rest inst a

/-- `tvToCell`: the cell itself, or the cell in the box. -/
def RefHeap.tvToCell (h : RefHeap) : RefTV → TypedValue
  | RefTV.cell v => v
  | RefTV.ref p => (h.refAt p).tv

/-- One more holder of a box (`incRefCount`). -/
def RefHeap.incRef (refs : List RefData) (p : Nat) : List RefData :=
  refs.set p { tv := ((refs[p]?).getD {}).tv, m_count := ((refs[p]?).getD {}).m_count + 1 }

/-- One holder of a box less (`decRefCount`); a box nobody holds is dead. -/
def RefHeap.decRef (refs : List RefData) (p : Nat) : List RefData :=
  refs.set p { tv := ((refs[p]?).getD {}).tv, m_count := ((refs[p]?).getD {}).m_count - 1 }

/-- The copy of the elements that `MixedArray::Copy` makes, each duplicated as
`tvDupWithRef` does: a box that is referenced stays shared and gains a
holder, a box that this element alone holds is replaced by its cell, a cell
is copied. Returns the elements of the copy and the boxes afterwards. -/
def RefHeap.dupElems : List RefData → RefArray → RefArray × List RefData
  | refs, [] => ([], refs)
  | refs, (k, RefTV.cell v) :: rest =>
    ((k, RefTV.cell v) :: (RefHeap.dupElems refs rest).1, (RefHeap.dupElems refs rest).2)
  | refs, (k, RefTV.ref p) :: rest =>
    if ((refs[p]?).getD {}).isReferenced then
      ((k, RefTV.ref p) :: (RefHeap.dupElems (RefHeap.incRef refs p) rest).1,
       (RefHeap.dupElems (RefHeap.incRef refs p) rest).2)
    else
      ((k, RefTV.cell ((refs[p]?).getD {}).tv) :: (RefHeap.dupElems refs rest).1,
       (RefHeap.dupElems refs rest).2)

/-- Copy on write, as `Array::lvalAt`, `Array::set` and `Array::remove` do
before they change the array of `inst`: an array with several holders is
left to the others, and the entry of `inst` gets a copy of its own. -/
def RefHeap.escalate (h : RefHeap) (inst : Nat) : RefHeap :=
  match h.find inst with
  | none => h
  | some a =>
    if (h.arrayAt a).cowCheck then
      { refs := (RefHeap.dupElems h.refs (h.arrayAt a).elems).2,
        arrays :=
          h.arrays.set a { elems := (h.arrayAt a).elems, m_count := (h.arrayAt a).m_count - 1 }
            ++ [{ elems := (RefHeap.dupElems h.refs (h.arrayAt a).elems).1, m_count := 1 }],
        dynPropTable := RefHeap.assignEntry h.dynPropTable inst h.arrays.length }
    else h

/-- Replace the elements of the array at an address. -/
def RefHeap.setElems (h : RefHeap) (a : Nat) (es : RefArray) : RefHeap :=
  { h with arrays := h.arrays.set a { elems := es, m_count := (h.arrayAt a).m_count } }

/-- The store of an instance as a reader sees it: the keys in order, each
with the cell that `tvToCell` reads. -/
def RefHeap.cells (h : RefHeap) (inst : Nat) : Option ArrayData :=
  (h.find inst).map (fun a => (h.arrayAt a).elems.map (fun e => (e.1, h.tvToCell e.2)))

/-- The read `o_get` of a dynamic property (the class declares no property of
this name): `getProp` finds the element and `tvToCell` reads it, through the
box if it is one. Without such a property the result is `none`. -/
def RefHeap.o_get (h : RefHeap) (inst : Nat) (key : String) : Option TypedValue :=
  match h.find inst with
  | none => none
  | some a => ((h.arrayAt a).elems.rval key).map h.tvToCell

/-- The dynamic property `key` of `inst` is held by reference: its element is
a box that something else holds too. -/
def RefHeap.heldByRef (h : RefHeap) (inst : Nat) (key : String) : Bool :=
  match h.find inst with
  | none => false
  | some a =>
    match (h.arrayAt a).elems.rval key with
    | some (RefTV.ref p) => (h.refAt p).isReferenced
    | _ => false

/-- `ObjectData::vGetProp` on a dynamic property: the lookup for writing finds
the element (`lvalAt`, copy on write), `tvBoxIfNeeded` replaces a cell by a
new box holding it, and the element is handed out; the result here is the
box. Without such a property the result is the null pointer. -/
def RefHeap.vGetProp (h : RefHeap) (inst : Nat) (key : String) : Option Nat × RefHeap :=
  match h.find inst with
  | none => (none, h)
  | some a0 =>
    match (h.arrayAt a0).elems.rval key with
    | none => (none, h)
    | some _ =>
      match ((h.escalate inst).arrayAt (((h.escalate inst).find inst).getD a0)).elems.rval key with
      | some (RefTV.ref p) => (some p, h.escalate inst)
      | some (RefTV.cell v) =>
        (some (h.escalate inst).refs.length,
         { ((h.escalate inst).setElems (((h.escalate inst).find inst).getD a0)
              (((h.escalate inst).arrayAt (((h.escalate inst).find inst).getD a0)).elems.set key
                (RefTV.ref (h.escalate inst).refs.length))) with
           refs := (h.escalate inst).refs ++ [{ tv := v, m_count := 1 }] })
      | none => (none, h.escalate inst)

/-- The caller of `vGetProp` keeps the box it was handed, as the assignment
of the property to a variable by reference does, or `setRef` into the
array of the iteration view: the box gains a holder. -/
def RefHeap.bindRef (h : RefHeap) (p : Nat) : RefHeap :=
  { h with refs := RefHeap.incRef h.refs p }

/-- The store part of `ObjectData::clone`: when the source has the flag
`HasDynPropArr`, the new instance at `mem` gets an entry of the side table
made from the array of the source, `dynPropArray().get()` (whose entry
exists, as `dynPropArray` asserts): the array gains a holder and both
entries share it. `emplace` leaves an entry that exists as it is. -/
def RefHeap.clone (h : RefHeap) (src : ObjectData) (mem : Nat) : RefHeap :=
  if src.HasDynPropArr then
    match h.find src.addr with
    | none => h
    | some a =>
      if (h.find mem).isSome then h
      else
        { h with
          arrays := h.arrays.set a
            { elems := (h.arrayAt a).elems, m_count := (h.arrayAt a).m_count + 1 },
          dynPropTable := h.dynPropTable ++ [(mem, a)] }
  else h

/-- `ObjectData::setProp` of a name the class does not declare. An existing
dynamic property is found by the lookup for writing (`lvalAt`, copy on write)
and, being initialized, assigned by `tvSet(val, *prop)` whatever hooks the
class has; `tvSet` writes the cell in the box when the element is one. A new
one is stored by `reserveProperties().set(key, val)`; this is the path of a
class without set hook and native handler that allows dynamic properties,
for a name that does not begin with NUL. -/
def RefHeap.setProp (h : RefHeap) (inst : Nat) (key : String) (val : TypedValue) : RefHeap :=
  match h.find inst with
  | none =>
    { h with
      arrays := h.arrays ++ [{ elems := [(key, RefTV.cell val)], m_count := 1 }],
      dynPropTable := RefHeap.assignEntry h.dynPropTable inst h.arrays.length }
  | some a0 =>
    match ((h.escalate inst).arrayAt (((h.escalate inst).find inst).getD a0)).elems.rval key with
    | some (RefTV.ref p) =>
      { (h.escalate inst) with
        refs := (h.escalate inst).refs.set p
          { tv := val, m_count := ((h.escalate inst).refAt p).m_count } }
    | _ =>
      (h.escalate inst).setElems (((h.escalate inst).find inst).getD a0)
        (((h.escalate inst).arrayAt (((h.escalate inst).find inst).getD a0)).elems.set key
          (RefTV.cell val))

/-- `ObjectData::unsetProp` of a name the class does not declare. An existing
dynamic property is found by the lookup for writing and taken out by
`dynPropArray().remove(key)`, which drops the hold of the element on its box,
whatever hooks the class has; without such a property nothing is written
(the path of a class without unset hook and native handler). -/
def RefHeap.unsetProp (h : RefHeap) (inst : Nat) (key : String) : RefHeap :=
  match h.find inst with
  | none => h
  | some a0 =>
    match (h.arrayAt a0).elems.rval key with
    | none => h
    | some _ =>
      match ((h.escalate inst).arrayAt (((h.escalate inst).find inst).getD a0)).elems.rval key with
      | some (RefTV.ref p) =>
        { ((h.escalate inst).setElems (((h.escalate inst).find inst).getD a0)
            (((h.escalate inst).arrayAt (((h.escalate inst).find inst).getD a0)).elems.remove key))
          with refs := RefHeap.decRef (h.escalate inst).refs p }
      | _ =>
        (h.escalate inst).setElems (((h.escalate inst).find inst).getD a0)
          (((h.escalate inst).arrayAt (((h.escalate inst).find inst).getD a0)).elems.remove key)

/-- Example heap: the instance at address 20 with the dynamic property
p = "a" in an array it alone holds, and no box. -/
def wHeap : RefHeap :=
  { refs := [],
    arrays := [{ elems := [("p", RefTV.cell (TypedValue.str "a"))], m_count := 1 }],
    dynPropTable := [(20, 0)] }

/-- Example heap: the property p of the instance at 20 has been bound to a
variable by reference, so its element is a box with two holders. -/
def wHeapBound : RefHeap :=
  ((wHeap.vGetProp 20 "p").2).bindRef (((wHeap.vGetProp 20 "p").1).getD 0)

/-- Example heap: the property p of the instance at 20 has been boxed by
`vGetProp` and nothing else holds the box. -/
def wHeapBoxed : RefHeap := (wHeap.vGetProp 20 "p").2

/-! # Theorems -/

/-! ## The execution monad and the guard -/

theorem PropAccessInfo.eq_iff (a b : PropAccessInfo) :
    PropAccessInfo.eq a b = true ↔ a.obj = b.obj ∧ a.rt_attr = b.rt_attr ∧ a.key = b.key := by
  simp [PropAccessInfo.eq, StringData.same, and_assoc]

theorem PropAccessInfo.eq_self (a : PropAccessInfo) : PropAccessInfo.eq a a = true := by
  simp [PropAccessInfo.eq_iff]

theorem RecurSet.erase_append_self (set : RecurSet) (info : PropAccessInfo)
    (h : RecurSet.contains set info = false) :
    RecurSet.erase (set ++ [info]) info = set := by
  unfold RecurSet.erase RecurSet.contains at *
  rw [List.filter_append]
  have h1 : List.filter (fun k => !(PropAccessInfo.eq k info)) [info] = [] := by
    simp [PropAccessInfo.eq_self]
  rw [h1, List.append_nil, List.filter_eq_self]
  intro k hk
  have := List.any_eq_false.mp h k hk
  simpa using this

theorem PropRecurInfo.activeKeys_promote (r : PropRecurInfo) :
    r.promote.activeKeys = r.activeKeys := by
  unfold PropRecurInfo.promote PropRecurInfo.activeKeys
  cases h1 : r.activePropInfo <;> cases h2 : r.activeSet <;> simp [h1, h2]

/-- The guard finds an equal key active: it declines, whatever the body is. -/
theorem magic_prop_impl_active (info : PropAccessInfo) (invoker : Exec TypedValue) (s : State)
    (h : s.propRecurInfo.isActive info = true) :
    magic_prop_impl info invoker s =
      (Except.ok { val := TypedValue.uninit, ok := false },
       { s with propRecurInfo := s.propRecurInfo.promote }) := by
  unfold PropRecurInfo.isActive PropRecurInfo.activeKeys at h
  unfold magic_prop_impl PropRecurInfo.promote
  cases h1 : s.propRecurInfo.activePropInfo with
  | none => simp [h1, RecurSet.contains] at h
  | some active =>
    cases h2 : s.propRecurInfo.activeSet with
    | none =>
      simp only [h1, h2] at h
      have h3 : PropAccessInfo.eq active info = true := by
        simpa [RecurSet.contains] using h
      simp [h1, h2, RecurSet.insert, RecurSet.contains, h3]
    | some set =>
      simp only [h1, h2] at h
      simp [h1, h2, RecurSet.insert, h]

/-- No equal key is active: the body runs once, between `enter` and `leave`. -/
theorem magic_prop_impl_inactive (info : PropAccessInfo) (invoker : Exec TypedValue) (s : State)
    (h : s.propRecurInfo.isActive info = false) :
    magic_prop_impl info invoker s =
      (handled (invoker { s with propRecurInfo := s.propRecurInfo.enter info }).1,
       { (invoker { s with propRecurInfo := s.propRecurInfo.enter info }).2 with
         propRecurInfo := PropRecurInfo.leave s.propRecurInfo info
           (invoker { s with propRecurInfo := s.propRecurInfo.enter info }).2.propRecurInfo }) := by
  unfold PropRecurInfo.isActive at h
  unfold magic_prop_impl PropRecurInfo.enter PropRecurInfo.leave
  cases h1 : s.propRecurInfo.activePropInfo with
  | none =>
    simp only [h1, Exec.scopeExit, Bind.bind, Exec.bind, Pure.pure, Exec.pure]
    cases hb : invoker { s with propRecurInfo :=
        { s.propRecurInfo with activePropInfo := some info } } with
    | mk r s1 => cases r <;> simp [handled]
  | some active =>
    cases h2 : s.propRecurInfo.activeSet with
    | none =>
      have hk : s.propRecurInfo.activeKeys = [active] := by
        simp [PropRecurInfo.activeKeys, h1, h2]
      rw [hk] at h
      have hi : RecurSet.insert [] active = ([active], true) := by
        simp [RecurSet.insert, RecurSet.contains]
      simp only [h1, h2, hk, hi]
      simp only [RecurSet.insert, h, Exec.scopeExit, Bind.bind, Exec.bind, Pure.pure, Exec.pure]
      cases hb : invoker { s with propRecurInfo :=
          { s.propRecurInfo with activeSet := some ([active] ++ [info]) } } with
      | mk r s1 => cases r <;> simp_all [handled]
    | some set =>
      have hk : s.propRecurInfo.activeKeys = set := by
        simp [PropRecurInfo.activeKeys, h1, h2]
      rw [hk] at h
      simp only [h1, h2, hk]
      simp only [RecurSet.insert, h, Exec.scopeExit, Bind.bind, Exec.bind, Pure.pure, Exec.pure]
      cases hb : invoker { s with propRecurInfo :=
          { s.propRecurInfo with activeSet := some (set ++ [info]) } } with
      | mk r s1 => cases r <;> simp_all [handled]

theorem GuardBalanced.refl (r : PropRecurInfo) : GuardBalanced r r :=
  ⟨rfl, rfl, fun _ _ => rfl⟩

theorem GuardBalanced.trans {r r1 r2 : PropRecurInfo}
    (h1 : GuardBalanced r r1) (h2 : GuardBalanced r1 r2) : GuardBalanced r r2 := by
  obtain ⟨a1, k1, e1⟩ := h1
  obtain ⟨a2, k2, e2⟩ := h2
  refine ⟨a2.trans a1, k2.trans k1, fun ha hs => ?_⟩
  have h := e1 ha hs
  subst h
  exact e2 ha hs

/-- A guarded call is balanced as soon as its body is. -/
theorem magic_prop_impl_balanced (info : PropAccessInfo) (invoker : Exec TypedValue)
    (hinv : ∀ s, GuardBalanced s.propRecurInfo (invoker s).2.propRecurInfo) (s : State) :
    GuardBalanced s.propRecurInfo (magic_prop_impl info invoker s).2.propRecurInfo := by
  cases hact : s.propRecurInfo.isActive info with
  | true =>
    rw [magic_prop_impl_active info invoker s hact]
    refine ⟨?_, PropRecurInfo.activeKeys_promote _, ?_⟩
    · unfold PropRecurInfo.promote
      cases h1 : s.propRecurInfo.activePropInfo <;> simp [h1]
    · intro ha hs
      unfold PropRecurInfo.promote
      cases h1 : s.propRecurInfo.activePropInfo with
      | none => rfl
      | some active =>
        cases h2 : s.propRecurInfo.activeSet with
        | none => exact absurd h2 hs
        | some set =>
          cases hr : s.propRecurInfo
          simp_all
  | false =>
    rw [magic_prop_impl_inactive info invoker s hact]
    have hb := hinv { s with propRecurInfo := s.propRecurInfo.enter info }
    generalize (invoker { s with propRecurInfo := s.propRecurInfo.enter info }).2 = s1 at hb
    simp only at hb ⊢
    cases h1 : s.propRecurInfo.activePropInfo with
    | none =>
      refine ⟨?_, ?_, fun ha => absurd h1 ha⟩
      · simp [PropRecurInfo.leave, h1]
      · simp [PropRecurInfo.leave, h1, PropRecurInfo.activeKeys]
    | some active =>
      have hent : s.propRecurInfo.enter info =
          { s.propRecurInfo with activeSet := some (s.propRecurInfo.activeKeys ++ [info]) } := by
        simp [PropRecurInfo.enter, h1]
      rw [hent] at hb
      have heq := hb.2.2 (by simp [h1]) (by simp)
      have hcont : RecurSet.contains s.propRecurInfo.activeKeys info = false := hact
      have hleave : PropRecurInfo.leave s.propRecurInfo info s1.propRecurInfo =
          { s.propRecurInfo with activeSet := some s.propRecurInfo.activeKeys } := by
        simp [PropRecurInfo.leave, h1, heq, RecurSet.erase_append_self _ _ hcont]
      rw [hleave]
      refine ⟨rfl, ?_, ?_⟩
      · simp [PropRecurInfo.activeKeys, h1]
      · intro _ hs
        cases h2 : s.propRecurInfo.activeSet with
        | none => exact absurd h2 hs
        | some set =>
          cases hr : s.propRecurInfo
          simp_all [PropRecurInfo.activeKeys]

/-- User-level code leaves the guard balanced. -/
theorem HookProg.run_balanced (p : HookProg) :
    ∀ s : State, GuardBalanced s.propRecurInfo (HookProg.run p s).2.propRecurInfo := by
  induction p with
  | ret v => intro s; exact GuardBalanced.refl _
  | raise f => intro s; exact GuardBalanced.refl _
  | effect f k ih =>
    intro s
    simp only [HookProg.run]
    exact ih (s.withMutable (f s.mutable))
  | inspect k ih =>
    intro s
    simp only [HookProg.run]
    exact ih _ s
  | magic info body k ihb ihk =>
    intro s
    simp only [HookProg.run]
    have h1 := magic_prop_impl_balanced info (HookProg.run body) ihb s
    cases hm : magic_prop_impl info (HookProg.run body) s with
    | mk r s1 =>
      rw [hm] at h1
      cases r with
      | error e => exact h1
      | ok v => exact GuardBalanced.trans h1 (ihk v s1)
  | tryCatch body handler ihb ihh =>
    intro s
    simp only [HookProg.run]
    have h1 := ihb s
    cases hm : HookProg.run body s with
    | mk r s1 =>
      rw [hm] at h1
      cases r with
      | error e => exact GuardBalanced.trans h1 (ihh e s1)
      | ok v => exact h1

theorem exec_map_snd {α β : Type} (m : Exec α) (f : α → β) (s : State) :
    ((m >>= fun r => (Pure.pure (f r) : Exec β)) s).2 = (m s).2 := by
  simp only [Bind.bind, Exec.bind, Pure.pure, Exec.pure]
  cases h : m s with
  | mk r s1 => cases r <;> rfl

/-- A call into the method invocation engine leaves the guard balanced. -/
theorem invokeMethod_balanced (env : Engine) (meth : String) (args : List TypedValue)
    (s : State) :
    GuardBalanced s.propRecurInfo (invokeMethod env meth args s).2.propRecurInfo := by
  simp only [invokeMethod, traceEvent, Exec.modify, Bind.bind, Exec.bind]
  exact HookProg.run_balanced _ _

/-- C8: keys of the recursion guard are equal exactly when object identity,
accessor kind and property name agree; the guard declines (not handled)
exactly when an equal key is active, and then the result and the state do not
depend on the body, the state is the one before the call up to promotion of
the single active key to a set, and the active keys are the same; otherwise
the body is applied once, to the state in which the key has been entered, and
its value is reported as handled (its fault propagates). -/
theorem guard_declines_iff_equal_key_active (info : PropAccessInfo)
    (invoker : Exec TypedValue) (s : State) :
    (∀ a b : PropAccessInfo, PropAccessInfo.eq a b = true ↔
        (a.obj = b.obj ∧ a.rt_attr = b.rt_attr ∧ a.key = b.key)) ∧
    (s.propRecurInfo.isActive info = true ↔
        ∃ k ∈ s.propRecurInfo.activeKeys,
          k.obj = info.obj ∧ k.rt_attr = info.rt_attr ∧ k.key = info.key) ∧
    ((∃ v s1, magic_prop_impl info invoker s = (Except.ok { val := v, ok := false }, s1)) ↔
        s.propRecurInfo.isActive info = true) ∧
    (s.propRecurInfo.isActive info = true →
        magic_prop_impl info invoker s =
          (Except.ok { val := TypedValue.uninit, ok := false },
           { s with propRecurInfo := s.propRecurInfo.promote }) ∧
        s.propRecurInfo.promote.activeKeys = s.propRecurInfo.activeKeys) ∧
    (s.propRecurInfo.isActive info = false →
        magic_prop_impl info invoker s =
          (handled (invoker { s with propRecurInfo := s.propRecurInfo.enter info }).1,
           { (invoker { s with propRecurInfo := s.propRecurInfo.enter info }).2 with
             propRecurInfo := PropRecurInfo.leave s.propRecurInfo info
               (invoker { s with propRecurInfo := s.propRecurInfo.enter info }).2.propRecurInfo })) := by
  refine ⟨PropAccessInfo.eq_iff, ?_, ?_, ?_, ?_⟩
  · simp [PropRecurInfo.isActive, RecurSet.contains, PropAccessInfo.eq_iff]
  · constructor
    · rintro ⟨v, s1, h⟩
      cases hact : s.propRecurInfo.isActive info with
      | true => rfl
      | false =>
        rw [magic_prop_impl_inactive info invoker s hact] at h
        have h1 := congrArg Prod.fst h
        simp only at h1
        cases hb : (invoker { s with propRecurInfo := s.propRecurInfo.enter info }).1 with
        | error e => rw [hb] at h1; simp [handled] at h1
        | ok w => rw [hb] at h1; simp [handled] at h1
    · intro hact
      exact ⟨_, _, magic_prop_impl_active info invoker s hact⟩
  · intro hact
    exact ⟨magic_prop_impl_active info invoker s hact, PropRecurInfo.activeKeys_promote _⟩
  · intro hact
    exact magic_prop_impl_inactive info invoker s hact

/-- A get accessor for "x" on object 1 is active: the same key is declined,
while "y" on the same object, "x" on object 2 and a set accessor for "x" on
object 1 all run their body. -/
theorem guard_declines_iff_equal_key_active_witness :
    magic_prop_impl { obj := 1, key := "x", rt_attr := RuntimeAttribute.UseGet }
        (HookProg.run (HookProg.ret (TypedValue.int 5)))
        { propRecurInfo :=
            { activePropInfo := some { obj := 1, key := "x", rt_attr := RuntimeAttribute.UseGet } } }
      = (Except.ok { val := TypedValue.uninit, ok := false },
         { propRecurInfo :=
            ({ activePropInfo :=
                some { obj := 1, key := "x", rt_attr := RuntimeAttribute.UseGet } } :
              PropRecurInfo).promote })
    ∧ (magic_prop_impl { obj := 1, key := "y", rt_attr := RuntimeAttribute.UseGet }
        (HookProg.run (HookProg.ret (TypedValue.int 5)))
        { propRecurInfo :=
            { activePropInfo := some { obj := 1, key := "x", rt_attr := RuntimeAttribute.UseGet } } }).1
      = Except.ok { val := TypedValue.int 5, ok := true } :=
  ⟨((guard_declines_iff_equal_key_active
      { obj := 1, key := "x", rt_attr := RuntimeAttribute.UseGet }
      (HookProg.run (HookProg.ret (TypedValue.int 5)))
      { propRecurInfo :=
          { activePropInfo :=
              some { obj := 1, key := "x", rt_attr := RuntimeAttribute.UseGet } } }).2.2.2.1
      (by decide)).1,
   by decide⟩

/-- C9: the recursion guard is balanced on every exit path.  For every
guarded call whose body is user-level code (with any nesting of guarded calls
inside it), and for each of invokeGet, invokeSet, invokeIsset and invokeUnset,
the active keys after the call are the active keys before it, whether the
call returned or a fault propagated; and a guarded call entered with no
active accessor leaves no active accessor and no promoted set, whatever its
body does. -/
theorem guard_balanced_on_every_exit (env : Engine) (info : PropAccessInfo) (body : HookProg)
    (invoker : Exec TypedValue) (key : String) (val : TypedValue) (s : State) :
    (magic_prop_impl info (HookProg.run body) s).2.propRecurInfo.activeKeys
        = s.propRecurInfo.activeKeys ∧
    (magic_prop_impl info (HookProg.run body) s).2.propRecurInfo.activePropInfo
        = s.propRecurInfo.activePropInfo ∧
    (ObjectData.invokeGet env key s).2.propRecurInfo.activeKeys = s.propRecurInfo.activeKeys ∧
    (ObjectData.invokeSet env key val s).2.propRecurInfo.activeKeys
        = s.propRecurInfo.activeKeys ∧
    (ObjectData.invokeIsset env key s).2.propRecurInfo.activeKeys
        = s.propRecurInfo.activeKeys ∧
    (ObjectData.invokeUnset env key s).2.propRecurInfo.activeKeys
        = s.propRecurInfo.activeKeys ∧
    (s.propRecurInfo.activePropInfo = none →
        (magic_prop_impl info invoker s).2.propRecurInfo
          = { activePropInfo := none, activeSet := none }) := by
  have hb := magic_prop_impl_balanced info (HookProg.run body) (HookProg.run_balanced body) s
  refine ⟨hb.2.1, hb.1, ?_, ?_, ?_, ?_, ?_⟩
  · exact (magic_prop_impl_balanced _ _ (invokeMethod_balanced env _ _) s).2.1
  · simp only [ObjectData.invokeSet]
    rw [exec_map_snd]
    exact (magic_prop_impl_balanced _ _ (invokeMethod_balanced env _ _) s).2.1
  · exact (magic_prop_impl_balanced _ _ (invokeMethod_balanced env _ _) s).2.1
  · simp only [ObjectData.invokeUnset]
    rw [exec_map_snd]
    exact (magic_prop_impl_balanced _ _ (invokeMethod_balanced env _ _) s).2.1
  · intro hnone
    have hact : s.propRecurInfo.isActive info = false := by
      simp [PropRecurInfo.isActive, PropRecurInfo.activeKeys, hnone, RecurSet.contains]
    rw [magic_prop_impl_inactive info invoker s hact]
    simp [PropRecurInfo.leave, hnone]

/-- An outermost call whose body nests a call for another key, a declined call
for its own key and a raised fault. -/
theorem guard_balanced_on_every_exit_witness :
    ({} : State).propRecurInfo.activePropInfo = none ∧
    (magic_prop_impl { obj := 1, key := "x", rt_attr := RuntimeAttribute.UseGet }
        (HookProg.run
          (HookProg.magic { obj := 1, key := "y", rt_attr := RuntimeAttribute.UseGet }
            (HookProg.magic { obj := 1, key := "x", rt_attr := RuntimeAttribute.UseGet }
              (HookProg.ret TypedValue.null) (fun _ => HookProg.raise (Fault.user 3)))
            (fun _ => HookProg.ret TypedValue.null)))
        {}).2.propRecurInfo = { activePropInfo := none, activeSet := none } :=
  ⟨rfl,
   (guard_balanced_on_every_exit {} { obj := 1, key := "x", rt_attr := RuntimeAttribute.UseGet }
      (HookProg.ret TypedValue.null)
      (HookProg.run
          (HookProg.magic { obj := 1, key := "y", rt_attr := RuntimeAttribute.UseGet }
            (HookProg.magic { obj := 1, key := "x", rt_attr := RuntimeAttribute.UseGet }
              (HookProg.ret TypedValue.null) (fun _ => HookProg.raise (Fault.user 3)))
            (fun _ => HookProg.ret TypedValue.null)))
      "x" TypedValue.null {}).2.2.2.2.2.2 rfl⟩

theorem State.afterDeclined_this (s : State) (b : Bool) : (s.afterDeclined b).this = s.this := by
  cases b <;> rfl

theorem State.afterDeclined_dynPropTable (s : State) (b : Bool) :
    (s.afterDeclined b).dynPropTable = s.dynPropTable := by
  cases b <;> rfl

theorem State.afterDeclined_trace (s : State) (b : Bool) :
    (s.afterDeclined b).trace = s.trace := by
  cases b <;> rfl

theorem State.afterDeclined_activeKeys (s : State) (b : Bool) :
    (s.afterDeclined b).propRecurInfo.activeKeys = s.propRecurInfo.activeKeys := by
  cases b
  · rfl
  · exact PropRecurInfo.activeKeys_promote _

theorem ObjectData.invokeGet_declined (env : Engine) (key : String) (s : State)
    (h : s.propRecurInfo.isActive (s.accessKey key RuntimeAttribute.UseGet) = true) :
    ObjectData.invokeGet env key s =
      (Except.ok { val := TypedValue.uninit, ok := false }, s.promote) := by
  simp only [ObjectData.invokeGet]
  exact magic_prop_impl_active _ _ s h

theorem ObjectData.invokeSet_declined (env : Engine) (key : String) (val : TypedValue)
    (s : State)
    (h : s.propRecurInfo.isActive (s.accessKey key RuntimeAttribute.UseSet) = true) :
    ObjectData.invokeSet env key val s = (Except.ok false, s.promote) := by
  simp only [State.accessKey] at h
  simp only [ObjectData.invokeSet, Bind.bind, Exec.bind]
  rw [magic_prop_impl_active _ _ s h]
  rfl

theorem ObjectData.invokeIsset_declined (env : Engine) (key : String) (s : State)
    (h : s.propRecurInfo.isActive (s.accessKey key RuntimeAttribute.UseIsset) = true) :
    ObjectData.invokeIsset env key s =
      (Except.ok { val := TypedValue.uninit, ok := false }, s.promote) := by
  simp only [ObjectData.invokeIsset]
  exact magic_prop_impl_active _ _ s h

theorem ObjectData.invokeUnset_declined (env : Engine) (key : String) (s : State)
    (h : s.propRecurInfo.isActive (s.accessKey key RuntimeAttribute.UseUnset) = true) :
    ObjectData.invokeUnset env key s = (Except.ok false, s.promote) := by
  simp only [State.accessKey] at h
  simp only [ObjectData.invokeUnset, Bind.bind, Exec.bind]
  rw [magic_prop_impl_active _ _ s h]
  rfl

/-- C1: when the lookup finds a declared property (slot `i`) that is
accessible from the context and initialized, prop and propW return the handle
of slot `i` and propD and propB return it unless the immutability check of
their mode fires (propD: immutable and not under construction; propB:
immutable); in every case the state is exactly the state before the call, so
neither the native handler nor the get hook was invoked, no diagnostic was
emitted and the dynamic-property store is unchanged. -/
theorem declared_accessible_initialized_slot_wins (env : Engine) (s : State)
    (tvRef : TypedValue) (ctx : Option ClassPtr) (key : String) (i : Slot)
    (hfound : s.this.m_cls.getDeclPropIndex ctx key = { prop := i, accessible := true })
    (hdecl : i ≠ kInvalidSlot)
    (hinit : s.this.propVec.getD i TypedValue.uninit ≠ TypedValue.uninit) :
    ObjectData.prop env tvRef ctx key s
      = (Except.ok { handle := Lval.declProp i, tvRef := tvRef }, s) ∧
    ObjectData.propW env tvRef ctx key s
      = (Except.ok { handle := Lval.declProp i, tvRef := tvRef }, s) ∧
    ObjectData.propD env tvRef ctx key s
      = (if (s.this.m_cls.declProp i).attrs.AttrIsImmutable = true
              ∧ s.this.IsBeingConstructed = false then
            Except.error (Fault.cannotModifyImmutableProp s.this.m_cls.name
              (s.this.m_cls.declProp (s.this.declPropInd (Lval.declProp i))).name)
          else Except.ok { handle := Lval.declProp i, tvRef := tvRef },
         s) ∧
    ObjectData.propB env tvRef ctx key s
      = (if (s.this.m_cls.declProp i).attrs.AttrIsImmutable = true then
            Except.error (Fault.cannotBindImmutableProp s.this.m_cls.name
              (s.this.m_cls.declProp (s.this.declPropInd (Lval.declProp i))).name)
          else Except.ok { handle := Lval.declProp i, tvRef := tvRef },
         s) := by
  have hinit2 : s.tvAt (Lval.declProp i) ≠ TypedValue.uninit := hinit
  refine ⟨?_, ?_, ?_, ?_⟩
  · simp [ObjectData.prop, ObjectData.propImpl, ObjectData.getPropImpl,
      ObjectData.checkImmutable, Bind.bind, Exec.bind, Pure.pure, Exec.pure, Exec.get, hfound,
      hdecl, hinit2, PropMode.write]
  · simp [ObjectData.propW, ObjectData.propImpl, ObjectData.getPropImpl,
      ObjectData.checkImmutable, Bind.bind, Exec.bind, Pure.pure, Exec.pure, Exec.get, hfound,
      hdecl, hinit2, PropMode.write]
  · by_cases himm : (s.this.m_cls.declProp i).attrs.AttrIsImmutable = true <;>
      by_cases hc : s.this.IsBeingConstructed = true <;>
      simp [ObjectData.propD, ObjectData.propImpl, ObjectData.getPropImpl,
        ObjectData.checkImmutable, Bind.bind, Exec.bind, Pure.pure, Exec.pure, Exec.get, hfound,
        hdecl, hinit2, PropMode.write, ObjectData.isBeingConstructed,
        ObjectData.throwMutateImmutable, Exec.throw, himm, hc]
  · by_cases himm : (s.this.m_cls.declProp i).attrs.AttrIsImmutable = true <;>
      simp [ObjectData.propB, ObjectData.propImpl, ObjectData.getPropImpl,
        ObjectData.checkImmutable, Bind.bind, Exec.bind, Pure.pure, Exec.pure, Exec.get, hfound,
        hdecl, hinit2, PropMode.write, ObjectData.isBeingConstructed,
        ObjectData.throwBindImmutable, Exec.throw, himm]

theorem declared_accessible_initialized_slot_wins_witness :
    ObjectData.prop {} TypedValue.null none "a" wState
      = (Except.ok { handle := Lval.declProp 0, tvRef := TypedValue.null }, wState) ∧
    (ObjectData.propB {} TypedValue.null none "a" wState).1
      = Except.error (Fault.cannotBindImmutableProp "C" "a") :=
  ⟨(declared_accessible_initialized_slot_wins {} wState TypedValue.null none "a" 0
      rfl (by decide) (by decide)).1,
   by decide⟩

theorem DynPropTable.find_assign (t : DynPropTable) (a : Nat) (arr : ArrayData) :
    DynPropTable.find (DynPropTable.assign t a arr) a = some arr := by
  induction t with
  | nil => simp [DynPropTable.assign, DynPropTable.find]
  | cons e rest ih =>
    simp only [DynPropTable.assign]
    by_cases h : e.1 = a
    · simp [h, DynPropTable.find]
    · simp only [DynPropTable.find] at ih ⊢
      simp [h, ih]

theorem DynPropTable.assign_assign (t : DynPropTable) (a : Nat) (x y : ArrayData) :
    DynPropTable.assign (DynPropTable.assign t a x) a y = DynPropTable.assign t a y := by
  induction t with
  | nil => simp [DynPropTable.assign]
  | cons e rest ih =>
    simp only [DynPropTable.assign]
    by_cases h : e.1 = a
    · simp [h, DynPropTable.assign]
    · simp [h, DynPropTable.assign, ih]

theorem ArrayData.rval_append_new (arr : ArrayData) (key : String) (v : TypedValue)
    (h : ArrayData.rval arr key = none) :
    ArrayData.rval (arr ++ [(key, v)]) key = some v := by
  induction arr with
  | nil => simp [ArrayData.rval]
  | cons e rest ih =>
    by_cases hk : e.1 = key
    · simp [ArrayData.rval, List.find?_cons, hk] at h
    · simp only [ArrayData.rval, List.cons_append, List.find?_cons] at h ih ⊢
      have hb : (e.1 == key) = false := by simpa using hk
      rw [hb] at h ⊢
      exact ih h

theorem ArrayData.rval_append_other (arr : ArrayData) (key k : String) (v : TypedValue)
    (h : k ≠ key) :
    ArrayData.rval (arr ++ [(key, v)]) k = ArrayData.rval arr k := by
  induction arr with
  | nil => simp [ArrayData.rval, List.find?_cons, Ne.symm h]
  | cons e rest ih =>
    by_cases hk : e.1 = k
    · simp [ArrayData.rval, List.find?_cons, hk]
    · simp only [ArrayData.rval, List.cons_append, List.find?_cons] at ih ⊢
      have hb : (e.1 == k) = false := by simpa using hk
      rw [hb]
      exact ih

/-- C2: on a property that is declared but not accessible from the calling
context, every read variant (propImpl in each mode) returns the value of the
get hook in the caller's temporary when the class uses the hook and the guard
admits it; when the class does not use the hook, or the guard declines it,
the operation raises the fatal error "Cannot access private property C::$p"
if the property declared under that name has the private attribute and
"Cannot access protected property C::$p" otherwise, it returns no handle, and
the instance and the dynamic-property table are as before the call. -/
theorem inaccessible_prop_hook_value_or_visibility_fault (env : Engine) (mode : PropMode)
    (s : State) (tvRef : TypedValue) (ctx : Option ClassPtr) (key : String) (i : Slot)
    (hfound : s.this.m_cls.getDeclPropIndex ctx key = { prop := i, accessible := false })
    (hdecl : i ≠ kInvalidSlot) :
    (s.this.m_cls.UseGet = true →
      s.propRecurInfo.isActive (s.accessKey key RuntimeAttribute.UseGet) = false →
      ∀ (v : TypedValue) (s1 : State),
        invokeMethod env "__get" [TypedValue.str key]
            { s with propRecurInfo :=
                s.propRecurInfo.enter (s.accessKey key RuntimeAttribute.UseGet) }
          = (Except.ok v, s1) →
        ObjectData.propImpl env mode tvRef ctx key s
          = (Except.ok { handle := Lval.tvRef, tvRef := v },
             { s1 with propRecurInfo :=
                 (PropRecurInfo.leave s.propRecurInfo
                   (s.accessKey key RuntimeAttribute.UseGet) s1.propRecurInfo) })) ∧
    ((s.this.m_cls.UseGet = false ∨
        s.propRecurInfo.isActive (s.accessKey key RuntimeAttribute.UseGet) = true) →
      ObjectData.propImpl env mode tvRef ctx key s
        = (Except.error (Fault.raiseError
            ("Cannot access " ++
              (if (s.this.m_cls.declProp (s.this.m_cls.lookupDeclProp key)).attrs.AttrPrivate
                then "private" else "protected") ++
              " property " ++ s.this.m_cls.name ++ "::$" ++ key)),
           s.afterDeclined s.this.m_cls.UseGet) ∧
      (s.afterDeclined s.this.m_cls.UseGet).this = s.this ∧
      (s.afterDeclined s.this.m_cls.UseGet).dynPropTable = s.dynPropTable) := by
  constructor
  · intro huse hact v s1 hrun
    have hg : ObjectData.invokeGet env key s =
        (Except.ok { val := v, ok := true },
          { s1 with propRecurInfo :=
              (PropRecurInfo.leave s.propRecurInfo
                (s.accessKey key RuntimeAttribute.UseGet) s1.propRecurInfo) }) := by
      simp only [ObjectData.invokeGet, MagicInvoker]
      rw [magic_prop_impl_inactive _ _ s hact]
      simp only [State.accessKey] at hrun ⊢
      rw [hrun]
      rfl
    cases mode <;>
      simp [ObjectData.propImpl, ObjectData.getPropImpl, Bind.bind, Exec.bind, Pure.pure,
        Exec.pure, Exec.get, hfound, hdecl, PropMode.write, Class.rtAttribute, huse, hg]
  · intro hcase
    refine ⟨?_, State.afterDeclined_this _ _, State.afterDeclined_dynPropTable _ _⟩
    by_cases huse : s.this.m_cls.UseGet = true
    · have hact : s.propRecurInfo.isActive (s.accessKey key RuntimeAttribute.UseGet) = true := by
        rcases hcase with h | h
        · rw [huse] at h; cases h
        · exact h
      have hg := ObjectData.invokeGet_declined env key s hact
      cases mode <;>
        simp [ObjectData.propImpl, ObjectData.getPropImpl, Bind.bind, Exec.bind, Pure.pure,
          Exec.pure, Exec.get, Exec.throw, hfound, hdecl, PropMode.write, Class.rtAttribute,
          huse, hg, State.afterDeclined]
    · have huse2 : s.this.m_cls.UseGet = false := by simpa using huse
      cases mode <;>
        simp [ObjectData.propImpl, ObjectData.getPropImpl, Bind.bind, Exec.bind, Pure.pure,
          Exec.pure, Exec.get, Exec.throw, hfound, hdecl, PropMode.write, Class.rtAttribute,
          huse2, State.afterDeclined]

/-- Reading the private "b" and the protected "c" of the example class from
outside the class; and reading "b" of the hook-using class when its get hook
answers 42. -/
theorem inaccessible_prop_hook_value_or_visibility_fault_witness :
    (ObjectData.propImpl {} PropMode.ReadNoWarn TypedValue.null none "b" wState).1
      = Except.error (Fault.raiseError "Cannot access private property C::$b") ∧
    (ObjectData.propImpl {} PropMode.DimForWrite TypedValue.null none "c" wState).1
      = Except.error (Fault.raiseError "Cannot access protected property C::$c") ∧
    (ObjectData.propImpl { method := fun _ _ _ => HookProg.ret (TypedValue.int 42) }
        PropMode.ReadNoWarn TypedValue.null none "b" wStateHooks).1
      = Except.ok { handle := Lval.tvRef, tvRef := TypedValue.int 42 } :=
  ⟨by
    have h := ((inaccessible_prop_hook_value_or_visibility_fault {} PropMode.ReadNoWarn wState
      TypedValue.null none "b" 1 rfl (by decide)).2 (Or.inl rfl)).1
    rw [h]
    decide,
   by decide,
   by
    have h := (inaccessible_prop_hook_value_or_visibility_fault
      { method := fun _ _ _ => HookProg.ret (TypedValue.int 42) } PropMode.ReadNoWarn wStateHooks
      TypedValue.null none "b" 1 rfl (by decide)).1 rfl (by decide) (TypedValue.int 42) _ rfl
    rw [h]⟩

theorem State.dynPropArray_of_not_flag (s : State)
    (hinv : s.this.HasDynPropArr = (DynPropTable.find s.dynPropTable s.this.addr).isSome)
    (hflag : s.this.HasDynPropArr = false) : s.dynPropArray = [] := by
  rw [hflag] at hinv
  unfold State.dynPropArray
  cases h : DynPropTable.find s.dynPropTable s.this.addr with
  | none => rfl
  | some a => rw [h] at hinv; cases hinv

theorem ObjectData.setFlag_eq (o : ObjectData) (h : o.HasDynPropArr = true) :
    { o with HasDynPropArr := true } = o := by
  cases o
  simp_all

/-- Materializing a dynamic property under a name the store does not hold. -/
theorem ObjectData.makeDynProp_new (s : State) (key : String)
    (hdyn : s.this.m_cls.forbidsDynamicProps = false)
    (hnodyn : ArrayData.rval s.dynPropArray key = none)
    (hinv : s.this.HasDynPropArr = (DynPropTable.find s.dynPropTable s.this.addr).isSome) :
    ObjectData.makeDynProp key s = (Except.ok (Lval.dynProp key), s.withNewDynProp key) := by
  by_cases hflag : s.this.HasDynPropArr = true
  · simp [ObjectData.makeDynProp, ObjectData.reserveProperties, Bind.bind, Exec.bind, Pure.pure,
      Exec.pure, Exec.modify, hflag, State.withNewDynProp, State.setDynPropArr,
      ArrayData.lvalAt, hnodyn]
    exact (ObjectData.setFlag_eq s.this hflag).symm
  · have hflag2 : s.this.HasDynPropArr = false := by simpa using hflag
    have hempty : (DynPropTable.find s.dynPropTable s.this.addr).getD [] = [] :=
      State.dynPropArray_of_not_flag s hinv hflag2
    simp [ObjectData.makeDynProp, ObjectData.reserveProperties, ObjectData.setDynPropArray,
      Bind.bind, Exec.bind, Pure.pure, Exec.pure, Exec.modify, hflag2, hdyn,
      State.withNewDynProp, State.setDynPropArr, ArrayData.lvalAt, hempty, State.dynPropArray,
      DynPropTable.find_assign, DynPropTable.assign_assign, ArrayData.rval]

/-- C3: for a class with neither a native property handler nor a get hook
that permits dynamic properties, and a non-empty name not starting with NUL
that is neither declared nor an existing dynamic property: prop and propW
return the null sentinel and leave the state as it is (propW appends the
undefined-property notice and nothing else; the notice shows the class name
and the property name as `%s` prints them, up to their first NUL byte),
while propD and propB return a
handle to a new dynamic property of that name, which holds null; every
declared slot and every other dynamic property is unchanged. -/
theorem undeclared_name_reads_null_writes_materialize (env : Engine) (s : State)
    (tvRef : TypedValue) (ctx : Option ClassPtr) (key : String)
    (hnative : s.this.m_cls.HasNativePropHandler = false)
    (hget : s.this.m_cls.UseGet = false)
    (hdyn : s.this.m_cls.forbidsDynamicProps = false)
    (hname : firstByteIsNul key = false)
    (hundecl : (s.this.m_cls.getDeclPropIndex ctx key).prop = kInvalidSlot)
    (hnodyn : ArrayData.rval s.dynPropArray key = none)
    (hinv : s.this.HasDynPropArr = (DynPropTable.find s.dynPropTable s.this.addr).isSome) :
    ObjectData.prop env tvRef ctx key s
      = (Except.ok { handle := Lval.immutable_null_base, tvRef := tvRef }, s) ∧
    ObjectData.propW env tvRef ctx key s
      = (Except.ok { handle := Lval.immutable_null_base, tvRef := tvRef },
         { s with trace := s.trace ++
             [Event.notice
               ("Undefined property: " ++ cstr s.this.m_cls.name ++ "::$" ++ cstr key)] }) ∧
    ObjectData.propD env tvRef ctx key s
      = (Except.ok { handle := Lval.dynProp key, tvRef := tvRef }, s.withNewDynProp key) ∧
    ObjectData.propB env tvRef ctx key s
      = (Except.ok { handle := Lval.dynProp key, tvRef := tvRef }, s.withNewDynProp key) ∧
    (s.withNewDynProp key).tvAt (Lval.dynProp key) = TypedValue.null ∧
    (∀ k : String, k ≠ key →
      ArrayData.rval (s.withNewDynProp key).dynPropArray k = ArrayData.rval s.dynPropArray k) ∧
    (s.withNewDynProp key).this.propVec = s.this.propVec ∧
    (s.withNewDynProp key).trace = s.trace := by
  have hlook : ∀ w : Bool, ObjectData.getPropImpl w ctx key s =
      { prop := Lval.nullptr, accessible := false, immutable := if w then false else true } := by
    intro w
    simp [ObjectData.getPropImpl, hundecl, hnodyn]
  have hmk := ObjectData.makeDynProp_new s key hdyn hnodyn hinv
  have harr : (s.withNewDynProp key).dynPropArray = s.dynPropArray ++ [(key, TypedValue.null)] := by
    simp [State.withNewDynProp, State.dynPropArray, DynPropTable.find_assign]
  refine ⟨?_, ?_, ?_, ?_, ?_, ?_, rfl, rfl⟩
  · simp [ObjectData.prop, ObjectData.propImpl, hlook, Bind.bind, Exec.bind, Pure.pure,
      Exec.pure, Exec.get, PropMode.write, Class.rtAttribute, hnative, hget, hname]
  · simp [ObjectData.propW, ObjectData.propImpl, hlook, Bind.bind, Exec.bind, Pure.pure,
      Exec.pure, Exec.get, PropMode.write, Class.rtAttribute, hnative, hget, hname,
      ObjectData.raiseUndefProp, raise_notice, Exec.modify]
  · simp [ObjectData.propD, ObjectData.propImpl, hlook, Bind.bind, Exec.bind, Pure.pure,
      Exec.pure, Exec.get, PropMode.write, Class.rtAttribute, hnative, hget, hname, hmk]
  · simp [ObjectData.propB, ObjectData.propImpl, hlook, Bind.bind, Exec.bind, Pure.pure,
      Exec.pure, Exec.get, PropMode.write, Class.rtAttribute, hnative, hget, hname, hmk]
  · simp [State.tvAt, harr, ArrayData.rval_append_new _ _ _ hnodyn]
  · intro k hk
    rw [harr]
    exact ArrayData.rval_append_other _ _ _ _ hk

/-- Reading and writing the undeclared "zz" of the example instance, which
has no dynamic-property store yet; and reading, with a warning, the
undeclared name made of the bytes a, NUL, b, of which the notice shows "a". -/
theorem undeclared_name_reads_null_writes_materialize_witness :
    ObjectData.prop {} TypedValue.null none "zz" wState
      = (Except.ok { handle := Lval.immutable_null_base, tvRef := TypedValue.null }, wState) ∧
    (ObjectData.propD {} TypedValue.null none "zz" wState).2.dynPropTable
      = [(7, [("zz", TypedValue.null)])] ∧
    (ObjectData.propW {} TypedValue.null none
        (String.mk [Char.ofNat 97, Char.ofNat 0, Char.ofNat 98]) wState).2.trace
      = [Event.notice "Undefined property: C::$a"] :=
  ⟨(undeclared_name_reads_null_writes_materialize {} wState TypedValue.null none "zz"
      rfl rfl rfl (by decide) (by decide) (by decide) (by decide)).1,
   by decide,
   (congrArg (fun r => r.2.trace)
     (undeclared_name_reads_null_writes_materialize {} wState TypedValue.null none
        (String.mk [Char.ofNat 97, Char.ofNat 0, Char.ofNat 98])
        rfl rfl rfl (by decide) (by decide) (by decide) (by decide)).2.1).trans (by decide)⟩

theorem ObjectData.getPropImpl_nullptr (w : Bool) (ctx : Option ClassPtr) (key : String)
    (s : State) (h : (ObjectData.getPropImpl w ctx key s).prop = Lval.nullptr) :
    ObjectData.getPropImpl w ctx key s =
      { prop := Lval.nullptr, accessible := false, immutable := if w then false else true } := by
  unfold ObjectData.getPropImpl at h ⊢
  by_cases h1 : (s.this.m_cls.getDeclPropIndex ctx key).prop = kInvalidSlot
  · by_cases h2 : (s.this.HasDynPropArr && (ArrayData.rval s.dynPropArray key).isSome) = true
    · cases w <;> simp [h1, h2] at h
    · simp [h1, h2]
  · simp [h1] at h

/-- C4 fails as stated: propIsset has no name check.  On the empty name and on
a name starting with NUL it returns false without raising a fault; and prop on
a class whose get hook answers returns the value of the hook. -/
theorem propIsset_accepts_invalid_name :
    firstByteIsNul "" = true ∧
    (ObjectData.propIsset {} none "" wState).1 = Except.ok false ∧
    firstByteIsNul (String.mk [Char.ofNat 0, Char.ofNat 65]) = true ∧
    (ObjectData.propIsset {} none (String.mk [Char.ofNat 0, Char.ofNat 65]) wState).1
      = Except.ok false ∧
    (ObjectData.prop {} TypedValue.uninit none "" wStateHooks).1
      = Except.ok { handle := Lval.tvRef, tvRef := TypedValue.null } := by
  decide

/-- C4, amended: for a name that is empty or starts with NUL, o_get and o_set
raise the invalid-property-name fault up front, for every object and class,
whatever hooks or native handler the class has.  setOpProp and incDecProp
raise it unless the lookup finds an accessible property of that name.  The
read variants, setProp and unsetProp check the name only after the lookup,
the native handler and the magic hook: they raise it when no property of that
name is found, the class has no native property handler, and the class does
not use the corresponding hook or the guard declines it.  propIsset and
propEmpty do not check the name: in that same situation they return false and
true.  In every case the instance, the side table and the trace are unchanged. -/
theorem invalid_name_rejected_where_checked (env : Engine) (s : State) (key : String)
    (ctx : Option ClassPtr) (hname : firstByteIsNul key = true) :
    (∀ (error : Bool) (context : String),
      ObjectData.o_get env key error context s
        = (Except.error (Fault.invalidPropertyName key), s)) ∧
    (∀ (v : TypedValue) (context : String),
      ObjectData.o_set env key v context s
        = (Except.error (Fault.invalidPropertyName key), s)) ∧
    (∀ (tvRef val : TypedValue) (op : SetOpOp),
      ((ObjectData.getPropImpl true ctx key s).prop = Lval.nullptr ∨
        (ObjectData.getPropImpl true ctx key s).accessible = false) →
      ObjectData.setOpProp env tvRef ctx op key val s
        = (Except.error (Fault.invalidPropertyName key), s)) ∧
    (∀ (op : IncDecOp),
      ((ObjectData.getPropImpl true ctx key s).prop = Lval.nullptr ∨
        (ObjectData.getPropImpl true ctx key s).accessible = false) →
      ObjectData.incDecProp env ctx op key s
        = (Except.error (Fault.invalidPropertyName key), s)) ∧
    (∀ (mode : PropMode) (tvRef : TypedValue),
      (ObjectData.getPropImpl mode.write ctx key s).prop = Lval.nullptr →
      s.this.m_cls.HasNativePropHandler = false →
      (s.this.m_cls.UseGet = false ∨
        s.propRecurInfo.isActive (s.accessKey key RuntimeAttribute.UseGet) = true) →
      ObjectData.propImpl env mode tvRef ctx key s
        = (Except.error (Fault.invalidPropertyName key),
           s.afterDeclined s.this.m_cls.UseGet)) ∧
    (∀ (val : TypedValue),
      (ObjectData.getPropImpl true ctx key s).prop = Lval.nullptr →
      s.this.m_cls.HasNativePropHandler = false →
      (s.this.m_cls.UseSet = false ∨
        s.propRecurInfo.isActive (s.accessKey key RuntimeAttribute.UseSet) = true) →
      ObjectData.setProp env ctx key val s
        = (Except.error (Fault.invalidPropertyName key),
           s.afterDeclined s.this.m_cls.UseSet)) ∧
    ((ObjectData.getPropImpl true ctx key s).prop = Lval.nullptr →
      s.this.m_cls.HasNativePropHandler = false →
      (s.this.m_cls.UseUnset = false ∨
        s.propRecurInfo.isActive (s.accessKey key RuntimeAttribute.UseUnset) = true) →
      ObjectData.unsetProp env ctx key s
        = (Except.error (Fault.invalidPropertyName key),
           s.afterDeclined s.this.m_cls.UseUnset)) ∧
    (ObjectData.getProp ctx key s = Lval.nullptr →
      s.this.m_cls.HasNativePropHandler = false →
      (s.this.m_cls.UseIsset = false ∨
        s.propRecurInfo.isActive (s.accessKey key RuntimeAttribute.UseIsset) = true) →
      ObjectData.propIsset env ctx key s
        = (Except.ok false, s.afterDeclined s.this.m_cls.UseIsset) ∧
      (s.this.m_cls.CallToImpl = false →
        ObjectData.propEmpty env ctx key s
          = (Except.ok true, s.afterDeclined s.this.m_cls.UseIsset))) := by
  refine ⟨?_, ?_, ?_, ?_, ?_, ?_, ?_, ?_⟩
  · intro error context
    simp [ObjectData.o_get, hname, Exec.throw]
  · intro v context
    simp [ObjectData.o_set, hname, Exec.throw]
  · intro tvRef val op hl
    have hcond : ((ObjectData.getPropImpl true ctx key s).prop != Lval.nullptr &&
        (ObjectData.getPropImpl true ctx key s).accessible) = false := by
      rcases hl with h | h <;> simp [h]
    simp [ObjectData.setOpProp, Bind.bind, Exec.bind, Pure.pure, Exec.pure, Exec.get,
      Exec.throw, hcond, hname]
  · intro op hl
    have hcond : ((ObjectData.getPropImpl true ctx key s).prop != Lval.nullptr &&
        (ObjectData.getPropImpl true ctx key s).accessible) = false := by
      rcases hl with h | h <;> simp [h]
    simp [ObjectData.incDecProp, Bind.bind, Exec.bind, Pure.pure, Exec.pure, Exec.get,
      Exec.throw, hcond, hname]
  · intro mode tvRef hl hnat hhook
    have hl2 := ObjectData.getPropImpl_nullptr _ ctx key s hl
    by_cases huse : s.this.m_cls.UseGet = true
    · have hact : s.propRecurInfo.isActive (s.accessKey key RuntimeAttribute.UseGet) = true := by
        rcases hhook with h | h
        · rw [huse] at h; cases h
        · exact h
      have hg := ObjectData.invokeGet_declined env key s hact
      simp [ObjectData.propImpl, hl2, Bind.bind, Exec.bind, Pure.pure, Exec.pure, Exec.get,
        Exec.throw, Class.rtAttribute, hnat, huse, hg, hname, State.afterDeclined]
    · have huse2 : s.this.m_cls.UseGet = false := by simpa using huse
      simp [ObjectData.propImpl, hl2, Bind.bind, Exec.bind, Pure.pure, Exec.pure, Exec.get,
        Exec.throw, Class.rtAttribute, hnat, huse2, hname, State.afterDeclined]
  · intro val hl hnat hhook
    have hl2 := ObjectData.getPropImpl_nullptr _ ctx key s hl
    by_cases huse : s.this.m_cls.UseSet = true
    · have hact : s.propRecurInfo.isActive (s.accessKey key RuntimeAttribute.UseSet) = true := by
        rcases hhook with h | h
        · rw [huse] at h; cases h
        · exact h
      have hg := ObjectData.invokeSet_declined env key val s hact
      simp [ObjectData.setProp, hl2, Bind.bind, Exec.bind, Pure.pure, Exec.pure, Exec.get,
        Exec.throw, Class.rtAttribute, hnat, huse, hg, hname, State.afterDeclined]
    · have huse2 : s.this.m_cls.UseSet = false := by simpa using huse
      simp [ObjectData.setProp, hl2, Bind.bind, Exec.bind, Pure.pure, Exec.pure, Exec.get,
        Exec.throw, Class.rtAttribute, hnat, huse2, hname, State.afterDeclined]
  · intro hl hnat hhook
    have hl2 := ObjectData.getPropImpl_nullptr _ ctx key s hl
    by_cases huse : s.this.m_cls.UseUnset = true
    · have hact :
          s.propRecurInfo.isActive (s.accessKey key RuntimeAttribute.UseUnset) = true := by
        rcases hhook with h | h
        · rw [huse] at h; cases h
        · exact h
      have hg := ObjectData.invokeUnset_declined env key s hact
      simp [ObjectData.unsetProp, hl2, Bind.bind, Exec.bind, Pure.pure, Exec.pure, Exec.get,
        Exec.throw, Class.rtAttribute, hnat, huse, hg, hname, State.afterDeclined]
    · have huse2 : s.this.m_cls.UseUnset = false := by simpa using huse
      simp [ObjectData.unsetProp, hl2, Bind.bind, Exec.bind, Pure.pure, Exec.pure, Exec.get,
        Exec.throw, Class.rtAttribute, hnat, huse2, hname, State.afterDeclined]
  · intro hl hnat hhook
    by_cases huse : s.this.m_cls.UseIsset = true
    · have hact :
          s.propRecurInfo.isActive (s.accessKey key RuntimeAttribute.UseIsset) = true := by
        rcases hhook with h | h
        · rw [huse] at h; cases h
        · exact h
      have hg := ObjectData.invokeIsset_declined env key s hact
      constructor
      · simp [ObjectData.propIsset, hl, Bind.bind, Exec.bind, Pure.pure, Exec.pure, Exec.get,
          Class.rtAttribute, hnat, huse, hg, State.afterDeclined]
      · intro hcall
        simp [ObjectData.propEmpty, ObjectData.propEmptyImpl, hl, Bind.bind, Exec.bind,
          Pure.pure, Exec.pure, Exec.get, Class.rtAttribute, hnat, huse, hg, hcall,
          State.afterDeclined]
    · have huse2 : s.this.m_cls.UseIsset = false := by simpa using huse
      constructor
      · simp [ObjectData.propIsset, hl, Bind.bind, Exec.bind, Pure.pure, Exec.pure, Exec.get,
          Class.rtAttribute, hnat, huse2, State.afterDeclined]
      · intro hcall
        simp [ObjectData.propEmpty, ObjectData.propEmptyImpl, hl, Bind.bind, Exec.bind,
          Pure.pure, Exec.pure, Exec.get, Class.rtAttribute, hnat, huse2, hcall,
          State.afterDeclined]

/-- The empty name on the example instance: o_get rejects it, propD rejects
it as nothing handles the access. -/
theorem invalid_name_rejected_where_checked_witness :
    firstByteIsNul "" = true ∧
    ObjectData.o_get {} "" true "" wState
      = (Except.error (Fault.invalidPropertyName ""), wState) ∧
    (ObjectData.propImpl {} PropMode.DimForWrite TypedValue.null none "" wState).1
      = Except.error (Fault.invalidPropertyName "") :=
  ⟨by decide,
   (invalid_name_rejected_where_checked {} wState "" none (by decide)).1 true "",
   by decide⟩

theorem ObjectData.getPropImpl_declared (w : Bool) (ctx : Option ClassPtr) (key : String)
    (s : State) (i : Slot) (acc : Bool)
    (hfound : s.this.m_cls.getDeclPropIndex ctx key = { prop := i, accessible := acc })
    (hdecl : i ≠ kInvalidSlot) :
    ObjectData.getPropImpl w ctx key s =
      { prop := Lval.declProp i, accessible := acc,
        immutable := if w then (s.this.m_cls.declProp i).attrs.AttrIsImmutable else true } := by
  simp [ObjectData.getPropImpl, hfound, hdecl]

/-- C5 fails as stated: the immutable, accessible, uninitialized "a" of a class
whose set hook answers; the object is not under construction, and setProp
returns normally, with no immutability fault. -/
theorem setProp_immutable_delegated_to_set_hook :
    (wClsHooks.declProp 0).attrs.AttrIsImmutable = true ∧
    wClsHooks.getDeclPropIndex none "a" = { prop := 0, accessible := true } ∧
    wStateHooks.this.IsBeingConstructed = false ∧
    (ObjectData.setProp {} none "a" (TypedValue.int 9) wStateHooks).1 = Except.ok () ∧
    (ObjectData.setProp {} none "a" (TypedValue.int 9) wStateHooks).2.trace
      = [Event.invokeMethod 7 "__set" [TypedValue.str "a", TypedValue.int 9]] := by
  decide

/-- C5, amended: for a declared-immutable property accessible from the calling
context, on an object that is no longer under construction, setProp fails
with the immutable-property-mutation error and leaves the instance (so the
slot) and the side table unchanged whenever setProp performs the write
itself: the slot is initialized, or the class does not use the set hook, or
the guard declines the hook.  When the slot is uninitialized and the set hook
of the class answers, setProp returns what the hook leaves, without an
immutability check. -/
theorem setProp_immutable_after_construction_fails (env : Engine) (s : State)
    (ctx : Option ClassPtr) (key : String) (val : TypedValue) (i : Slot)
    (hfound : s.this.m_cls.getDeclPropIndex ctx key = { prop := i, accessible := true })
    (hdecl : i ≠ kInvalidSlot)
    (himm : (s.this.m_cls.declProp i).attrs.AttrIsImmutable = true)
    (hcons : s.this.IsBeingConstructed = false) :
    ((s.this.propVec.getD i TypedValue.uninit ≠ TypedValue.uninit ∨
        s.this.m_cls.UseSet = false ∨
        s.propRecurInfo.isActive (s.accessKey key RuntimeAttribute.UseSet) = true) →
      ObjectData.setProp env ctx key val s
        = (Except.error (Fault.cannotModifyImmutableProp s.this.m_cls.name
            (s.this.m_cls.declProp (s.this.declPropInd (Lval.declProp i))).name),
           s.afterDeclined
             (s.this.propVec.getD i TypedValue.uninit == TypedValue.uninit &&
               s.this.m_cls.UseSet)) ∧
      (s.afterDeclined
          (s.this.propVec.getD i TypedValue.uninit == TypedValue.uninit &&
            s.this.m_cls.UseSet)).this = s.this ∧
      (s.afterDeclined
          (s.this.propVec.getD i TypedValue.uninit == TypedValue.uninit &&
            s.this.m_cls.UseSet)).dynPropTable = s.dynPropTable) ∧
    (s.this.propVec.getD i TypedValue.uninit = TypedValue.uninit →
      s.this.m_cls.UseSet = true →
      s.propRecurInfo.isActive (s.accessKey key RuntimeAttribute.UseSet) = false →
      ∀ (v : TypedValue) (s1 : State),
        invokeMethod env "__set" [TypedValue.str key, val]
            { s with propRecurInfo :=
                s.propRecurInfo.enter (s.accessKey key RuntimeAttribute.UseSet) }
          = (Except.ok v, s1) →
        ObjectData.setProp env ctx key val s
          = (Except.ok (),
             { s1 with propRecurInfo :=
                 (PropRecurInfo.leave s.propRecurInfo
                   (s.accessKey key RuntimeAttribute.UseSet) s1.propRecurInfo) })) := by
  have hl := ObjectData.getPropImpl_declared true ctx key s i true hfound hdecl
  constructor
  · intro hdirect
    refine ⟨?_, State.afterDeclined_this _ _, State.afterDeclined_dynPropTable _ _⟩
    by_cases hinit : s.this.propVec.getD i TypedValue.uninit = TypedValue.uninit
    all_goals (have hinit3 := hinit; simp only [List.getD_eq_getElem?_getD] at hinit3)
    · by_cases huse : s.this.m_cls.UseSet = true
      · have hact :
            s.propRecurInfo.isActive (s.accessKey key RuntimeAttribute.UseSet) = true := by
          rcases hdirect with h | h | h
          · exact absurd hinit h
          · rw [huse] at h; cases h
          · exact h
        have hg := ObjectData.invokeSet_declined env key val s hact
        have hname : s.promote.this = s.this := rfl
        simp [ObjectData.setProp, hl, Bind.bind, Exec.bind, Pure.pure, Exec.pure, Exec.get,
          Exec.throw, Class.rtAttribute, huse, hg, State.afterDeclined, State.tvAt, hinit3,
          ObjectData.guardImmutable, ObjectData.throwMutateImmutable,
          ObjectData.isBeingConstructed, himm, hcons, hname]
      · have huse2 : s.this.m_cls.UseSet = false := by simpa using huse
        simp [ObjectData.setProp, hl, Bind.bind, Exec.bind, Pure.pure, Exec.pure, Exec.get,
          Exec.throw, Class.rtAttribute, huse2, State.afterDeclined, State.tvAt, hinit3,
          ObjectData.guardImmutable, ObjectData.throwMutateImmutable,
          ObjectData.isBeingConstructed, himm, hcons]
    · simp [ObjectData.setProp, hl, Bind.bind, Exec.bind, Pure.pure, Exec.pure, Exec.get,
        Exec.throw, Class.rtAttribute, State.afterDeclined, State.tvAt, hinit3,
        ObjectData.guardImmutable, ObjectData.throwMutateImmutable,
        ObjectData.isBeingConstructed, himm, hcons]
  · intro hinit huse hact v s1 hrun
    have hinit3 := hinit
    simp only [List.getD_eq_getElem?_getD] at hinit3
    have hg : ObjectData.invokeSet env key val s =
        (Except.ok true,
          { s1 with propRecurInfo :=
              (PropRecurInfo.leave s.propRecurInfo
                (s.accessKey key RuntimeAttribute.UseSet) s1.propRecurInfo) }) := by
      simp only [ObjectData.invokeSet, Bind.bind, Exec.bind]
      rw [magic_prop_impl_inactive _ _ s hact, hrun]
      rfl
    simp [ObjectData.setProp, hl, Bind.bind, Exec.bind, Pure.pure, Exec.pure, Exec.get,
      Class.rtAttribute, huse, hg, State.tvAt, hinit3]

/-- The immutable "a" of the example instance, initialized and not under
construction. -/
theorem setProp_immutable_after_construction_fails_witness :
    (wCls.declProp 0).attrs.AttrIsImmutable = true ∧
    wState.this.IsBeingConstructed = false ∧
    (ObjectData.setProp {} none "a" (TypedValue.int 9) wState).1
      = Except.error (Fault.cannotModifyImmutableProp "C" "a") ∧
    (ObjectData.setProp {} none "a" (TypedValue.int 9) wState).2.this.propVec
      = wState.this.propVec :=
  ⟨by decide, by decide,
   by
    have h := ((setProp_immutable_after_construction_fails {} wState none "a" (TypedValue.int 9)
      0 rfl (by decide) (by decide) rfl).1 (Or.inl (by decide))).1
    rw [h]
    decide,
   by decide⟩

/-- C6 fails as stated: the for-reference-binding read propB is not waived.
On the immutable, accessible, initialized "a" of an object that is still under
construction it raises the cannot-bind-immutable fault. -/
theorem propB_immutable_faults_under_construction :
    wStateCtor.this.IsBeingConstructed = true ∧
    (wCls.declProp 0).attrs.AttrIsImmutable = true ∧
    wCls.getDeclPropIndex none "a" = { prop := 0, accessible := true } ∧
    (ObjectData.propB {} TypedValue.null none "a" wStateCtor).1
      = Except.error (Fault.cannotBindImmutableProp "C" "a") := by
  decide

/-- C6, amended: while an object is under construction the immutability check
is waived for setProp and for the for-write read propD.  On a
declared-immutable property accessible from the context, whenever they reach
the declared slot (the slot is initialized, or the class does not use the
corresponding hook, or the guard declines it), setProp returns normally having
stored the new value in the slot and propD returns the handle of the slot.
The for-reference-binding read propB is not waived: there it raises the
cannot-bind-immutable fault, under construction too. -/
theorem immutability_waived_under_construction (env : Engine) (s : State)
    (tvRef : TypedValue) (ctx : Option ClassPtr) (key : String) (val : TypedValue) (i : Slot)
    (hfound : s.this.m_cls.getDeclPropIndex ctx key = { prop := i, accessible := true })
    (hdecl : i ≠ kInvalidSlot)
    (himm : (s.this.m_cls.declProp i).attrs.AttrIsImmutable = true)
    (hcons : s.this.IsBeingConstructed = true) :
    ((s.this.propVec.getD i TypedValue.uninit ≠ TypedValue.uninit ∨
        s.this.m_cls.UseSet = false ∨
        s.propRecurInfo.isActive (s.accessKey key RuntimeAttribute.UseSet) = true) →
      ObjectData.setProp env ctx key val s
        = (Except.ok (),
           (s.afterDeclined
             (s.this.propVec.getD i TypedValue.uninit == TypedValue.uninit &&
               s.this.m_cls.UseSet)).tvWrite (Lval.declProp i) val) ∧
      ((s.afterDeclined
          (s.this.propVec.getD i TypedValue.uninit == TypedValue.uninit &&
            s.this.m_cls.UseSet)).tvWrite (Lval.declProp i) val).this.propVec
        = s.this.propVec.set i val ∧
      (i < s.this.propVec.length →
        ((s.afterDeclined
          (s.this.propVec.getD i TypedValue.uninit == TypedValue.uninit &&
            s.this.m_cls.UseSet)).tvWrite (Lval.declProp i) val).tvAt (Lval.declProp i) = val)) ∧
    ((s.this.propVec.getD i TypedValue.uninit ≠ TypedValue.uninit ∨
        s.this.m_cls.UseGet = false ∨
        s.propRecurInfo.isActive (s.accessKey key RuntimeAttribute.UseGet) = true) →
      ObjectData.propD env tvRef ctx key s
        = (Except.ok { handle := Lval.declProp i, tvRef := tvRef },
           s.afterDeclined
             (s.this.propVec.getD i TypedValue.uninit == TypedValue.uninit &&
               s.this.m_cls.UseGet)) ∧
      ObjectData.propB env tvRef ctx key s
        = (Except.error (Fault.cannotBindImmutableProp s.this.m_cls.name
            (s.this.m_cls.declProp (s.this.declPropInd (Lval.declProp i))).name),
           s.afterDeclined
             (s.this.propVec.getD i TypedValue.uninit == TypedValue.uninit &&
               s.this.m_cls.UseGet))) := by
  have hlw := ObjectData.getPropImpl_declared true ctx key s i true hfound hdecl
  have hthis : s.promote.this = s.this := rfl
  constructor
  · intro hdirect
    refine ⟨?_, ?_, ?_⟩
    · by_cases hinit : s.this.propVec.getD i TypedValue.uninit = TypedValue.uninit
      all_goals (have hinit3 := hinit; simp only [List.getD_eq_getElem?_getD] at hinit3)
      · by_cases huse : s.this.m_cls.UseSet = true
        · have hact :
              s.propRecurInfo.isActive (s.accessKey key RuntimeAttribute.UseSet) = true := by
            rcases hdirect with h | h | h
            · exact absurd hinit h
            · rw [huse] at h; cases h
            · exact h
          have hg := ObjectData.invokeSet_declined env key val s hact
          simp [ObjectData.setProp, hlw, Bind.bind, Exec.bind, Pure.pure, Exec.pure, Exec.get,
            Exec.modify, Class.rtAttribute, huse, hg, State.afterDeclined, State.tvAt, hinit3,
            ObjectData.guardImmutable, ObjectData.isBeingConstructed, himm, hcons, hthis]
        · have huse2 : s.this.m_cls.UseSet = false := by simpa using huse
          simp [ObjectData.setProp, hlw, Bind.bind, Exec.bind, Pure.pure, Exec.pure, Exec.get,
            Exec.modify, Class.rtAttribute, huse2, State.afterDeclined, State.tvAt, hinit3,
            ObjectData.guardImmutable, ObjectData.isBeingConstructed, himm, hcons]
      · simp [ObjectData.setProp, hlw, Bind.bind, Exec.bind, Pure.pure, Exec.pure, Exec.get,
          Exec.modify, Class.rtAttribute, State.afterDeclined, State.tvAt, hinit3,
          ObjectData.guardImmutable, ObjectData.isBeingConstructed, himm, hcons]
    · simp [State.tvWrite, State.afterDeclined_this]
    · intro hi
      simp [State.tvWrite, State.tvAt, State.afterDeclined_this, hi]
  · intro hdirect
    by_cases hinit : s.this.propVec.getD i TypedValue.uninit = TypedValue.uninit
    all_goals (have hinit3 := hinit; simp only [List.getD_eq_getElem?_getD] at hinit3)
    · by_cases huse : s.this.m_cls.UseGet = true
      · have hact :
            s.propRecurInfo.isActive (s.accessKey key RuntimeAttribute.UseGet) = true := by
          rcases hdirect with h | h | h
          · exact absurd hinit h
          · rw [huse] at h; cases h
          · exact h
        have hg := ObjectData.invokeGet_declined env key s hact
        constructor
        · simp [ObjectData.propD, ObjectData.propImpl, ObjectData.checkImmutable, hlw,
            PropMode.write, Bind.bind, Exec.bind, Pure.pure, Exec.pure, Exec.get, Exec.throw,
            Class.rtAttribute, huse, hg, State.afterDeclined, State.tvAt, hinit3,
            ObjectData.isBeingConstructed, himm, hcons, hthis]
        · simp [ObjectData.propB, ObjectData.propImpl, ObjectData.checkImmutable, hlw,
            PropMode.write, Bind.bind, Exec.bind, Pure.pure, Exec.pure, Exec.get, Exec.throw,
            Class.rtAttribute, huse, hg, State.afterDeclined, State.tvAt, hinit3,
            ObjectData.throwBindImmutable, himm, hthis]
      · have huse2 : s.this.m_cls.UseGet = false := by simpa using huse
        constructor
        · simp [ObjectData.propD, ObjectData.propImpl, ObjectData.checkImmutable, hlw,
            PropMode.write, Bind.bind, Exec.bind, Pure.pure, Exec.pure, Exec.get, Exec.throw,
            Class.rtAttribute, huse2, State.afterDeclined, State.tvAt, hinit3,
            ObjectData.isBeingConstructed, himm, hcons]
        · simp [ObjectData.propB, ObjectData.propImpl, ObjectData.checkImmutable, hlw,
            PropMode.write, Bind.bind, Exec.bind, Pure.pure, Exec.pure, Exec.get, Exec.throw,
            Class.rtAttribute, huse2, State.afterDeclined, State.tvAt, hinit3,
            ObjectData.throwBindImmutable, himm]
    · constructor
      · simp [ObjectData.propD, ObjectData.propImpl, ObjectData.checkImmutable, hlw,
          PropMode.write, Bind.bind, Exec.bind, Pure.pure, Exec.pure, Exec.get, Exec.throw,
          Class.rtAttribute, State.afterDeclined, State.tvAt, hinit3,
          ObjectData.isBeingConstructed, himm, hcons]
      · simp [ObjectData.propB, ObjectData.propImpl, ObjectData.checkImmutable, hlw,
          PropMode.write, Bind.bind, Exec.bind, Pure.pure, Exec.pure, Exec.get, Exec.throw,
          Class.rtAttribute, State.afterDeclined, State.tvAt, hinit3,
          ObjectData.throwBindImmutable, himm]

/-- Writing the immutable "a" of the example instance under construction. -/
theorem immutability_waived_under_construction_witness :
    wStateCtor.this.IsBeingConstructed = true ∧
    (wCls.declProp 0).attrs.AttrIsImmutable = true ∧
    (ObjectData.setProp {} none "a" (TypedValue.int 9) wStateCtor).1 = Except.ok () ∧
    (ObjectData.setProp {} none "a" (TypedValue.int 9) wStateCtor).2.this.propVec
      = [TypedValue.int 9, TypedValue.int 2, TypedValue.uninit] ∧
    (ObjectData.propD {} TypedValue.null none "a" wStateCtor).1
      = Except.ok { handle := Lval.declProp 0, tvRef := TypedValue.null } :=
  ⟨by decide, by decide,
   by
    have h := ((immutability_waived_under_construction {} wStateCtor TypedValue.null none "a"
      (TypedValue.int 9) 0 rfl (by decide) (by decide) rfl).1 (Or.inl (by decide))).1
    rw [h],
   by decide, by decide⟩

theorem ObjectData.reserveProperties_forbidden (s : State)
    (hflag : s.this.HasDynPropArr = false)
    (hforbid : s.this.m_cls.forbidsDynamicProps = true) :
    ObjectData.reserveProperties s
      = (Except.error (Fault.objectForbidsDynamicProps s.this.m_cls.name), s) := by
  simp [ObjectData.reserveProperties, ObjectData.setDynPropArray, Exec.throw, hflag, hforbid]

theorem ObjectData.makeDynProp_forbidden (s : State) (key : String)
    (hflag : s.this.HasDynPropArr = false)
    (hforbid : s.this.m_cls.forbidsDynamicProps = true) :
    ObjectData.makeDynProp key s
      = (Except.error (Fault.objectForbidsDynamicProps s.this.m_cls.name), s) := by
  simp [ObjectData.makeDynProp, Bind.bind, Exec.bind,
    ObjectData.reserveProperties_forbidden s hflag hforbid]

theorem ObjectData.setDynProp_forbidden (s : State) (key : String) (val : TypedValue)
    (hflag : s.this.HasDynPropArr = false)
    (hforbid : s.this.m_cls.forbidsDynamicProps = true) :
    ObjectData.setDynProp key val s
      = (Except.error (Fault.objectForbidsDynamicProps s.this.m_cls.name), s) := by
  simp [ObjectData.setDynProp, Bind.bind, Exec.bind,
    ObjectData.reserveProperties_forbidden s hflag hforbid]

theorem ObjectData.getPropImpl_undeclared_no_store (w : Bool) (ctx : Option ClassPtr)
    (key : String) (s : State)
    (hundecl : (s.this.m_cls.getDeclPropIndex ctx key).prop = kInvalidSlot)
    (hflag : s.this.HasDynPropArr = false) :
    ObjectData.getPropImpl w ctx key s =
      { prop := Lval.nullptr, accessible := false, immutable := if w then false else true } := by
  simp [ObjectData.getPropImpl, hundecl, hflag]

/-- C7 fails as stated for the empty name: on an object without a store whose
class forbids dynamic properties, setProp on the undeclared name "" raises the
invalid-property-name fault, not the forbidden-dynamic-property fault. -/
theorem setProp_empty_name_not_forbidden_fault :
    wStateForbid.this.HasDynPropArr = false ∧
    DynPropTable.find wStateForbid.dynPropTable wStateForbid.this.addr = none ∧
    wStateForbid.this.m_cls.forbidsDynamicProps = true ∧
    (wStateForbid.this.m_cls.getDeclPropIndex none "").prop = kInvalidSlot ∧
    (ObjectData.setProp {} none "" (TypedValue.int 1) wStateForbid).1
      = Except.error (Fault.invalidPropertyName "") ∧
    (ObjectData.setProp {} none "" (TypedValue.int 1) wStateForbid).1
      ≠ Except.error (Fault.objectForbidsDynamicProps "F") := by
  decide

/-- C7, amended: on an object that has no dynamic-property store and whose
class forbids dynamic properties, reserveProperties and setDynPropArray raise
the forbidden-dynamic-property fault and leave the state as it is.  So do
setProp, propD, setOpProp and incDecProp on an undeclared name that is
non-empty and does not start with NUL, when the class has no native property
handler and no hook handles the access: the class does not use the hook, or
the guard declines it (for setOpProp and incDecProp with a declined get hook
and no set hook, provided the arithmetic on null raises no fault of its own).
The instance is unchanged: the flag stays clear and the side table has no
entry for it. -/
theorem forbidden_dynamic_property_fault (env : Engine) (s : State)
    (hflag : s.this.HasDynPropArr = false)
    (hnoentry : DynPropTable.find s.dynPropTable s.this.addr = none)
    (hforbid : s.this.m_cls.forbidsDynamicProps = true) :
    ObjectData.reserveProperties s
      = (Except.error (Fault.objectForbidsDynamicProps s.this.m_cls.name), s) ∧
    (∀ newArr : ArrayData, ObjectData.setDynPropArray newArr s
      = (Except.error (Fault.objectForbidsDynamicProps s.this.m_cls.name), s)) ∧
    (∀ (ctx : Option ClassPtr) (key : String),
      firstByteIsNul key = false →
      (s.this.m_cls.getDeclPropIndex ctx key).prop = kInvalidSlot →
      s.this.m_cls.HasNativePropHandler = false →
      (∀ val : TypedValue,
        (s.this.m_cls.UseSet = false ∨
          s.propRecurInfo.isActive (s.accessKey key RuntimeAttribute.UseSet) = true) →
        ObjectData.setProp env ctx key val s
          = (Except.error (Fault.objectForbidsDynamicProps s.this.m_cls.name),
             s.afterDeclined s.this.m_cls.UseSet)) ∧
      (∀ tvRef : TypedValue,
        (s.this.m_cls.UseGet = false ∨
          s.propRecurInfo.isActive (s.accessKey key RuntimeAttribute.UseGet) = true) →
        ObjectData.propD env tvRef ctx key s
          = (Except.error (Fault.objectForbidsDynamicProps s.this.m_cls.name),
             s.afterDeclined s.this.m_cls.UseGet)) ∧
      (∀ (tvRef val : TypedValue) (op : SetOpOp),
        (s.this.m_cls.UseGet = false ∨
          (s.propRecurInfo.isActive (s.accessKey key RuntimeAttribute.UseGet) = true ∧
            (s.this.m_cls.UseSet = true ∨
              ∃ nv, env.setopBody op TypedValue.null val = Except.ok nv))) →
        ObjectData.setOpProp env tvRef ctx op key val s
          = (Except.error (Fault.objectForbidsDynamicProps s.this.m_cls.name),
             s.afterDeclined s.this.m_cls.UseGet)) ∧
      (∀ (op : IncDecOp),
        (s.this.m_cls.UseGet = false ∨
          (s.propRecurInfo.isActive (s.accessKey key RuntimeAttribute.UseGet) = true ∧
            (s.this.m_cls.UseSet = true ∨
              ∃ res, env.IncDecBody op TypedValue.null = Except.ok res))) →
        ObjectData.incDecProp env ctx op key s
          = (Except.error (Fault.objectForbidsDynamicProps s.this.m_cls.name),
             s.afterDeclined s.this.m_cls.UseGet))) ∧
    (∀ b : Bool,
      (s.afterDeclined b).this = s.this ∧
      (s.afterDeclined b).this.HasDynPropArr = false ∧
      DynPropTable.find (s.afterDeclined b).dynPropTable (s.afterDeclined b).this.addr = none) := by
  have hthis : s.promote.this = s.this := rfl
  have hmkp := ObjectData.makeDynProp_forbidden s.promote
  have hsdp := ObjectData.setDynProp_forbidden s.promote
  simp only [hthis] at hmkp hsdp
  refine ⟨ObjectData.reserveProperties_forbidden s hflag hforbid, ?_, ?_, ?_⟩
  · intro newArr
    simp [ObjectData.setDynPropArray, Exec.throw, hforbid]
  · intro ctx key hname hundecl hnat
    have hl := fun w => ObjectData.getPropImpl_undeclared_no_store w ctx key s hundecl hflag
    refine ⟨?_, ?_, ?_, ?_⟩
    · intro val hhook
      by_cases huse : s.this.m_cls.UseSet = true
      · have hact :
            s.propRecurInfo.isActive (s.accessKey key RuntimeAttribute.UseSet) = true := by
          rcases hhook with h | h
          · rw [huse] at h; cases h
          · exact h
        have hg := ObjectData.invokeSet_declined env key val s hact
        simp [ObjectData.setProp, hl, Bind.bind, Exec.bind, Pure.pure, Exec.pure, Exec.get,
          Class.rtAttribute, hnat, huse, hg, hname, State.afterDeclined,
          hsdp key val hflag hforbid]
      · have huse2 : s.this.m_cls.UseSet = false := by simpa using huse
        simp [ObjectData.setProp, hl, Bind.bind, Exec.bind, Pure.pure, Exec.pure, Exec.get,
          Class.rtAttribute, hnat, huse2, hname, State.afterDeclined,
          ObjectData.setDynProp_forbidden s key val hflag hforbid]
    · intro tvRef hhook
      by_cases huse : s.this.m_cls.UseGet = true
      · have hact :
            s.propRecurInfo.isActive (s.accessKey key RuntimeAttribute.UseGet) = true := by
          rcases hhook with h | h
          · rw [huse] at h; cases h
          · exact h
        have hg := ObjectData.invokeGet_declined env key s hact
        simp [ObjectData.propD, ObjectData.propImpl, PropMode.write, hl, Bind.bind, Exec.bind,
          Pure.pure, Exec.pure, Exec.get, Class.rtAttribute, hnat, huse, hg, hname,
          State.afterDeclined, hmkp key hflag hforbid]
      · have huse2 : s.this.m_cls.UseGet = false := by simpa using huse
        simp [ObjectData.propD, ObjectData.propImpl, PropMode.write, hl, Bind.bind, Exec.bind,
          Pure.pure, Exec.pure, Exec.get, Class.rtAttribute, hnat, huse2, hname,
          State.afterDeclined, ObjectData.makeDynProp_forbidden s key hflag hforbid]
    · intro tvRef val op hhook
      by_cases huse : s.this.m_cls.UseGet = true
      · have hrest : s.propRecurInfo.isActive (s.accessKey key RuntimeAttribute.UseGet) = true ∧
            (s.this.m_cls.UseSet = true ∨
              ∃ nv, env.setopBody op TypedValue.null val = Except.ok nv) := by
          rcases hhook with h | h
          · rw [huse] at h; cases h
          · exact h
        have hg := ObjectData.invokeGet_declined env key s hrest.1
        by_cases hset : s.this.m_cls.UseSet = true
        · simp [ObjectData.setOpProp, hl, Bind.bind, Exec.bind, Pure.pure, Exec.pure, Exec.get,
            Class.rtAttribute, hnat, huse, hset, hg, hname, State.afterDeclined,
            hmkp key hflag hforbid]
        · have hset2 : s.this.m_cls.UseSet = false := by simpa using hset
          obtain ⟨nv, hnv⟩ : ∃ nv, env.setopBody op TypedValue.null val = Except.ok nv := by
            rcases hrest.2 with h | h
            · exact absurd h hset
            · exact h
          simp [ObjectData.setOpProp, hl, Bind.bind, Exec.bind, Pure.pure, Exec.pure, Exec.get,
            Class.rtAttribute, hnat, huse, hset2, hg, hname, State.afterDeclined, liftExcept,
            hnv, hmkp key hflag hforbid]
      · have huse2 : s.this.m_cls.UseGet = false := by simpa using huse
        simp [ObjectData.setOpProp, hl, Bind.bind, Exec.bind, Pure.pure, Exec.pure, Exec.get,
          Class.rtAttribute, hnat, huse2, hname, State.afterDeclined,
          ObjectData.makeDynProp_forbidden s key hflag hforbid]
    · intro op hhook
      by_cases huse : s.this.m_cls.UseGet = true
      · have hrest : s.propRecurInfo.isActive (s.accessKey key RuntimeAttribute.UseGet) = true ∧
            (s.this.m_cls.UseSet = true ∨
              ∃ res, env.IncDecBody op TypedValue.null = Except.ok res) := by
          rcases hhook with h | h
          · rw [huse] at h; cases h
          · exact h
        have hg := ObjectData.invokeGet_declined env key s hrest.1
        by_cases hset : s.this.m_cls.UseSet = true
        · simp [ObjectData.incDecProp, hl, Bind.bind, Exec.bind, Pure.pure, Exec.pure, Exec.get,
            Class.rtAttribute, hnat, huse, hset, hg, hname, State.afterDeclined,
            hmkp key hflag hforbid]
        · have hset2 : s.this.m_cls.UseSet = false := by simpa using hset
          obtain ⟨res, hres⟩ : ∃ res, env.IncDecBody op TypedValue.null = Except.ok res := by
            rcases hrest.2 with h | h
            · exact absurd h hset
            · exact h
          simp [ObjectData.incDecProp, hl, Bind.bind, Exec.bind, Pure.pure, Exec.pure, Exec.get,
            Class.rtAttribute, hnat, huse, hset2, hg, hname, State.afterDeclined, liftExcept,
            hres, hmkp key hflag hforbid]
      · have huse2 : s.this.m_cls.UseGet = false := by simpa using huse
        simp [ObjectData.incDecProp, hl, Bind.bind, Exec.bind, Pure.pure, Exec.pure, Exec.get,
          Class.rtAttribute, hnat, huse2, hname, State.afterDeclined,
          ObjectData.makeDynProp_forbidden s key hflag hforbid]
  · intro b
    refine ⟨State.afterDeclined_this _ _, ?_, ?_⟩
    · rw [State.afterDeclined_this]; exact hflag
    · rw [State.afterDeclined_this, State.afterDeclined_dynPropTable]; exact hnoentry

/-- The forbidding example instance: reserveProperties, and setProp on the
undeclared "zz". -/
theorem forbidden_dynamic_property_fault_witness :
    wStateForbid.this.HasDynPropArr = false ∧
    wStateForbid.this.m_cls.forbidsDynamicProps = true ∧
    ObjectData.reserveProperties wStateForbid
      = (Except.error (Fault.objectForbidsDynamicProps "F"), wStateForbid) ∧
    (ObjectData.setProp {} none "zz" (TypedValue.int 1) wStateForbid).1
      = Except.error (Fault.objectForbidsDynamicProps "F") :=
  ⟨rfl, rfl,
   (forbidden_dynamic_property_fault {} wStateForbid rfl (by decide) rfl).1,
   by decide⟩

theorem State.fixed_addr {s s1 : State} (h : s1.fixed = s.fixed) : s1.this.addr = s.this.addr := by
  have := congrArg (fun p => p.1.addr) h
  simpa [State.fixed] using this

/-- A guarded call changes nothing outside the reach of user-level code as
soon as its body does not. -/
theorem magic_prop_impl_fixed (info : PropAccessInfo) (invoker : Exec TypedValue)
    (hinv : ∀ s, (invoker s).2.fixed = s.fixed) (s : State) :
    (magic_prop_impl info invoker s).2.fixed = s.fixed := by
  cases hact : s.propRecurInfo.isActive info with
  | true => rw [magic_prop_impl_active info invoker s hact]; rfl
  | false =>
    rw [magic_prop_impl_inactive info invoker s hact]
    have h := hinv { s with propRecurInfo := s.propRecurInfo.enter info }
    simpa [State.fixed] using h

/-- User-level code changes nothing outside its reach. -/
theorem HookProg.run_fixed (p : HookProg) : ∀ s : State, (HookProg.run p s).2.fixed = s.fixed := by
  induction p with
  | ret v => intro s; rfl
  | raise f => intro s; rfl
  | effect f k ih =>
    intro s
    simp only [HookProg.run]
    rw [ih]
    rfl
  | inspect k ih =>
    intro s
    simp only [HookProg.run]
    exact ih _ s
  | magic info body k ihb ihk =>
    intro s
    simp only [HookProg.run]
    have h1 := magic_prop_impl_fixed info (HookProg.run body) ihb s
    cases hm : magic_prop_impl info (HookProg.run body) s with
    | mk r s1 =>
      rw [hm] at h1
      cases r with
      | error e => exact h1
      | ok v => exact (ihk v s1).trans h1
  | tryCatch body handler ihb ihh =>
    intro s
    simp only [HookProg.run]
    have h1 := ihb s
    cases hm : HookProg.run body s with
    | mk r s1 =>
      rw [hm] at h1
      cases r with
      | error e => exact (ihh e s1).trans h1
      | ok v => exact h1

/-- A guarded call does not look at the class of `this`. -/
theorem magic_prop_impl_withoutGetHook (info : PropAccessInfo) (invoker : Exec TypedValue)
    (hinv : ∀ s, invoker s.withoutGetHook = ((invoker s).1, (invoker s).2.withoutGetHook))
    (s : State) :
    magic_prop_impl info invoker s.withoutGetHook =
      ((magic_prop_impl info invoker s).1, (magic_prop_impl info invoker s).2.withoutGetHook) := by
  have hrec : s.withoutGetHook.propRecurInfo = s.propRecurInfo := rfl
  cases hact : s.propRecurInfo.isActive info with
  | true =>
    rw [magic_prop_impl_active info invoker s hact,
      magic_prop_impl_active info invoker s.withoutGetHook (by rw [hrec]; exact hact)]
    rfl
  | false =>
    rw [magic_prop_impl_inactive info invoker s hact,
      magic_prop_impl_inactive info invoker s.withoutGetHook (by rw [hrec]; exact hact)]
    have h := hinv { s with propRecurInfo := s.propRecurInfo.enter info }
    have he : ({ s.withoutGetHook with
        propRecurInfo := s.withoutGetHook.propRecurInfo.enter info } : State) =
        ({ s with propRecurInfo := s.propRecurInfo.enter info } : State).withoutGetHook := rfl
    rw [he, h]
    rfl

/-- User-level code does not look at the class of `this`. -/
theorem HookProg.run_withoutGetHook (p : HookProg) :
    ∀ s : State, HookProg.run p s.withoutGetHook =
      ((HookProg.run p s).1, (HookProg.run p s).2.withoutGetHook) := by
  induction p with
  | ret v => intro s; rfl
  | raise f => intro s; rfl
  | effect f k ih =>
    intro s
    simp only [HookProg.run]
    exact ih (s.withMutable (f s.mutable))
  | inspect k ih =>
    intro s
    simp only [HookProg.run]
    exact ih _ s
  | magic info body k ihb ihk =>
    intro s
    simp only [HookProg.run]
    rw [magic_prop_impl_withoutGetHook info (HookProg.run body) ihb s]
    cases hm : magic_prop_impl info (HookProg.run body) s with
    | mk r s1 =>
      cases r with
      | error e => rfl
      | ok v => exact ihk v s1
  | tryCatch body handler ihb ihh =>
    intro s
    simp only [HookProg.run]
    rw [ihb s]
    cases hm : HookProg.run body s with
    | mk r s1 =>
      cases r with
      | error e => exact ihh e s1
      | ok v => rfl

theorem ObjectData.invokeNativeGetProp_eq (env : Engine) (key : String) (s : State) :
    ObjectData.invokeNativeGetProp env key s =
      (match (HookProg.run (env.nativeGetProp s.this.m_cls.ptr key)
          { s with trace := s.trace ++ [Event.nativeGetProp s.this.addr key] }).1 with
        | Except.ok result => Except.ok (guardedNativePropResult env result)
        | Except.error e => Except.error e,
       (HookProg.run (env.nativeGetProp s.this.m_cls.ptr key)
          { s with trace := s.trace ++ [Event.nativeGetProp s.this.addr key] }).2) := by
  simp only [ObjectData.invokeNativeGetProp, traceEvent, Exec.modify, Bind.bind, Exec.bind,
    Pure.pure, Exec.pure]
  cases h : HookProg.run (env.nativeGetProp s.this.m_cls.ptr key)
      { s with trace := s.trace ++ [Event.nativeGetProp s.this.addr key] } with
  | mk r s1 => cases r <;> rfl

/-- The native getter does not look at the class of `this`. -/
theorem ObjectData.invokeNativeGetProp_withoutGetHook (env : Engine) (key : String)
    (s : State) :
    ObjectData.invokeNativeGetProp env key s.withoutGetHook =
      ((ObjectData.invokeNativeGetProp env key s).1,
       (ObjectData.invokeNativeGetProp env key s).2.withoutGetHook) := by
  rw [ObjectData.invokeNativeGetProp_eq, ObjectData.invokeNativeGetProp_eq]
  have he : ({ s.withoutGetHook with
      trace := s.withoutGetHook.trace ++ [Event.nativeGetProp s.withoutGetHook.this.addr key] }
        : State) =
      ({ s with trace := s.trace ++ [Event.nativeGetProp s.this.addr key] }
        : State).withoutGetHook := rfl
  have hp : s.withoutGetHook.this.m_cls.ptr = s.this.m_cls.ptr := rfl
  rw [he, hp, HookProg.run_withoutGetHook]

/-- The native getter keeps the identity of `this` and the active keys. -/
theorem ObjectData.invokeNativeGetProp_frame (env : Engine) (key : String) (s : State) :
    (ObjectData.invokeNativeGetProp env key s).2.this.addr = s.this.addr ∧
    (ObjectData.invokeNativeGetProp env key s).2.propRecurInfo.activeKeys
      = s.propRecurInfo.activeKeys := by
  rw [ObjectData.invokeNativeGetProp_eq]
  constructor
  · exact State.fixed_addr (s := { s with trace := s.trace ++ [Event.nativeGetProp s.this.addr key] })
      (HookProg.run_fixed _ _)
  · exact (HookProg.run_balanced _
      { s with trace := s.trace ++ [Event.nativeGetProp s.this.addr key] }).2.1

/-- The tail of the read variants looks neither at the get-hook bit of the
class nor at the guard. -/
theorem ObjectData.propImplTail_promote_withoutGetHook (mode : PropMode) (tvRef : TypedValue)
    (key : String) (s : State) :
    (ObjectData.propImplTail mode tvRef key s.promote).1
      = (ObjectData.propImplTail mode tvRef key s.withoutGetHook).1 ∧
    (ObjectData.propImplTail mode tvRef key s.promote).2.mutable
      = (ObjectData.propImplTail mode tvRef key s.withoutGetHook).2.mutable ∧
    (ObjectData.propImplTail mode tvRef key s.promote).2.trace
      = (ObjectData.propImplTail mode tvRef key s.withoutGetHook).2.trace ∧
    (ObjectData.propImplTail mode tvRef key s.promote).2.propRecurInfo.activeKeys
      = (ObjectData.propImplTail mode tvRef key s.withoutGetHook).2.propRecurInfo.activeKeys := by
  have hk : s.promote.propRecurInfo.activeKeys = s.withoutGetHook.propRecurInfo.activeKeys :=
    PropRecurInfo.activeKeys_promote _
  by_cases hname : firstByteIsNul key = true
  · simp [ObjectData.propImplTail, hname, Exec.throw, hk]
    exact ⟨rfl, rfl⟩
  · have hname2 : firstByteIsNul key = false := by simpa using hname
    by_cases hflag : s.this.HasDynPropArr = true <;>
      by_cases hforbid : s.this.m_cls.forbidsDynamicProps = true <;>
      cases mode <;>
      simp [ObjectData.propImplTail, hname2, Exec.throw, Bind.bind, Exec.bind, Pure.pure,
        Exec.pure, PropMode.write, ObjectData.raiseUndefProp, raise_notice, Exec.modify,
        ObjectData.makeDynProp, ObjectData.reserveProperties, ObjectData.setDynPropArray,
        State.promote, State.withoutGetHook, State.mutable, State.setDynPropArr,
        State.dynPropArray, hflag, hforbid, hk] <;>
      exact PropRecurInfo.activeKeys_promote _

/-- Normal form of the read variants when the lookup finds no property. -/
theorem ObjectData.propImpl_undeclared (env : Engine) (mode : PropMode) (tvRef : TypedValue)
    (ctx : Option ClassPtr) (key : String) (s : State)
    (hl : (ObjectData.getPropImpl mode.write ctx key s).prop = Lval.nullptr) :
    ObjectData.propImpl env mode tvRef ctx key s =
      match (if s.this.m_cls.HasNativePropHandler then ObjectData.invokeNativeGetProp env key s
             else (Except.ok { val := TypedValue.uninit, ok := false }, s)) with
      | (Except.error e, s1) => (Except.error e, s1)
      | (Except.ok r, s1) =>
        if r.ok then (Except.ok { handle := Lval.tvRef, tvRef := r.val }, s1)
        else
          match (if s.this.m_cls.UseGet then ObjectData.invokeGet env key s1
                 else (Except.ok { val := TypedValue.uninit, ok := false }, s1)) with
          | (Except.error e, s2) => (Except.error e, s2)
          | (Except.ok g, s2) =>
            if g.ok then (Except.ok { handle := Lval.tvRef, tvRef := g.val }, s2)
            else ObjectData.propImplTail mode tvRef key s2 := by
  have hl2 := ObjectData.getPropImpl_nullptr _ ctx key s hl
  by_cases hnat : s.this.m_cls.HasNativePropHandler = true
  · cases hn : ObjectData.invokeNativeGetProp env key s with
    | mk rn s1 =>
      cases rn with
      | error e =>
        simp [ObjectData.propImpl, hl2, Bind.bind, Exec.bind, Pure.pure, Exec.pure, Exec.get,
          hnat, hn]
      | ok r =>
        by_cases hr : r.ok = true
        · simp [ObjectData.propImpl, hl2, Bind.bind, Exec.bind, Pure.pure, Exec.pure, Exec.get,
            hnat, hn, hr]
        · have hr2 : r.ok = false := by simpa using hr
          by_cases huse : s.this.m_cls.UseGet = true
          · cases hg : ObjectData.invokeGet env key s1 with
            | mk rg s2 =>
              cases rg with
              | error e =>
                simp [ObjectData.propImpl, hl2, Bind.bind, Exec.bind, Pure.pure, Exec.pure,
                  Exec.get, hnat, hn, hr2, huse, hg, Class.rtAttribute]
              | ok g =>
                by_cases hgo : g.ok = true
                · simp [ObjectData.propImpl, hl2, Bind.bind, Exec.bind, Pure.pure, Exec.pure,
                    Exec.get, hnat, hn, hr2, huse, hg, hgo, Class.rtAttribute]
                · have hgo2 : g.ok = false := by simpa using hgo
                  simp [ObjectData.propImpl, hl2, Bind.bind, Exec.bind, Pure.pure, Exec.pure,
                    Exec.get, hnat, hn, hr2, huse, hg, hgo2, Class.rtAttribute,
                    ObjectData.propImplTail]
          · have huse2 : s.this.m_cls.UseGet = false := by simpa using huse
            simp [ObjectData.propImpl, hl2, Bind.bind, Exec.bind, Pure.pure, Exec.pure,
              Exec.get, hnat, hn, hr2, huse2, Class.rtAttribute, ObjectData.propImplTail]
  · have hnat2 : s.this.m_cls.HasNativePropHandler = false := by simpa using hnat
    by_cases huse : s.this.m_cls.UseGet = true
    · cases hg : ObjectData.invokeGet env key s with
      | mk rg s2 =>
        cases rg with
        | error e =>
          simp [ObjectData.propImpl, hl2, Bind.bind, Exec.bind, Pure.pure, Exec.pure,
            Exec.get, hnat2, huse, hg, Class.rtAttribute]
        | ok g =>
          by_cases hgo : g.ok = true
          · simp [ObjectData.propImpl, hl2, Bind.bind, Exec.bind, Pure.pure, Exec.pure,
              Exec.get, hnat2, huse, hg, hgo, Class.rtAttribute]
          · have hgo2 : g.ok = false := by simpa using hgo
            simp [ObjectData.propImpl, hl2, Bind.bind, Exec.bind, Pure.pure, Exec.pure,
              Exec.get, hnat2, huse, hg, hgo2, Class.rtAttribute, ObjectData.propImplTail]
    · have huse2 : s.this.m_cls.UseGet = false := by simpa using huse
      simp [ObjectData.propImpl, hl2, Bind.bind, Exec.bind, Pure.pure, Exec.pure,
        Exec.get, hnat2, huse2, Class.rtAttribute, ObjectData.propImplTail]

/-- C10: when the class uses the get hook but the guard declines it (an equal
get accessor is active when the read starts), every read variant (propImpl in
each mode) returns the same result or raises the same fault, the visibility
fault included, as it does on the same object with a class that does not use
the get hook, and leaves the same slots, reference count, store flag and side
table, the same trace and the same active keys. -/
theorem declined_get_hook_reads_as_without_hook (env : Engine) (mode : PropMode)
    (tvRef : TypedValue) (ctx : Option ClassPtr) (key : String) (s : State)
    (huse : s.this.m_cls.UseGet = true)
    (hact : s.propRecurInfo.isActive (s.accessKey key RuntimeAttribute.UseGet) = true) :
    (ObjectData.propImpl env mode tvRef ctx key s).1
      = (ObjectData.propImpl env mode tvRef ctx key s.withoutGetHook).1 ∧
    (ObjectData.propImpl env mode tvRef ctx key s).2.mutable
      = (ObjectData.propImpl env mode tvRef ctx key s.withoutGetHook).2.mutable ∧
    (ObjectData.propImpl env mode tvRef ctx key s).2.trace
      = (ObjectData.propImpl env mode tvRef ctx key s.withoutGetHook).2.trace ∧
    (ObjectData.propImpl env mode tvRef ctx key s).2.propRecurInfo.activeKeys
      = (ObjectData.propImpl env mode tvRef ctx key s.withoutGetHook).2.propRecurInfo.activeKeys
    := by
  have hl0 : ObjectData.getPropImpl mode.write ctx key s.withoutGetHook
      = ObjectData.getPropImpl mode.write ctx key s := rfl
  have huse0 : s.withoutGetHook.this.m_cls.UseGet = false := rfl
  have hg := ObjectData.invokeGet_declined env key s hact
  by_cases hp : (ObjectData.getPropImpl mode.write ctx key s).prop = Lval.nullptr
  · rw [ObjectData.propImpl_undeclared env mode tvRef ctx key s hp,
      ObjectData.propImpl_undeclared env mode tvRef ctx key s.withoutGetHook (by rw [hl0]; exact hp)]
    have hnat0 : s.withoutGetHook.this.m_cls.HasNativePropHandler
        = s.this.m_cls.HasNativePropHandler := rfl
    rw [hnat0, huse0, huse]
    by_cases hnat : s.this.m_cls.HasNativePropHandler = true
    · have hfr := ObjectData.invokeNativeGetProp_frame env key s
      rw [ObjectData.invokeNativeGetProp_withoutGetHook]
      cases hn : ObjectData.invokeNativeGetProp env key s with
      | mk rn s1 =>
        rw [hn] at hfr
        cases rn with
        | error e => simp [hnat]; exact ⟨rfl, rfl, rfl⟩
        | ok r =>
          by_cases hr : r.ok = true
          · simp [hnat, hr]; exact ⟨rfl, rfl, rfl⟩
          · have hr2 : r.ok = false := by simpa using hr
            have hact1 :
                s1.propRecurInfo.isActive (s1.accessKey key RuntimeAttribute.UseGet) = true := by
              simp only [PropRecurInfo.isActive, State.accessKey] at hact ⊢
              rw [hfr.1, hfr.2]
              exact hact
            have hg1 := ObjectData.invokeGet_declined env key s1 hact1
            simp only [hnat, hr2, hg1, if_true, Bool.false_eq_true, if_false]
            exact ObjectData.propImplTail_promote_withoutGetHook mode tvRef key s1
    · have hnat2 : s.this.m_cls.HasNativePropHandler = false := by simpa using hnat
      simp only [hnat2, hg, if_true, Bool.false_eq_true, if_false]
      exact ObjectData.propImplTail_promote_withoutGetHook mode tvRef key s
  · have hk : s.promote.propRecurInfo.activeKeys = s.propRecurInfo.activeKeys :=
      PropRecurInfo.activeKeys_promote _
    have hpw : (ObjectData.getPropImpl mode.write ctx key s.withoutGetHook).prop ≠ Lval.nullptr := by
      rw [hl0]; exact hp
    have htv : ∀ p, s.withoutGetHook.tvAt p = s.tvAt p := fun p => by cases p <;> rfl
    have hthis : s.promote.this = s.this := rfl
    have hcons0 : s.withoutGetHook.this.IsBeingConstructed = s.this.IsBeingConstructed := rfl
    simp only [ObjectData.propImpl, Bind.bind, Exec.bind, Exec.get, hl0, htv]
    generalize ObjectData.getPropImpl mode.write ctx key s = L at hp
    obtain ⟨p, acc, imm⟩ := L
    simp only at hp
    have hmut : s.promote.mutable = s.withoutGetHook.mutable := rfl
    have hmut0 : s.withoutGetHook.mutable = s.mutable := rfl
    have htr : s.promote.trace = s.trace := rfl
    have htr0 : s.withoutGetHook.trace = s.trace := rfl
    have hk0 : s.withoutGetHook.propRecurInfo = s.propRecurInfo := rfl
    have hname0 : s.withoutGetHook.this.m_cls.name = s.this.m_cls.name := rfl
    have hlk0 : s.withoutGetHook.this.m_cls.lookupDeclProp = s.this.m_cls.lookupDeclProp := rfl
    have hdp0 : ∀ j, s.withoutGetHook.this.m_cls.declProp j = s.this.m_cls.declProp j :=
      fun _ => rfl
    have hdi0 : ∀ q, s.withoutGetHook.this.declPropInd q = s.this.declPropInd q :=
      fun q => by cases q <;> rfl
    cases acc with
    | true =>
      by_cases hinit : s.tvAt p = TypedValue.uninit
      · cases mode <;> cases imm <;>
          by_cases hc : s.this.IsBeingConstructed = true <;>
          simp [Bind.bind, Exec.bind, Pure.pure, Exec.pure, Exec.get,
            Exec.throw, Exec.modify, Class.rtAttribute, huse, huse0, hg, hp, hinit,
            ObjectData.checkImmutable, ObjectData.raiseUndefProp, raise_notice,
            ObjectData.throwBindImmutable, ObjectData.throwMutateImmutable,
            ObjectData.isBeingConstructed, hthis, hcons0, hc, hk, PropMode.write,
            hmut, hmut0, htr, htr0, hk0, hname0, hdp0, hdi0] <;>
          rfl
      · cases mode <;> cases imm <;>
          by_cases hc : s.this.IsBeingConstructed = true <;>
          simp [Bind.bind, Exec.bind, Pure.pure, Exec.pure, Exec.get,
            Exec.throw, Exec.modify, Class.rtAttribute, huse, huse0, hg, hp, hinit,
            ObjectData.checkImmutable, ObjectData.raiseUndefProp, raise_notice,
            ObjectData.throwBindImmutable, ObjectData.throwMutateImmutable,
            ObjectData.isBeingConstructed, hthis, hcons0, hc, hk, PropMode.write,
            hmut, hmut0, htr, htr0, hk0, hname0, hdp0, hdi0]
    | false =>
      simp [Bind.bind, Exec.bind, Pure.pure, Exec.pure, Exec.get,
        Exec.throw, Class.rtAttribute, huse, huse0, hg, hp, hk,
        hmut, hmut0, htr, htr0, hk0, hname0, hlk0, hdp0]

/-- Reading the private "b" from outside the class while the get accessor for
"b" is active: the visibility fault, as without a get hook. -/
theorem declined_get_hook_reads_as_without_hook_witness :
    wStateDeclined.this.m_cls.UseGet = true ∧
    wStateDeclined.propRecurInfo.isActive
      (wStateDeclined.accessKey "b" RuntimeAttribute.UseGet) = true ∧
    (ObjectData.propImpl {} PropMode.ReadNoWarn TypedValue.null none "b" wStateDeclined).1
      = (ObjectData.propImpl {} PropMode.ReadNoWarn TypedValue.null none "b"
          wStateDeclined.withoutGetHook).1 ∧
    (ObjectData.propImpl {} PropMode.ReadNoWarn TypedValue.null none "b" wStateDeclined).1
      = Except.error (Fault.raiseError "Cannot access private property C::$b") :=
  ⟨rfl, by decide,
   (declined_get_hook_reads_as_without_hook {} PropMode.ReadNoWarn TypedValue.null none "b"
      wStateDeclined rfl (by decide)).1,
   by decide⟩

/-- A call into the method invocation engine appends its record to the trace
and nothing else. -/
theorem invokeMethod_trace (env : Engine) (meth : String) (args : List TypedValue) (s : State) :
    (invokeMethod env meth args s).2.trace
      = s.trace ++ [Event.invokeMethod s.this.addr meth args] := by
  simp only [invokeMethod, traceEvent, Exec.modify, Bind.bind, Exec.bind]
  have h := HookProg.run_fixed (env.method s.this.m_cls.ptr meth args)
    { s with trace := s.trace ++ [Event.invokeMethod s.this.addr meth args] }
  have := congrArg Prod.snd h
  simpa [State.fixed] using this

/-- An admitted get accessor: the outcome of the hook, between `enter` and `leave`. -/
theorem ObjectData.invokeGet_admitted (env : Engine) (key : String) (s : State)
    (hact : s.propRecurInfo.isActive (s.accessKey key RuntimeAttribute.UseGet) = false)
    (v : TypedValue) (s1 : State)
    (hrun : invokeMethod env "__get" [TypedValue.str key]
        { s with propRecurInfo :=
            s.propRecurInfo.enter (s.accessKey key RuntimeAttribute.UseGet) }
      = (Except.ok v, s1)) :
    ObjectData.invokeGet env key s =
      (Except.ok { val := v, ok := true },
        { s1 with propRecurInfo :=
            (PropRecurInfo.leave s.propRecurInfo
              (s.accessKey key RuntimeAttribute.UseGet) s1.propRecurInfo) }) := by
  simp only [ObjectData.invokeGet, MagicInvoker]
  rw [magic_prop_impl_inactive _ _ s hact, hrun]
  rfl

/-- C11 fails as stated: the get hook is user-level code and may write the
dynamic-property store.  Reading the accessible, uninitialized "a" of the
hook-using example instance with a get hook that materializes "d": prop
returns the value of the hook, and the store and its flag have changed. -/
theorem prop_get_hook_may_change_store :
    wStateHooks.this.m_cls.UseGet = true ∧
    wStateHooks.this.m_cls.getDeclPropIndex none "a" = { prop := 0, accessible := true } ∧
    wStateHooks.this.propVec.getD 0 TypedValue.uninit = TypedValue.uninit ∧
    wStateHooks.propRecurInfo.isActive (wStateHooks.accessKey "a" RuntimeAttribute.UseGet)
      = false ∧
    (ObjectData.prop wEngineDyn TypedValue.null none "a" wStateHooks).1
      = Except.ok { handle := Lval.tvRef, tvRef := TypedValue.int 5 } ∧
    wStateHooks.dynPropTable = [] ∧
    wStateHooks.this.HasDynPropArr = false ∧
    (ObjectData.prop wEngineDyn TypedValue.null none "a" wStateHooks).2.dynPropTable
      = [(7, [("d", TypedValue.int 1)])] ∧
    (ObjectData.prop wEngineDyn TypedValue.null none "a" wStateHooks).2.this.HasDynPropArr
      = true := by
  decide

/-- C11, amended: for a class that uses the get hook and a declared property
that is accessible from the context but uninitialized, with no get accessor
for that (object, name) active, prop and propW invoke the get hook exactly
once (the trace gains that one call and nothing else: no other hook, no native
handler, no notice), return the value of the hook in the caller's temporary,
and change nothing themselves: the instance, with its slots and store flag,
and the side table are exactly as the hook body left them. -/
theorem get_hook_answers_uninit_declared_read (env : Engine) (s : State)
    (tvRef : TypedValue) (ctx : Option ClassPtr) (key : String) (i : Slot)
    (v : TypedValue) (s1 : State)
    (huse : s.this.m_cls.UseGet = true)
    (hfound : s.this.m_cls.getDeclPropIndex ctx key = { prop := i, accessible := true })
    (hdecl : i ≠ kInvalidSlot)
    (huninit : s.this.propVec.getD i TypedValue.uninit = TypedValue.uninit)
    (hact : s.propRecurInfo.isActive (s.accessKey key RuntimeAttribute.UseGet) = false)
    (hrun : invokeMethod env "__get" [TypedValue.str key]
        { s with propRecurInfo :=
            s.propRecurInfo.enter (s.accessKey key RuntimeAttribute.UseGet) }
      = (Except.ok v, s1)) :
    ObjectData.prop env tvRef ctx key s
      = (Except.ok { handle := Lval.tvRef, tvRef := v },
         { s1 with propRecurInfo :=
             (PropRecurInfo.leave s.propRecurInfo
               (s.accessKey key RuntimeAttribute.UseGet) s1.propRecurInfo) }) ∧
    ObjectData.propW env tvRef ctx key s
      = (Except.ok { handle := Lval.tvRef, tvRef := v },
         { s1 with propRecurInfo :=
             (PropRecurInfo.leave s.propRecurInfo
               (s.accessKey key RuntimeAttribute.UseGet) s1.propRecurInfo) }) ∧
    s1.trace = s.trace ++ [Event.invokeMethod s.this.addr "__get" [TypedValue.str key]] ∧
    (s1.mutable = s.mutable →
      (ObjectData.prop env tvRef ctx key s).2.dynPropTable = s.dynPropTable ∧
      (ObjectData.prop env tvRef ctx key s).2.this.HasDynPropArr = s.this.HasDynPropArr ∧
      (ObjectData.propW env tvRef ctx key s).2.dynPropTable = s.dynPropTable ∧
      (ObjectData.propW env tvRef ctx key s).2.this.HasDynPropArr = s.this.HasDynPropArr) := by
  have hl := fun w => ObjectData.getPropImpl_declared w ctx key s i true hfound hdecl
  have hg := ObjectData.invokeGet_admitted env key s hact v s1 hrun
  have huninit3 := huninit
  simp only [List.getD_eq_getElem?_getD] at huninit3
  have hp : ObjectData.prop env tvRef ctx key s
      = (Except.ok { handle := Lval.tvRef, tvRef := v },
         { s1 with propRecurInfo :=
             (PropRecurInfo.leave s.propRecurInfo
               (s.accessKey key RuntimeAttribute.UseGet) s1.propRecurInfo) }) := by
    simp [ObjectData.prop, ObjectData.propImpl, hl, Bind.bind, Exec.bind, Pure.pure, Exec.pure,
      Exec.get, PropMode.write, Class.rtAttribute, huse, hg, State.tvAt, huninit3]
  have hpw : ObjectData.propW env tvRef ctx key s
      = (Except.ok { handle := Lval.tvRef, tvRef := v },
         { s1 with propRecurInfo :=
             (PropRecurInfo.leave s.propRecurInfo
               (s.accessKey key RuntimeAttribute.UseGet) s1.propRecurInfo) }) := by
    simp [ObjectData.propW, ObjectData.propImpl, hl, Bind.bind, Exec.bind, Pure.pure, Exec.pure,
      Exec.get, PropMode.write, Class.rtAttribute, huse, hg, State.tvAt, huninit3]
  refine ⟨hp, hpw, ?_, ?_⟩
  · have ht := invokeMethod_trace env "__get" [TypedValue.str key]
      { s with propRecurInfo :=
          s.propRecurInfo.enter (s.accessKey key RuntimeAttribute.UseGet) }
    rw [hrun] at ht
    exact ht
  · intro hm
    rw [hp, hpw]
    have h1 : s1.dynPropTable = s.dynPropTable := congrArg Mutable.dynPropTable hm
    have h2 : s1.this.HasDynPropArr = s.this.HasDynPropArr := congrArg Mutable.HasDynPropArr hm
    exact ⟨h1, h2, h1, h2⟩

/-- Reading the uninitialized "a" of the hook-using example instance with a
get hook that answers 42 and touches nothing. -/
theorem get_hook_answers_uninit_declared_read_witness :
    (ObjectData.prop { method := fun _ _ _ => HookProg.ret (TypedValue.int 42) }
        TypedValue.null none "a" wStateHooks).1
      = Except.ok { handle := Lval.tvRef, tvRef := TypedValue.int 42 } ∧
    (ObjectData.prop { method := fun _ _ _ => HookProg.ret (TypedValue.int 42) }
        TypedValue.null none "a" wStateHooks).2.trace
      = [Event.invokeMethod 7 "__get" [TypedValue.str "a"]] ∧
    (ObjectData.prop { method := fun _ _ _ => HookProg.ret (TypedValue.int 42) }
        TypedValue.null none "a" wStateHooks).2.dynPropTable = [] :=
  ⟨by
    have h := (get_hook_answers_uninit_declared_read
      { method := fun _ _ _ => HookProg.ret (TypedValue.int 42) } wStateHooks TypedValue.null
      none "a" 0 (TypedValue.int 42) _ rfl rfl (by decide) (by decide) (by decide) rfl).1
    rw [h],
   by decide, by decide⟩

theorem ArrayData.rval_set_self (a : ArrayData) (key : String) (v : TypedValue) :
    ArrayData.rval (ArrayData.set a key v) key = some v := by
  induction a with
  | nil => simp [ArrayData.set, ArrayData.rval]
  | cons e rest ih =>
    simp only [ArrayData.set]
    by_cases hk : e.1 = key
    · simp [hk, ArrayData.rval]
    · have hb : (e.1 == key) = false := by simpa using hk
      simp only [hb, Bool.false_eq_true, if_false]
      simp only [ArrayData.rval, List.find?_cons, hb] at ih ⊢
      exact ih

/-- `makeDynProp` succeeds when the store exists or the class permits dynamic
properties. -/
theorem ObjectData.makeDynProp_ok (s : State) (key : String)
    (hperm : s.this.HasDynPropArr = true ∨ s.this.m_cls.forbidsDynamicProps = false) :
    ObjectData.makeDynProp key s = (Except.ok (Lval.dynProp key), s.materialize key) := by
  by_cases hflag : s.this.HasDynPropArr = true
  · simp [ObjectData.makeDynProp, ObjectData.reserveProperties, Bind.bind, Exec.bind, Pure.pure,
      Exec.pure, Exec.modify, hflag, State.materialize, State.setDynPropArr]
    exact (ObjectData.setFlag_eq s.this hflag).symm
  · have hflag2 : s.this.HasDynPropArr = false := by simpa using hflag
    have hdyn : s.this.m_cls.forbidsDynamicProps = false := by
      rcases hperm with h | h
      · exact absurd h hflag
      · exact h
    simp [ObjectData.makeDynProp, ObjectData.reserveProperties, ObjectData.setDynPropArray,
      Bind.bind, Exec.bind, Pure.pure, Exec.pure, Exec.modify, hflag2, hdyn,
      State.materialize, State.setDynPropArr, State.dynPropArray,
      DynPropTable.find_assign, DynPropTable.assign_assign]

/-- After `makeDynProp key` and a write through the handle, the store holds
the value under `key`. -/
theorem State.materialize_write_rval (s : State) (key : String) (nv : TypedValue) :
    ArrayData.rval ((s.materialize key).tvWrite (Lval.dynProp key) nv).dynPropArray key
      = some nv := by
  simp [State.tvWrite, State.setDynPropArr, State.dynPropArray, DynPropTable.find_assign,
    ArrayData.rval_set_self]

/-- C12 fails as stated: "x" is not a declared property but an existing
dynamic one.  The class uses the get hook (which would supply 100), not the
set hook, and has no native handler; the guard is idle.  setOpProp x += 1 and
incDecProp ++x work on the stored 5 without invoking the hook: the property
holds 6, neither 101 (the operation on the hook's value) nor 1 (on null). -/
theorem setOp_on_existing_dynamic_prop_skips_get_hook :
    (wStateDynX.this.m_cls.getDeclPropIndex none "x").prop = kInvalidSlot ∧
    wStateDynX.this.m_cls.UseGet = true ∧
    wStateDynX.this.m_cls.UseSet = false ∧
    wStateDynX.this.m_cls.HasNativePropHandler = false ∧
    ArrayData.rval
        (ObjectData.setOpProp wEngineArith TypedValue.null none SetOpOp.PlusEqual "x"
          (TypedValue.int 1) wStateDynX).2.dynPropArray "x" = some (TypedValue.int 6) ∧
    (ObjectData.setOpProp wEngineArith TypedValue.null none SetOpOp.PlusEqual "x"
          (TypedValue.int 1) wStateDynX).2.trace = [] ∧
    ArrayData.rval
        (ObjectData.incDecProp wEngineArith none IncDecOp.PreInc "x" wStateDynX).2.dynPropArray
        "x" = some (TypedValue.int 6) ∧
    wEngineArith.setopBody SetOpOp.PlusEqual (TypedValue.int 100) (TypedValue.int 1)
      = Except.ok (TypedValue.int 101) ∧
    wEngineArith.setopBody SetOpOp.PlusEqual TypedValue.null (TypedValue.int 1)
      = Except.ok (TypedValue.int 1) := by
  decide

/-- C12, amended: for setOpProp and incDecProp on a non-empty name, not
starting with NUL, for which the lookup finds neither a declared nor an
existing dynamic property, on an object whose class uses the get hook, does
not use the set hook and has no native property handler, and which has a
store or whose class permits dynamic properties: when the guard admits the
get hook and hook and arithmetic return normally, the hook is invoked exactly
once, the set hook never, and afterwards the dynamic property of that name
holds the operation applied to the value of the hook; when the guard
declines, no hook is invoked and the property holds the operation applied to
null. -/
theorem get_without_set_hook_result_goes_to_dynamic_property (env : Engine) (s : State)
    (tvRef : TypedValue) (ctx : Option ClassPtr) (key : String) (val : TypedValue)
    (op : SetOpOp) (idop : IncDecOp)
    (hnat : s.this.m_cls.HasNativePropHandler = false)
    (huse : s.this.m_cls.UseGet = true)
    (hset : s.this.m_cls.UseSet = false)
    (hname : firstByteIsNul key = false)
    (hlook : (ObjectData.getPropImpl true ctx key s).prop = Lval.nullptr) :
    (s.propRecurInfo.isActive (s.accessKey key RuntimeAttribute.UseGet) = false →
      ∀ (v : TypedValue) (s1 : State),
        invokeMethod env "__get" [TypedValue.str key]
            { s with propRecurInfo :=
                s.propRecurInfo.enter (s.accessKey key RuntimeAttribute.UseGet) }
          = (Except.ok v, s1) →
        (s1.this.HasDynPropArr = true ∨ s.this.m_cls.forbidsDynamicProps = false) →
        s1.trace = s.trace ++ [Event.invokeMethod s.this.addr "__get" [TypedValue.str key]] ∧
        (∀ nv : TypedValue, env.setopBody op v val = Except.ok nv →
          ObjectData.setOpProp env tvRef ctx op key val s
            = (Except.ok { handle := Lval.dynProp key, tvRef := tvRef },
               (({ s1 with propRecurInfo :=
                    (PropRecurInfo.leave s.propRecurInfo
                      (s.accessKey key RuntimeAttribute.UseGet) s1.propRecurInfo) }
                  : State).materialize key).tvWrite (Lval.dynProp key) nv) ∧
          ArrayData.rval
            (ObjectData.setOpProp env tvRef ctx op key val s).2.dynPropArray key = some nv ∧
          (ObjectData.setOpProp env tvRef ctx op key val s).2.trace = s1.trace) ∧
        (∀ res : TypedValue × TypedValue, env.IncDecBody idop v = Except.ok res →
          ObjectData.incDecProp env ctx idop key s
            = (Except.ok res.2,
               (({ s1 with propRecurInfo :=
                    (PropRecurInfo.leave s.propRecurInfo
                      (s.accessKey key RuntimeAttribute.UseGet) s1.propRecurInfo) }
                  : State).materialize key).tvWrite (Lval.dynProp key) res.1) ∧
          ArrayData.rval
            (ObjectData.incDecProp env ctx idop key s).2.dynPropArray key = some res.1 ∧
          (ObjectData.incDecProp env ctx idop key s).2.trace = s1.trace)) ∧
    (s.propRecurInfo.isActive (s.accessKey key RuntimeAttribute.UseGet) = true →
      (s.this.HasDynPropArr = true ∨ s.this.m_cls.forbidsDynamicProps = false) →
      (∀ nv : TypedValue, env.setopBody op TypedValue.null val = Except.ok nv →
        ObjectData.setOpProp env tvRef ctx op key val s
          = (Except.ok { handle := Lval.dynProp key, tvRef := tvRef },
             (s.promote.materialize key).tvWrite (Lval.dynProp key) nv) ∧
        ArrayData.rval
          (ObjectData.setOpProp env tvRef ctx op key val s).2.dynPropArray key = some nv ∧
        (ObjectData.setOpProp env tvRef ctx op key val s).2.trace = s.trace) ∧
      (∀ res : TypedValue × TypedValue, env.IncDecBody idop TypedValue.null = Except.ok res →
        ObjectData.incDecProp env ctx idop key s
          = (Except.ok res.2,
             (s.promote.materialize key).tvWrite (Lval.dynProp key) res.1) ∧
        ArrayData.rval
          (ObjectData.incDecProp env ctx idop key s).2.dynPropArray key = some res.1 ∧
        (ObjectData.incDecProp env ctx idop key s).2.trace = s.trace)) := by
  have hl := ObjectData.getPropImpl_nullptr true ctx key s hlook
  constructor
  · intro hact v s1 hrun hperm
    have hg := ObjectData.invokeGet_admitted env key s hact v s1 hrun
    have hfix : s1.fixed = ({ s with
        trace := s.trace ++ [Event.invokeMethod s.this.addr "__get" [TypedValue.str key]] }
          : State).fixed := by
      have h := HookProg.run_fixed (env.method s.this.m_cls.ptr "__get" [TypedValue.str key])
        { s with
          propRecurInfo := s.propRecurInfo.enter (s.accessKey key RuntimeAttribute.UseGet),
          trace := s.trace ++ [Event.invokeMethod s.this.addr "__get" [TypedValue.str key]] }
      simp only [invokeMethod, traceEvent, Exec.modify, Bind.bind, Exec.bind] at hrun
      rw [hrun] at h
      exact h
    have hcls : s1.this.m_cls = s.this.m_cls := by
      have := congrArg (fun p => p.1.m_cls) hfix
      simpa [State.fixed] using this
    have htr : s1.trace
        = s.trace ++ [Event.invokeMethod s.this.addr "__get" [TypedValue.str key]] := by
      have := congrArg Prod.snd hfix
      simpa [State.fixed] using this
    have hmk := ObjectData.makeDynProp_ok
      ({ s1 with propRecurInfo :=
          (PropRecurInfo.leave s.propRecurInfo
            (s.accessKey key RuntimeAttribute.UseGet) s1.propRecurInfo) } : State) key
      (by rw [hcls]; exact hperm)
    refine ⟨htr, ?_, ?_⟩
    · intro nv hnv
      have heq : ObjectData.setOpProp env tvRef ctx op key val s
          = (Except.ok { handle := Lval.dynProp key, tvRef := tvRef },
             (({ s1 with propRecurInfo :=
                  (PropRecurInfo.leave s.propRecurInfo
                    (s.accessKey key RuntimeAttribute.UseGet) s1.propRecurInfo) }
                : State).materialize key).tvWrite (Lval.dynProp key) nv) := by
        simp [ObjectData.setOpProp, hl, Bind.bind, Exec.bind, Pure.pure, Exec.pure, Exec.get,
          Exec.modify, Class.rtAttribute, hnat, huse, hset, hname, hg, liftExcept, hnv, hmk]
      refine ⟨heq, ?_, ?_⟩
      · rw [heq]; exact State.materialize_write_rval _ key nv
      · rw [heq]; rfl
    · intro res hres
      have heq : ObjectData.incDecProp env ctx idop key s
          = (Except.ok res.2,
             (({ s1 with propRecurInfo :=
                  (PropRecurInfo.leave s.propRecurInfo
                    (s.accessKey key RuntimeAttribute.UseGet) s1.propRecurInfo) }
                : State).materialize key).tvWrite (Lval.dynProp key) res.1) := by
        simp [ObjectData.incDecProp, hl, Bind.bind, Exec.bind, Pure.pure, Exec.pure, Exec.get,
          Exec.modify, Class.rtAttribute, hnat, huse, hset, hname, hg, liftExcept, hres, hmk]
      refine ⟨heq, ?_, ?_⟩
      · rw [heq]; exact State.materialize_write_rval _ key res.1
      · rw [heq]; rfl
  · intro hact hperm
    have hg := ObjectData.invokeGet_declined env key s hact
    have hmk := ObjectData.makeDynProp_ok s.promote key hperm
    constructor
    · intro nv hnv
      have heq : ObjectData.setOpProp env tvRef ctx op key val s
          = (Except.ok { handle := Lval.dynProp key, tvRef := tvRef },
             (s.promote.materialize key).tvWrite (Lval.dynProp key) nv) := by
        simp [ObjectData.setOpProp, hl, Bind.bind, Exec.bind, Pure.pure, Exec.pure, Exec.get,
          Exec.modify, Class.rtAttribute, hnat, huse, hset, hname, hg, liftExcept, hnv, hmk]
      refine ⟨heq, ?_, ?_⟩
      · rw [heq]; exact State.materialize_write_rval _ key nv
      · rw [heq]; rfl
    · intro res hres
      have heq : ObjectData.incDecProp env ctx idop key s
          = (Except.ok res.2,
             (s.promote.materialize key).tvWrite (Lval.dynProp key) res.1) := by
        simp [ObjectData.incDecProp, hl, Bind.bind, Exec.bind, Pure.pure, Exec.pure, Exec.get,
          Exec.modify, Class.rtAttribute, hnat, huse, hset, hname, hg, liftExcept, hres, hmk]
      refine ⟨heq, ?_, ?_⟩
      · rw [heq]; exact State.materialize_write_rval _ key res.1
      · rw [heq]; rfl

/-- On the get-only example instance without a store, y += 1 with a hook that
supplies 100: the new dynamic property "y" holds 101 and the hook ran once. -/
theorem get_without_set_hook_result_goes_to_dynamic_property_witness :
    ArrayData.rval
        (ObjectData.setOpProp wEngineArith TypedValue.null none SetOpOp.PlusEqual "y"
          (TypedValue.int 1) wStateGetOnly).2.dynPropArray "y" = some (TypedValue.int 101) ∧
    (ObjectData.setOpProp wEngineArith TypedValue.null none SetOpOp.PlusEqual "y"
          (TypedValue.int 1) wStateGetOnly).2.trace
      = [Event.invokeMethod 7 "__get" [TypedValue.str "y"]] :=
  ⟨((((get_without_set_hook_result_goes_to_dynamic_property wEngineArith wStateGetOnly
        TypedValue.null none "y" (TypedValue.int 1) SetOpOp.PlusEqual IncDecOp.PreInc
        rfl rfl rfl (by decide) (by decide)).1 (by decide) (TypedValue.int 100) _ rfl
        (Or.inr rfl)).2.1) (TypedValue.int 101) rfl).2.1,
   by decide⟩

theorem ArrayData.set_new (a : ArrayData) (key : String) (v : TypedValue)
    (h : key ∉ a.map Prod.fst) : ArrayData.set a key v = a ++ [(key, v)] := by
  induction a with
  | nil => rfl
  | cons e rest ih =>
    simp only [List.map_cons, List.mem_cons, not_or] at h
    have hne : (e.1 == key) = false := by
      simp only [beq_eq_false_iff_ne, ne_eq]
      exact fun h1 => h.1 h1.symm
    simp [ArrayData.set, hne, ih h.2]

theorem ArrayData.foldl_set_new (d a : ArrayData)
    (h : (a.map Prod.fst ++ d.map Prod.fst).Nodup) :
    d.foldl (fun a e => ArrayData.set a e.1 e.2) a = a ++ d := by
  induction d generalizing a with
  | nil => simp
  | cons e rest ih =>
    have hk : e.1 ∉ a.map Prod.fst := by
      intro hmem
      rw [List.nodup_append] at h
      exact h.2.2 hmem (by simp)
    simp only [List.foldl_cons]
    rw [ArrayData.set_new a e.1 e.2 hk, ih]
    · simp
    · simpa [List.append_assoc] using h

theorem ObjectData.visit_skip (o : ObjectData) (pubOnly : Bool) (acc : ArrayData × List Bool)
    (v : ChainClass × PreClass.Prop)
    (h : o.entered pubOnly v = false ∨ acc.2.getD (ChainClass.slotOf v) false = true) :
    o.visit pubOnly acc v = acc := by
  unfold ObjectData.visit ObjectData.getPropArr
  unfold ObjectData.entered ChainClass.slotOf at h
  by_cases h1 : (v.2.attrs.AttrStatic || v.2.attrs.AttrNoSerialize) = true
  · simp [h1]
  · simp only [h1, Bool.false_eq_true, if_false]
    rcases h with h | h
    · simp only [Bool.not_eq_true] at h1
      simp only [h1, Bool.not_false, Bool.true_and] at h
      simp only [List.getD_eq_getElem?_getD] at h
      simp only [List.getD_eq_getElem?_getD]
      split
      · rename_i h2
        simp only [Bool.and_eq_true] at h2
        rw [h2.1.1, h2.1.2] at h
        exact absurd h (by simp)
      · rfl
    · simp only [List.getD_eq_getElem?_getD] at h
      simp only [List.getD_eq_getElem?_getD]
      split
      · rename_i h2
        simp only [Bool.and_eq_true] at h2
        rw [h] at h2
        exact absurd h2.2 (by simp)
      · rfl

theorem ObjectData.visit_length (o : ObjectData) (pubOnly : Bool) (acc : ArrayData × List Bool)
    (v : ChainClass × PreClass.Prop) : (o.visit pubOnly acc v).2.length = acc.2.length := by
  unfold ObjectData.visit ObjectData.getPropArr
  split
  · rfl
  · dsimp only
    split
    · simp
    · rfl

theorem ObjectData.entered_lt (o : ObjectData) (pubOnly : Bool) (v : ChainClass × PreClass.Prop)
    (h : o.entered pubOnly v = true) : ChainClass.slotOf v < o.propVec.length := by
  by_contra hlt
  have hge : o.propVec.length ≤ ChainClass.slotOf v := Nat.le_of_not_lt hlt
  simp [ObjectData.entered, List.getD_eq_getElem?_getD, List.getElem?_eq_none hge] at h

theorem ObjectData.visit_enter (o : ObjectData) (pubOnly : Bool) (acc : ArrayData × List Bool)
    (v : ChainClass × PreClass.Prop) (h1 : o.entered pubOnly v = true)
    (h2 : acc.2.getD (ChainClass.slotOf v) false = false) :
    o.visit pubOnly acc v
      = (ArrayData.set acc.1 (o.entryOf v).1 (o.entryOf v).2,
         acc.2.set (ChainClass.slotOf v) true) := by
  unfold ObjectData.entered at h1
  simp only [Bool.and_eq_true, Bool.not_eq_true'] at h1
  unfold ChainClass.slotOf at h1 h2
  unfold ObjectData.visit ObjectData.getPropArr ObjectData.entryOf ChainClass.slotOf
  simp only [h1.1.1, Bool.false_eq_true, if_false, h1.1.2, h1.2, h2, Bool.not_false,
    Bool.and_self, if_true]

theorem ObjectData.visit_bit_mono (o : ObjectData) (pubOnly : Bool) (acc : ArrayData × List Bool)
    (w : ChainClass × PreClass.Prop) (i : Nat) (h : acc.2.getD i false = true) :
    (o.visit pubOnly acc w).2.getD i false = true := by
  by_cases hs : o.entered pubOnly w = false ∨ acc.2.getD (ChainClass.slotOf w) false = true
  · rw [ObjectData.visit_skip o pubOnly acc w hs]; exact h
  · simp only [not_or, Bool.not_eq_false, Bool.not_eq_true] at hs
    rw [ObjectData.visit_enter o pubOnly acc w hs.1 hs.2]
    simp only [List.getD_eq_getElem?_getD] at h ⊢
    rw [List.getElem?_set]
    by_cases hi : ChainClass.slotOf w = i
    · subst hi
      have h2 := hs.2
      simp only [List.getD_eq_getElem?_getD] at h2
      rw [h2] at h
      exact absurd h (by simp)
    · simp [hi, h]

theorem ObjectData.visit_done (o : ObjectData) (pubOnly : Bool) (acc : ArrayData × List Bool)
    (v : ChainClass × PreClass.Prop) (hlen : o.propVec.length ≤ acc.2.length) :
    o.entered pubOnly v = false ∨
      (o.visit pubOnly acc v).2.getD (ChainClass.slotOf v) false = true := by
  by_cases he : o.entered pubOnly v = false
  · exact Or.inl he
  · right
    simp only [Bool.not_eq_false] at he
    by_cases hb : acc.2.getD (ChainClass.slotOf v) false = true
    · exact ObjectData.visit_bit_mono o pubOnly acc v _ hb
    · simp only [Bool.not_eq_true] at hb
      rw [ObjectData.visit_enter o pubOnly acc v he hb]
      have hlt : ChainClass.slotOf v < acc.2.length :=
        Nat.lt_of_lt_of_le (ObjectData.entered_lt o pubOnly v he) hlen
      simp [List.getD_eq_getElem?_getD, List.getElem?_set, hlt]

theorem ObjectData.foldl_visit_length (o : ObjectData) (pubOnly : Bool)
    (l : List (ChainClass × PreClass.Prop)) (acc : ArrayData × List Bool) :
    (l.foldl (o.visit pubOnly) acc).2.length = acc.2.length := by
  induction l generalizing acc with
  | nil => rfl
  | cons v rest ih => simp only [List.foldl_cons]; rw [ih, ObjectData.visit_length]

theorem ObjectData.foldl_visit_bit_mono (o : ObjectData) (pubOnly : Bool)
    (l : List (ChainClass × PreClass.Prop)) (acc : ArrayData × List Bool) (i : Nat)
    (h : acc.2.getD i false = true) :
    (l.foldl (o.visit pubOnly) acc).2.getD i false = true := by
  induction l generalizing acc with
  | nil => exact h
  | cons v rest ih =>
    simp only [List.foldl_cons]
    exact ih _ (ObjectData.visit_bit_mono o pubOnly acc v i h)

theorem ObjectData.foldl_visit_skip (o : ObjectData) (pubOnly : Bool)
    (l : List (ChainClass × PreClass.Prop)) (acc : ArrayData × List Bool)
    (h : ∀ v ∈ l, o.entered pubOnly v = false ∨ acc.2.getD (ChainClass.slotOf v) false = true) :
    l.foldl (o.visit pubOnly) acc = acc := by
  induction l with
  | nil => rfl
  | cons v rest ih =>
    simp only [List.foldl_cons]
    rw [ObjectData.visit_skip o pubOnly acc v (h v (by simp))]
    exact ih (fun w hw => h w (by simp [hw]))

theorem ObjectData.foldl_visit_done (o : ObjectData) (pubOnly : Bool)
    (l : List (ChainClass × PreClass.Prop)) (acc : ArrayData × List Bool)
    (hlen : o.propVec.length ≤ acc.2.length) :
    ∀ v ∈ l, o.entered pubOnly v = false ∨
      (l.foldl (o.visit pubOnly) acc).2.getD (ChainClass.slotOf v) false = true := by
  induction l generalizing acc with
  | nil => intro v hv; simp at hv
  | cons w rest ih =>
    intro v hv
    simp only [List.foldl_cons]
    rcases List.mem_cons.1 hv with rfl | hv
    · rcases ObjectData.visit_done o pubOnly acc v hlen with h | h
      · exact Or.inl h
      · exact Or.inr (ObjectData.foldl_visit_bit_mono o pubOnly rest _ _ h)
    · exact ih _ (by rw [ObjectData.visit_length]; exact hlen) v hv

theorem ObjectData.foldl_visit_again (o : ObjectData) (pubOnly : Bool)
    (l : List (ChainClass × PreClass.Prop)) (acc : ArrayData × List Bool)
    (hlen : o.propVec.length ≤ acc.2.length) :
    l.foldl (o.visit pubOnly) (l.foldl (o.visit pubOnly) acc) = l.foldl (o.visit pubOnly) acc :=
  ObjectData.foldl_visit_skip o pubOnly l _ (ObjectData.foldl_visit_done o pubOnly l acc hlen)

theorem ObjectData.getProps_eq (o : ObjectData) (c : ChainClass) (pubOnly : Bool) (pc : PreClass)
    (acc : ArrayData × List Bool) :
    o.getProps c pubOnly pc acc
      = (pc.properties.map (fun p => (c, p))).foldl (o.visit pubOnly) acc := by
  simp only [ObjectData.getProps, List.foldl_map]
  rfl

mutual
theorem ObjectData.getTraitProps_eq (o : ObjectData) (c : ChainClass) (pubOnly : Bool) :
    ∀ (t : TraitClass) (acc : ArrayData × List Bool), o.propVec.length ≤ acc.2.length →
      o.getTraitProps c pubOnly t acc
        = ((TraitClass.allProps t).map (fun p => (c, p))).foldl (o.visit pubOnly) acc
  | .mk pc used, acc, hlen => by
    rw [ObjectData.getTraitProps, TraitClass.allProps, ObjectData.getProps_eq,
      ObjectData.getTraitPropsLoop_eq o c pubOnly used _
        (by rw [ObjectData.foldl_visit_length]; exact hlen),
      List.map_append, List.foldl_append]
theorem ObjectData.getTraitPropsLoop_eq (o : ObjectData) (c : ChainClass) (pubOnly : Bool) :
    ∀ (ts : List TraitClass) (acc : ArrayData × List Bool), o.propVec.length ≤ acc.2.length →
      ObjectData.getTraitPropsLoop o c pubOnly ts acc
        = ((TraitClass.allPropsList ts).map (fun p => (c, p))).foldl (o.visit pubOnly) acc
  | [], acc, _ => by
    rw [ObjectData.getTraitPropsLoop, TraitClass.allPropsList]
    rfl
  | .mk pc used :: rest, acc, hlen => by
    have h1 : o.propVec.length
        ≤ ((pc.properties.map (fun p => (c, p))).foldl (o.visit pubOnly) acc).2.length := by
      rw [ObjectData.foldl_visit_length]; exact hlen
    rw [ObjectData.getTraitPropsLoop, TraitClass.allPropsList, TraitClass.preClass,
      ObjectData.getProps_eq,
      ObjectData.getTraitProps_eq o c pubOnly (.mk pc used) _ h1,
      TraitClass.allProps, List.map_append, List.foldl_append,
      ObjectData.foldl_visit_again o pubOnly _ acc hlen,
      ObjectData.getTraitPropsLoop_eq o c pubOnly rest _
        (by rw [ObjectData.foldl_visit_length, ObjectData.foldl_visit_length]; exact hlen),
      List.map_append, List.map_append, List.foldl_append, List.foldl_append]
end

theorem ObjectData.usedTraits_foldl_eq (o : ObjectData) (c : ChainClass) (pubOnly : Bool)
    (ts : List TraitClass) (acc : ArrayData × List Bool)
    (hlen : o.propVec.length ≤ acc.2.length) :
    ts.foldl (fun a traitCls => o.getTraitProps c pubOnly traitCls a) acc
      = ((TraitClass.allPropsList ts).map (fun p => (c, p))).foldl (o.visit pubOnly) acc := by
  induction ts generalizing acc with
  | nil => rw [TraitClass.allPropsList]; rfl
  | cons t rest ih =>
    rw [List.foldl_cons, ObjectData.getTraitProps_eq o c pubOnly t acc hlen,
      ih _ (by rw [ObjectData.foldl_visit_length]; exact hlen),
      TraitClass.allPropsList, List.map_append, List.foldl_append]

theorem ObjectData.chain_foldl_eq (o : ObjectData) (pubOnly : Bool) (chain : List ChainClass)
    (acc : ArrayData × List Bool) (hlen : o.propVec.length ≤ acc.2.length) :
    chain.foldl
        (fun a cls =>
          cls.usedTraitClasses.foldl (fun a traitCls => o.getTraitProps cls pubOnly traitCls a)
            (o.getProps cls pubOnly cls.preClass a))
        acc
      = ((chain.map ChainClass.visits).flatten).foldl (o.visit pubOnly) acc := by
  induction chain generalizing acc with
  | nil => rfl
  | cons c rest ih =>
    have h1 : o.propVec.length
        ≤ ((c.preClass.properties.map (fun p => (c, p))).foldl (o.visit pubOnly) acc).2.length := by
      rw [ObjectData.foldl_visit_length]; exact hlen
    rw [List.foldl_cons, ObjectData.getProps_eq,
      ObjectData.usedTraits_foldl_eq o c pubOnly _ _ h1,
      ih _ (by rw [ObjectData.foldl_visit_length, ObjectData.foldl_visit_length]; exact hlen),
      List.map_cons, List.flatten_cons, List.foldl_append, ChainClass.visits, List.map_append,
      List.foldl_append]

theorem ObjectData.foldl_visit_entries (o : ObjectData) (pubOnly : Bool)
    (l : List (ChainClass × PreClass.Prop)) :
    ∀ (acc : ArrayData × List Bool) (seen : List Slot),
      (∀ i, acc.2.getD i false = true ↔ i ∈ seen) →
      o.propVec.length ≤ acc.2.length →
      (acc.1.map Prod.fst ++
        ((firstOccurrence seen (l.filter (o.entered pubOnly))).map o.entryOf).map Prod.fst).Nodup →
      (l.foldl (o.visit pubOnly) acc).1
        = acc.1 ++ (firstOccurrence seen (l.filter (o.entered pubOnly))).map o.entryOf := by
  induction l with
  | nil => intro acc seen _ _ _; simp [firstOccurrence]
  | cons v rest ih =>
    intro acc seen hbits hlen hnd
    rw [List.foldl_cons]
    by_cases he : o.entered pubOnly v = true
    · rw [List.filter_cons_of_pos he] at hnd ⊢
      by_cases hs : ChainClass.slotOf v ∈ seen
      · have hb : acc.2.getD (ChainClass.slotOf v) false = true := (hbits _).2 hs
        rw [ObjectData.visit_skip o pubOnly acc v (Or.inr hb)]
        simp only [firstOccurrence, hs, if_true] at hnd ⊢
        exact ih acc seen hbits hlen hnd
      · have hb : acc.2.getD (ChainClass.slotOf v) false = false := by
          cases hq : acc.2.getD (ChainClass.slotOf v) false
          · rfl
          · exact absurd ((hbits _).1 hq) hs
        simp only [firstOccurrence, hs, if_false, List.map_cons] at hnd ⊢
        have hk : (o.entryOf v).1 ∉ acc.1.map Prod.fst := by
          intro hmem
          rw [List.nodup_append] at hnd
          exact hnd.2.2 hmem (by simp)
        have hlt : ChainClass.slotOf v < acc.2.length :=
          Nat.lt_of_lt_of_le (ObjectData.entered_lt o pubOnly v he) hlen
        rw [ObjectData.visit_enter o pubOnly acc v he hb, ArrayData.set_new _ _ _ hk,
          ih (acc.1 ++ [((o.entryOf v).1, (o.entryOf v).2)],
              acc.2.set (ChainClass.slotOf v) true) (ChainClass.slotOf v :: seen)]
        · simp
        · intro i
          simp only [List.getD_eq_getElem?_getD, List.getElem?_set, List.mem_cons]
          by_cases hi : ChainClass.slotOf v = i
          · subst hi; simp [hlt]
          · have := hbits i
            simp only [List.getD_eq_getElem?_getD] at this
            simp only [hi, if_false, this]
            constructor
            · exact fun h => Or.inr h
            · rintro (h | h)
              · exact absurd h.symm hi
              · exact h
        · simpa using hlen
        · simpa [List.append_assoc] using hnd
    · simp only [Bool.not_eq_true] at he
      rw [ObjectData.visit_skip o pubOnly acc v (Or.inl he)]
      have hf : (v :: rest).filter (o.entered pubOnly) = rest.filter (o.entered pubOnly) := by
        rw [List.filter_cons_of_neg (by simp [he])]
      rw [hf] at hnd ⊢
      exact ih acc seen hbits hlen hnd

theorem ObjectData.declaredEntries_of_no_slots (o : ObjectData) (pubOnly : Bool)
    (h : o.propVec = []) : o.declaredEntries pubOnly = [] := by
  have hf : ∀ l : List (ChainClass × PreClass.Prop), l.filter (o.entered pubOnly) = [] := by
    intro l
    rw [List.filter_eq_nil_iff]
    intro v _
    simp [ObjectData.entered, h]
  simp [ObjectData.declaredEntries, hf, firstOccurrence]

theorem firstOccurrence_slots (l : List (ChainClass × PreClass.Prop)) :
    ∀ seen : List Slot,
      ((firstOccurrence seen l).map ChainClass.slotOf).Nodup ∧
      ∀ i ∈ (firstOccurrence seen l).map ChainClass.slotOf, i ∉ seen := by
  induction l with
  | nil => intro seen; simp [firstOccurrence]
  | cons v rest ih =>
    intro seen
    by_cases hs : ChainClass.slotOf v ∈ seen
    · simp only [firstOccurrence, hs, if_true]
      exact ih seen
    · simp only [firstOccurrence, hs, if_false, List.map_cons, List.nodup_cons, List.mem_cons]
      have h := ih (ChainClass.slotOf v :: seen)
      refine ⟨⟨fun hmem => ?_, h.1⟩, ?_⟩
      · exact h.2 _ hmem (by simp)
      · rintro i (rfl | hi)
        · exact hs
        · exact fun hseen => h.2 i hi (by simp [hseen])

/-- C13: for every object whose slots are those of its class and in whose
projection no key occurs twice (a mangled name names one slot, a dynamic
property is not a declared one), o_getArray started on the empty array yields
the reference sequence: walking the chain from the class of the object to the
root, at each class its own declarations in declaration order and then those
of its traits, every declaration that is not static, not exempt, public when
pubOnly is set, and whose slot is initialized is entered under the mangled
name of its slot, each slot once, at its first occurrence; the dynamic
properties follow in the order of the store. -/
theorem o_getArray_yields_reference_sequence (s : State) (pubOnly : Bool)
    (hlen : s.this.propVec.length = s.this.m_cls.numDeclProperties)
    (hkeys : ((s.projection pubOnly).map Prod.fst).Nodup) :
    ObjectData.o_getArray [] pubOnly s
      = (firstOccurrence []
          (((s.this.m_cls.chain.map ChainClass.visits).flatten).filter
            (s.this.entered pubOnly))).map s.this.entryOf
        ++ (if s.this.HasDynPropArr then s.dynPropArray else []) ∧
    ((firstOccurrence []
        (((s.this.m_cls.chain.map ChainClass.visits).flatten).filter
          (s.this.entered pubOnly))).map ChainClass.slotOf).Nodup := by
  refine ⟨?_, (firstOccurrence_slots _ []).1⟩
  unfold State.projection at hkeys
  unfold ObjectData.declaredEntries at hkeys
  unfold ObjectData.o_getArray
  by_cases hfast : (s.this.m_cls.numDeclProperties == 0 && s.this.HasDynPropArr) = true
  · rw [if_pos hfast]
    simp only [Bool.and_eq_true, beq_iff_eq] at hfast
    have hnil : s.this.propVec = [] := List.length_eq_zero.1 (hlen.trans hfast.1)
    have hd := ObjectData.declaredEntries_of_no_slots s.this pubOnly hnil
    unfold ObjectData.declaredEntries at hd
    rw [hd, hfast.2]
    simp
  · rw [if_neg hfast]
    have hl : s.this.propVec.length
        ≤ (([] : ArrayData), List.replicate s.this.m_cls.numDeclProperties false).2.length := by
      simp [hlen]
    have hbits : ∀ i, (([] : ArrayData),
        List.replicate s.this.m_cls.numDeclProperties false).2.getD i false = true ↔ i ∈ [] := by
      intro i
      simp only [List.getD_eq_getElem?_getD, List.getElem?_replicate, List.not_mem_nil, iff_false]
      split <;> simp
    have hnd1 : ((([] : ArrayData), List.replicate s.this.m_cls.numDeclProperties false).1.map
          Prod.fst ++
        ((firstOccurrence []
          (((s.this.m_cls.chain.map ChainClass.visits).flatten).filter
            (s.this.entered pubOnly))).map s.this.entryOf).map Prod.fst).Nodup := by
      rw [List.map_append, List.nodup_append] at hkeys
      simpa using hkeys.1
    have hdecl := ObjectData.foldl_visit_entries s.this pubOnly
      ((s.this.m_cls.chain.map ChainClass.visits).flatten) _ [] hbits hl hnd1
    simp only [List.nil_append] at hdecl
    simp only []
    rw [ObjectData.chain_foldl_eq s.this pubOnly _ _ hl, hdecl]
    by_cases hflag : s.this.HasDynPropArr = true
    · rw [if_pos hflag, if_pos hflag]
      rw [if_pos hflag, List.map_append] at hkeys
      exact ArrayData.foldl_set_new _ _ hkeys
    · rw [if_neg hflag, if_neg hflag]
      simp

/-- A base class declares A, the derived class redeclares A and declares B:
the projection of a derived instance holds A once, then B, then the dynamic
property. -/
theorem o_getArray_yields_reference_sequence_witness :
    ObjectData.o_getArray [] false wStateDerived
      = [("a", TypedValue.int 1), ("b", TypedValue.int 2), ("d", TypedValue.int 3)] :=
  (o_getArray_yields_reference_sequence wStateDerived false (by decide) (by decide)).1.trans
    (by decide)

/-- C14, at the failing input: class E extends a base class, both declare the
public property a, and E uses a trait contributing the public property t; the
instance holds a = 1 and t = 2.  Looked up from no context, t is an
accessible, initialized property (and the array projection lists it), but
o_toIterArray returns only the entry for a: the count of accessible
properties, 2, is used up by the two declarations of a, and the search for
trait properties is skipped. -/
theorem o_toIterArray_drops_trait_property :
    ObjectData.getProp none "t" wStateTrait = Lval.declProp 1 ∧
    wStateTrait.tvAt (ObjectData.getProp none "t" wStateTrait) = TypedValue.int 2 ∧
    (ObjectData.o_toIterArray {} "" IterMode.EraseRefs wStateTrait).1
      = Except.ok [("a", TypedValue.int 1)] ∧
    (ObjectData.o_toIterArray {} "" IterMode.PreserveRefs wStateTrait).1
      = Except.ok [("a", TypedValue.int 1)] ∧
    (ObjectData.o_toIterArray {} "" IterMode.CreateRefs wStateTrait).1
      = Except.ok [("a", TypedValue.int 1)] ∧
    (ObjectData.iterChain none IterMode.EraseRefs wStateTrait.this.m_cls.chain
        ([], wStateTrait.this.m_cls.declPropNumAccessible) wStateTrait).1
      = Except.ok ([("a", TypedValue.int 1)], 0) ∧
    ObjectData.o_getArray [] false wStateTrait
      = [("a", TypedValue.int 1), ("t", TypedValue.int 2)] := by
  decide

theorem Except.map_eq_error {α β : Type} (f : α → β) (x : Except Fault α) (e : Fault) :
    x.map f = Except.error e ↔ x = Except.error e := by
  cases x <;> simp [Except.map]

theorem ObjectData.equal_self (env : Engine) (s : State) :
    ObjectData.equal env s.this s = Except.ok true := by
  simp [ObjectData.equal]

/-- C15: equal(a, a) is true for every object a; for two generic objects a
and b (neither a collection, an array-object wrapper nor a closure, and not
both date/time values) equal(a, b) is true exactly when a and b are the same
object, or have the same class and loosely equal array projections; two
distinct generic objects of different classes are not equal. -/
theorem equal_generic_iff_same_or_projections_equal (env : Engine) (s : State)
    (other : ObjectData) :
    ObjectData.equal env s.this s = Except.ok true ∧
    (s.this.isGeneric env = true → other.isGeneric env = true →
      ObjectData.isDateTimePair env s.this other = false →
      (ObjectData.equal env other s = Except.ok true ↔
        (s.this.addr = other.addr ∨
          (s.this.m_cls.ptr = other.m_cls.ptr ∧
            env.Array_equal (ObjectData.toArray env false s)
              (ObjectData.toArray env false (s.on other)) = Except.ok true))) ∧
      (s.this.addr ≠ other.addr → s.this.m_cls.ptr ≠ other.m_cls.ptr →
        ObjectData.equal env other s = Except.ok false)) := by
  refine ⟨ObjectData.equal_self env s, ?_⟩
  intro hg _ hdt
  simp only [ObjectData.isGeneric, Bool.and_eq_true, Bool.not_eq_true'] at hg
  simp only [ObjectData.isDateTimePair] at hdt
  obtain ⟨⟨hc, ha⟩, hcl⟩ := hg
  constructor
  · by_cases hsame : s.this.addr = other.addr
    · simp [ObjectData.equal, hsame]
    · by_cases hcls : s.this.m_cls.ptr = other.m_cls.ptr
      · simp [ObjectData.equal, hsame, hc, hdt, hcls, ha, hcl]
      · simp [ObjectData.equal, hsame, hc, hdt, hcls]
  · intro hsame hcls
    simp [ObjectData.equal, hsame, hc, hdt, hcls]

/-- Two instances of "D" with the same contents are equal, two with
different contents are not, and an instance of "C" differs from one of "D". -/
theorem equal_generic_iff_same_or_projections_equal_witness :
    ObjectData.equal {} wTwinB ({ this := wTwinA } : State) = Except.ok true ∧
    ObjectData.equal {} wTwinC ({ this := wTwinA } : State) = Except.ok false ∧
    ObjectData.equal {} wTwinA wState = Except.ok false :=
  ⟨((equal_generic_iff_same_or_projections_equal {} { this := wTwinA } wTwinB).2
      (by decide) (by decide) (by decide)).1.2 (Or.inr ⟨by decide, by decide⟩),
   by decide,
   ((equal_generic_iff_same_or_projections_equal {} wState wTwinA).2
      (by decide) (by decide) (by decide)).2 (by decide) (by decide)⟩

/-- C16: for two distinct objects of different classes, neither a collection
and not both date/time values, less and more are false in both directions and
compare returns 1 in both directions. -/
theorem mismatched_classes_less_more_false_compare_one (env : Engine) (s : State)
    (other : ObjectData)
    (hne : s.this.addr ≠ other.addr)
    (hcls : s.this.m_cls.ptr ≠ other.m_cls.ptr)
    (hc1 : s.this.isCollection = false) (hc2 : other.isCollection = false)
    (hdt : ObjectData.isDateTimePair env s.this other = false) :
    ObjectData.less env other s = Except.ok false ∧
    ObjectData.less env s.this (s.on other) = Except.ok false ∧
    ObjectData.more env other s = Except.ok false ∧
    ObjectData.more env s.this (s.on other) = Except.ok false ∧
    ObjectData.compare env other s = Except.ok 1 ∧
    ObjectData.compare env s.this (s.on other) = Except.ok 1 := by
  simp only [ObjectData.isDateTimePair] at hdt
  have hdt2 : (other.instanceof env.s_DateTimeInterfaceClass
      && s.this.instanceof env.s_DateTimeInterfaceClass) = false := by
    rw [Bool.and_comm]; exact hdt
  have hne2 : other.addr ≠ s.this.addr := fun h => hne h.symm
  have hcls2 : other.m_cls.ptr ≠ s.this.m_cls.ptr := fun h => hcls h.symm
  refine ⟨?_, ?_, ?_, ?_, ?_, ?_⟩
  · simp only [ObjectData.less, hc1, hc2, hdt]
    split_ifs <;> simp_all
  · simp only [ObjectData.less, State.on, hc1, hc2, hdt2]
    split_ifs <;> simp_all
  · simp only [ObjectData.more, hc1, hc2, hdt]
    split_ifs <;> simp_all
  · simp only [ObjectData.more, State.on, hc1, hc2, hdt2]
    split_ifs <;> simp_all
  · simp only [ObjectData.compare, hc1, hc2, hdt]
    split_ifs <;> simp_all
  · simp only [ObjectData.compare, State.on, hc1, hc2, hdt2]
    split_ifs <;> simp_all

/-- An instance of "C" against an instance of "D": neither is less nor more
than the other, and compare gives 1 both ways. -/
theorem mismatched_classes_less_more_false_compare_one_witness :
    ObjectData.less {} wTwinA wState = Except.ok false ∧
    ObjectData.less {} wState.this (wState.on wTwinA) = Except.ok false ∧
    ObjectData.more {} wTwinA wState = Except.ok false ∧
    ObjectData.more {} wState.this (wState.on wTwinA) = Except.ok false ∧
    ObjectData.compare {} wTwinA wState = Except.ok 1 ∧
    ObjectData.compare {} wState.this (wState.on wTwinA) = Except.ok 1 :=
  mismatched_classes_less_more_false_compare_one {} wState wTwinA
    (by decide) (by decide) rfl rfl (by decide)

/-- C17 fails as stated in its last part: two distinct instances of the same
class, neither a collection, each holding an object in a property; comparing
their array projections raises the collection-comparison fault, and so do
less on the two instances. -/
theorem less_raises_collection_fault_without_collection_operand :
    wHolderA.isCollection = false ∧ wHolderB.isCollection = false ∧
    ObjectData.toArray wEngineElems false ({ this := wHolderA } : State)
      = [("a", TypedValue.obj 16), ("b", TypedValue.int 2)] ∧
    ObjectData.less wEngineElems wHolderB ({ this := wHolderA } : State)
      = Except.error Fault.collectionCompare := by
  decide

/-- C17, amended: less, more and compare raise the collection-comparison
fault, and return no result, whenever at least one of the two operands is a
collection, for every pair of operands, including a collection compared with
itself; when neither operand is a collection none of the three raises that
fault itself: it is raised only when the comparison of the two date/time
values or of the two array projections raises it. -/
theorem collection_operand_raises_comparison_fault (env : Engine) (s : State)
    (other : ObjectData) :
    ((s.this.isCollection = true ∨ other.isCollection = true) →
      ObjectData.less env other s = Except.error Fault.collectionCompare ∧
      ObjectData.more env other s = Except.error Fault.collectionCompare ∧
      ObjectData.compare env other s = Except.error Fault.collectionCompare) ∧
    (s.this.isCollection = false → other.isCollection = false →
      (ObjectData.less env other s = Except.error Fault.collectionCompare →
        s.this.addr ≠ other.addr ∧
        (env.DateTimeData_compare s.this other = Except.error Fault.collectionCompare ∨
          env.Array_less (ObjectData.toArray env false s)
            (ObjectData.toArray env false (s.on other))
              = Except.error Fault.collectionCompare)) ∧
      (ObjectData.more env other s = Except.error Fault.collectionCompare →
        s.this.addr ≠ other.addr ∧
        (env.DateTimeData_compare s.this other = Except.error Fault.collectionCompare ∨
          env.Array_more (ObjectData.toArray env false s)
            (ObjectData.toArray env false (s.on other))
              = Except.error Fault.collectionCompare)) ∧
      (ObjectData.compare env other s = Except.error Fault.collectionCompare →
        s.this.addr ≠ other.addr ∧
        (env.DateTimeData_getTimestamp s.this = Except.error Fault.collectionCompare ∨
          env.DateTimeData_getTimestamp other = Except.error Fault.collectionCompare ∨
          env.Array_compare (ObjectData.toArray env false s)
            (ObjectData.toArray env false (s.on other))
              = Except.error Fault.collectionCompare))) := by
  constructor
  · intro h
    have hc : (s.this.isCollection || other.isCollection) = true := by
      rcases h with h | h <;> simp [h]
    simp [ObjectData.less, ObjectData.more, ObjectData.compare, hc,
      throw_collection_compare_exception]
  · intro hc1 hc2
    refine ⟨?_, ?_, ?_⟩
    · intro h
      simp only [ObjectData.less, hc1, hc2, Bool.or_self, Bool.false_eq_true, if_false] at h
      split_ifs at h with h1 h2 h3 h4
      · exact ⟨by simpa using h1, Or.inl ((Except.map_eq_error _ _ _).1 h)⟩
      · exact ⟨by simpa using h1, Or.inr h⟩
    · intro h
      simp only [ObjectData.more, hc1, hc2, Bool.or_self, Bool.false_eq_true, if_false] at h
      split_ifs at h with h1 h2 h3 h4
      · exact ⟨by simpa using h1, Or.inl ((Except.map_eq_error _ _ _).1 h)⟩
      · exact ⟨by simpa using h1, Or.inr h⟩
    · intro h
      simp only [ObjectData.compare, hc1, hc2, Bool.or_self, Bool.false_eq_true, if_false] at h
      split_ifs at h with h1 h2 h3 h4
      · refine ⟨by simpa using h1, ?_⟩
        cases ht1 : env.DateTimeData_getTimestamp s.this with
        | error e =>
          rw [ht1] at h
          simp only [Except.error.injEq] at h
          exact Or.inl (by rw [h])
        | ok t1 =>
          rw [ht1] at h
          cases ht2 : env.DateTimeData_getTimestamp other with
          | error e =>
            rw [ht2] at h
            simp only [Except.error.injEq] at h
            exact Or.inr (Or.inl (by rw [h]))
          | ok t2 =>
            rw [ht2] at h
            simp at h
      · exact ⟨by simpa using h1, Or.inr (Or.inr h)⟩

/-- A collection compared with itself, and a generic instance compared with
a collection, raise the fault; two generic instances of "D" do not. -/
theorem collection_operand_raises_comparison_fault_witness :
    ObjectData.less {} wCollection ({ this := wCollection } : State)
      = Except.error Fault.collectionCompare ∧
    ObjectData.compare {} wCollection ({ this := wTwinA } : State)
      = Except.error Fault.collectionCompare ∧
    ObjectData.less {} wTwinB ({ this := wTwinA } : State) = Except.ok false :=
  ⟨((collection_operand_raises_comparison_fault {} { this := wCollection } wCollection).1
      (Or.inl rfl)).1,
   ((collection_operand_raises_comparison_fault {} { this := wTwinA } wCollection).1
      (Or.inr rfl)).2.2,
   by decide⟩

theorem List.foldl_set_range_length {α : Type} (f : Nat → α) :
    ∀ (n : Nat) (v : List α),
      ((List.range n).foldl (fun v i => v.set i (f i)) v).length = v.length := by
  intro n
  induction n with
  | zero => intro v; rfl
  | succ n ih =>
    intro v
    rw [List.range_succ, List.foldl_append]
    simp [ih]

theorem List.foldl_set_range_getElem? {α : Type} (f : Nat → α) :
    ∀ (n : Nat) (v : List α), n ≤ v.length → ∀ i, i < n →
      ((List.range n).foldl (fun v i => v.set i (f i)) v)[i]? = some (f i) := by
  intro n
  induction n with
  | zero => intro v _ i hi; exact absurd hi (Nat.not_lt_zero i)
  | succ n ih =>
    intro v hv i hi
    rw [List.range_succ, List.foldl_append]
    simp only [List.foldl_cons, List.foldl_nil]
    rw [List.getElem?_set]
    by_cases hin : n = i
    · subst hin
      simp only [if_true]
      rw [if_pos]
      rw [List.foldl_set_range_length]
      exact hv
    · rw [if_neg hin]
      exact ih v (Nat.le_of_succ_le hv) i (by omega)

/-- C18: for every generic object (not built in, without native data), the
structural copy made by clone before any clone hook runs is an object of the
same class with the same number of declared slots; slot i of the copy holds
the declared default of slot i when the slot is exempt from duplication
(no-serialize), and the value of slot i of the source otherwise; the source
is unchanged, and for a class without clone hook the copy is what clone
returns. -/
theorem clone_copies_slots_except_exempt (env : Engine) (mem id : Nat) (s : State)
    (hb : s.this.isCppBuiltin = false) (hn : s.this.hasNativeData = false) :
    (ObjectData.cloneCopy env mem id s).1.m_cls = s.this.m_cls ∧
    (ObjectData.cloneCopy env mem id s).1.propVec.length = s.this.m_cls.numDeclProperties ∧
    (∀ i, i < s.this.m_cls.numDeclProperties →
      (ObjectData.cloneCopy env mem id s).1.propVec.getD i TypedValue.uninit
        = if (s.this.m_cls.declProp i).attrs.AttrNoSerialize then
            s.this.m_cls.declaredDefault env i
          else s.this.propVec.getD i TypedValue.uninit) ∧
    (ObjectData.cloneCopy env mem id s).2.this = s.this ∧
    (ObjectData.clone env mem id s).2.this = s.this ∧
    (s.this.m_cls.HasClone = false →
      ObjectData.clone env mem id s
        = (Except.ok (ObjectData.cloneCopy env mem id s).1,
           (ObjectData.cloneCopy env mem id s).2)) := by
  have hlen : ((List.range s.this.m_cls.numDeclProperties).foldl
      (fun v i => v.set i (ObjectData.clonePropVal env s.this i))
      (List.replicate s.this.m_cls.numDeclProperties TypedValue.uninit)).length
        = s.this.m_cls.numDeclProperties := by
    rw [List.foldl_set_range_length]; simp
  have hval : ∀ i, i < s.this.m_cls.numDeclProperties →
      ((List.range s.this.m_cls.numDeclProperties).foldl
        (fun v i => v.set i (ObjectData.clonePropVal env s.this i))
        (List.replicate s.this.m_cls.numDeclProperties TypedValue.uninit))[i]?
          = some (ObjectData.clonePropVal env s.this i) := by
    intro i hi
    exact List.foldl_set_range_getElem? _ _ _ (by simp) i hi
  refine ⟨?_, ?_, ?_, ?_, ?_, ?_⟩
  · unfold ObjectData.cloneCopy
    simp only [hn, Bool.false_eq_true, if_false, ObjectData.InitRaw]
    split <;> rfl
  · unfold ObjectData.cloneCopy
    simp only [hn, Bool.false_eq_true, if_false, ObjectData.InitRaw]
    split <;> exact hlen
  · intro i hi
    have hv : (ObjectData.cloneCopy env mem id s).1.propVec.getD i TypedValue.uninit
        = ObjectData.clonePropVal env s.this i := by
      unfold ObjectData.cloneCopy
      simp only [hn, Bool.false_eq_true, if_false, ObjectData.InitRaw]
      split <;> simp only [List.getD_eq_getElem?_getD, hval i hi, Option.getD_some]
    rw [hv]
    unfold ObjectData.clonePropVal Class.declaredDefault
    split <;> rfl
  · unfold ObjectData.cloneCopy
    simp only []
    split <;> rfl
  · unfold ObjectData.clone
    simp only [hb, Bool.false_eq_true, if_false]
    split
    · split <;> rfl
    · unfold ObjectData.cloneCopy
      simp only []
      split <;> rfl
  · intro hc
    unfold ObjectData.clone
    simp [hb, hc]

/-- Cloning the example instance of "M": x is copied, cache is reset to its
default. -/
theorem clone_copies_slots_except_exempt_witness :
    (ObjectData.cloneCopy {} 21 2 wStateMemo).1.propVec = [TypedValue.int 5, TypedValue.null] ∧
    (ObjectData.cloneCopy {} 21 2 wStateMemo).1.propVec.length
      = wStateMemo.this.m_cls.numDeclProperties :=
  ⟨by decide, (clone_copies_slots_except_exempt {} 21 2 wStateMemo rfl rfl).2.1⟩

theorem magic_prop_impl_thread (info : PropAccessInfo) (invoker : Exec TypedValue)
    (hinv : ∀ s, (invoker s).2.thread = s.thread) (s : State) :
    (magic_prop_impl info invoker s).2.thread = s.thread := by
  cases hact : s.propRecurInfo.isActive info with
  | true => rw [magic_prop_impl_active info invoker s hact]; rfl
  | false =>
    rw [magic_prop_impl_inactive info invoker s hact]
    have h := hinv { s with propRecurInfo := s.propRecurInfo.enter info }
    simpa [State.thread] using h

theorem HookProg.run_thread (p : HookProg) :
    ∀ s : State, (HookProg.run p s).2.thread = s.thread := by
  induction p with
  | ret v => intro s; rfl
  | raise f => intro s; rfl
  | effect f k ih =>
    intro s
    simp only [HookProg.run]
    rw [ih]
    rfl
  | inspect k ih =>
    intro s
    simp only [HookProg.run]
    exact ih _ s
  | magic info body k ihb ihk =>
    intro s
    simp only [HookProg.run]
    have h1 := magic_prop_impl_thread info (HookProg.run body) ihb s
    cases hm : magic_prop_impl info (HookProg.run body) s with
    | mk r s1 =>
      rw [hm] at h1
      cases r with
      | error e => exact h1
      | ok v => exact (ihk v s1).trans h1
  | tryCatch body handler ihb ihh =>
    intro s
    simp only [HookProg.run]
    have h1 := ihb s
    cases hm : HookProg.run body s with
    | mk r s1 =>
      rw [hm] at h1
      cases r with
      | error e => exact (ihh e s1).trans h1
      | ok v => exact h1

theorem invoke_destructor_thread (env : Engine) (dtor : String) (s : State) :
    (invoke_destructor env dtor s).thread = s.thread := by
  have h := HookProg.run_thread (env.method s.this.m_cls.ptr dtor [])
    { s with trace := s.trace ++ [Event.invokeMethod s.this.addr dtor []] }
  unfold invoke_destructor
  simp only [invokeMethod, traceEvent, Exec.modify, Bind.bind, Exec.bind]
  cases hr : HookProg.run (env.method s.this.m_cls.ptr dtor [])
      { s with trace := s.trace ++ [Event.invokeMethod s.this.addr dtor []] } with
  | mk r s1 =>
    rw [hr] at h
    cases r with
    | error e => exact h
    | ok v => exact h

theorem DynPropTable.find_erase_self (t : DynPropTable) (a : Nat) :
    DynPropTable.find (DynPropTable.erase t a) a = none := by
  simp only [DynPropTable.find, DynPropTable.erase, Option.map_eq_none', List.find?_eq_none,
    List.mem_filter]
  intro e he
  simpa using he.2

theorem ObjectData.destructImpl_run (env : Engine) (s : State) (dtor : String)
    (hdtor : s.this.m_cls.getDtor = some dtor) (hunw : s.m_unwindingCppException = false) :
    ObjectData.destructImpl env s
      = ((invoke_destructor env dtor
            { s with this := { s.this with NoDestructor := true, m_count := 1 } }).this.hasExactlyOneRef,
         { (invoke_destructor env dtor
              { s with this := { s.this with NoDestructor := true, m_count := 1 } }) with
           this :=
             { (invoke_destructor env dtor
                 { s with this := { s.this with NoDestructor := true, m_count := 1 } }).this with
               m_count :=
                 (invoke_destructor env dtor
                   { s with this := { s.this with NoDestructor := true, m_count := 1 } }).this.m_count
                   - 1 } }) := by
  unfold ObjectData.destructImpl
  simp only [hdtor, hunw, Bool.false_eq_true, if_false]

theorem invoke_destructor_this (env : Engine) (dtor : String) (s : State) :
    ({ (invoke_destructor env dtor s).this with
        propVec := [], HasDynPropArr := false, m_count := 0 } : ObjectData)
      = { s.this with propVec := [], HasDynPropArr := false, m_count := 0 } := by
  have h := HookProg.run_fixed (env.method s.this.m_cls.ptr dtor [])
    { s with trace := s.trace ++ [Event.invokeMethod s.this.addr dtor []] }
  have h1 := congrArg Prod.fst h
  simp only [State.fixed] at h1
  unfold invoke_destructor
  simp only [invokeMethod, traceEvent, Exec.modify, Bind.bind, Exec.bind]
  cases hr : HookProg.run (env.method s.this.m_cls.ptr dtor [])
      { s with trace := s.trace ++ [Event.invokeMethod s.this.addr dtor []] } with
  | mk r s1 =>
    rw [hr] at h1
    cases r with
    | error e => exact h1
    | ok v => exact h1

/-- C20: for every object whose class declares a destructor and whose
no-destruct flag is clear, released while destructors run (reference counting
is not one-bit and no C++ exception is unwinding): if the destructor leaves
the count different from the one artificial reference raised around the call,
release returns the state the destructor left, with that reference dropped:
no slot is released, the side table is as the destructor left it, the maximum
id is unchanged, no weak reference is invalidated and no memory is freed; the
no-destruct flag stays set.  If the count is exactly one, the teardown
proceeds: the slots are released, the store is freed, weak references are
invalidated and the memory is freed. -/
theorem resurrected_object_is_not_torn_down (env : Engine) (s : State) (dtor : String)
    (hdtor : s.this.m_cls.getDtor = some dtor)
    (hnd : s.this.NoDestructor = false)
    (hbit : env.one_bit_refcount = false)
    (hunw : s.m_unwindingCppException = false) :
    ((invoke_destructor env dtor (s.atDestructor env)).this.m_count ≠ 1 →
      ObjectData.release env s
        = { (invoke_destructor env dtor (s.atDestructor env)) with
            this := { (invoke_destructor env dtor (s.atDestructor env)).this with
              m_count := (invoke_destructor env dtor (s.atDestructor env)).this.m_count - 1 } } ∧
      (ObjectData.release env s).trace = (invoke_destructor env dtor (s.atDestructor env)).trace ∧
      (ObjectData.release env s).this.propVec
        = (invoke_destructor env dtor (s.atDestructor env)).this.propVec ∧
      (ObjectData.release env s).dynPropTable
        = (invoke_destructor env dtor (s.atDestructor env)).dynPropTable ∧
      (ObjectData.release env s).os_max_id = s.os_max_id ∧
      (ObjectData.release env s).this.NoDestructor = true) ∧
    ((invoke_destructor env dtor (s.atDestructor env)).this.m_count = 1 →
      ObjectData.release env s
        = ObjectData.teardown
            { (invoke_destructor env dtor (s.atDestructor env)) with
              this := { (invoke_destructor env dtor (s.atDestructor env)).this with
                m_count := 0 } } ∧
      (s.this.HasInstanceDtor = false →
        (ObjectData.release env s).trace
          = (invoke_destructor env dtor (s.atDestructor env)).trace
            ++ ((invoke_destructor env dtor (s.atDestructor env)).this.propVec.take
                  s.this.m_cls.numDeclProperties).map Event.tvDecRefGen
            ++ [Event.invalidateWeakRef s.this.addr,
                Event.objFree s.this.addr s.this.m_cls.numDeclProperties] ∧
        ((invoke_destructor env dtor (s.atDestructor env)).this.HasDynPropArr = true →
          (ObjectData.release env s).storeOf s.this.addr = none))) := by
  have hrel : ObjectData.release env s
      = ObjectData.releaseNoObjDestructCheck env
          { s with m_liveBCObjs :=
              if env.EnableObjDestructCall then s.m_liveBCObjs.erase s.this.addr
              else s.m_liveBCObjs } := by
    unfold ObjectData.release tail_call_remove_live_bc_obj
    cases env.EnableObjDestructCall <;> simp [hdtor]
  have hdi := ObjectData.destructImpl_run env
    { s with m_liveBCObjs :=
        if env.EnableObjDestructCall then s.m_liveBCObjs.erase s.this.addr
        else s.m_liveBCObjs } dtor hdtor hunw
  have hat : ({ ({ s with m_liveBCObjs :=
        if env.EnableObjDestructCall then s.m_liveBCObjs.erase s.this.addr
        else s.m_liveBCObjs } : State) with
      this := { s.this with NoDestructor := true, m_count := 1 } } : State)
      = s.atDestructor env := rfl
  simp only [hat] at hdi
  have hthis := invoke_destructor_this env dtor (s.atDestructor env)
  have hthr := invoke_destructor_thread env dtor (s.atDestructor env)
  have haddr : (invoke_destructor env dtor (s.atDestructor env)).this.addr = s.this.addr := by
    have h := congrArg ObjectData.addr hthis
    exact h
  have hcls : (invoke_destructor env dtor (s.atDestructor env)).this.m_cls = s.this.m_cls := by
    have h := congrArg ObjectData.m_cls hthis
    exact h
  have hinst : (invoke_destructor env dtor (s.atDestructor env)).this.HasInstanceDtor
      = s.this.HasInstanceDtor := by
    have h := congrArg ObjectData.HasInstanceDtor hthis
    exact h
  have hflag : (invoke_destructor env dtor (s.atDestructor env)).this.NoDestructor = true := by
    have h := congrArg ObjectData.NoDestructor hthis
    exact h
  have hmax : (invoke_destructor env dtor (s.atDestructor env)).os_max_id = s.os_max_id := by
    have h := congrArg Prod.fst hthr
    exact h
  have hrel2 : ObjectData.release env s
      = if (invoke_destructor env dtor (s.atDestructor env)).this.m_count = 1 then
          ObjectData.teardown
            { (invoke_destructor env dtor (s.atDestructor env)) with
              this := { (invoke_destructor env dtor (s.atDestructor env)).this with
                m_count := (invoke_destructor env dtor (s.atDestructor env)).this.m_count - 1 } }
        else
          { (invoke_destructor env dtor (s.atDestructor env)) with
            this := { (invoke_destructor env dtor (s.atDestructor env)).this with
              m_count := (invoke_destructor env dtor (s.atDestructor env)).this.m_count - 1 } } := by
    rw [hrel]
    unfold ObjectData.releaseNoObjDestructCheck
    simp only [hbit, hnd, Bool.not_false, Bool.and_self, if_true, hdi,
      ObjectData.hasExactlyOneRef]
    by_cases hc : (invoke_destructor env dtor (s.atDestructor env)).this.m_count = 1
    · simp [hc]
    · simp [hc]
  constructor
  · intro hc
    rw [hrel2, if_neg hc]
    exact ⟨rfl, rfl, rfl, rfl, hmax, hflag⟩
  · intro hc
    rw [hrel2, if_pos hc]
    refine ⟨by rw [hc], ?_⟩
    intro hi
    rw [← hinst] at hi
    unfold ObjectData.teardown
    simp only [hi, Bool.false_eq_true, if_false, hcls, haddr]
    constructor
    · split_ifs <;> simp [freeDynPropArray]
    · intro hdyn
      simp only [hdyn, if_true, State.storeOf, freeDynPropArray, haddr]
      split_ifs <;> exact DynPropTable.find_erase_self _ _

/-- Releasing the example instance with a destructor that stores a new
reference to it: the instance keeps its slot, its store and its id, and
nothing is freed; with a destructor that does nothing it is torn down. -/
theorem resurrected_object_is_not_torn_down_witness :
    (ObjectData.release wEngineResurrect wStateDtor).trace
      = [Event.invokeMethod 30 "__destruct" []] ∧
    (ObjectData.release wEngineResurrect wStateDtor).this.m_count = 1 ∧
    (ObjectData.release wEngineResurrect wStateDtor).storeOf 30
      = some [("p", TypedValue.int 2)] ∧
    (ObjectData.release wEngineResurrect wStateDtor).os_max_id = 4 ∧
    (ObjectData.release {} wStateDtor).trace
      = [Event.invokeMethod 30 "__destruct" [], Event.tvDecRefGen (TypedValue.int 1),
         Event.invalidateWeakRef 30, Event.objFree 30 1] ∧
    (ObjectData.release {} wStateDtor).storeOf 30 = none ∧
    (ObjectData.release {} wStateDtor).os_max_id = 3 :=
  ⟨by decide, by decide, by decide,
   ((resurrected_object_is_not_torn_down wEngineResurrect wStateDtor "__destruct"
      rfl rfl rfl rfl).1 (by decide)).2.2.2.2.1,
   by decide,
   (((resurrected_object_is_not_torn_down {} wStateDtor "__destruct"
      rfl rfl rfl rfl).2 (by decide)).2 rfl).2 (by decide),
   by decide⟩

theorem DynPropTable.find_assign_ne (t : DynPropTable) (a b : Nat) (arr : ArrayData)
    (h : a ≠ b) : DynPropTable.find (DynPropTable.assign t a arr) b = DynPropTable.find t b := by
  have hab : (a == b) = false := by simp [h]
  induction t with
  | nil =>
    simp [DynPropTable.assign, DynPropTable.find, List.find?_cons, hab]
  | cons e rest ih =>
    simp only [DynPropTable.assign]
    simp only [DynPropTable.find] at ih ⊢
    by_cases he : e.1 = a
    · have hea : (e.1 == a) = true := by simp [he]
      have heb : (e.1 == b) = false := by rw [he]; exact hab
      rw [if_pos hea, List.find?_cons, List.find?_cons]
      simp only [hab, heb]
    · have hea : (e.1 == a) = false := by simp [he]
      rw [hea]
      simp only [Bool.false_eq_true, if_false, List.find?_cons]
      cases e.1 == b
      · exact ih
      · rfl

theorem DynPropTable.find_emplace_new (t : DynPropTable) (a : Nat) (arr : ArrayData)
    (h : DynPropTable.find t a = none) :
    DynPropTable.find (DynPropTable.emplace t a arr) a = some arr := by
  simp only [DynPropTable.emplace, h, Option.isSome_none, Bool.false_eq_true, if_false]
  simp only [DynPropTable.find, Option.map_eq_none'] at h
  simp [DynPropTable.find, List.find?_append, h]

theorem DynPropTable.find_emplace_ne (t : DynPropTable) (a b : Nat) (arr : ArrayData)
    (h : a ≠ b) : DynPropTable.find (DynPropTable.emplace t a arr) b = DynPropTable.find t b := by
  unfold DynPropTable.emplace
  split
  · rfl
  · have hb : (a == b) = false := by simp [h]
    simp only [DynPropTable.find, List.find?_append]
    cases List.find? (fun e => e.1 == b) t with
    | some x => simp
    | none => simp [List.find?, hb]

theorem State.storeOf_tvWrite (s : State) (p : Lval) (v : TypedValue) (b : Nat)
    (h : s.this.addr ≠ b) : (s.tvWrite p v).storeOf b = s.storeOf b := by
  cases p <;> simp [State.tvWrite, State.storeOf, State.setDynPropArr,
    DynPropTable.find_assign_ne _ _ _ _ h]

theorem ObjectData.setDynProp_storeOf (s : State) (key : String) (val : TypedValue) (b : Nat)
    (h : s.this.addr ≠ b) :
    (ObjectData.setDynProp key val s).2.storeOf b = s.storeOf b := by
  unfold ObjectData.setDynProp ObjectData.reserveProperties ObjectData.setDynPropArray
  simp only [Bind.bind, Exec.bind, Exec.modify, Exec.throw]
  split_ifs <;> simp [State.storeOf, State.setDynPropArr, DynPropTable.find_assign_ne _ _ _ _ h]

theorem ObjectData.guardImmutable_state (lookup : PropLookup Lval) (s : State) :
    (ObjectData.guardImmutable lookup s).2 = s := by
  unfold ObjectData.guardImmutable
  simp only [Bind.bind, Exec.bind, Exec.get, Pure.pure, Exec.pure]
  split_ifs <;> rfl

theorem ObjectData.setProp_storeOf (env : Engine) (ctx : Option ClassPtr) (key : String)
    (val : TypedValue) (s : State) (b : Nat) (h : s.this.addr ≠ b)
    (hno : (s.this.m_cls.UseSet = false ∧ s.this.m_cls.HasNativePropHandler = false)
      ∨ s.findsInitialized ctx key = true) :
    (ObjectData.setProp env ctx key val s).2.storeOf b = s.storeOf b := by
  have hg := ObjectData.guardImmutable_state (ObjectData.getPropImpl true ctx key s) s
  by_cases hc : ((ObjectData.getPropImpl true ctx key s).prop != Lval.nullptr
      && (ObjectData.getPropImpl true ctx key s).accessible) = true
  · have hdirect : (s.tvAt (ObjectData.getPropImpl true ctx key s).prop != TypedValue.uninit
        || !s.this.m_cls.rtAttribute RuntimeAttribute.UseSet) = true := by
      rcases hno with hno | hno
      · simp [Class.rtAttribute, hno.1]
      · simp only [State.findsInitialized, Bool.and_eq_true] at hno
        simp [hno.2]
    cases hr : ObjectData.guardImmutable (ObjectData.getPropImpl true ctx key s) s with
    | mk r s1 =>
      rw [hr] at hg
      simp only at hg
      subst hg
      cases r <;>
        simp [ObjectData.setProp, Bind.bind, Exec.bind, Exec.get, Pure.pure, Exec.pure,
          hdirect, hc, hr, Exec.modify, State.storeOf_tvWrite _ _ _ _ h]
  · have hno2 : s.this.m_cls.UseSet = false ∧ s.this.m_cls.HasNativePropHandler = false := by
      rcases hno with hno | hno
      · exact hno
      · simp only [State.findsInitialized, Bool.and_eq_true] at hno
        exact absurd hno.1 (by simpa using hc)
    obtain ⟨hset, hnat⟩ := hno2
    simp only [Bool.not_eq_true] at hc
    by_cases hp : (ObjectData.getPropImpl true ctx key s).prop = Lval.nullptr
    · by_cases hk : firstByteIsNul key = true
      · simp [ObjectData.setProp, Bind.bind, Exec.bind, Exec.get, Pure.pure, Exec.pure,
          Class.rtAttribute, hset, hnat, hc, hp, hk, Exec.throw]
      · simp only [Bool.not_eq_true] at hk
        have := ObjectData.setDynProp_storeOf s key val b h
        simp [ObjectData.setProp, Bind.bind, Exec.bind, Exec.get, Pure.pure, Exec.pure,
          Class.rtAttribute, hset, hnat, hc, hp, hk, Exec.throw, this]
    · simp [ObjectData.setProp, Bind.bind, Exec.bind, Exec.get, Pure.pure, Exec.pure,
        Class.rtAttribute, hset, hnat, hc, hp, Exec.throw]

theorem ObjectData.unsetProp_storeOf (env : Engine) (ctx : Option ClassPtr) (key : String)
    (s : State) (b : Nat) (h : s.this.addr ≠ b)
    (hno : (s.this.m_cls.UseUnset = false ∧ s.this.m_cls.HasNativePropHandler = false)
      ∨ s.findsInitialized ctx key = true) :
    (ObjectData.unsetProp env ctx key s).2.storeOf b = s.storeOf b := by
  have hg := ObjectData.guardImmutable_state (ObjectData.getPropImpl true ctx key s) s
  by_cases hc : (((ObjectData.getPropImpl true ctx key s).prop != Lval.nullptr
      && (ObjectData.getPropImpl true ctx key s).accessible)
      && s.tvAt (ObjectData.getPropImpl true ctx key s).prop != TypedValue.uninit) = true
  · by_cases hd : (s.this.declPropInd (ObjectData.getPropImpl true ctx key s).prop
        != kInvalidSlot) = true
    · cases hr : ObjectData.guardImmutable (ObjectData.getPropImpl true ctx key s) s with
      | mk r s1 =>
        rw [hr] at hg
        simp only at hg
        subst hg
        cases r <;>
          simp [ObjectData.unsetProp, Bind.bind, Exec.bind, Exec.get, Pure.pure, Exec.pure,
            hc, hd, hr, Exec.modify, State.storeOf_tvWrite _ _ _ _ h]
    · simp only [Bool.not_eq_true] at hd
      have hf : DynPropTable.find
          (DynPropTable.assign s.dynPropTable s.this.addr (ArrayData.remove s.dynPropArray key)) b
          = DynPropTable.find s.dynPropTable b := DynPropTable.find_assign_ne _ _ _ _ h
      simp [ObjectData.unsetProp, Bind.bind, Exec.bind, Exec.get, Pure.pure, Exec.pure,
        hc, hd, Exec.modify, State.storeOf, State.setDynPropArr, hf]
  · have hno2 : s.this.m_cls.UseUnset = false ∧ s.this.m_cls.HasNativePropHandler = false := by
      rcases hno with hno | hno
      · exact hno
      · exact absurd hno hc
    obtain ⟨hunset, hnat⟩ := hno2
    simp only [Bool.not_eq_true] at hc
    simp only [ObjectData.unsetProp, Bind.bind, Exec.bind, Exec.get, Pure.pure, Exec.pure,
      Class.rtAttribute, hunset, hnat, hc, Exec.throw, Bool.false_eq_true, if_false,
      Bool.not_false, Bool.and_true, if_true]
    split_ifs <;> rfl

theorem ObjectData.cloneCopy_addr (env : Engine) (mem id : Nat) (s : State)
    (hn : s.this.hasNativeData = false) : (ObjectData.cloneCopy env mem id s).1.addr = mem := by
  unfold ObjectData.cloneCopy
  simp only [hn, Bool.false_eq_true, if_false, ObjectData.InitRaw]
  split <;> rfl

theorem ObjectData.cloneCopy_cls (env : Engine) (mem id : Nat) (s : State)
    (hn : s.this.hasNativeData = false) :
    (ObjectData.cloneCopy env mem id s).1.m_cls = s.this.m_cls := by
  unfold ObjectData.cloneCopy
  simp only [hn, Bool.false_eq_true, if_false, ObjectData.InitRaw]
  split <;> rfl

/-- The clone of a generic object into a fresh instance (an address other
than the source's, without an entry in the side table), every value being a
cell: the clone has the store flag exactly when the source has it, the store
of the clone initially equals that of the source, the store of the source is
unchanged, and setProp and unsetProp on one of the two leave the store of the
other unchanged whenever the operation writes itself and no user code runs,
that is when it finds an accessible, initialized property or the class has
neither the hook concerned nor a native handler. -/
theorem ObjectData.cloneCopy_store_of_cells (env : Engine) (mem id : Nat) (s : State)
    (hn : s.this.hasNativeData = false)
    (hfresh : mem ≠ s.this.addr) (hnew : s.storeOf mem = none) :
    (ObjectData.cloneCopy env mem id s).1.HasDynPropArr = s.this.HasDynPropArr ∧
    (s.this.HasDynPropArr = true →
      ((ObjectData.cloneCopy env mem id s).2.on (ObjectData.cloneCopy env mem id s).1).dynPropArray
        = s.dynPropArray) ∧
    (ObjectData.cloneCopy env mem id s).2.storeOf s.this.addr = s.storeOf s.this.addr ∧
    (∀ (env2 : Engine) (ctx : Option ClassPtr) (key : String) (val : TypedValue),
      (((s.this.m_cls.UseSet = false ∧ s.this.m_cls.HasNativePropHandler = false) ∨
          ((ObjectData.cloneCopy env mem id s).2.on
            (ObjectData.cloneCopy env mem id s).1).findsInitialized ctx key = true) →
        (ObjectData.setProp env2 ctx key val
            ((ObjectData.cloneCopy env mem id s).2.on
              (ObjectData.cloneCopy env mem id s).1)).2.storeOf s.this.addr
          = s.storeOf s.this.addr) ∧
      (((s.this.m_cls.UseUnset = false ∧ s.this.m_cls.HasNativePropHandler = false) ∨
          ((ObjectData.cloneCopy env mem id s).2.on
            (ObjectData.cloneCopy env mem id s).1).findsInitialized ctx key = true) →
        (ObjectData.unsetProp env2 ctx key
            ((ObjectData.cloneCopy env mem id s).2.on
              (ObjectData.cloneCopy env mem id s).1)).2.storeOf s.this.addr
          = s.storeOf s.this.addr) ∧
      (((s.this.m_cls.UseSet = false ∧ s.this.m_cls.HasNativePropHandler = false) ∨
          (ObjectData.cloneCopy env mem id s).2.findsInitialized ctx key = true) →
        (ObjectData.setProp env2 ctx key val (ObjectData.cloneCopy env mem id s).2).2.storeOf mem
          = (ObjectData.cloneCopy env mem id s).2.storeOf mem) ∧
      (((s.this.m_cls.UseUnset = false ∧ s.this.m_cls.HasNativePropHandler = false) ∨
          (ObjectData.cloneCopy env mem id s).2.findsInitialized ctx key = true) →
        (ObjectData.unsetProp env2 ctx key (ObjectData.cloneCopy env mem id s).2).2.storeOf mem
          = (ObjectData.cloneCopy env mem id s).2.storeOf mem)) := by
  have haddr := ObjectData.cloneCopy_addr env mem id s hn
  have hcls := ObjectData.cloneCopy_cls env mem id s hn
  have hthis : (ObjectData.cloneCopy env mem id s).2.this = s.this := by
    unfold ObjectData.cloneCopy
    simp only []
    split <;> rfl
  have hsrc : (ObjectData.cloneCopy env mem id s).2.storeOf s.this.addr
      = s.storeOf s.this.addr := by
    unfold ObjectData.cloneCopy
    simp only [hn, Bool.false_eq_true, if_false, ObjectData.InitRaw]
    split
    · exact DynPropTable.find_emplace_ne _ _ _ _ hfresh
    · rfl
  refine ⟨?_, ?_, hsrc, ?_⟩
  · unfold ObjectData.cloneCopy
    simp only [hn, Bool.false_eq_true, if_false, ObjectData.InitRaw]
    split
    · rename_i h; rw [h]
    · rename_i h
      simp only [Bool.not_eq_true] at h
      rw [h]
  · intro hflag
    unfold ObjectData.cloneCopy
    simp only [hn, Bool.false_eq_true, if_false, ObjectData.InitRaw, hflag, if_true]
    simp only [State.on, State.dynPropArray]
    have := DynPropTable.find_emplace_new s.dynPropTable mem s.dynPropArray hnew
    simp only [State.dynPropArray] at this
    rw [this]
    rfl
  · intro env2 ctx key val
    have hne1 : ((ObjectData.cloneCopy env mem id s).2.on
        (ObjectData.cloneCopy env mem id s).1).this.addr ≠ s.this.addr := by
      simp only [State.on, haddr]
      exact hfresh
    have hne2 : (ObjectData.cloneCopy env mem id s).2.this.addr ≠ mem := by
      rw [hthis]; exact fun h => hfresh h.symm
    have hc1 : ((ObjectData.cloneCopy env mem id s).2.on
        (ObjectData.cloneCopy env mem id s).1).this.m_cls = s.this.m_cls := by
      simp only [State.on, hcls]
    have hc2 : (ObjectData.cloneCopy env mem id s).2.this.m_cls = s.this.m_cls := by
      rw [hthis]
    refine ⟨?_, ?_, ?_, ?_⟩
    · intro hno
      rw [ObjectData.setProp_storeOf env2 ctx key val _ _ hne1 (by rw [hc1]; exact hno)]
      exact hsrc
    · intro hno
      rw [ObjectData.unsetProp_storeOf env2 ctx key _ _ hne1 (by rw [hc1]; exact hno)]
      exact hsrc
    · intro hno
      exact ObjectData.setProp_storeOf env2 ctx key val _ _ hne2 (by rw [hc2]; exact hno)
    · intro hno
      exact ObjectData.unsetProp_storeOf env2 ctx key _ _ hne2 (by rw [hc2]; exact hno)

theorem invoke_destructor_trace (env : Engine) (dtor : String) (s : State) :
    ∃ tail : List Event,
      (invoke_destructor env dtor s).trace
        = s.trace ++ Event.invokeMethod s.this.addr dtor [] :: tail ∧
      ∀ (a : Nat) (m : String) (args : List TypedValue), Event.invokeMethod a m args ∉ tail := by
  have ht := invokeMethod_trace env dtor [] s
  unfold invoke_destructor
  cases hr : invokeMethod env dtor [] s with
  | mk r s1 =>
    rw [hr] at ht
    simp only at ht
    cases r with
    | ok v => exact ⟨[], by simp [ht], by simp⟩
    | error e =>
      exact ⟨[Event.destructorException s1.this.addr e], by simp [ht], by simp⟩

theorem ObjectData.teardown_this (s : State) : (ObjectData.teardown s).this = s.this := by
  unfold ObjectData.teardown
  simp only []
  split_ifs <;> rfl

theorem ObjectData.teardown_trace (s : State) :
    ∃ tail : List Event,
      (ObjectData.teardown s).trace = s.trace ++ tail ∧
      ∀ (a : Nat) (m : String) (args : List TypedValue), Event.invokeMethod a m args ∉ tail := by
  unfold ObjectData.teardown
  by_cases hi : s.this.HasInstanceDtor = true
  · exact ⟨[Event.instanceDtor s.this.addr], by simp [hi], by simp⟩
  · refine ⟨(s.this.propVec.take s.this.m_cls.numDeclProperties).map Event.tvDecRefGen
        ++ [Event.invalidateWeakRef s.this.addr,
            Event.objFree s.this.addr s.this.m_cls.numDeclProperties], ?_, ?_⟩
    · simp only [hi, Bool.false_eq_true, if_false]
      split_ifs <;> simp [freeDynPropArray]
    · intro a m args hmem
      rcases List.mem_append.1 hmem with h | h
      · obtain ⟨v, _, hv⟩ := List.mem_map.1 h
        exact absurd hv (by simp)
      · simp at h

theorem List.count_append_no_invoke (l tail : List Event) (e : Event)
    (h : e ∉ tail) : (l ++ tail).count e = l.count e := by
  rw [List.count_append, List.count_eq_zero_of_not_mem h, Nat.add_zero]

theorem DtorStep.same (dtor : String) (s : State) : DtorStep dtor s s :=
  ⟨rfl, rfl, id, [], by simp, by simp⟩

theorem DtorStep.chain {dtor : String} {s s1 s2 : State}
    (h1 : DtorStep dtor s s1) (h2 : DtorStep dtor s1 s2) : DtorStep dtor s s2 := by
  obtain ⟨ha1, hc1, hf1, t1, ht1, hb1⟩ := h1
  obtain ⟨ha2, hc2, hf2, t2, ht2, hb2⟩ := h2
  refine ⟨ha2.trans ha1, hc2.trans hc1, fun h => hf2 (hf1 h), t1 ++ t2, ?_, ?_⟩
  · rw [ht2, ht1, List.append_assoc]
  · rw [ha1] at hb2
    rw [List.count_append]
    omega

theorem DtorStep.calls {dtor : String} {s s1 : State} (h : DtorStep dtor s s1) :
    s.dtorCalls dtor ≤ s1.dtorCalls dtor ∧
    s1.dtorCalls dtor + s1.dtorBudget ≤ s.dtorCalls dtor + s.dtorBudget := by
  obtain ⟨ha, _, _, t, ht, hb⟩ := h
  unfold State.dtorCalls
  rw [ht, ha, List.count_append]
  omega

theorem ObjectData.teardown_step (dtor : String) (s : State) :
    DtorStep dtor s (ObjectData.teardown s) := by
  obtain ⟨tail, ht, hno⟩ := ObjectData.teardown_trace s
  have hthis := ObjectData.teardown_this s
  refine ⟨by rw [hthis], by rw [hthis], by rw [hthis]; exact id, tail, ht, ?_⟩
  rw [List.count_eq_zero_of_not_mem (hno _ _ _)]
  simp [State.dtorBudget, hthis]

theorem invoke_destructor_step (env : Engine) (dtor : String) (s : State)
    (hflag : s.this.NoDestructor = true) :
    (invoke_destructor env dtor s).this.addr = s.this.addr ∧
    (invoke_destructor env dtor s).this.m_cls = s.this.m_cls ∧
    (invoke_destructor env dtor s).this.NoDestructor = true ∧
    ∃ tail : List Event,
      (invoke_destructor env dtor s).trace = s.trace ++ tail ∧
      tail.count (Event.invokeMethod s.this.addr dtor []) ≤ 1 := by
  have hthis := invoke_destructor_this env dtor s
  obtain ⟨tail, ht, hno⟩ := invoke_destructor_trace env dtor s
  refine ⟨?_, ?_, ?_, Event.invokeMethod s.this.addr dtor [] :: tail, ht, ?_⟩
  · have h := congrArg ObjectData.addr hthis
    exact h
  · have h := congrArg ObjectData.m_cls hthis
    exact h
  · have h := congrArg ObjectData.NoDestructor hthis
    exact h.trans hflag
  · rw [List.count_cons_self, List.count_eq_zero_of_not_mem (hno _ _ _)]

theorem ObjectData.destructImpl_step (env : Engine) (dtor : String) (s : State)
    (hd : s.this.m_cls.getDtor = some dtor) (hnd : s.this.NoDestructor = false) :
    DtorStep dtor s (ObjectData.destructImpl env s).2 ∧
    (ObjectData.destructImpl env s).2.this.NoDestructor = true := by
  have hb : State.dtorBudget s = 1 := by simp [State.dtorBudget, hnd]
  cases hu : s.m_unwindingCppException with
  | true =>
    have he : ObjectData.destructImpl env s
        = (true, { s with this := { s.this with NoDestructor := true } }) := by
      unfold ObjectData.destructImpl
      simp [hd, hu]
    rw [he]
    exact ⟨⟨rfl, rfl, fun _ => rfl, [], by simp, by simp [State.dtorBudget]⟩, rfl⟩
  | false =>
    rw [ObjectData.destructImpl_run env s dtor hd hu]
    obtain ⟨ha, hc, hf, tail, ht, hcount⟩ := invoke_destructor_step env dtor
      { s with this := { s.this with NoDestructor := true, m_count := 1 } } rfl
    refine ⟨⟨ha, hc, fun _ => hf, tail, ht, ?_⟩, hf⟩
    rw [hb]
    simp only [State.dtorBudget, hf, if_true]
    exact hcount

theorem ObjectData.releaseNoObjDestructCheck_step (env : Engine) (dtor : String) (s : State)
    (hd : s.this.m_cls.getDtor = some dtor) :
    DtorStep dtor s (ObjectData.releaseNoObjDestructCheck env s) := by
  unfold ObjectData.releaseNoObjDestructCheck
  by_cases hc : (!env.one_bit_refcount && !s.this.NoDestructor) = true
  · have hnd : s.this.NoDestructor = false := by
      simp only [Bool.and_eq_true, Bool.not_eq_true'] at hc
      exact hc.2
    have hstep := (ObjectData.destructImpl_step env dtor s hd hnd).1
    simp only [hc, if_true]
    split_ifs
    · exact hstep
    · exact hstep.chain (ObjectData.teardown_step dtor _)
  · simp only [hc, Bool.false_eq_true, if_false]
    exact ObjectData.teardown_step dtor s

theorem State.liveBCObjs_step (dtor : String) (s : State) (l : List Nat) :
    DtorStep dtor s { s with m_liveBCObjs := l } :=
  ⟨rfl, rfl, id, [], by simp, by simp [State.dtorBudget]⟩

theorem ObjectData.release_step (env : Engine) (dtor : String) (s : State)
    (hd : s.this.m_cls.getDtor = some dtor) :
    DtorStep dtor s (ObjectData.release env s) := by
  unfold ObjectData.release tail_call_remove_live_bc_obj
  split_ifs
  · exact (State.liveBCObjs_step dtor s _).chain
      (ObjectData.releaseNoObjDestructCheck_step env dtor _ hd)
  · exact ObjectData.releaseNoObjDestructCheck_step env dtor s hd

theorem ObjectData.destructForExit_step (env : Engine) (dtor : String) (s : State)
    (hd : s.this.m_cls.getDtor = some dtor) :
    DtorStep dtor s (ObjectData.destructForExit env s) := by
  unfold ObjectData.destructForExit
  simp only [hd, Option.isSome_some, if_true]
  by_cases hnd : s.this.NoDestructor = true
  · simp only [hnd, if_true]
    exact State.liveBCObjs_step dtor s _
  · simp only [hnd, Bool.false_eq_true, if_false]
    obtain ⟨ha, hc, hf, tail, ht, hcount⟩ := invoke_destructor_step env dtor
      { s with
        this := { s.this with NoDestructor := true, m_count := s.this.m_count + 1 },
        m_liveBCObjs := s.m_liveBCObjs.erase s.this.addr } rfl
    refine ⟨ha, hc, fun _ => hf, tail, ht, ?_⟩
    have hb : State.dtorBudget s = 1 := by simp [State.dtorBudget, hnd]
    rw [hb]
    simp only [State.dtorBudget, hf, if_true]
    exact hcount

theorem LifecycleCall.run_step (env : Engine) (dtor : String) (c : LifecycleCall) (s : State)
    (hd : s.this.m_cls.getDtor = some dtor) : DtorStep dtor s (c.run env s) := by
  cases c
  · exact ObjectData.release_step env dtor s hd
  · exact ObjectData.destructForExit_step env dtor s hd

theorem runCalls_step (env : Engine) (dtor : String) (calls : List LifecycleCall) :
    ∀ s : State, s.this.m_cls.getDtor = some dtor → DtorStep dtor s (runCalls env calls s) := by
  induction calls with
  | nil => intro s _; exact DtorStep.same dtor s
  | cons c rest ih =>
    intro s hd
    have h1 := LifecycleCall.run_step env dtor c s hd
    have h2 := ih (c.run env s) (by rw [h1.2.1]; exact hd)
    exact h1.chain h2

/-- C21: over every sequence of release and destructForExit calls on an
object whose class has the destructor dtor, the destructor is invoked at most
once more, and not at all once the no-destruct flag is set; whenever a
sequence has invoked it, the flag is set afterwards.  The flag is set before
the destructor is invoked: destructImpl and destructForExit invoke it in a
state whose no-destruct flag is set. -/
theorem destructor_invoked_at_most_once (env : Engine) (s : State) (dtor : String)
    (calls : List LifecycleCall) (hd : s.this.m_cls.getDtor = some dtor) :
    (runCalls env calls s).dtorCalls dtor ≤ s.dtorCalls dtor + 1 ∧
    (s.this.NoDestructor = true →
      (runCalls env calls s).dtorCalls dtor = s.dtorCalls dtor ∧
      (runCalls env calls s).this.NoDestructor = true) ∧
    (s.dtorCalls dtor < (runCalls env calls s).dtorCalls dtor →
      (runCalls env calls s).this.NoDestructor = true) ∧
    (s.m_unwindingCppException = false →
      (ObjectData.destructImpl env s).2
        = { (invoke_destructor env dtor
              { s with this := { s.this with NoDestructor := true, m_count := 1 } }) with
            this :=
              { (invoke_destructor env dtor
                  { s with this := { s.this with NoDestructor := true, m_count := 1 } }).this with
                m_count :=
                  (invoke_destructor env dtor
                    { s with this := { s.this with NoDestructor := true, m_count := 1 } }).this.m_count
                    - 1 } }) ∧
    (s.this.NoDestructor = false →
      ObjectData.destructForExit env s
        = { (invoke_destructor env dtor s.atExitDestructor) with
            this := { (invoke_destructor env dtor s.atExitDestructor).this with
              m_count := (invoke_destructor env dtor s.atExitDestructor).this.m_count - 1 } } ∧
      s.atExitDestructor.this.NoDestructor = true) := by
  have hstep := runCalls_step env dtor calls s hd
  have hcalls := hstep.calls
  refine ⟨?_, ?_, ?_, ?_, ?_⟩
  · have : s.dtorBudget ≤ 1 := by unfold State.dtorBudget; split <;> simp
    omega
  · intro hflag
    have hb : s.dtorBudget = 0 := by simp [State.dtorBudget, hflag]
    exact ⟨by omega, hstep.2.2.1 hflag⟩
  · intro hlt
    by_contra hno
    have hb1 : (runCalls env calls s).dtorBudget = 1 := by
      simp only [Bool.not_eq_true] at hno
      simp [State.dtorBudget, hno]
    have : s.dtorBudget ≤ 1 := by unfold State.dtorBudget; split <;> simp
    omega
  · intro hunw
    rw [ObjectData.destructImpl_run env s dtor hd hunw]
  · intro hnd
    refine ⟨?_, rfl⟩
    unfold ObjectData.destructForExit
    simp only [hd, Option.isSome_some, if_true, hnd, Bool.false_eq_true, if_false]
    rfl

/-- The example instance with a resurrecting destructor: released, released
again and destroyed at exit, its destructor has been invoked once. -/
theorem destructor_invoked_at_most_once_witness :
    (runCalls wEngineResurrect
        [LifecycleCall.release, LifecycleCall.release, LifecycleCall.destructForExit]
        wStateDtor).dtorCalls "__destruct" = 1 ∧
    (runCalls wEngineResurrect
        [LifecycleCall.release, LifecycleCall.release, LifecycleCall.destructForExit]
        wStateDtor).dtorCalls "__destruct" ≤ wStateDtor.dtorCalls "__destruct" + 1 :=
  ⟨by decide,
   (destructor_invoked_at_most_once wEngineResurrect wStateDtor "__destruct"
      [LifecycleCall.release, LifecycleCall.release, LifecycleCall.destructForExit] rfl).1⟩

theorem ObjectData.release_run (env : Engine) (s : State) (dtor : String)
    (hdtor : s.this.m_cls.getDtor = some dtor)
    (hnd : s.this.NoDestructor = false)
    (hbit : env.one_bit_refcount = false)
    (hunw : s.m_unwindingCppException = false) :
    ObjectData.release env s
      = ObjectData.afterDestructor (invoke_destructor env dtor (s.atDestructor env)) := by
  have hrel : ObjectData.release env s
      = ObjectData.releaseNoObjDestructCheck env
          { s with m_liveBCObjs :=
              if env.EnableObjDestructCall then s.m_liveBCObjs.erase s.this.addr
              else s.m_liveBCObjs } := by
    unfold ObjectData.release tail_call_remove_live_bc_obj
    cases env.EnableObjDestructCall <;> simp [hdtor]
  have hdi := ObjectData.destructImpl_run env
    { s with m_liveBCObjs :=
        if env.EnableObjDestructCall then s.m_liveBCObjs.erase s.this.addr
        else s.m_liveBCObjs } dtor hdtor hunw
  have hat : ({ ({ s with m_liveBCObjs :=
        if env.EnableObjDestructCall then s.m_liveBCObjs.erase s.this.addr
        else s.m_liveBCObjs } : State) with
      this := { s.this with NoDestructor := true, m_count := 1 } } : State)
      = s.atDestructor env := rfl
  simp only [hat] at hdi
  rw [hrel]
  unfold ObjectData.releaseNoObjDestructCheck ObjectData.afterDestructor
  simp only [hbit, hnd, Bool.not_false, Bool.and_self, if_true, hdi,
    ObjectData.hasExactlyOneRef]
  by_cases hc : (invoke_destructor env dtor (s.atDestructor env)).this.m_count = 1
  · simp [hc]
  · simp [hc]

theorem ObjectData.teardown_eq (s : State) :
    ObjectData.teardown s
      = if s.this.HasInstanceDtor then
          { s with trace := s.trace ++ [Event.instanceDtor s.this.addr] }
        else
          { s with
            trace :=
              (s.trace ++ (s.this.propVec.take s.this.m_cls.numDeclProperties).map
                  Event.tvDecRefGen)
                ++ [Event.invalidateWeakRef s.this.addr,
                    Event.objFree s.this.addr s.this.m_cls.numDeclProperties],
            dynPropTable :=
              if s.this.HasDynPropArr then DynPropTable.erase s.dynPropTable s.this.addr
              else s.dynPropTable,
            os_max_id :=
              if s.this.o_id != 0 && s.this.o_id == s.os_max_id then decMaxId s.os_max_id
              else s.os_max_id } := by
  unfold ObjectData.teardown
  by_cases h1 : s.this.HasInstanceDtor = true
  · simp only [h1, if_true]
  · by_cases h2 : s.this.HasDynPropArr = true
    · by_cases h3 : (s.this.o_id != 0 && s.this.o_id == s.os_max_id) = true
      · simp only [h1, h2, h3, freeDynPropArray, if_true, Bool.false_eq_true, if_false]
      · simp only [h1, h2, h3, freeDynPropArray, if_true, Bool.false_eq_true, if_false]
    · by_cases h3 : (s.this.o_id != 0 && s.this.o_id == s.os_max_id) = true
      · simp only [h1, h2, h3, freeDynPropArray, if_true, Bool.false_eq_true, if_false]
      · simp only [h1, h2, h3, freeDynPropArray, if_true, Bool.false_eq_true, if_false]

theorem ObjectData.teardown_trace_irrelevant (t : State) (tr : List Event) :
    ({ (ObjectData.teardown { t with trace := tr }) with trace := [] } : State)
      = { (ObjectData.teardown t) with trace := [] } := by
  rw [ObjectData.teardown_eq, ObjectData.teardown_eq]
  simp only []
  split_ifs <;> rfl

/-- C22: whatever the destructor body does, release takes its outcome only as
a state: when the destructor returns normally and leaves the state s1,
release goes on with the resurrection check and the teardown from s1; when it
raises a fault and leaves s1, the fault is handed to
handle_destructor_exception and release goes on from s1 in the same way, the
record of the swallowed fault in the trace apart.  The fault does not come
out of release. -/
theorem destructor_fault_is_contained (env : Engine) (s : State) (dtor : String)
    (hdtor : s.this.m_cls.getDtor = some dtor)
    (hnd : s.this.NoDestructor = false)
    (hbit : env.one_bit_refcount = false)
    (hunw : s.m_unwindingCppException = false) :
    (∀ (v : TypedValue) (s1 : State),
      invokeMethod env dtor [] (s.atDestructor env) = (Except.ok v, s1) →
      ObjectData.release env s = ObjectData.afterDestructor s1) ∧
    (∀ (e : Fault) (s1 : State),
      invokeMethod env dtor [] (s.atDestructor env) = (Except.error e, s1) →
      ObjectData.release env s
        = ObjectData.afterDestructor
            { s1 with trace := s1.trace ++ [Event.destructorException s1.this.addr e] } ∧
      ({ (ObjectData.release env s) with trace := [] } : State)
        = { (ObjectData.afterDestructor s1) with trace := [] }) := by
  have hrel := ObjectData.release_run env s dtor hdtor hnd hbit hunw
  constructor
  · intro v s1 hrun
    rw [hrel]
    unfold invoke_destructor
    rw [hrun]
  · intro e s1 hrun
    have h1 : ObjectData.release env s
        = ObjectData.afterDestructor
            { s1 with trace := s1.trace ++ [Event.destructorException s1.this.addr e] } := by
      rw [hrel]
      unfold invoke_destructor
      rw [hrun]
    refine ⟨h1, ?_⟩
    rw [h1]
    unfold ObjectData.afterDestructor
    simp only []
    split_ifs
    · exact ObjectData.teardown_trace_irrelevant
        { s1 with this := { s1.this with m_count := 0 } } _
    · rfl

/-- Releasing the example instance with a destructor that raises: release
returns the torn-down state, with the swallowed fault on record. -/
theorem destructor_fault_is_contained_witness :
    (ObjectData.release wEngineThrowingDtor wStateDtor).trace
      = [Event.invokeMethod 30 "__destruct" [], Event.destructorException 30 (Fault.user 7),
         Event.tvDecRefGen (TypedValue.int 1), Event.invalidateWeakRef 30,
         Event.objFree 30 1] ∧
    ({ (ObjectData.release wEngineThrowingDtor wStateDtor) with trace := [] } : State)
      = { (ObjectData.afterDestructor
            (invokeMethod wEngineThrowingDtor "__destruct" []
              (wStateDtor.atDestructor wEngineThrowingDtor)).2) with trace := [] } :=
  ⟨by decide,
   ((destructor_fault_is_contained wEngineThrowingDtor wStateDtor "__destruct"
      rfl rfl rfl rfl).2 (Fault.user 7) _ rfl).2⟩

/-- C25 fails as stated: "b" is private and not accessible from outside the
class; the class uses the unset hook and the unset accessor for "b" is
active, so the guard declines.  unsetProp returns normally, whereas for the
class without the hook it raises the inaccessible-property error; the slot
keeps its value in both cases. -/
theorem unsetProp_declined_hook_raises_nothing :
    (wStateUnsetDeclined.this.m_cls.getDeclPropIndex none "b").accessible = false ∧
    wStateUnsetDeclined.propRecurInfo.isActive
      (wStateUnsetDeclined.accessKey "b" RuntimeAttribute.UseUnset) = true ∧
    (ObjectData.unsetProp {} none "b" wStateUnsetDeclined).1 = Except.ok () ∧
    (ObjectData.unsetProp {} none "b" wStateUnsetDeclined).2.this.propVec
      = wStateUnsetDeclined.this.propVec ∧
    (ObjectData.unsetProp {} none "b" wState).1
      = Except.error (Fault.raiseError "Cannot unset inaccessible property") := by
  decide

/-- C25, amended: for unsetProp on a declared property that is not accessible
from the calling context, on an object whose class has no native property
handler: for a class without an unset hook it raises the inaccessible-property
error; for a class that uses the unset hook, when the recursion guard
declines the hook, it does not raise that error but returns normally (and
raises the invalid-name fault when the name is empty or starts with NUL); in
both cases the instance and the side table are left unchanged. -/
theorem unsetProp_inaccessible_declined_returns_normally (env : Engine) (s : State)
    (ctx : Option ClassPtr) (key : String) (i : Slot)
    (hfound : s.this.m_cls.getDeclPropIndex ctx key = { prop := i, accessible := false })
    (hdecl : i ≠ kInvalidSlot)
    (hnat : s.this.m_cls.HasNativePropHandler = false) :
    (s.this.m_cls.UseUnset = false →
      ObjectData.unsetProp env ctx key s
        = (Except.error (Fault.raiseError "Cannot unset inaccessible property"), s)) ∧
    (s.this.m_cls.UseUnset = true →
      s.propRecurInfo.isActive (s.accessKey key RuntimeAttribute.UseUnset) = true →
      ObjectData.unsetProp env ctx key s
        = ((if firstByteIsNul key then Except.error (Fault.invalidPropertyName key)
            else Except.ok ()), s.promote) ∧
      s.promote.this = s.this ∧ s.promote.dynPropTable = s.dynPropTable) := by
  have hidx : (i != kInvalidSlot) = true := by simp [hdecl]
  constructor
  · intro hun
    simp [ObjectData.unsetProp, ObjectData.getPropImpl, hfound, hidx, Bind.bind, Exec.bind,
      Pure.pure, Exec.pure, Exec.get, Exec.throw, Class.rtAttribute, hnat, hun]
  · intro hun hact
    have hd := ObjectData.invokeUnset_declined env key s hact
    refine ⟨?_, rfl, rfl⟩
    by_cases hk : firstByteIsNul key = true
    · simp [ObjectData.unsetProp, ObjectData.getPropImpl, hfound, hidx, Bind.bind, Exec.bind,
        Pure.pure, Exec.pure, Exec.get, Exec.throw, Class.rtAttribute, hnat, hun, hd, hk]
    · simp only [Bool.not_eq_true] at hk
      simp [ObjectData.unsetProp, ObjectData.getPropImpl, hfound, hidx, Bind.bind, Exec.bind,
        Pure.pure, Exec.pure, Exec.get, Exec.throw, Class.rtAttribute, hnat, hun, hd, hk]

/-- On the example instance: without the hook the error, with the declined
hook a normal return. -/
theorem unsetProp_inaccessible_declined_returns_normally_witness :
    ObjectData.unsetProp {} none "b" wState
      = (Except.error (Fault.raiseError "Cannot unset inaccessible property"), wState) ∧
    (ObjectData.unsetProp {} none "b" wStateUnsetDeclined).1 = Except.ok () :=
  ⟨(unsetProp_inaccessible_declined_returns_normally {} wState none "b" 1 rfl (by decide)
      rfl).1 rfl,
   congrArg Prod.fst
     ((unsetProp_inaccessible_declined_returns_normally {} wStateUnsetDeclined none "b" 1 rfl
        (by decide) rfl).2 rfl (by decide)).1⟩

/-- C26 fails as stated: the class uses the get hook (which supplies 100) and
not the set hook; "c" is declared, accessible from the class and
uninitialized.  c += 1 and ++c store 101 in the declared slot of "c"; no
dynamic property is materialized and the object has no store afterwards. -/
theorem setOp_with_get_hook_writes_declared_slot :
    wStateGetOnly.this.m_cls.getDeclPropIndex (some 1) "c" = { prop := 2, accessible := true } ∧
    wStateGetOnly.this.propVec.getD 2 TypedValue.uninit = TypedValue.uninit ∧
    (ObjectData.setOpProp wEngineArith TypedValue.null (some 1) SetOpOp.PlusEqual "c"
        (TypedValue.int 1) wStateGetOnly).2.this.propVec
      = [TypedValue.int 1, TypedValue.int 2, TypedValue.int 101] ∧
    (ObjectData.setOpProp wEngineArith TypedValue.null (some 1) SetOpOp.PlusEqual "c"
        (TypedValue.int 1) wStateGetOnly).2.this.HasDynPropArr = false ∧
    (ObjectData.setOpProp wEngineArith TypedValue.null (some 1) SetOpOp.PlusEqual "c"
        (TypedValue.int 1) wStateGetOnly).2.dynPropTable = [] ∧
    (ObjectData.setOpProp wEngineArith TypedValue.null (some 1) SetOpOp.PlusEqual "c"
        (TypedValue.int 1) wStateGetOnly).2.trace
      = [Event.invokeMethod 7 "__get" [TypedValue.str "c"]] ∧
    (ObjectData.incDecProp wEngineArith (some 1) IncDecOp.PreInc "c" wStateGetOnly).2.this.propVec
      = [TypedValue.int 1, TypedValue.int 2, TypedValue.int 101] ∧
    (ObjectData.incDecProp wEngineArith (some 1) IncDecOp.PreInc "c"
        wStateGetOnly).2.dynPropTable = [] := by
  decide

/-- C26, amended: for every object whose class uses the get hook and does not
use the set hook, and every declared property P (slot i) that is accessible
but uninitialized and may be written (not immutable, or the object under
construction): a setOpProp or incDecProp on P for which the get hook supplies
the current value stores the computed result in the declared slot of P, and
materializes no dynamic property: the store and its flag are as the hook left
them. -/
theorem get_hook_result_goes_to_declared_slot (env : Engine) (s : State) (tvRef : TypedValue)
    (ctx : Option ClassPtr) (key : String) (val : TypedValue) (op : SetOpOp) (idop : IncDecOp)
    (i : Slot)
    (huse : s.this.m_cls.UseGet = true)
    (hset : s.this.m_cls.UseSet = false)
    (hfound : s.this.m_cls.getDeclPropIndex ctx key = { prop := i, accessible := true })
    (hdecl : i ≠ kInvalidSlot)
    (huninit : s.this.propVec.getD i TypedValue.uninit = TypedValue.uninit)
    (himm : (s.this.m_cls.declProp i).attrs.AttrIsImmutable = false
      ∨ s.this.IsBeingConstructed = true)
    (hact : s.propRecurInfo.isActive (s.accessKey key RuntimeAttribute.UseGet) = false)
    (v : TypedValue) (s1 : State)
    (hrun : invokeMethod env "__get" [TypedValue.str key]
        { s with propRecurInfo :=
            s.propRecurInfo.enter (s.accessKey key RuntimeAttribute.UseGet) }
      = (Except.ok v, s1)) :
    (∀ nv : TypedValue, env.setopBody op v val = Except.ok nv →
      ObjectData.setOpProp env tvRef ctx op key val s
        = (Except.ok { handle := Lval.declProp i, tvRef := tvRef },
           { s1 with
             this := { s1.this with propVec := s1.this.propVec.set i nv },
             propRecurInfo :=
               (PropRecurInfo.leave s.propRecurInfo
                 (s.accessKey key RuntimeAttribute.UseGet) s1.propRecurInfo) })) ∧
    (∀ res : TypedValue × TypedValue, env.IncDecBody idop v = Except.ok res →
      ObjectData.incDecProp env ctx idop key s
        = (Except.ok res.2,
           { s1 with
             this := { s1.this with propVec := s1.this.propVec.set i res.1 },
             propRecurInfo :=
               (PropRecurInfo.leave s.propRecurInfo
                 (s.accessKey key RuntimeAttribute.UseGet) s1.propRecurInfo) })) := by
  have hidx : (i != kInvalidSlot) = true := by simp [hdecl]
  have hg := ObjectData.invokeGet_admitted env key s hact v s1 hrun
  have hfix : s1.fixed = ({ s with
      trace := s.trace ++ [Event.invokeMethod s.this.addr "__get" [TypedValue.str key]] }
        : State).fixed := by
    have h := HookProg.run_fixed (env.method s.this.m_cls.ptr "__get" [TypedValue.str key])
      { s with
        propRecurInfo := s.propRecurInfo.enter (s.accessKey key RuntimeAttribute.UseGet),
        trace := s.trace ++ [Event.invokeMethod s.this.addr "__get" [TypedValue.str key]] }
    simp only [invokeMethod, traceEvent, Exec.modify, Bind.bind, Exec.bind] at hrun
    rw [hrun] at h
    exact h
  have hctor : s1.this.IsBeingConstructed = s.this.IsBeingConstructed := by
    have h := congrArg (fun p => p.1.IsBeingConstructed) hfix
    simpa [State.fixed] using h
  have hguard : ((s.this.m_cls.declProp i).attrs.AttrIsImmutable
      && !s1.this.IsBeingConstructed) = false := by
    rw [hctor]
    rcases himm with h | h <;> simp [h]
  have hguard2 : ¬ ((s.this.m_cls.declProp i).attrs.AttrIsImmutable = true
      ∧ s1.this.IsBeingConstructed = false) := by
    rw [hctor]
    rcases himm with h | h <;> simp [h]
  have hu : s.this.propVec[i]?.getD TypedValue.uninit = TypedValue.uninit := by
    simpa [List.getD_eq_getElem?_getD] using huninit
  constructor
  · intro nv hnv
    simp [ObjectData.setOpProp, ObjectData.getPropImpl, hfound, hidx, Bind.bind, Exec.bind,
      Pure.pure, Exec.pure, Exec.get, Exec.modify, Class.rtAttribute, huse, hset, State.tvAt,
      hu, hg, liftExcept, hnv, ObjectData.guardImmutable, ObjectData.isBeingConstructed,
      hguard, hguard2, State.tvWrite]
  · intro res hres
    simp [ObjectData.incDecProp, ObjectData.getPropImpl, hfound, hidx, Bind.bind, Exec.bind,
      Pure.pure, Exec.pure, Exec.get, Exec.modify, Class.rtAttribute, huse, hset, State.tvAt,
      hu, hg, liftExcept, hres, ObjectData.guardImmutable, ObjectData.isBeingConstructed,
      hguard, hguard2, State.tvWrite]

/-- On the example instance, c += 1 with a hook that supplies 100 puts 101
into the declared slot of "c". -/
theorem get_hook_result_goes_to_declared_slot_witness :
    (ObjectData.setOpProp wEngineArith TypedValue.null (some 1) SetOpOp.PlusEqual "c"
        (TypedValue.int 1) wStateGetOnly).1
      = Except.ok { handle := Lval.declProp 2, tvRef := TypedValue.null } :=
  congrArg Prod.fst
    ((get_hook_result_goes_to_declared_slot wEngineArith wStateGetOnly TypedValue.null (some 1)
        "c" (TypedValue.int 1) SetOpOp.PlusEqual IncDecOp.PreInc 2 rfl rfl rfl (by decide) rfl
        (Or.inl rfl) (by decide) (TypedValue.int 100) _ rfl).1 (TypedValue.int 101) rfl)

/-- C28: for every name that does not start with NUL and resolves to a
declared property inaccessible from the given context, o_set raises no
visibility fault: for a class without the set hook it returns normally and
changes nothing; for a class with the set hook its outcome and its effect are
those of the invocation of the hook.  And whenever the class uses the set
hook, the hook is consulted (the lookup does not find an accessible,
initialized property) and the guard declines it, o_set returns normally
having written nothing: the instance and the side table are unchanged. -/
theorem o_set_skips_inaccessible_and_declined (env : Engine) (s : State) (propName : String)
    (v : TypedValue) (context : String)
    (hname : firstByteIsNul propName = false) :
    (∀ i : Slot,
      s.this.m_cls.getDeclPropIndex (env.contextOf context) propName
        = { prop := i, accessible := false } →
      i ≠ kInvalidSlot →
      (s.this.m_cls.UseSet = false →
        ObjectData.o_set env propName v context s = (Except.ok (), s)) ∧
      (s.this.m_cls.UseSet = true →
        ObjectData.o_set env propName v context s
          = ((ObjectData.invokeSet env propName v s).1.map (fun _ => ()),
             (ObjectData.invokeSet env propName v s).2))) ∧
    (s.this.m_cls.UseSet = true →
      s.findsInitialized (env.contextOf context) propName = false →
      s.propRecurInfo.isActive (s.accessKey propName RuntimeAttribute.UseSet) = true →
      ObjectData.o_set env propName v context s = (Except.ok (), s.promote) ∧
      s.promote.this = s.this ∧ s.promote.dynPropTable = s.dynPropTable) := by
  constructor
  · intro i hfound hdecl
    have hidx : (i != kInvalidSlot) = true := by simp [hdecl]
    unfold Engine.contextOf at hfound
    unfold ObjectData.o_set
    generalize (if context != "" then env.lookupClass context else none) = ctx at hfound ⊢
    constructor
    · intro hset
      simp [hname, ObjectData.getPropImpl, hfound, hidx, hdecl, Bind.bind, Exec.bind,
        Pure.pure, Exec.pure, Exec.get, Class.rtAttribute, hset]
    · intro hset
      cases hr : ObjectData.invokeSet env propName v s with
      | mk r s1 =>
        cases r <;>
          simp [hname, ObjectData.getPropImpl, hfound, hidx, hdecl, Bind.bind,
            Exec.bind, Pure.pure, Exec.pure, Exec.get, Class.rtAttribute, hset, hr, Except.map]
  · intro hset hfind hact
    have hd := ObjectData.invokeSet_declined env propName v s hact
    refine ⟨?_, rfl, rfl⟩
    unfold State.findsInitialized Engine.contextOf at hfind
    unfold ObjectData.o_set
    generalize (if context != "" then env.lookupClass context else none) = ctx at hfind ⊢
    have hneg : ¬ ((¬ (ObjectData.getPropImpl true ctx propName s).prop = Lval.nullptr ∧
        (ObjectData.getPropImpl true ctx propName s).accessible = true) ∧
        ¬ s.tvAt (ObjectData.getPropImpl true ctx propName s).prop = TypedValue.uninit) := by
      intro h
      have : (((ObjectData.getPropImpl true ctx propName s).prop != Lval.nullptr
          && (ObjectData.getPropImpl true ctx propName s).accessible)
          && s.tvAt (ObjectData.getPropImpl true ctx propName s).prop != TypedValue.uninit)
            = true := by
        simp [h.1.1, h.1.2, h.2]
      rw [this] at hfind
      exact Bool.noConfusion hfind
    simp [hname, Bind.bind, Exec.bind, Pure.pure, Exec.pure, Exec.get,
      Class.rtAttribute, hset, hneg, hd]

/-- On the example instances: the private "b" is skipped without a hook, and
skipped when the set accessor for "b" is already active. -/
theorem o_set_skips_inaccessible_and_declined_witness :
    ObjectData.o_set {} "b" (TypedValue.int 9) "" wState = (Except.ok (), wState) ∧
    (ObjectData.o_set {} "b" (TypedValue.int 9) "" wStateSetDeclined).2.this
      = wStateSetDeclined.this :=
  ⟨((o_set_skips_inaccessible_and_declined {} wState "b" (TypedValue.int 9) "" (by decide)).1
      1 rfl (by decide)).1 rfl,
   congrArg (fun p => p.2.this)
     ((o_set_skips_inaccessible_and_declined {} wStateSetDeclined "b" (TypedValue.int 9) ""
        (by decide)).2 rfl (by decide) (by decide)).1⟩

/-- C29: with a conversion to boolean that takes null to false, for every
object, context and property name, run from the same state (so that hooks
and native handlers answer alike): if propIsset returns false then
propEmptyImpl returns true, and so does propEmpty when the class is not
dispatched to the built-in emptiness check. -/
theorem not_isset_implies_empty (env : Engine) (s : State) (ctx : Option ClassPtr)
    (key : String)
    (hnull : env.cellToBool TypedValue.null = false)
    (hisset : (ObjectData.propIsset env ctx key s).1 = Except.ok false) :
    (ObjectData.propEmptyImpl env ctx key s).1 = Except.ok true ∧
    ((s.this.m_cls.CallToImpl && !s.this.isCollection) = false →
      (ObjectData.propEmpty env ctx key s).1 = Except.ok true) := by
  have himpl : (ObjectData.propEmptyImpl env ctx key s).1 = Except.ok true := by
    unfold ObjectData.propIsset at hisset
    unfold ObjectData.propEmptyImpl
    simp only [Bind.bind, Exec.bind, Exec.get, Pure.pure, Exec.pure, Bool.false_eq_true, if_false, if_true] at hisset ⊢
    by_cases hp : (ObjectData.getProp ctx key s != Lval.nullptr
        && s.tvAt (ObjectData.getProp ctx key s) != TypedValue.uninit) = true
    · simp only [hp, Bind.bind, Exec.bind, Exec.get, Pure.pure, Exec.pure, Bool.false_eq_true, if_false, if_true] at hisset ⊢
      have hv : s.tvAt (ObjectData.getProp ctx key s) = TypedValue.null := by
        simpa using hisset
      simp [hv, hnull, Bind.bind, Exec.bind, Pure.pure, Exec.pure]
    · simp only [hp, Bind.bind, Exec.bind, Exec.get, Pure.pure, Exec.pure, Bool.false_eq_true, if_false, if_true] at hisset ⊢
      by_cases hn : s.this.m_cls.HasNativePropHandler = true
      · simp only [hn, Bind.bind, Exec.bind, Exec.get, Pure.pure, Exec.pure, Bool.false_eq_true, if_false, if_true] at hisset ⊢
        cases hr : ObjectData.invokeNativeIssetProp env key s with
        | mk r s1 =>
          simp only [hr, Bind.bind, Exec.bind, Exec.get, Pure.pure, Exec.pure, Bool.false_eq_true, if_false, if_true] at hisset ⊢
          cases r with
          | error e => simp at hisset
          | ok x =>
            by_cases hx : x.ok = true
            · simp only [hx, Bind.bind, Exec.bind, Exec.get, Pure.pure, Exec.pure, Bool.false_eq_true, if_false, if_true] at hisset ⊢
              have hb : env.cellToBool x.val = false := by simpa using hisset
              simp [hb, Bind.bind, Exec.bind, Pure.pure, Exec.pure]
            · simp only [hx, Bind.bind, Exec.bind, Exec.get, Pure.pure, Exec.pure, Bool.false_eq_true, if_false, if_true] at hisset ⊢
              by_cases hu : (!s.this.m_cls.rtAttribute RuntimeAttribute.UseIsset) = true
              · simp [hu, Bind.bind, Exec.bind, Pure.pure, Exec.pure]
              · simp only [hu, Bind.bind, Exec.bind, Exec.get, Pure.pure, Exec.pure, Bool.false_eq_true, if_false, if_true] at hisset ⊢
                cases hr2 : ObjectData.invokeIsset env key s1 with
                | mk r2 s2 =>
                  simp only [hr2, Bind.bind, Exec.bind, Exec.get, Pure.pure, Exec.pure, Bool.false_eq_true, if_false, if_true] at hisset ⊢
                  cases r2 with
                  | error e => simp at hisset
                  | ok y =>
                    by_cases hy : (!y.ok) = true
                    · simp [hy, Bind.bind, Exec.bind, Pure.pure, Exec.pure]
                    · simp only [hy, Bind.bind, Exec.bind, Exec.get, Pure.pure, Exec.pure, Bool.false_eq_true, if_false, if_true] at hisset ⊢
                      have hb : env.cellToBool y.val = false := by simpa using hisset
                      simp [hb, Bind.bind, Exec.bind, Pure.pure, Exec.pure]
      · simp only [hn, Bind.bind, Exec.bind, Exec.get, Pure.pure, Exec.pure, Bool.false_eq_true, if_false, if_true] at hisset ⊢
        by_cases hu : (!s.this.m_cls.rtAttribute RuntimeAttribute.UseIsset) = true
        · simp [hu, Bind.bind, Exec.bind, Pure.pure, Exec.pure]
        · simp only [hu, Bind.bind, Exec.bind, Exec.get, Pure.pure, Exec.pure, Bool.false_eq_true, if_false, if_true] at hisset ⊢
          cases hr2 : ObjectData.invokeIsset env key s with
          | mk r2 s2 =>
            simp only [hr2, Bind.bind, Exec.bind, Exec.get, Pure.pure, Exec.pure, Bool.false_eq_true, if_false, if_true] at hisset ⊢
            cases r2 with
            | error e => simp at hisset
            | ok y =>
              by_cases hy : (!y.ok) = true
              · simp [hy, Bind.bind, Exec.bind, Pure.pure, Exec.pure]
              · simp only [hy, Bind.bind, Exec.bind, Exec.get, Pure.pure, Exec.pure, Bool.false_eq_true, if_false, if_true] at hisset ⊢
                have hb : env.cellToBool y.val = false := by simpa using hisset
                simp [hb, Bind.bind, Exec.bind, Pure.pure, Exec.pure]
  refine ⟨himpl, ?_⟩
  intro hc
  unfold ObjectData.propEmpty
  simp only [Bind.bind, Exec.bind, Exec.get, hc, Bool.false_eq_true, if_false]
  exact himpl

/-- On the example instance the uninitialized "c" is not set, hence empty. -/
theorem not_isset_implies_empty_witness :
    (ObjectData.propIsset {} (some 1) "c" wState).1 = Except.ok false ∧
    (ObjectData.propEmptyImpl {} (some 1) "c" wState).1 = Except.ok true :=
  ⟨by decide, (not_isset_implies_empty {} wState (some 1) "c" rfl (by decide)).1⟩

theorem stringFind_spec (pre a b : List Char) (ch : Char) (h : ch ∉ a) :
    stringFind (String.mk (pre ++ a ++ ch :: b)) ch pre.length
      = ((pre.length + a.length : Nat) : Int) := by
  unfold stringFind
  have hd : (pre ++ a ++ ch :: b).drop pre.length = a ++ ch :: b := by
    rw [List.append_assoc, List.drop_left]
  have hi : (a ++ ch :: b).indexOf ch = a.length := by
    rw [List.indexOf_append_of_not_mem h, List.indexOf_cons_self, Nat.add_zero]
  simp only [hd, hi]
  rw [if_pos (by simp)]

theorem stringSubstr_spec (a b c : List Char) :
    stringSubstr (String.mk (a ++ b ++ c)) (a.length : Nat) (some ((b.length : Nat) : Int))
      = String.mk b := by
  unfold stringSubstr
  have h1 : ¬ ((a.length : Nat) : Int) < 0 := by omega
  have h2 : ¬ ((b.length : Nat) : Int) < 0 := by omega
  simp only [h1, h2, if_false, Int.toNat_ofNat, List.length_append]
  have hst : min a.length (a.length + b.length + c.length) = a.length := by omega
  rw [hst]
  have hlen : min b.length (a.length + b.length + c.length - a.length) = b.length := by omega
  rw [hlen, List.append_assoc, List.drop_left, List.take_left]

theorem stringSubstr_rest_spec (a b : List Char) :
    stringSubstr (String.mk (a ++ b)) (a.length : Nat) none = String.mk b := by
  unfold stringSubstr
  have h1 : ¬ ((a.length : Nat) : Int) < 0 := by omega
  simp only [h1, if_false, Int.toNat_ofNat, List.length_append]
  have hst : min a.length (a.length + b.length) = a.length := by omega
  rw [hst, List.drop_left]
  have : a.length + b.length - a.length = b.length := by omega
  rw [this, List.take_length]

theorem Engine.default_stringOps : ({} : Engine).StringOps :=
  ⟨stringFind_spec, stringSubstr_spec, stringSubstr_rest_spec⟩

theorem mangledKey_decode (env : Engine) (hops : env.StringOps) (C p : List Char)
    (hnul : Char.ofNat 0 ∉ C) :
    mangledKey C p ≠ "" ∧
    (mangledKey C p).data.head? = some (Char.ofNat 0) ∧
    env.String_find (mangledKey C p) (Char.ofNat 0) 1 + 1 = ((C.length + 2 : Nat) : Int) ∧
    env.String_substr (mangledKey C p) 1 (some (((C.length + 2 : Nat) : Int) - 2))
      = String.mk C ∧
    env.String_substr (mangledKey C p) ((C.length + 2 : Nat) : Int) none = String.mk p := by
  obtain ⟨hfind, hsub, hrest⟩ := hops
  have hkey1 : mangledKey C p = String.mk ([Char.ofNat 0] ++ C ++ Char.ofNat 0 :: p) := rfl
  have hkey2 : mangledKey C p = String.mk ((Char.ofNat 0 :: C ++ [Char.ofNat 0]) ++ p) := by
    unfold mangledKey
    simp
  refine ⟨?_, rfl, ?_, ?_, ?_⟩
  · intro h
    have := congrArg String.data h
    simp [mangledKey] at this
  · have h := hfind [Char.ofNat 0] C p (Char.ofNat 0) hnul
    rw [← hkey1] at h
    simp only [List.length_singleton] at h
    rw [h]
    push_cast
    ring
  · have h := hsub [Char.ofNat 0] C (Char.ofNat 0 :: p)
    rw [← hkey1] at h
    simp only [List.length_singleton, Nat.cast_one] at h
    have hl : (((C.length + 2 : Nat) : Int) - 2) = ((C.length : Nat) : Int) := by
      push_cast
      ring
    rw [hl]
    exact h
  · have h := hrest (Char.ofNat 0 :: C ++ [Char.ofNat 0]) p
    rw [← hkey2] at h
    have hl : (Char.ofNat 0 :: C ++ [Char.ofNat 0]).length = C.length + 2 := by simp
    rw [hl] at h
    exact h

/-- C30: with a string library that finds and cuts as expected, o_setArray
decodes mangled keys: for every key NUL, C, NUL, p in which C is non-empty
and holds no NUL, the entry is written with setProp under the name p, with
the class of the object as calling context when C is "*", and with the class
named C otherwise; when no class is named C the entry is skipped, nothing
being written; for every key that does not start with NUL the entry is
written under the whole key with no calling context.  In each case the rest
of the array follows. -/
theorem o_setArray_decodes_mangled_keys (env : Engine) (hops : env.StringOps) (s : State)
    (v : TypedValue) (rest : ArrayData) :
    (∀ C p : List Char, C ≠ [] → Char.ofNat 0 ∉ C →
      (C = [Char.ofNat 42] →
        ObjectData.o_setArray env ((mangledKey C p, v) :: rest) s
          = Exec.bind (ObjectData.setProp env (some s.this.m_cls.ptr) (String.mk p) v)
              (fun _ => ObjectData.o_setArray env rest) s) ∧
      (C ≠ [Char.ofNat 42] → ∀ ctx : ClassPtr, env.lookupClass (String.mk C) = some ctx →
        ObjectData.o_setArray env ((mangledKey C p, v) :: rest) s
          = Exec.bind (ObjectData.setProp env (some ctx) (String.mk p) v)
              (fun _ => ObjectData.o_setArray env rest) s) ∧
      (C ≠ [Char.ofNat 42] → env.lookupClass (String.mk C) = none →
        ObjectData.o_setArray env ((mangledKey C p, v) :: rest) s
          = ObjectData.o_setArray env rest s)) ∧
    (∀ key : String, key.data.head? ≠ some (Char.ofNat 0) →
      ObjectData.o_setArray env ((key, v) :: rest) s
        = Exec.bind (ObjectData.setProp env none key v)
            (fun _ => ObjectData.o_setArray env rest) s) := by
  constructor
  · intro C p hne hnul
    obtain ⟨hk, hhead, hlen, hcls, hrest⟩ := mangledKey_decode env hops C p hnul
    have hcond : (mangledKey C p != "" && (mangledKey C p).data.head? == some (Char.ofNat 0))
        = true := by
      simp [hk, hhead]
    have hstar : ((String.mk C).length == 1 && (String.mk C).data.head? == some (Char.ofNat 42))
        = decide (C = [Char.ofNat 42]) := by
      cases C with
      | nil => exact absurd rfl hne
      | cons c t =>
        cases t with
        | nil =>
          simp only [String.length, List.length_singleton, beq_self_eq_true, Bool.true_and,
            List.head?_cons, List.cons.injEq, and_true]
          by_cases hc : c = Char.ofNat 42 <;> simp [hc]
        | cons d u => simp [String.length]
    refine ⟨?_, ?_, ?_⟩
    · intro hC
      have hs : ((String.mk C).length == 1
          && (String.mk C).data.head? == some (Char.ofNat 42)) = true := by
        rw [hstar]; simp [hC]
      rw [ObjectData.o_setArray]
      simp only [Bind.bind, Exec.bind, Exec.get, hcond, if_true, hlen, hcls, hrest, hs]
    · intro hC ctx hlook
      have hs : ((String.mk C).length == 1
          && (String.mk C).data.head? == some (Char.ofNat 42)) = false := by
        rw [hstar]; simp [hC]
      rw [ObjectData.o_setArray]
      simp only [Bind.bind, Exec.bind, Exec.get, hcond, if_true, hlen, hcls, hrest, hs,
        Bool.false_eq_true, if_false, hlook]
    · intro hC hlook
      have hs : ((String.mk C).length == 1
          && (String.mk C).data.head? == some (Char.ofNat 42)) = false := by
        rw [hstar]; simp [hC]
      rw [ObjectData.o_setArray]
      simp only [Bind.bind, Exec.bind, Exec.get, hcond, if_true, hlen, hcls, hrest, hs,
        Bool.false_eq_true, if_false, hlook]
  · intro key hhead
    have hcond : (key != "" && key.data.head? == some (Char.ofNat 0)) = false := by
      have : (key.data.head? == some (Char.ofNat 0)) = false := by
        simpa using hhead
      rw [this, Bool.and_false]
    rw [ObjectData.o_setArray]
    simp only [Bind.bind, Exec.bind, Exec.get, hcond, Bool.false_eq_true, if_false]

/-- The key NUL "*" NUL "c" writes the protected "c" of the example instance
from its own class; the key "d" becomes a dynamic property. -/
theorem o_setArray_decodes_mangled_keys_witness :
    (ObjectData.o_setArray {}
        [(mangledKey [Char.ofNat 42] [Char.ofNat 99], TypedValue.int 8),
         ("d", TypedValue.int 9)] wState).2.this.propVec
      = [TypedValue.int 1, TypedValue.int 2, TypedValue.int 8] ∧
    ObjectData.o_setArray {}
        [(mangledKey [Char.ofNat 42] [Char.ofNat 99], TypedValue.int 8)] wState
      = Exec.bind (ObjectData.setProp {} (some wState.this.m_cls.ptr)
            (String.mk [Char.ofNat 99]) (TypedValue.int 8))
          (fun _ => ObjectData.o_setArray {} []) wState :=
  ⟨by decide,
   ((o_setArray_decodes_mangled_keys {} Engine.default_stringOps wState (TypedValue.int 8)
      []).1 [Char.ofNat 42] [Char.ofNat 99] (by decide) (by decide)).1 rfl⟩

theorem preserves_pure {α : Type} {I : ObjectData → DynPropTable → Prop} {Q : α → Prop}
    (a : α) (h : Q a) : Preserves I (Pure.pure a : Exec α) Q := by
  refine ⟨fun s hI => ?_⟩
  refine ⟨hI, ?_⟩
  intro b hb
  have : a = b := by
    have h1 : (Except.ok a : Except Fault α) = Except.ok b := hb
    exact Except.ok.inj h1
  rw [← this]; exact h

theorem preserves_throw {α : Type} {I : ObjectData → DynPropTable → Prop} {Q : α → Prop}
    (e : Fault) : Preserves I (Exec.throw e : Exec α) Q := by
  refine ⟨fun s hI => ?_⟩
  refine ⟨hI, ?_⟩
  intro b hb
  have h1 : (Except.error e : Except Fault α) = Except.ok b := hb
  exact Except.noConfusion h1

theorem preserves_bind {α β : Type} {I : ObjectData → DynPropTable → Prop} {Q : β → Prop}
    (R : α → Prop) {m : Exec α} {f : α → Exec β}
    (hm : Preserves I m R) (hf : ∀ a, R a → Preserves I (f a) Q) :
    Preserves I (m >>= f) Q := by
  refine ⟨fun s hI => ?_⟩
  have h1 := hm.out s hI
  show I (Exec.bind m f s).2.this (Exec.bind m f s).2.dynPropTable ∧
    ∀ b, (Exec.bind m f s).1 = Except.ok b → Q b
  unfold Exec.bind
  cases hr : m s with
  | mk r s1 =>
    rw [hr] at h1
    cases r with
    | error e =>
      refine ⟨h1.1, ?_⟩
      intro b hb
      exact Except.noConfusion hb
    | ok a => exact (hf a (h1.2 a rfl)).out s1 h1.1

theorem preserves_bindT {α β : Type} {I : ObjectData → DynPropTable → Prop} {Q : β → Prop}
    {m : Exec α} {f : α → Exec β}
    (hm : Preserves I m (fun _ => True)) (hf : ∀ a, Preserves I (f a) Q) :
    Preserves I (m >>= f) Q :=
  preserves_bind (fun _ => True) hm (fun a _ => hf a)

theorem preserves_weaken {α : Type} {I : ObjectData → DynPropTable → Prop} {Q Q1 : α → Prop}
    {m : Exec α} (hm : Preserves I m Q) (h : ∀ a, Q a → Q1 a) : Preserves I m Q1 := by
  refine ⟨fun s hI => ?_⟩
  exact ⟨(hm.out s hI).1, fun a ha => h a ((hm.out s hI).2 a ha)⟩

theorem preserves_get_bind {β : Type} {I : ObjectData → DynPropTable → Prop} {Q : β → Prop}
    {f : State → Exec β}
    (hf : ∀ s0 : State, I s0.this s0.dynPropTable → Preserves I (f s0) Q) :
    Preserves I (Exec.get >>= f) Q := by
  refine ⟨fun s hI => ?_⟩
  exact (hf s hI).out s hI

theorem preserves_get {I : ObjectData → DynPropTable → Prop} :
    Preserves I Exec.get (fun _ => True) := by
  refine ⟨fun s hI => ?_⟩
  exact ⟨hI, fun _ _ => trivial⟩

theorem preserves_modify {I : ObjectData → DynPropTable → Prop} {Q : Unit → Prop}
    (f : State → State)
    (h : ∀ s : State, I s.this s.dynPropTable → I (f s).this (f s).dynPropTable) (hq : Q ()) :
    Preserves I (Exec.modify f) Q := by
  refine ⟨fun s hI => ?_⟩
  exact ⟨h s hI, fun _ _ => hq⟩

theorem preserves_liftExcept {α : Type} {I : ObjectData → DynPropTable → Prop}
    (r : Except Fault α) : Preserves I (liftExcept r) (fun _ => True) := by
  refine ⟨fun s hI => ?_⟩
  exact ⟨hI, fun _ _ => trivial⟩

theorem preserves_raise_notice {I : ObjectData → DynPropTable → Prop} (msg : String) :
    Preserves I (raise_notice msg) (fun _ => True) := by
  refine ⟨fun s hI => ?_⟩
  exact ⟨hI, fun _ _ => trivial⟩

theorem preserves_raiseUndefProp {I : ObjectData → DynPropTable → Prop} (key : String) :
    Preserves I (ObjectData.raiseUndefProp key) (fun _ => True) := by
  refine ⟨fun s hI => ?_⟩
  exact ⟨hI, fun _ _ => trivial⟩

theorem preserves_traceEvent {I : ObjectData → DynPropTable → Prop} (e : Event) :
    Preserves I (traceEvent e) (fun _ => True) := by
  refine ⟨fun s hI => ?_⟩
  exact ⟨hI, fun _ _ => trivial⟩

theorem preserves_throwMutateImmutable {α : Type} {I : ObjectData → DynPropTable → Prop}
    {Q : α → Prop} (prop : Lval) :
    Preserves I (ObjectData.throwMutateImmutable prop : Exec α) Q := by
  refine ⟨fun s hI => ?_⟩
  refine ⟨hI, ?_⟩
  intro b hb
  exact Except.noConfusion hb

theorem preserves_magic_prop_impl {I : ObjectData → DynPropTable → Prop}
    (info : PropAccessInfo) (invoker : Exec TypedValue)
    (hinv : Preserves I invoker (fun _ => True)) :
    Preserves I (magic_prop_impl info invoker) (fun _ => True) := by
  refine ⟨fun s hI => ?_⟩
  refine ⟨?_, fun _ _ => trivial⟩
  cases hact : s.propRecurInfo.isActive info with
  | true => rw [magic_prop_impl_active info invoker s hact]; exact hI
  | false =>
    rw [magic_prop_impl_inactive info invoker s hact]
    exact (hinv.out { s with propRecurInfo := s.propRecurInfo.enter info } hI).1

theorem preserves_run {I : ObjectData → DynPropTable → Prop} (p : HookProg) :
    HookProg.Respects I p → Preserves I (HookProg.run p) (fun _ => True) := by
  induction p with
  | ret v => intro _; exact ⟨fun s hI => ⟨hI, fun _ _ => trivial⟩⟩
  | raise f => intro _; exact ⟨fun s hI => ⟨hI, fun _ _ => trivial⟩⟩
  | effect f k ih =>
    intro hR
    refine ⟨fun s hI => ?_⟩
    simp only [HookProg.Respects] at hR
    simp only [HookProg.run]
    exact (ih hR.2).out _ (hR.1 s hI)
  | inspect k ih =>
    intro hR
    refine ⟨fun s hI => ?_⟩
    simp only [HookProg.Respects] at hR
    simp only [HookProg.run]
    exact (ih _ (hR _)).out s hI
  | magic info body k ihb ihk =>
    intro hR
    refine ⟨fun s hI => ?_⟩
    simp only [HookProg.Respects] at hR
    simp only [HookProg.run]
    have h1 := (preserves_magic_prop_impl info (HookProg.run body) (ihb hR.1)).out s hI
    cases hm : magic_prop_impl info (HookProg.run body) s with
    | mk r s1 =>
      rw [hm] at h1
      cases r with
      | error e => exact ⟨h1.1, fun _ _ => trivial⟩
      | ok v => exact (ihk v (hR.2 v)).out s1 h1.1
  | tryCatch body handler ihb ihh =>
    intro hR
    refine ⟨fun s hI => ?_⟩
    simp only [HookProg.Respects] at hR
    simp only [HookProg.run]
    have h1 := (ihb hR.1).out s hI
    cases hm : HookProg.run body s with
    | mk r s1 =>
      rw [hm] at h1
      cases r with
      | error e => exact (ihh e (hR.2 e)).out s1 h1.1
      | ok v => exact ⟨h1.1, fun _ _ => trivial⟩

theorem preserves_invokeMethod {I : ObjectData → DynPropTable → Prop} (env : Engine)
    (henv : env.Respects I) (meth : String) (args : List TypedValue) :
    Preserves I (invokeMethod env meth args) (fun _ => True) := by
  refine ⟨fun s hI => ?_⟩
  have h := (preserves_run (env.method s.this.m_cls.ptr meth args) (henv.1 _ _ _)).out
    { s with trace := s.trace ++ [Event.invokeMethod s.this.addr meth args] } hI
  simp only [invokeMethod, traceEvent, Exec.modify, Bind.bind, Exec.bind]
  exact h

theorem preserves_ite {α : Type} {I : ObjectData → DynPropTable → Prop} {Q : α → Prop}
    {c : Prop} [Decidable c] {m1 m2 : Exec α}
    (h1 : c → Preserves I m1 Q) (h2 : ¬ c → Preserves I m2 Q) :
    Preserves I (if c then m1 else m2) Q := by
  by_cases hc : c
  · rw [if_pos hc]; exact h1 hc
  · rw [if_neg hc]; exact h2 hc

theorem preserves_invokeSet {I : ObjectData → DynPropTable → Prop} (env : Engine)
    (henv : env.Respects I) (key : String) (val : TypedValue) :
    Preserves I (ObjectData.invokeSet env key val) (fun _ => True) := by
  refine ⟨fun s hI => ?_⟩
  exact (preserves_bindT (preserves_magic_prop_impl _ _ (preserves_invokeMethod env henv _ _))
    (fun r => preserves_pure _ trivial)).out s hI

theorem preserves_invokeGet {I : ObjectData → DynPropTable → Prop} (env : Engine)
    (henv : env.Respects I) (key : String) :
    Preserves I (ObjectData.invokeGet env key) (fun _ => True) := by
  refine ⟨fun s hI => ?_⟩
  exact (preserves_magic_prop_impl _ _ (preserves_invokeMethod env henv _ _)).out s hI

theorem preserves_invokeIsset {I : ObjectData → DynPropTable → Prop} (env : Engine)
    (henv : env.Respects I) (key : String) :
    Preserves I (ObjectData.invokeIsset env key) (fun _ => True) := by
  refine ⟨fun s hI => ?_⟩
  exact (preserves_magic_prop_impl _ _ (preserves_invokeMethod env henv _ _)).out s hI

theorem preserves_invokeUnset {I : ObjectData → DynPropTable → Prop} (env : Engine)
    (henv : env.Respects I) (key : String) :
    Preserves I (ObjectData.invokeUnset env key) (fun _ => True) := by
  refine ⟨fun s hI => ?_⟩
  exact (preserves_bindT (preserves_magic_prop_impl _ _ (preserves_invokeMethod env henv _ _))
    (fun r => preserves_pure _ trivial)).out s hI

theorem preserves_invokeNativeGetProp {I : ObjectData → DynPropTable → Prop} (env : Engine)
    (henv : env.Respects I) (key : String) :
    Preserves I (ObjectData.invokeNativeGetProp env key) (fun _ => True) := by
  refine ⟨fun s hI => ?_⟩
  exact (preserves_bindT (preserves_traceEvent _)
    (fun _ => preserves_bindT (preserves_run _ (henv.2.1 s.this.m_cls.ptr key))
      (fun r => preserves_pure _ trivial))).out s hI

theorem preserves_invokeNativeSetProp {I : ObjectData → DynPropTable → Prop} (env : Engine)
    (henv : env.Respects I) (key : String) (val : TypedValue) :
    Preserves I (ObjectData.invokeNativeSetProp env key val) (fun _ => True) := by
  refine ⟨fun s hI => ?_⟩
  exact (preserves_bindT (preserves_traceEvent _)
    (fun _ => preserves_bindT (preserves_run _ (henv.2.2.1 s.this.m_cls.ptr key val))
      (fun r => preserves_pure _ trivial))).out s hI

theorem preserves_invokeNativeIssetProp {I : ObjectData → DynPropTable → Prop} (env : Engine)
    (henv : env.Respects I) (key : String) :
    Preserves I (ObjectData.invokeNativeIssetProp env key) (fun _ => True) := by
  refine ⟨fun s hI => ?_⟩
  exact (preserves_bindT (preserves_traceEvent _)
    (fun _ => preserves_bindT (preserves_run _ (henv.2.2.2.1 s.this.m_cls.ptr key))
      (fun r => preserves_pure _ trivial))).out s hI

theorem preserves_invokeNativeUnsetProp {I : ObjectData → DynPropTable → Prop} (env : Engine)
    (henv : env.Respects I) (key : String) :
    Preserves I (ObjectData.invokeNativeUnsetProp env key) (fun _ => True) := by
  refine ⟨fun s hI => ?_⟩
  exact (preserves_bindT (preserves_traceEvent _)
    (fun _ => preserves_bindT (preserves_run _ (henv.2.2.2.2 s.this.m_cls.ptr key))
      (fun r => preserves_pure _ trivial))).out s hI

theorem preserves_pure_bind {α β : Type} {I : ObjectData → DynPropTable → Prop} {Q : β → Prop}
    (a : α) {f : α → Exec β} (hf : Preserves I (f a) Q) :
    Preserves I ((Pure.pure a : Exec α) >>= f) Q :=
  ⟨fun s hI => hf.out s hI⟩

theorem preserves_liftExcept_bind {α β : Type} {I : ObjectData → DynPropTable → Prop}
    {Q : β → Prop} (r : Except Fault α) {f : α → Exec β} (hf : ∀ a, Preserves I (f a) Q) :
    Preserves I (liftExcept r >>= f) Q :=
  preserves_bindT (preserves_liftExcept r) hf

theorem preserves_guardImmutable_bind {β : Type} {c : Class} {i : Slot} {v : TypedValue}
    {Q : β → Prop} (lookup : PropLookup Lval) {f : Unit → Exec β}
    (hf : lookup.immutable = false → Preserves (SlotHolds c i v) (f ()) Q) :
    Preserves (SlotHolds c i v) (ObjectData.guardImmutable lookup >>= f) Q := by
  refine ⟨fun s hI => ?_⟩
  have hc : s.this.IsBeingConstructed = false := hI.2.1
  cases him : lookup.immutable with
  | false =>
    have : (ObjectData.guardImmutable lookup >>= f) s = f () s := by
      simp [ObjectData.guardImmutable, Bind.bind, Exec.bind, Exec.get, Pure.pure, Exec.pure, him]
    rw [this]
    exact (hf him).out s hI
  | true =>
    have : (ObjectData.guardImmutable lookup >>= f) s =
        (Except.error (Fault.cannotModifyImmutableProp s.this.m_cls.name
          (s.this.m_cls.declProp (s.this.declPropInd lookup.prop)).name), s) := by
      simp [ObjectData.guardImmutable, Bind.bind, Exec.bind, Exec.get, Pure.pure, Exec.pure, him,
        ObjectData.isBeingConstructed, hc, ObjectData.throwMutateImmutable, Exec.throw]
    rw [this]
    exact ⟨hI, fun _ h => Except.noConfusion h⟩

theorem SlotHolds.after_tvWrite {c : Class} {i : Slot} {v : TypedValue} (p : Lval) (w : TypedValue)
    (hp : p ≠ Lval.declProp i) (s : State) (h : SlotHolds c i v s.this s.dynPropTable) :
    SlotHolds c i v (s.tvWrite p w).this (s.tvWrite p w).dynPropTable := by
  cases p with
  | declProp j =>
    have hji : j ≠ i := fun e => hp (by rw [e])
    refine ⟨h.1, h.2.1, ?_⟩
    have := h.2.2
    simp only [State.tvWrite]
    rw [← this]
    simp [List.getD_eq_getElem?_getD, List.getElem?_set_ne hji]
  | dynProp k => exact h
  | nullptr => exact h
  | tvRef => exact h
  | immutable_null_base => exact h

theorem getPropImpl_mutable_ne_slot (c : Class) (i : Slot) (ctx : Option ClassPtr) (key : String)
    (s : State) (hcls : s.this.m_cls = c) (himm : (c.declProp i).attrs.AttrIsImmutable = true)
    (h : (ObjectData.getPropImpl true ctx key s).immutable = false) :
    (ObjectData.getPropImpl true ctx key s).prop ≠ Lval.declProp i := by
  intro hp
  unfold ObjectData.getPropImpl at h hp
  simp only [] at h hp
  split_ifs at h hp with h1 h2
  · simp only [Lval.declProp.injEq] at hp
    rw [hp, hcls, himm] at h
    exact Bool.noConfusion h

theorem preserves_modify_store_slot {c : Class} {i : Slot} {v : TypedValue}
    (g : State → ArrayData) :
    Preserves (SlotHolds c i v) (Exec.modify fun s1 => s1.setDynPropArr (g s1)) (fun _ => True) :=
  preserves_modify _ (fun _ h => h) trivial

theorem preserves_modify_ifWrite_slot {c : Class} {i : Slot} {v : TypedValue}
    (cond : State → Bool) (p : Lval) (w : TypedValue) (hp : p ≠ Lval.declProp i) :
    Preserves (SlotHolds c i v)
      (Exec.modify fun s1 => if cond s1 = true then s1.tvWrite p w else s1) (fun _ => True) := by
  refine preserves_modify _ (fun s h => ?_) trivial
  by_cases hc : cond s = true
  · rw [if_pos hc]; exact SlotHolds.after_tvWrite p w hp s h
  · rw [if_neg hc]; exact h

theorem preserves_reserveProperties_slot {c : Class} {i : Slot} {v : TypedValue} :
    Preserves (SlotHolds c i v) ObjectData.reserveProperties (fun _ => True) := by
  refine ⟨fun s hI => ⟨?_, fun _ _ => trivial⟩⟩
  unfold ObjectData.reserveProperties ObjectData.setDynPropArray
  split_ifs
  · exact hI
  · exact hI
  · exact hI

theorem preserves_setDynProp_slot {c : Class} {i : Slot} {v : TypedValue} (key : String)
    (val : TypedValue) :
    Preserves (SlotHolds c i v) (ObjectData.setDynProp key val) (fun _ => True) :=
  preserves_bindT preserves_reserveProperties_slot
    (fun _ => preserves_modify _ (fun _ h => h) trivial)

theorem preserves_makeDynProp_slot_bind {β : Type} {c : Class} {i : Slot} {v : TypedValue}
    {Q : β → Prop} (key : String) {f : Lval → Exec β}
    (hf : Preserves (SlotHolds c i v) (f (Lval.dynProp key)) Q) :
    Preserves (SlotHolds c i v) (ObjectData.makeDynProp key >>= f) Q := by
  refine preserves_bind (fun p => p = Lval.dynProp key) ?_ (fun a ha => by rw [ha]; exact hf)
  exact preserves_bindT preserves_reserveProperties_slot
    (fun _ => preserves_bindT (preserves_modify _ (fun _ h => h) trivial)
      (fun _ => preserves_pure _ rfl))

theorem setProp_slotHolds (env : Engine) (c : Class) (i : Slot) (v : TypedValue)
    (himm : (c.declProp i).attrs.AttrIsImmutable = true)
    (henv : env.Respects (SlotHolds c i v)) (ctx : Option ClassPtr) (key : String)
    (val : TypedValue) :
    Preserves (SlotHolds c i v) (ObjectData.setProp env ctx key val) (fun _ => True) := by
  unfold ObjectData.setProp
  apply preserves_get_bind
  intro s0 hI0
  have hlk := getPropImpl_mutable_ne_slot c i ctx key s0 hI0.1 himm
  generalize ObjectData.getPropImpl true ctx key s0 = lookup at hlk
  repeat' first
    | with_reducible exact preserves_pure _ trivial
    | with_reducible exact preserves_throw _
    | with_reducible exact preserves_invokeSet env henv _ _
    | with_reducible exact preserves_invokeNativeSetProp env henv _ _
    | with_reducible exact preserves_setDynProp_slot _ _
    | (with_reducible apply preserves_guardImmutable_bind; intro hguard)
    | with_reducible exact preserves_modify _ (SlotHolds.after_tvWrite _ _ (hlk hguard)) trivial
    | with_reducible apply preserves_pure_bind
    | with_reducible apply preserves_bindT
    | (with_reducible apply preserves_ite) <;> intro _
    | intro _

theorem o_set_slotHolds (env : Engine) (c : Class) (i : Slot) (v : TypedValue)
    (himm : (c.declProp i).attrs.AttrIsImmutable = true)
    (henv : env.Respects (SlotHolds c i v)) (propName : String) (val : TypedValue)
    (context : String) :
    Preserves (SlotHolds c i v) (ObjectData.o_set env propName val context) (fun _ => True) := by
  unfold ObjectData.o_set
  apply preserves_ite
  · intro _; exact preserves_throw _
  intro _
  apply preserves_get_bind
  intro s0 hI0
  generalize (if context != "" then env.lookupClass context else none) = ctx
  have hlk := getPropImpl_mutable_ne_slot c i ctx propName s0 hI0.1 himm
  generalize ObjectData.getPropImpl true ctx propName s0 = lookup at hlk
  repeat' first
    | with_reducible exact preserves_pure _ trivial
    | with_reducible exact preserves_throw _
    | with_reducible exact preserves_invokeSet env henv _ _
    | with_reducible exact preserves_setDynProp_slot _ _
    | (with_reducible apply preserves_guardImmutable_bind; intro hguard)
    | with_reducible exact preserves_modify _ (SlotHolds.after_tvWrite _ _ (hlk hguard)) trivial
    | with_reducible apply preserves_pure_bind
    | with_reducible apply preserves_bindT
    | (with_reducible apply preserves_ite) <;> intro _
    | intro _

theorem unsetProp_slotHolds (env : Engine) (c : Class) (i : Slot) (v : TypedValue)
    (himm : (c.declProp i).attrs.AttrIsImmutable = true)
    (henv : env.Respects (SlotHolds c i v)) (ctx : Option ClassPtr) (key : String) :
    Preserves (SlotHolds c i v) (ObjectData.unsetProp env ctx key) (fun _ => True) := by
  unfold ObjectData.unsetProp
  apply preserves_get_bind
  intro s0 hI0
  have hlk := getPropImpl_mutable_ne_slot c i ctx key s0 hI0.1 himm
  generalize ObjectData.getPropImpl true ctx key s0 = lookup at hlk
  repeat' first
    | with_reducible exact preserves_pure _ trivial
    | with_reducible exact preserves_throw _
    | with_reducible exact preserves_invokeUnset env henv _
    | with_reducible exact preserves_invokeNativeUnsetProp env henv _
    | (with_reducible apply preserves_guardImmutable_bind; intro hguard)
    | with_reducible exact preserves_modify _ (SlotHolds.after_tvWrite _ _ (hlk hguard)) trivial
    | with_reducible exact preserves_modify_store_slot _
    | with_reducible apply preserves_pure_bind
    | with_reducible apply preserves_bindT
    | (with_reducible apply preserves_ite) <;> intro _
    | intro _

theorem incDecProp_slotHolds (env : Engine) (c : Class) (i : Slot) (v : TypedValue)
    (himm : (c.declProp i).attrs.AttrIsImmutable = true)
    (henv : env.Respects (SlotHolds c i v)) (ctx : Option ClassPtr) (op : IncDecOp)
    (key : String) :
    Preserves (SlotHolds c i v) (ObjectData.incDecProp env ctx op key) (fun _ => True) := by
  unfold ObjectData.incDecProp
  apply preserves_get_bind
  intro s0 hI0
  have hlk := getPropImpl_mutable_ne_slot c i ctx key s0 hI0.1 himm
  generalize ObjectData.getPropImpl true ctx key s0 = lookup at hlk
  repeat' first
    | with_reducible exact preserves_pure _ trivial
    | with_reducible exact preserves_throw _
    | with_reducible exact preserves_get
    | with_reducible exact preserves_liftExcept _
    | with_reducible exact preserves_invokeSet env henv _ _
    | with_reducible exact preserves_invokeGet env henv _
    | with_reducible exact preserves_invokeNativeSetProp env henv _ _
    | with_reducible exact preserves_invokeNativeGetProp env henv _
    | (with_reducible apply preserves_guardImmutable_bind; intro hguard)
    | (with_reducible apply preserves_makeDynProp_slot_bind)
    | with_reducible exact preserves_modify _ (SlotHolds.after_tvWrite _ _ (hlk hguard)) trivial
    | with_reducible exact preserves_modify _ (SlotHolds.after_tvWrite _ _ Lval.noConfusion) trivial
    | with_reducible exact preserves_modify_ifWrite_slot _ _ _ (hlk hguard)
    | with_reducible apply preserves_pure_bind
    | with_reducible apply preserves_bindT
    | (with_reducible apply preserves_ite) <;> intro _
    | intro _

theorem setOpProp_slotHolds (env : Engine) (c : Class) (i : Slot) (v : TypedValue)
    (himm : (c.declProp i).attrs.AttrIsImmutable = true)
    (henv : env.Respects (SlotHolds c i v)) (tvRef : TypedValue) (ctx : Option ClassPtr)
    (op : SetOpOp) (key : String) (val : TypedValue) :
    Preserves (SlotHolds c i v) (ObjectData.setOpProp env tvRef ctx op key val)
      (fun ret => ret.handle ≠ Lval.declProp i) := by
  unfold ObjectData.setOpProp
  apply preserves_get_bind
  intro s0 hI0
  have hlk := getPropImpl_mutable_ne_slot c i ctx key s0 hI0.1 himm
  generalize ObjectData.getPropImpl true ctx key s0 = lookup at hlk
  repeat' first
    | with_reducible exact preserves_pure _ trivial
    | with_reducible exact preserves_pure _ (hlk hguard)
    | with_reducible exact preserves_pure _ Lval.noConfusion
    | with_reducible exact preserves_throw _
    | with_reducible exact preserves_get
    | with_reducible exact preserves_liftExcept _
    | with_reducible exact preserves_invokeSet env henv _ _
    | with_reducible exact preserves_invokeGet env henv _
    | with_reducible exact preserves_invokeNativeSetProp env henv _ _
    | with_reducible exact preserves_invokeNativeGetProp env henv _
    | (with_reducible apply preserves_guardImmutable_bind; intro hguard)
    | (with_reducible apply preserves_makeDynProp_slot_bind)
    | with_reducible exact preserves_modify _ (SlotHolds.after_tvWrite _ _ (hlk hguard)) trivial
    | with_reducible exact preserves_modify _ (SlotHolds.after_tvWrite _ _ Lval.noConfusion) trivial
    | with_reducible apply preserves_pure_bind
    | with_reducible apply preserves_bindT
    | (with_reducible apply preserves_ite) <;> intro _
    | intro _

theorem getPropLval_slotHolds (c : Class) (i : Slot) (v : TypedValue)
    (himm : (c.declProp i).attrs.AttrIsImmutable = true) (ctx : Option ClassPtr) (key : String) :
    Preserves (SlotHolds c i v) (ObjectData.getPropLval ctx key)
      (fun p => p ≠ Lval.declProp i) := by
  unfold ObjectData.getPropLval
  apply preserves_get_bind
  intro s0 hI0
  have hlk := getPropImpl_mutable_ne_slot c i ctx key s0 hI0.1 himm
  generalize ObjectData.getPropImpl true ctx key s0 = lookup at hlk
  have hc : s0.this.IsBeingConstructed = false := hI0.2.1
  dsimp only
  apply preserves_ite
  · intro _; exact preserves_throwMutateImmutable _
  · intro hg
    have hguard : lookup.immutable = false := by
      cases him : lookup.immutable with
      | false => rfl
      | true => exact absurd (by simp [him, ObjectData.isBeingConstructed, hc]) hg
    apply preserves_pure
    by_cases hacc : (lookup.prop != Lval.nullptr && lookup.accessible) = true
    · rw [if_pos hacc]; exact hlk hguard
    · rw [if_neg hacc]; exact Lval.noConfusion

theorem preserves_checkImmutable_slot {c : Class} {i : Slot} {v : TypedValue}
    (lookup : PropLookup Lval) (tvRef : TypedValue)
    (hlk : lookup.immutable = false → lookup.prop ≠ Lval.declProp i) :
    Preserves (SlotHolds c i v) (ObjectData.checkImmutable PropMode.DimForWrite lookup tvRef)
      (fun ret => ret.handle ≠ Lval.declProp i) := by
  unfold ObjectData.checkImmutable
  apply preserves_ite
  · intro h; simp at h
  intro _
  apply preserves_get_bind
  intro s0 hI0
  have hc : s0.this.IsBeingConstructed = false := hI0.2.1
  apply preserves_ite
  · intro _; exact preserves_throwMutateImmutable _
  · intro hg
    have hguard : lookup.immutable = false := by
      cases him : lookup.immutable with
      | false => rfl
      | true => exact absurd (by simp [him, ObjectData.isBeingConstructed, hc]) hg
    exact preserves_pure _ (hlk hguard)

theorem propD_slotHolds (env : Engine) (c : Class) (i : Slot) (v : TypedValue)
    (himm : (c.declProp i).attrs.AttrIsImmutable = true)
    (henv : env.Respects (SlotHolds c i v)) (tvRef : TypedValue) (ctx : Option ClassPtr)
    (key : String) :
    Preserves (SlotHolds c i v) (ObjectData.propD env tvRef ctx key)
      (fun ret => ret.handle ≠ Lval.declProp i) := by
  unfold ObjectData.propD ObjectData.propImpl
  apply preserves_get_bind
  intro s0 hI0
  have hlk := getPropImpl_mutable_ne_slot c i ctx key s0 hI0.1 himm
  simp only [PropMode.write]
  generalize ObjectData.getPropImpl true ctx key s0 = lookup at hlk
  repeat' first
    | with_reducible exact preserves_pure _ trivial
    | with_reducible exact preserves_pure _ Lval.noConfusion
    | with_reducible exact preserves_throw _
    | with_reducible exact preserves_raiseUndefProp _
    | with_reducible exact preserves_checkImmutable_slot _ _ hlk
    | with_reducible exact preserves_invokeGet env henv _
    | with_reducible exact preserves_invokeNativeGetProp env henv _
    | (with_reducible apply preserves_makeDynProp_slot_bind)
    | exact preserves_pure _ ho
    | exact preserves_pure (I := SlotHolds c i v) (Q := handleSafe i) _ Lval.noConfusion
    | exact preserves_pure (I := SlotHolds c i v) (Q := handleSafe i) none trivial
    | (refine preserves_bind (handleSafe i) ?_ (fun o ho => ?_) <;> [skip; cases o])
    | with_reducible apply preserves_pure_bind
    | with_reducible apply preserves_bindT
    | (with_reducible apply preserves_ite) <;> intro _
    | intro _

theorem WriteOp.run_slotHolds (env : Engine) (c : Class) (i : Slot) (v : TypedValue)
    (himm : (c.declProp i).attrs.AttrIsImmutable = true)
    (henv : env.Respects (SlotHolds c i v)) (op : WriteOp) :
    Preserves (SlotHolds c i v) (op.run env) (fun r => r ≠ some (Lval.declProp i)) := by
  cases op with
  | setProp ctx key val =>
    exact preserves_bindT (setProp_slotHolds env c i v himm henv ctx key val)
      (fun _ => preserves_pure _ Option.noConfusion)
  | o_set propName val context =>
    exact preserves_bindT (o_set_slotHolds env c i v himm henv propName val context)
      (fun _ => preserves_pure _ Option.noConfusion)
  | setOpProp tvRef ctx op key val =>
    exact preserves_bind _ (setOpProp_slotHolds env c i v himm henv tvRef ctx op key val)
      (fun r hr => preserves_pure _ (fun h => hr (Option.some.inj h)))
  | incDecProp ctx op key =>
    exact preserves_bindT (incDecProp_slotHolds env c i v himm henv ctx op key)
      (fun _ => preserves_pure _ Option.noConfusion)
  | unsetProp ctx key =>
    exact preserves_bindT (unsetProp_slotHolds env c i v himm henv ctx key)
      (fun _ => preserves_pure _ Option.noConfusion)
  | getPropLval ctx key =>
    exact preserves_bind _ (getPropLval_slotHolds c i v himm ctx key)
      (fun r hr => preserves_pure _ (fun h => hr (Option.some.inj h)))
  | propD tvRef ctx key =>
    exact preserves_bind _ (propD_slotHolds env c i v himm henv tvRef ctx key)
      (fun r hr => preserves_pure _ (fun h => hr (Option.some.inj h)))

theorem runWriteOps_slotHolds (env : Engine) (c : Class) (i : Slot) (v : TypedValue)
    (himm : (c.declProp i).attrs.AttrIsImmutable = true)
    (henv : env.Respects (SlotHolds c i v)) (ops : List WriteOp) (s : State)
    (h : SlotHolds c i v s.this s.dynPropTable) :
    SlotHolds c i v (runWriteOps env ops s).this (runWriteOps env ops s).dynPropTable := by
  induction ops generalizing s with
  | nil => exact h
  | cons op rest ih =>
    exact ih _ ((WriteOp.run_slotHolds env c i v himm henv op).out s h).1

theorem StoreAgrees.setDynPropArr {flags : Nat → Bool} {a0 : Nat} {b : Bool} (hb : b = true)
    (arr : ArrayData) (s : State) (h : StoreAgrees flags a0 b s.this s.dynPropTable) :
    StoreAgrees flags a0 b (s.setDynPropArr arr).this (s.setDynPropArr arr).dynPropTable := by
  refine ⟨h.1, h.2.1, fun a => ?_, h.2.2.2⟩
  show (DynPropTable.find (DynPropTable.assign s.dynPropTable s.this.addr arr) a).isSome = _
  rw [h.2.1]
  by_cases ha : a = a0
  · rw [ha, DynPropTable.find_assign, if_pos rfl]
    exact (h.2.2.2 hb).symm
  · rw [DynPropTable.find_assign_ne _ _ _ _ (fun e => ha e.symm)]
    exact h.2.2.1 a

theorem UserProg.toHook_respects {I : ObjectData → DynPropTable → Prop} (hdr : ObjectData)
    (G : PropRecurInfo) (lower : Engine)
    (hin : ∀ s : State, I s.this s.dynPropTable →
      I (State.ofMutable hdr G s.mutable).this (State.ofMutable hdr G s.mutable).dynPropTable)
    (hout : ∀ s r : State, I s.this s.dynPropTable → I r.this r.dynPropTable →
      I (s.withMutable r.mutable).this (s.withMutable r.mutable).dynPropTable)
    (hops : ∀ op : WriteOp, Preserves I (op.run lower) (fun _ => True)) :
    ∀ p : UserProg, HookProg.Respects I (p.toHook hdr G lower) := by
  intro p
  induction p with
  | ret v => exact trivial
  | raise f => exact trivial
  | inspect k ih =>
    simp only [UserProg.toHook, HookProg.Respects]
    exact fun m => ih m
  | call op k ih =>
    simp only [UserProg.toHook, HookProg.Respects]
    intro m
    refine ⟨fun s hI => hout s _ hI ((hops op).out _ (hin s hI)).1, ?_⟩
    cases (op.run lower (State.ofMutable hdr G m)).1 with
    | ok h => exact ih h
    | error e => exact trivial
  | tryCatch body handler ihb ihh =>
    simp only [UserProg.toHook, HookProg.Respects]
    exact ⟨ihb, fun e => ihh e⟩

theorem reentrantEngine_respects {ι : Type} (J : ι → ObjectData → DynPropTable → Prop)
    (base : Engine) (hooks : UserHooks) (hdr : ObjectData)
    (hin : ∀ (j : ι) (G : PropRecurInfo) (s : State), J j s.this s.dynPropTable →
      J j (State.ofMutable hdr G s.mutable).this (State.ofMutable hdr G s.mutable).dynPropTable)
    (hout : ∀ (j : ι) (s r : State), J j s.this s.dynPropTable → J j r.this r.dynPropTable →
      J j (s.withMutable r.mutable).this (s.withMutable r.mutable).dynPropTable)
    (hops : ∀ env : Engine, (∀ j, env.Respects (J j)) →
      ∀ (j : ι) (op : WriteOp), Preserves (J j) (op.run env) (fun _ => True)) :
    ∀ (n : Nat) (G : PropRecurInfo) (j : ι),
      (reentrantEngine base hooks hdr n G).Respects (J j) := by
  intro n
  induction n with
  | zero =>
    intro G j
    exact ⟨fun _ _ _ => trivial, fun _ _ => trivial, fun _ _ _ => trivial,
      fun _ _ => trivial, fun _ _ => trivial⟩
  | succ n ih =>
    intro G j
    have h : ∀ (G1 : PropRecurInfo) (p : UserProg),
        HookProg.Respects (J j) (p.toHook hdr G1 (reentrantEngine base hooks hdr n G1)) :=
      fun G1 p => UserProg.toHook_respects hdr G1 _ (hin j G1) (hout j)
        (fun op => hops _ (fun j1 => ih G1 j1) j op) p
    exact ⟨fun cls meth args => h _ _, fun cls key => h _ _, fun cls key val => h _ _,
      fun cls key => h _ _, fun cls key => h _ _⟩

theorem SlotHolds.ofMutable {c : Class} {i : Slot} {v : TypedValue} (hdr : ObjectData)
    (hcls : hdr.m_cls = c) (hctor : hdr.IsBeingConstructed = false) (G : PropRecurInfo)
    (s : State) (h : SlotHolds c i v s.this s.dynPropTable) :
    SlotHolds c i v (State.ofMutable hdr G s.mutable).this
      (State.ofMutable hdr G s.mutable).dynPropTable :=
  ⟨hcls, hctor, h.2.2⟩

theorem SlotHolds.withMutable {c : Class} {i : Slot} {v : TypedValue} (s r : State)
    (h : SlotHolds c i v s.this s.dynPropTable) (hr : SlotHolds c i v r.this r.dynPropTable) :
    SlotHolds c i v (s.withMutable r.mutable).this (s.withMutable r.mutable).dynPropTable :=
  ⟨h.1, h.2.1, hr.2.2⟩

theorem reentrantEngine_slotHolds (base : Engine) (hooks : UserHooks) (hdr : ObjectData)
    (i : Slot) (v : TypedValue) (hctor : hdr.IsBeingConstructed = false)
    (himm : (hdr.m_cls.declProp i).attrs.AttrIsImmutable = true) (n : Nat)
    (G : PropRecurInfo) :
    (reentrantEngine base hooks hdr n G).Respects (SlotHolds hdr.m_cls i v) :=
  reentrantEngine_respects (fun _ : Unit => SlotHolds hdr.m_cls i v) base hooks hdr
    (fun _ G1 s h => SlotHolds.ofMutable hdr rfl hctor G1 s h)
    (fun _ s r h hr => SlotHolds.withMutable s r h hr)
    (fun env henv _ op =>
      preserves_weaken (WriteOp.run_slotHolds env _ i v himm (henv ()) op) (fun _ _ => trivial))
    n G ()

/-- C27: for an object that is not under construction and a slot `i` that
its class declares immutable, no sequence `ops` of calls of the write family
(setProp, o_set, setOpProp, incDecProp, unsetProp, getPropLval, propD),
returning or raising, changes the value of the slot, and a further call `op`
made after the sequence does not hand out a pointer to the slot; the object
is still not under construction.  The hooks and native handlers that the
calls invoke are any user-level programs `hooks`, which call the write
family on the object re-entrantly, nested to any depth `n`. -/
theorem immutable_slot_unchanged_after_construction (base : Engine) (hooks : UserHooks)
    (n : Nat) (s : State) (i : Slot) (ops : List WriteOp) (op : WriteOp)
    (hctor : s.this.IsBeingConstructed = false)
    (himm : (s.this.m_cls.declProp i).attrs.AttrIsImmutable = true) :
    (runWriteOps (s.userEngine base hooks n) ops s).this.propVec.getD
        i TypedValue.uninit = s.this.propVec.getD i TypedValue.uninit ∧
      (runWriteOps (s.userEngine base hooks n) ops
        s).this.IsBeingConstructed = false ∧
      (op.run (s.userEngine base hooks n)
        (runWriteOps (s.userEngine base hooks n) ops s)).1
          ≠ Except.ok (some (Lval.declProp i)) ∧
      (op.run (s.userEngine base hooks n)
        (runWriteOps (s.userEngine base hooks n) ops
          s)).2.this.propVec.getD i TypedValue.uninit
        = s.this.propVec.getD i TypedValue.uninit := by
  have hhooks := reentrantEngine_slotHolds base hooks s.this i
    (s.this.propVec.getD i TypedValue.uninit) hctor himm n s.propRecurInfo
  have h0 : SlotHolds s.this.m_cls i (s.this.propVec.getD i TypedValue.uninit)
      s.this s.dynPropTable := ⟨rfl, hctor, rfl⟩
  have h1 := runWriteOps_slotHolds _ _ i _ himm hhooks ops s h0
  have h2 := (WriteOp.run_slotHolds _ _ i _ himm hhooks op).out _ h1
  refine ⟨h1.2.2, h1.2.1, ?_, h2.1.2.2⟩
  intro h
  exact h2.2 _ h rfl

/-- The write family called on the example instance whose immutable "a" is
uninitialized, with the set hook that writes "b" and then "a" re-entrantly:
the hook has written 7 into "b", its write of "a" raised, and "a" is as it
was. -/
theorem immutable_slot_unchanged_after_construction_witness :
    (WriteOp.run (wStateHooks.userEngine {} wHooksReenter 2)
        (WriteOp.setProp none "a" (TypedValue.int 9)) wStateHooks).1
      = Except.error (Fault.cannotModifyImmutableProp "C" "a") ∧
    (runWriteOps (wStateHooks.userEngine {} wHooksReenter 2)
        [WriteOp.setProp none "a" (TypedValue.int 9),
         WriteOp.incDecProp none IncDecOp.PreInc "a", WriteOp.unsetProp none "a"]
        wStateHooks).this.propVec
      = [TypedValue.uninit, TypedValue.int 7, TypedValue.uninit] ∧
    (runWriteOps (wStateHooks.userEngine {} wHooksReenter 2)
        [WriteOp.setProp none "a" (TypedValue.int 9),
         WriteOp.incDecProp none IncDecOp.PreInc "a", WriteOp.unsetProp none "a"]
        wStateHooks).this.propVec.getD 0 TypedValue.uninit
      = wStateHooks.this.propVec.getD 0 TypedValue.uninit ∧
    (WriteOp.run (wStateHooks.userEngine {} wHooksReenter 2)
      (WriteOp.getPropLval none "a")
      (runWriteOps (wStateHooks.userEngine {} wHooksReenter 2)
        [WriteOp.setProp none "a" (TypedValue.int 9),
         WriteOp.incDecProp none IncDecOp.PreInc "a", WriteOp.unsetProp none "a"]
        wStateHooks)).1 ≠ Except.ok (some (Lval.declProp 0)) :=
  ⟨by decide, by decide,
   (immutable_slot_unchanged_after_construction {} wHooksReenter 2 wStateHooks 0
      [WriteOp.setProp none "a" (TypedValue.int 9),
       WriteOp.incDecProp none IncDecOp.PreInc "a", WriteOp.unsetProp none "a"]
      (WriteOp.getPropLval none "a") rfl rfl).1,
   (immutable_slot_unchanged_after_construction {} wHooksReenter 2 wStateHooks 0
      [WriteOp.setProp none "a" (TypedValue.int 9),
       WriteOp.incDecProp none IncDecOp.PreInc "a", WriteOp.unsetProp none "a"]
      (WriteOp.getPropLval none "a") rfl rfl).2.2.1⟩

theorem RefHeap.incRef_tv (refs : List RefData) (p q : Nat) :
    (((RefHeap.incRef refs p)[q]?).getD {}).tv = ((refs[q]?).getD {}).tv := by
  unfold RefHeap.incRef
  rw [List.getElem?_set]
  by_cases hpq : p = q
  · subst hpq
    by_cases hp : p < refs.length
    · simp [hp]
    · have hn : refs[p]? = none := List.getElem?_eq_none (by omega)
      simp [hp, hn]
  · simp [hpq]

theorem RefHeap.incRef_isReferenced (refs : List RefData) (p q : Nat)
    (hp : ((refs[p]?).getD {}).isReferenced = true) :
    (((RefHeap.incRef refs p)[q]?).getD {}).isReferenced = ((refs[q]?).getD {}).isReferenced := by
  unfold RefHeap.incRef
  rw [List.getElem?_set]
  by_cases hpq : p = q
  · subst hpq
    by_cases hl : p < refs.length
    · simp only [if_true, hl, Option.getD_some]
      rw [hp]
      simp only [RefData.isReferenced, decide_eq_true_eq] at hp ⊢
      omega
    · have hn : refs[p]? = none := List.getElem?_eq_none (by omega)
      simp [hl, hn]
  · simp [hpq]

theorem RefHeap.dupElems_tv (es : RefArray) : ∀ (refs : List RefData) (q : Nat),
    ((((RefHeap.dupElems refs es).2)[q]?).getD {}).tv = ((refs[q]?).getD {}).tv := by
  induction es with
  | nil => intro refs q; rfl
  | cons e rest ih =>
    intro refs q
    obtain ⟨k, v⟩ := e
    cases v with
    | cell v => simp only [RefHeap.dupElems]; exact ih refs q
    | ref p =>
      simp only [RefHeap.dupElems]
      split
      · rw [ih, RefHeap.incRef_tv]
      · exact ih refs q

theorem RefHeap.dupElems_isReferenced (es : RefArray) : ∀ (refs : List RefData) (q : Nat),
    ((((RefHeap.dupElems refs es).2)[q]?).getD {}).isReferenced
      = ((refs[q]?).getD {}).isReferenced := by
  induction es with
  | nil => intro refs q; rfl
  | cons e rest ih =>
    intro refs q
    obtain ⟨k, v⟩ := e
    cases v with
    | cell v => simp only [RefHeap.dupElems]; exact ih refs q
    | ref p =>
      simp only [RefHeap.dupElems]
      split
      · rename_i hp
        rw [ih, RefHeap.incRef_isReferenced refs p q hp]
      · exact ih refs q

/-- The element of the copy under a key: a referenced box stays, a box held
by the element alone is replaced by its cell. -/
theorem RefHeap.dupElems_rval (es : RefArray) (key : String) : ∀ (refs : List RefData),
    RefArray.rval (RefHeap.dupElems refs es).1 key
      = (RefArray.rval es key).map (fun e =>
          match e with
          | RefTV.cell v => RefTV.cell v
          | RefTV.ref p =>
            if ((refs[p]?).getD {}).isReferenced then RefTV.ref p
            else RefTV.cell ((refs[p]?).getD {}).tv) := by
  induction es with
  | nil => intro refs; rfl
  | cons e rest ih =>
    intro refs
    obtain ⟨k, v⟩ := e
    cases v with
    | cell v =>
      simp only [RefHeap.dupElems, RefArray.rval, List.find?_cons]
      by_cases hk : (k == key) = true
      · simp [hk]
      · simp only [hk]
        exact ih refs
    | ref p =>
      simp only [RefHeap.dupElems]
      split
      · rename_i hp
        simp only [RefArray.rval, List.find?_cons]
        by_cases hk : (k == key) = true
        · simp [hk, hp]
        · simp only [hk]
          have := ih (RefHeap.incRef refs p)
          simp only [RefArray.rval] at this
          rw [this]
          congr 1
          funext e
          cases e with
          | cell v => rfl
          | ref q =>
            simp only [RefHeap.incRef_isReferenced refs p q hp, RefHeap.incRef_tv]
      · rename_i hp
        simp only [RefArray.rval, List.find?_cons]
        by_cases hk : (k == key) = true
        · simp [hk, hp]
        · simp only [hk]
          exact ih refs

/-- The copy reads as the original: same keys in the same order, and under
each key the same cell. -/
theorem RefHeap.dupElems_cells (es : RefArray) : ∀ (refs : List RefData) (h2 : RefHeap),
    (∀ q, (h2.refAt q).tv = ((refs[q]?).getD {}).tv) →
    (RefHeap.dupElems refs es).1.map (fun e => (e.1, h2.tvToCell e.2))
      = es.map (fun e => (e.1, h2.tvToCell e.2)) := by
  induction es with
  | nil => intro refs h2 _; rfl
  | cons e rest ih =>
    intro refs h2 htv
    obtain ⟨k, v⟩ := e
    cases v with
    | cell v =>
      simp only [RefHeap.dupElems, List.map_cons]
      rw [ih refs h2 htv]
    | ref p =>
      simp only [RefHeap.dupElems]
      split
      · simp only [List.map_cons]
        rw [ih (RefHeap.incRef refs p) h2 (fun q => by rw [htv, RefHeap.incRef_tv])]
      · simp only [List.map_cons]
        rw [ih refs h2 htv]
        simp only [RefHeap.tvToCell, htv]

theorem RefHeap.find_assignEntry_self (t : List (Nat × Nat)) (inst a : Nat) :
    (List.find? (fun e => e.1 == inst) (RefHeap.assignEntry t inst a)).map (fun e => e.2)
      = some a := by
  induction t with
  | nil => simp [RefHeap.assignEntry]
  | cons e rest ih =>
    simp only [RefHeap.assignEntry]
    by_cases he : (e.1 == inst) = true
    · simp [he]
    · simp only [he, Bool.false_eq_true, if_false, List.find?_cons]
      exact ih

theorem RefHeap.find_assignEntry_ne (t : List (Nat × Nat)) (inst a other : Nat)
    (hne : inst ≠ other) :
    (List.find? (fun e => e.1 == other) (RefHeap.assignEntry t inst a)).map (fun e => e.2)
      = (List.find? (fun e => e.1 == other) t).map (fun e => e.2) := by
  induction t with
  | nil => simp [RefHeap.assignEntry, hne]
  | cons e rest ih =>
    simp only [RefHeap.assignEntry]
    by_cases he : (e.1 == inst) = true
    · have he2 : e.1 = inst := by simpa using he
      have : (e.1 == other) = false := by simp [he2, hne]
      simp [he, this, hne]
    · simp only [he, Bool.false_eq_true, if_false, List.find?_cons]
      by_cases ho : (e.1 == other) = true
      · simp [ho]
      · simp only [ho]
        exact ih

theorem RefHeap.lt_of_cowCheck (h : RefHeap) (a : Nat) (hcow : (h.arrayAt a).cowCheck = true) :
    a < h.arrays.length := by
  by_contra hlt
  have hn : h.arrays[a]? = none := List.getElem?_eq_none (by omega)
  simp [RefHeap.arrayAt, hn, SharedArray.cowCheck] at hcow

/-- What copy on write leaves of a heap in which the array of `inst` has
several holders: `inst` gets the new array at the end of the heap, every
other entry of the side table and the elements of every older array stay,
and every box keeps its cell and whether it is referenced. -/
theorem RefHeap.escalate_shared (h : RefHeap) (inst a : Nat)
    (hfind : h.find inst = some a) (hcow : (h.arrayAt a).cowCheck = true) :
    (h.escalate inst).find inst = some h.arrays.length ∧
    (∀ other, inst ≠ other → (h.escalate inst).find other = h.find other) ∧
    (∀ b, b < h.arrays.length → ((h.escalate inst).arrayAt b).elems = (h.arrayAt b).elems) ∧
    ((h.escalate inst).arrayAt h.arrays.length).elems
      = (RefHeap.dupElems h.refs (h.arrayAt a).elems).1 ∧
    (∀ q, ((h.escalate inst).refAt q).tv = (h.refAt q).tv) ∧
    (∀ q, ((h.escalate inst).refAt q).isReferenced = (h.refAt q).isReferenced) := by
  have ha := RefHeap.lt_of_cowCheck h a hcow
  have he : h.escalate inst =
      { refs := (RefHeap.dupElems h.refs (h.arrayAt a).elems).2,
        arrays :=
          h.arrays.set a { elems := (h.arrayAt a).elems, m_count := (h.arrayAt a).m_count - 1 }
            ++ [{ elems := (RefHeap.dupElems h.refs (h.arrayAt a).elems).1, m_count := 1 }],
        dynPropTable := RefHeap.assignEntry h.dynPropTable inst h.arrays.length } := by
    simp only [RefHeap.escalate, hfind, hcow, if_true]
  rw [he]
  refine ⟨?_, ?_, ?_, ?_, ?_, ?_⟩
  · exact RefHeap.find_assignEntry_self _ _ _
  · intro other hne
    exact RefHeap.find_assignEntry_ne _ _ _ _ hne
  · intro b hb
    simp only [RefHeap.arrayAt]
    rw [List.getElem?_append_left (by simpa using hb), List.getElem?_set]
    by_cases hab : a = b
    · subst hab
      simp [ha, RefHeap.arrayAt]
    · simp [hab]
  · simp only [RefHeap.arrayAt]
    rw [List.getElem?_append_right (by simp)]
    simp
  · intro q
    exact RefHeap.dupElems_tv _ _ _
  · intro q
    exact RefHeap.dupElems_isReferenced _ _ _

theorem RefHeap.tvToCell_congr (h1 h2 : RefHeap) (htv : ∀ q, (h2.refAt q).tv = (h1.refAt q).tv)
    (e : RefTV) : h2.tvToCell e = h1.tvToCell e := by
  cases e with
  | cell v => rfl
  | ref p => exact htv p

/-- Two entries read the same when their arrays hold the same elements and
every box holds the same cell. -/
theorem RefHeap.cells_congr (h1 h2 : RefHeap) (i j b1 b2 : Nat)
    (h1f : h1.find i = some b1) (h2f : h2.find j = some b2)
    (hel : (h2.arrayAt b2).elems = (h1.arrayAt b1).elems)
    (htv : ∀ q, (h2.refAt q).tv = (h1.refAt q).tv) :
    h2.cells j = h1.cells i := by
  simp only [RefHeap.cells, h1f, h2f, Option.map_some', hel]
  congr 1
  apply List.map_congr_left
  intro e _
  rw [RefHeap.tvToCell_congr h1 h2 htv]

theorem RefHeap.setElems_arrayAt_ne (h : RefHeap) (a b : Nat) (es : RefArray) (hne : a ≠ b) :
    (h.setElems a es).arrayAt b = h.arrayAt b := by
  simp only [RefHeap.setElems, RefHeap.arrayAt]
  rw [List.getElem?_set]
  simp [hne]

theorem RefHeap.decRef_tv (refs : List RefData) (p q : Nat) :
    (((RefHeap.decRef refs p)[q]?).getD {}).tv = ((refs[q]?).getD {}).tv := by
  unfold RefHeap.decRef
  rw [List.getElem?_set]
  by_cases hpq : p = q
  · subst hpq
    by_cases hp : p < refs.length
    · simp [hp]
    · have hn : refs[p]? = none := List.getElem?_eq_none (by omega)
      simp [hp, hn]
  · simp [hpq]

/-- After copy on write for `inst`, whatever is then stored in the elements
of its new array, and whatever becomes of the counts of the boxes, another
instance that shared the array reads what it read before. -/
theorem RefHeap.cells_other_after_escalate (h h2 : RefHeap) (inst other a : Nat) (es : RefArray)
    (hne : inst ≠ other) (hi : h.find inst = some a) (ho : h.find other = some a)
    (hcow : (h.arrayAt a).cowCheck = true)
    (hrefs : ∀ q, (h2.refAt q).tv = ((h.escalate inst).refAt q).tv)
    (harr : h2.arrays = ((h.escalate inst).setElems h.arrays.length es).arrays)
    (htab : h2.dynPropTable = (h.escalate inst).dynPropTable) :
    h2.cells other = h.cells other := by
  obtain ⟨_, e2, e3, _, e5, _⟩ := RefHeap.escalate_shared h inst a hi hcow
  have ha := RefHeap.lt_of_cowCheck h a hcow
  refine RefHeap.cells_congr h h2 other other a a ho ?_ ?_ ?_
  · have := e2 other hne
    simp only [RefHeap.find] at this ⊢
    rw [htab, this]
    exact ho
  · have h2a : h2.arrayAt a = ((h.escalate inst).setElems h.arrays.length es).arrayAt a := by
      simp only [RefHeap.arrayAt, harr]
    rw [h2a, RefHeap.setElems_arrayAt_ne _ _ _ _ (by omega), e3 a ha]
  · intro q
    rw [hrefs, e5]

/-- A write by `setProp` to a dynamic property that is not held by reference,
or the addition of one, on an instance that shares its array with another
leaves what the other reads unchanged. -/
theorem RefHeap.setProp_other (h : RefHeap) (inst other a : Nat) (key : String)
    (val : TypedValue) (hne : inst ≠ other) (hi : h.find inst = some a)
    (ho : h.find other = some a) (hcow : (h.arrayAt a).cowCheck = true)
    (hheld : h.heldByRef inst key = false) :
    (h.setProp inst key val).cells other = h.cells other := by
  obtain ⟨e1, _, _, e4, _, _⟩ := RefHeap.escalate_shared h inst a hi hcow
  have hmatch : h.setProp inst key val
      = (h.escalate inst).setElems h.arrays.length
          (((h.escalate inst).arrayAt h.arrays.length).elems.set key (RefTV.cell val)) := by
    simp only [RefHeap.setProp, hi, e1, Option.getD_some]
    have hr := RefHeap.dupElems_rval (h.arrayAt a).elems key h.refs
    rw [← e4] at hr
    simp only [RefHeap.heldByRef, hi] at hheld
    cases hk : RefArray.rval (h.arrayAt a).elems key with
    | none =>
      rw [hk] at hr
      simp only [Option.map_none'] at hr
      rw [hr]
    | some e =>
      rw [hk] at hr hheld
      cases e with
      | cell v =>
        simp only [Option.map_some'] at hr
        rw [hr]
      | ref p =>
        simp only [RefHeap.refAt] at hheld
        simp only [Option.map_some', hheld, Bool.false_eq_true, if_false] at hr
        rw [hr]
  rw [hmatch]
  exact RefHeap.cells_other_after_escalate h _ inst other a _ hne hi ho hcow
    (fun _ => rfl) rfl rfl

/-- An `unsetProp` on an instance that shares its array with another leaves
what the other reads unchanged. -/
theorem RefHeap.unsetProp_other (h : RefHeap) (inst other a : Nat) (key : String)
    (hne : inst ≠ other) (hi : h.find inst = some a)
    (ho : h.find other = some a) (hcow : (h.arrayAt a).cowCheck = true) :
    (h.unsetProp inst key).cells other = h.cells other := by
  obtain ⟨e1, _, _, _, _, _⟩ := RefHeap.escalate_shared h inst a hi hcow
  simp only [RefHeap.unsetProp, hi, e1, Option.getD_some]
  cases hk : RefArray.rval (h.arrayAt a).elems key with
  | none => rfl
  | some e0 =>
    simp only []
    cases hk2 : RefArray.rval ((h.escalate inst).arrayAt h.arrays.length).elems key with
    | none =>
      exact RefHeap.cells_other_after_escalate h _ inst other a _ hne hi ho hcow
        (fun _ => rfl) rfl rfl
    | some e =>
      cases e with
      | cell v =>
        exact RefHeap.cells_other_after_escalate h _ inst other a _ hne hi ho hcow
          (fun _ => rfl) rfl rfl
      | ref p =>
        exact RefHeap.cells_other_after_escalate h _ inst other a _ hne hi ho hcow
          (fun q => RefHeap.decRef_tv _ p q) rfl rfl

/-- A write by `setProp` to a dynamic property held by reference, on an
instance that shares its array with another, is read by the other. -/
theorem RefHeap.setProp_shared (h : RefHeap) (inst other a : Nat) (key : String)
    (val : TypedValue) (hne : inst ≠ other) (hi : h.find inst = some a)
    (ho : h.find other = some a) (hcow : (h.arrayAt a).cowCheck = true)
    (hheld : h.heldByRef inst key = true) :
    (h.setProp inst key val).o_get other key = some val := by
  obtain ⟨e1, e2, e3, e4, _, e6⟩ := RefHeap.escalate_shared h inst a hi hcow
  have ha := RefHeap.lt_of_cowCheck h a hcow
  simp only [RefHeap.heldByRef, hi] at hheld
  cases hk : RefArray.rval (h.arrayAt a).elems key with
  | none => rw [hk] at hheld; exact absurd hheld (by simp)
  | some e =>
    rw [hk] at hheld
    cases e with
    | cell v => exact absurd hheld (by simp)
    | ref p =>
      simp only [] at hheld
      have hr := RefHeap.dupElems_rval (h.arrayAt a).elems key h.refs
      rw [← e4, hk] at hr
      have hheld2 := hheld
      simp only [RefHeap.refAt] at hheld2
      simp only [Option.map_some', hheld2, if_true] at hr
      have hp : ((h.escalate inst).refAt p).isReferenced = true := by rw [e6]; exact hheld
      have hlt : p < (h.escalate inst).refs.length := by
        by_contra hlt
        have hn : (h.escalate inst).refs[p]? = none := List.getElem?_eq_none (by omega)
        simp [RefHeap.refAt, hn, RefData.isReferenced] at hp
      have hs : h.setProp inst key val
          = { (h.escalate inst) with
              refs := (h.escalate inst).refs.set p
                { tv := val, m_count := ((h.escalate inst).refAt p).m_count } } := by
        simp only [RefHeap.setProp, hi, e1, Option.getD_some, hr]
      rw [hs]
      have hf := e2 other hne
      simp only [RefHeap.find] at hf ho
      have hel := e3 a ha
      simp only [RefHeap.arrayAt] at hel hk
      simp only [RefHeap.o_get, RefHeap.find, hf, ho, RefHeap.arrayAt, hel, hk, Option.map_some',
        RefHeap.tvToCell, RefHeap.refAt]
      rw [List.getElem?_set]
      simp [hlt]

/-- The heap after the clone of the store: both entries hold the array of
the source, which now has several holders, and every box is as before. -/
theorem RefHeap.clone_shares (h : RefHeap) (src : ObjectData) (mem a : Nat)
    (hflag : src.HasDynPropArr = true)
    (hsrc : h.find src.addr = some a) (hfresh : h.find mem = none)
    (hheld : 1 ≤ (h.arrayAt a).m_count) :
    src.addr ≠ mem ∧
    (h.clone src mem).find src.addr = some a ∧
    (h.clone src mem).find mem = some a ∧
    ((h.clone src mem).arrayAt a).cowCheck = true ∧
    ((h.clone src mem).arrayAt a).elems = (h.arrayAt a).elems ∧
    (h.clone src mem).refs = h.refs := by
  have hne : src.addr ≠ mem := by
    intro he
    rw [he, hfresh] at hsrc
    exact Option.noConfusion hsrc
  have ha : a < h.arrays.length := by
    by_contra hlt
    have hn : h.arrays[a]? = none := List.getElem?_eq_none (by omega)
    simp [RefHeap.arrayAt, hn] at hheld
  have hc : h.clone src mem =
      { h with
        arrays := h.arrays.set a
          { elems := (h.arrayAt a).elems, m_count := (h.arrayAt a).m_count + 1 },
        dynPropTable := h.dynPropTable ++ [(mem, a)] } := by
    simp only [RefHeap.clone, hflag, if_true, hsrc, hfresh, Option.isSome_none,
      Bool.false_eq_true, if_false]
  rw [hc]
  simp only [RefHeap.find] at hsrc hfresh
  have hfm : List.find? (fun e => e.1 == mem) h.dynPropTable = none := by
    cases hx : List.find? (fun e => e.1 == mem) h.dynPropTable with
    | none => rfl
    | some e => rw [hx] at hfresh; exact Option.noConfusion hfresh
  have hat : RefHeap.arrayAt
      { h with
        arrays := h.arrays.set a
          { elems := (h.arrayAt a).elems, m_count := (h.arrayAt a).m_count + 1 },
        dynPropTable := h.dynPropTable ++ [(mem, a)] } a
      = { elems := (h.arrayAt a).elems, m_count := (h.arrayAt a).m_count + 1 } := by
    show ((h.arrays.set a _)[a]?).getD {} = _
    rw [List.getElem?_set]
    simp [ha]
  refine ⟨hne, ?_, ?_, ?_, ?_, rfl⟩
  · simp only [RefHeap.find, List.find?_append]
    cases hx : List.find? (fun e => e.1 == src.addr) h.dynPropTable with
    | none => rw [hx] at hsrc; exact Option.noConfusion hsrc
    | some e => rw [hx] at hsrc; simpa using hsrc
  · simp only [RefHeap.find, List.find?_append, hfm]
    simp
  · rw [hat]
    simp only [SharedArray.cowCheck, decide_eq_true_eq]
    omega
  · rw [hat]

/-- The store of a clone and that of its source, with the boxes: the clone
reads what the source reads and the source reads what it read; adding a
dynamic property, unsetting one, or writing one that is not held by
reference, on either of the two leaves what the other reads unchanged; a
write to one that is held by reference is read by the other. -/
theorem RefHeap.clone_independent_unless_heldByRef (h : RefHeap) (src : ObjectData)
    (mem a : Nat) (hflag : src.HasDynPropArr = true)
    (hsrc : h.find src.addr = some a) (hfresh : h.find mem = none)
    (hheld : 1 ≤ (h.arrayAt a).m_count) :
    (h.clone src mem).cells mem = h.cells src.addr ∧
    (h.clone src mem).cells src.addr = h.cells src.addr ∧
    (∀ (key : String) (val : TypedValue), h.heldByRef src.addr key = false →
      ((h.clone src mem).setProp mem key val).cells src.addr = h.cells src.addr ∧
      ((h.clone src mem).setProp src.addr key val).cells mem = h.cells src.addr) ∧
    (∀ key : String,
      ((h.clone src mem).unsetProp mem key).cells src.addr = h.cells src.addr ∧
      ((h.clone src mem).unsetProp src.addr key).cells mem = h.cells src.addr) ∧
    (∀ (key : String) (val : TypedValue), h.heldByRef src.addr key = true →
      ((h.clone src mem).setProp mem key val).o_get src.addr key = some val ∧
      ((h.clone src mem).setProp src.addr key val).o_get mem key = some val) := by
  obtain ⟨hne, c1, c2, c3, c4, c5⟩ := RefHeap.clone_shares h src mem a hflag hsrc hfresh hheld
  have htv : ∀ q, ((h.clone src mem).refAt q).tv = (h.refAt q).tv := by
    intro q
    simp only [RefHeap.refAt, c5]
  have hcs : (h.clone src mem).cells src.addr = h.cells src.addr :=
    RefHeap.cells_congr h _ src.addr src.addr a a hsrc c1 c4 htv
  have hcm : (h.clone src mem).cells mem = h.cells src.addr :=
    RefHeap.cells_congr h _ src.addr mem a a hsrc c2 c4 htv
  have hh : ∀ key, (h.clone src mem).heldByRef src.addr key = h.heldByRef src.addr key := by
    intro key
    simp only [RefHeap.heldByRef, c1, hsrc, c4, RefHeap.refAt, c5]
  have hhm : ∀ key, (h.clone src mem).heldByRef mem key = h.heldByRef src.addr key := by
    intro key
    simp only [RefHeap.heldByRef, c2, hsrc, c4, RefHeap.refAt, c5]
  refine ⟨hcm, hcs, ?_, ?_, ?_⟩
  · intro key val hk
    refine ⟨?_, ?_⟩
    · rw [RefHeap.setProp_other _ mem src.addr a key val (Ne.symm hne) c2 c1 c3
        (by rw [hhm, hk])]
      exact hcs
    · rw [RefHeap.setProp_other _ src.addr mem a key val hne c1 c2 c3 (by rw [hh, hk])]
      exact hcm
  · intro key
    refine ⟨?_, ?_⟩
    · rw [RefHeap.unsetProp_other _ mem src.addr a key (Ne.symm hne) c2 c1 c3]
      exact hcs
    · rw [RefHeap.unsetProp_other _ src.addr mem a key hne c1 c2 c3]
      exact hcm
  · intro key val hk
    exact ⟨RefHeap.setProp_shared _ mem src.addr a key val (Ne.symm hne) c2 c1 c3
        (by rw [hhm, hk]),
      RefHeap.setProp_shared _ src.addr mem a key val hne c1 c2 c3 (by rw [hh, hk])⟩

/-- C19 fails as stated for a dynamic property that is held by reference.
The instance at 20 has the dynamic property p = "a"; `vGetProp` boxes it and
its caller binds a variable to the box. The instance is cloned into 21: both
entries of the side table hold the array whose element points to the box.
Setting p to "b" on the clone copies the array, the copy keeps the pointer to
the referenced box, and `tvSet` writes the cell in the box: the source, which
read "a" after the clone, now reads "b". -/
theorem clone_write_reaches_source_through_reference :
    wStateMemo.this.addr = 20 ∧
    wHeapBound.cells 20 = wStateMemo.storeOf 20 ∧
    wHeapBound.heldByRef 20 "p" = true ∧
    (wHeapBound.clone wStateMemo.this 21).o_get 20 "p" = some (TypedValue.str "a") ∧
    (wHeapBound.clone wStateMemo.this 21).o_get 21 "p" = some (TypedValue.str "a") ∧
    ((wHeapBound.clone wStateMemo.this 21).setProp 21 "p" (TypedValue.str "b")).o_get 21 "p"
      = some (TypedValue.str "b") ∧
    ((wHeapBound.clone wStateMemo.this 21).setProp 21 "p" (TypedValue.str "b")).o_get 20 "p"
      = some (TypedValue.str "b") := by
  decide

/-- C19 (amended): for every generic object cloned into a fresh instance (an
address other than the source's, without an entry in the side table), the
clone has the store flag exactly when the source has it, and the store of the
clone initially reads as that of the source (same keys and values in the same
order) while the store of the source is unchanged; this holds in the
embedding where every value is a cell and in the heap with boxes, and the two
agree on the store of the clone. In the heap with boxes the two stores are
independent except for properties held by reference: adding a dynamic
property, unsetting one, or writing one that is not held by reference, on the
clone leaves everything the source reads unchanged, and vice versa; a write
to a dynamic property that is held by reference is read by the other
instance as well. -/
theorem clone_store_independent_unless_held_by_reference
    (env : Engine) (mem id : Nat) (s : State) (h : RefHeap)
    (hn : s.this.hasNativeData = false)
    (hfresh : mem ≠ s.this.addr) (hnew : s.storeOf mem = none) (hnewR : h.find mem = none) :
    (ObjectData.cloneCopy env mem id s).1.HasDynPropArr = s.this.HasDynPropArr ∧
    (s.this.HasDynPropArr = true →
      ((ObjectData.cloneCopy env mem id s).2.on (ObjectData.cloneCopy env mem id s).1).dynPropArray
        = s.dynPropArray) ∧
    (ObjectData.cloneCopy env mem id s).2.storeOf s.this.addr = s.storeOf s.this.addr ∧
    (s.this.HasDynPropArr = false → h.clone s.this mem = h) ∧
    (∀ a : Nat, s.this.HasDynPropArr = true → h.find s.this.addr = some a →
      1 ≤ (h.arrayAt a).m_count →
      (h.clone s.this mem).cells mem = h.cells s.this.addr ∧
      (h.clone s.this mem).cells s.this.addr = h.cells s.this.addr ∧
      (h.cells s.this.addr = s.storeOf s.this.addr →
        (h.clone s.this mem).cells mem = (ObjectData.cloneCopy env mem id s).2.storeOf mem) ∧
      (∀ (key : String) (val : TypedValue), h.heldByRef s.this.addr key = false →
        ((h.clone s.this mem).setProp mem key val).cells s.this.addr = h.cells s.this.addr ∧
        ((h.clone s.this mem).setProp s.this.addr key val).cells mem = h.cells s.this.addr) ∧
      (∀ key : String,
        ((h.clone s.this mem).unsetProp mem key).cells s.this.addr = h.cells s.this.addr ∧
        ((h.clone s.this mem).unsetProp s.this.addr key).cells mem = h.cells s.this.addr) ∧
      (∀ (key : String) (val : TypedValue), h.heldByRef s.this.addr key = true →
        ((h.clone s.this mem).setProp mem key val).o_get s.this.addr key = some val ∧
        ((h.clone s.this mem).setProp s.this.addr key val).o_get mem key = some val)) := by
  obtain ⟨a1, a2, a3, _⟩ := ObjectData.cloneCopy_store_of_cells env mem id s hn hfresh hnew
  refine ⟨a1, a2, a3, ?_, ?_⟩
  · intro hflag
    simp only [RefHeap.clone, hflag, Bool.false_eq_true, if_false]
  · intro a hflag hsrc hheld
    obtain ⟨b1, b2, b3, b4, b5⟩ :=
      RefHeap.clone_independent_unless_heldByRef h s.this mem a hflag hsrc hnewR hheld
    refine ⟨b1, b2, ?_, b3, b4, b5⟩
    intro hlink
    rw [b1, hlink]
    have hst : (ObjectData.cloneCopy env mem id s).2.storeOf mem = some s.dynPropArray := by
      unfold ObjectData.cloneCopy
      simp only [hn, Bool.false_eq_true, if_false, ObjectData.InitRaw, hflag, if_true]
      exact DynPropTable.find_emplace_new s.dynPropTable mem s.dynPropArray hnew
    rw [hst]
    have hsome : (h.cells s.this.addr).isSome = true := by
      simp [RefHeap.cells, hsrc]
    rw [hlink] at hsome
    simp only [State.storeOf] at hsome ⊢
    simp only [State.dynPropArray]
    cases hx : DynPropTable.find s.dynPropTable s.this.addr with
    | none => rw [hx] at hsome; exact absurd hsome (by simp)
    | some arr => rfl

/-- The property p = "a" of the example instance at 20 has been boxed and
nothing else holds the box, so it is not held by reference; the instance is
cloned into 21 and p is set to "b" on the clone: the clone reads "b", the
source still "a". -/
theorem clone_store_independent_unless_held_by_reference_witness :
    wHeapBoxed.cells 20 = some [("p", TypedValue.str "a")] ∧
    wHeapBoxed.heldByRef 20 "p" = false ∧
    (wHeapBoxed.clone wStateMemo.this 21).cells 21 = some [("p", TypedValue.str "a")] ∧
    ((wHeapBoxed.clone wStateMemo.this 21).setProp 21 "p" (TypedValue.str "b")).cells 21
      = some [("p", TypedValue.str "b")] ∧
    ((wHeapBoxed.clone wStateMemo.this 21).setProp 21 "p" (TypedValue.str "b")).cells
        wStateMemo.this.addr
      = wHeapBoxed.cells wStateMemo.this.addr :=
  ⟨by decide, by decide, by decide, by decide,
   ((((clone_store_independent_unless_held_by_reference {} 21 2 wStateMemo wHeapBoxed rfl
      (by decide) (by decide) (by decide)).2.2.2.2 0 rfl (by decide) (by decide)).2.2.2.1
        "p" (TypedValue.str "b") (by decide)).1)⟩

end HPHP
